import Mathlib

/-! hipDNN on MIOpen: workspace cache and accumulation emulation

A shallow embedding of `library/src/hcc_detail/hipdnn_miopen.cpp`.

* Descriptor handles, device pointers and host addresses are natural numbers
  (`0` is `NULL`).
* The file-static `std::map`s are association lists kept in key order.
* The MIOpen backend and the HIP runtime are external: they are a record of
  functions (`Backend`) that may answer differently in every state.
* Every call to an external function is appended to `World.trace`, so that
  "how often" and "with which arguments" are statements about a list.
-/

namespace HipDNN

/-! ## `std::map` -/

/-- Opaque descriptor handle (`hipdnnConvolutionDescriptor_t`, `miopenTensorDescriptor_t`, ...). -/
abbrev Handle := Nat

/-- Device pointer; `0` is `NULL`. -/
abbrev DevPtr := Nat

/-- Insertion of `(k, v)` at its place in key order, replacing the value of an existing key. -/
def insertSorted {V : Type} (k : Handle) (v : V) : List (Handle × V) → List (Handle × V)
  | [] => [(k, v)]
  | (k0, v0) :: t =>
    if k < k0 then (k, v) :: (k0, v0) :: t
    else if k = k0 then (k, v) :: t
    else (k0, v0) :: insertSorted k v t

/-- A `std::map<Handle, V>`, as the list of its entries. -/
structure StdMap (V : Type) where
  entries : List (Handle × V)
  deriving DecidableEq, Repr

namespace StdMap

variable {V : Type}

/-- Data-type invariant of `std::map`: strictly increasing keys, hence one entry per key. -/
def WF (m : StdMap V) : Prop := m.entries.Pairwise (fun a b => a.1 < b.1)

/-- The empty map (the state of a file-static map at process start). -/
def empty : StdMap V := ⟨[]⟩

/-- Lookup `map.find(k)`: `none` stands for `map.end()`. -/
def find (m : StdMap V) (k : Handle) : Option V := m.entries.lookup k

/-- Assignment `map[k] = v`. -/
def set (m : StdMap V) (k : Handle) (v : V) : StdMap V := ⟨insertSorted k v m.entries⟩

/-- Reading `map[k]`: a missing key is first inserted with the value-initialised `dflt`. -/
def get (m : StdMap V) (k : Handle) (dflt : V) : V × StdMap V :=
  match m.find k with
  | some v => (v, m)
  | none => (dflt, m.set k dflt)

/-- Removal `map.erase(k)`. -/
def erase (m : StdMap V) (k : Handle) : StdMap V :=
  ⟨m.entries.filter (fun e => decide (e.1 ≠ k))⟩

/-- Number of entries `map.size()`. -/
def size (m : StdMap V) : Nat := m.entries.length

/-- Number of entries with key `k`, `map.count(k)`. -/
def count (m : StdMap V) (k : Handle) : Nat :=
  (m.entries.filter (fun e => decide (e.1 = k))).length

end StdMap

/-! ## Status codes and enumerations -/

/-- Backend status `miopenStatus_t`; `other` is any value without a `case` of its own. -/
inductive miopenStatus_t
  | miopenStatusSuccess
  | miopenStatusNotInitialized
  | miopenStatusInvalidValue
  | miopenStatusBadParm
  | miopenStatusAllocFailed
  | miopenStatusInternalError
  | miopenStatusNotImplemented
  | miopenStatusUnknownError
  | other (code : Nat)
  deriving DecidableEq, Repr

/-- The closed enumeration `hipdnnStatus_t`. -/
inductive hipdnnStatus_t
  | HIPDNN_STATUS_SUCCESS
  | HIPDNN_STATUS_NOT_INITIALIZED
  | HIPDNN_STATUS_ALLOC_FAILED
  | HIPDNN_STATUS_BAD_PARAM
  | HIPDNN_STATUS_INTERNAL_ERROR
  | HIPDNN_STATUS_INVALID_VALUE
  | HIPDNN_STATUS_ARCH_MISMATCH
  | HIPDNN_STATUS_MAPPING_ERROR
  | HIPDNN_STATUS_EXECUTION_FAILED
  | HIPDNN_STATUS_NOT_SUPPORTED
  | HIPDNN_STATUS_LICENSE_ERROR
  | HIPDNN_STATUS_RUNTIME_PREREQUISITE_MISSING
  deriving DecidableEq, Repr

/-- HIP runtime error code `hipError_t` (the values the model of the runtime produces). -/
inductive hipError_t
  | hipSuccess
  | hipErrorOutOfMemory
  | hipErrorInvalidValue
  | hipErrorInvalidDevicePointer
  | hipErrorUnknown
  deriving DecidableEq, Repr

open miopenStatus_t hipdnnStatus_t hipError_t

/-- Translation `miopenTohipdnnStatus` (lines 148-178). -/
def miopenTohipdnnStatus : miopenStatus_t → hipdnnStatus_t
  | miopenStatusSuccess => HIPDNN_STATUS_SUCCESS
  | miopenStatusNotInitialized => HIPDNN_STATUS_NOT_INITIALIZED
  | miopenStatusAllocFailed => HIPDNN_STATUS_ALLOC_FAILED
  | miopenStatusBadParm => HIPDNN_STATUS_BAD_PARAM
  | miopenStatusInternalError => HIPDNN_STATUS_INTERNAL_ERROR
  | miopenStatusInvalidValue => HIPDNN_STATUS_INVALID_VALUE
  | miopenStatusUnknownError => HIPDNN_STATUS_EXECUTION_FAILED
  | miopenStatusNotImplemented => HIPDNN_STATUS_NOT_SUPPORTED
  | other _ => HIPDNN_STATUS_NOT_SUPPORTED

/-- Forward algorithms `hipdnnConvolutionFwdAlgo_t` named in the source; `other` is any further value. -/
inductive hipdnnConvolutionFwdAlgo_t
  | HIPDNN_CONVOLUTION_FWD_ALGO_GEMM
  | HIPDNN_CONVOLUTION_FWD_ALGO_DIRECT
  | HIPDNN_CONVOLUTION_FWD_ALGO_FFT
  | HIPDNN_CONVOLUTION_FWD_ALGO_WINOGRAD
  | HIPDNN_CONVOLUTION_FWD_ALGO_IMPLICIT_GEMM
  | other (code : Nat)
  deriving DecidableEq, Repr

/-- Backend forward algorithms `miopenConvFwdAlgorithm_t`. -/
inductive miopenConvFwdAlgorithm_t
  | miopenConvolutionFwdAlgoGEMM
  | miopenConvolutionFwdAlgoDirect
  | miopenConvolutionFwdAlgoFFT
  | miopenConvolutionFwdAlgoWinograd
  | other (code : Nat)
  deriving DecidableEq, Repr

/-- Backward-filter algorithms `hipdnnConvolutionBwdFilterAlgo_t` named in the source. -/
inductive hipdnnConvolutionBwdFilterAlgo_t
  | HIPDNN_CONVOLUTION_BWD_FILTER_ALGO_0
  | HIPDNN_CONVOLUTION_BWD_FILTER_ALGO_1
  | HIPDNN_CONVOLUTION_BWD_FILTER_ALGO_COUNT
  | HIPDNN_CONVOLUTION_BWD_FILTER_ALGO_3
  | HIPDNN_CONVOLUTION_BWD_FILTER_ALGO_WINOGRAD
  | HIPDNN_CONVOLUTION_BWD_FILTER_ALGO_WINOGRAD_NONFUSED
  | HIPDNN_CONVOLUTION_BWD_FILTER_ALGO_FFT_TILING
  | HIPDNN_CONVOLUTION_BWD_FILTER_ALGO_FFT
  | other (code : Nat)
  deriving DecidableEq, Repr

/-- Backend backward-weights algorithms `miopenConvBwdWeightsAlgorithm_t`. -/
inductive miopenConvBwdWeightsAlgorithm_t
  | miopenConvolutionBwdWeightsAlgoGEMM
  | miopenConvolutionBwdWeightsAlgoDirect
  | other (code : Nat)
  deriving DecidableEq, Repr

/-- Backward-data algorithms `hipdnnConvolutionBwdDataAlgo_t` named in the source. -/
inductive hipdnnConvolutionBwdDataAlgo_t
  | HIPDNN_CONVOLUTION_BWD_DATA_ALGO_0
  | HIPDNN_CONVOLUTION_BWD_DATA_ALGO_1
  | HIPDNN_CONVOLUTION_BWD_DATA_ALGO_WINOGRAD
  | HIPDNN_CONVOLUTION_BWD_DATA_ALGO_WINOGRAD_NONFUSED
  | HIPDNN_CONVOLUTION_BWD_DATA_ALGO_FFT
  | HIPDNN_CONVOLUTION_BWD_DATA_ALGO_TRANSPOSE_GEMM
  | other (code : Nat)
  deriving DecidableEq, Repr

/-- Backend backward-data algorithms `miopenConvBwdDataAlgorithm_t`. -/
inductive miopenConvBwdDataAlgorithm_t
  | miopenConvolutionBwdDataAlgoGEMM
  | miopenConvolutionBwdDataAlgoDirect
  | miopenConvolutionBwdDataAlgoFFT
  | miopenConvolutionBwdDataAlgoWinograd
  | miopenTransposeBwdDataAlgoGEMM
  | other (code : Nat)
  deriving DecidableEq, Repr

/-- LRN modes `hipdnnLRNMode_t`. -/
inductive hipdnnLRNMode_t
  | HIPDNN_LRN_WITHIN_CHANNEL
  | HIPDNN_LRN_CROSS_CHANNEL
  | other (code : Nat)
  deriving DecidableEq, Repr

/-- Backend LRN modes `miopenLRNMode_t`. -/
inductive miopenLRNMode_t
  | miopenLRNWithinChannel
  | miopenLRNCrossChannel
  | other (code : Nat)
  deriving DecidableEq, Repr

open hipdnnConvolutionFwdAlgo_t miopenConvFwdAlgorithm_t hipdnnConvolutionBwdFilterAlgo_t
  miopenConvBwdWeightsAlgorithm_t hipdnnConvolutionBwdDataAlgo_t miopenConvBwdDataAlgorithm_t
  hipdnnLRNMode_t miopenLRNMode_t

/-- Translation `hipTomiopenConvolutionFwdAlgo` (lines 481-518): the status and, when it was
written, `*out`. -/
def hipTomiopenConvolutionFwdAlgo :
    hipdnnConvolutionFwdAlgo_t → hipdnnStatus_t × Option miopenConvFwdAlgorithm_t
  | HIPDNN_CONVOLUTION_FWD_ALGO_GEMM => (HIPDNN_STATUS_SUCCESS, some miopenConvolutionFwdAlgoGEMM)
  | HIPDNN_CONVOLUTION_FWD_ALGO_DIRECT =>
    (HIPDNN_STATUS_SUCCESS, some miopenConvolutionFwdAlgoDirect)
  | HIPDNN_CONVOLUTION_FWD_ALGO_FFT => (HIPDNN_STATUS_SUCCESS, some miopenConvolutionFwdAlgoFFT)
  | HIPDNN_CONVOLUTION_FWD_ALGO_WINOGRAD =>
    (HIPDNN_STATUS_SUCCESS, some miopenConvolutionFwdAlgoWinograd)
  | HIPDNN_CONVOLUTION_FWD_ALGO_IMPLICIT_GEMM =>
    (HIPDNN_STATUS_SUCCESS, some miopenConvolutionFwdAlgoGEMM)
  | .other _ => (HIPDNN_STATUS_NOT_SUPPORTED, none)

/-- Translation `miopenTohipConvolutionFwdAlgo` (lines 520-543). -/
def miopenTohipConvolutionFwdAlgo :
    miopenConvFwdAlgorithm_t → hipdnnStatus_t × Option hipdnnConvolutionFwdAlgo_t
  | miopenConvolutionFwdAlgoGEMM => (HIPDNN_STATUS_SUCCESS, some HIPDNN_CONVOLUTION_FWD_ALGO_GEMM)
  | miopenConvolutionFwdAlgoDirect =>
    (HIPDNN_STATUS_SUCCESS, some HIPDNN_CONVOLUTION_FWD_ALGO_DIRECT)
  | miopenConvolutionFwdAlgoFFT => (HIPDNN_STATUS_SUCCESS, some HIPDNN_CONVOLUTION_FWD_ALGO_FFT)
  | miopenConvolutionFwdAlgoWinograd =>
    (HIPDNN_STATUS_SUCCESS, some HIPDNN_CONVOLUTION_FWD_ALGO_WINOGRAD)
  | .other _ => (HIPDNN_STATUS_NOT_SUPPORTED, none)

/-- Translation `hipTomiopenConvolutionBwdFilterAlgo` (lines 566-595). -/
def hipTomiopenConvolutionBwdFilterAlgo :
    hipdnnConvolutionBwdFilterAlgo_t → hipdnnStatus_t × Option miopenConvBwdWeightsAlgorithm_t
  | HIPDNN_CONVOLUTION_BWD_FILTER_ALGO_0 =>
    (HIPDNN_STATUS_SUCCESS, some miopenConvolutionBwdWeightsAlgoGEMM)
  | HIPDNN_CONVOLUTION_BWD_FILTER_ALGO_1 =>
    (HIPDNN_STATUS_SUCCESS, some miopenConvolutionBwdWeightsAlgoDirect)
  | _ => (HIPDNN_STATUS_NOT_SUPPORTED, none)

/-- Translation `miopenTohipConvolutionBwdFilterAlgo` (lines 597-612). -/
def miopenTohipConvolutionBwdFilterAlgo :
    miopenConvBwdWeightsAlgorithm_t → hipdnnStatus_t × Option hipdnnConvolutionBwdFilterAlgo_t
  | miopenConvolutionBwdWeightsAlgoGEMM =>
    (HIPDNN_STATUS_SUCCESS, some HIPDNN_CONVOLUTION_BWD_FILTER_ALGO_0)
  | miopenConvolutionBwdWeightsAlgoDirect =>
    (HIPDNN_STATUS_SUCCESS, some HIPDNN_CONVOLUTION_BWD_FILTER_ALGO_1)
  | .other _ => (HIPDNN_STATUS_NOT_SUPPORTED, none)

/-- Translation `hipTomiopenConvolutionBwdDataAlgo` (lines 637-683). -/
def hipTomiopenConvolutionBwdDataAlgo :
    hipdnnConvolutionBwdDataAlgo_t → hipdnnStatus_t × Option miopenConvBwdDataAlgorithm_t
  | HIPDNN_CONVOLUTION_BWD_DATA_ALGO_0 =>
    (HIPDNN_STATUS_SUCCESS, some miopenConvolutionBwdDataAlgoGEMM)
  | HIPDNN_CONVOLUTION_BWD_DATA_ALGO_1 =>
    (HIPDNN_STATUS_SUCCESS, some miopenConvolutionBwdDataAlgoDirect)
  | HIPDNN_CONVOLUTION_BWD_DATA_ALGO_WINOGRAD =>
    (HIPDNN_STATUS_SUCCESS, some miopenConvolutionBwdDataAlgoWinograd)
  | HIPDNN_CONVOLUTION_BWD_DATA_ALGO_WINOGRAD_NONFUSED =>
    (HIPDNN_STATUS_SUCCESS, some miopenConvolutionBwdDataAlgoWinograd)
  | HIPDNN_CONVOLUTION_BWD_DATA_ALGO_FFT =>
    (HIPDNN_STATUS_SUCCESS, some miopenConvolutionBwdDataAlgoFFT)
  | HIPDNN_CONVOLUTION_BWD_DATA_ALGO_TRANSPOSE_GEMM =>
    (HIPDNN_STATUS_SUCCESS, some miopenTransposeBwdDataAlgoGEMM)
  | .other _ => (HIPDNN_STATUS_NOT_SUPPORTED, none)

/-- Translation `miopenTohipConvolutionBwdDataAlgo` (lines 685-709). -/
def miopenTohipConvolutionBwdDataAlgo :
    miopenConvBwdDataAlgorithm_t → hipdnnStatus_t × Option hipdnnConvolutionBwdDataAlgo_t
  | miopenConvolutionBwdDataAlgoGEMM =>
    (HIPDNN_STATUS_SUCCESS, some HIPDNN_CONVOLUTION_BWD_DATA_ALGO_0)
  | miopenConvolutionBwdDataAlgoDirect =>
    (HIPDNN_STATUS_SUCCESS, some HIPDNN_CONVOLUTION_BWD_DATA_ALGO_1)
  | miopenConvolutionBwdDataAlgoFFT =>
    (HIPDNN_STATUS_SUCCESS, some HIPDNN_CONVOLUTION_BWD_DATA_ALGO_FFT)
  | miopenConvolutionBwdDataAlgoWinograd =>
    (HIPDNN_STATUS_SUCCESS, some HIPDNN_CONVOLUTION_BWD_DATA_ALGO_WINOGRAD)
  | miopenTransposeBwdDataAlgoGEMM =>
    (HIPDNN_STATUS_SUCCESS, some HIPDNN_CONVOLUTION_BWD_DATA_ALGO_TRANSPOSE_GEMM)
  | .other _ => (HIPDNN_STATUS_NOT_SUPPORTED, none)

/-- Translation `hipTomiopenLRNMode` (lines 330-344). -/
def hipTomiopenLRNMode : hipdnnLRNMode_t → hipdnnStatus_t × Option miopenLRNMode_t
  | HIPDNN_LRN_WITHIN_CHANNEL => (HIPDNN_STATUS_SUCCESS, some miopenLRNWithinChannel)
  | HIPDNN_LRN_CROSS_CHANNEL => (HIPDNN_STATUS_SUCCESS, some miopenLRNCrossChannel)
  | .other _ => (HIPDNN_STATUS_NOT_SUPPORTED, none)

/-! ## Further enumerations and their translators -/

/-- Tensor layouts `hipdnnTensorFormat_t`; `other` is any value the source does not name. -/
inductive hipdnnTensorFormat_t
  | HIPDNN_TENSOR_NCHW
  | HIPDNN_TENSOR_NHWC
  | HIPDNN_TENSOR_NCHW_VECT_C
  | other (code : Nat)
  deriving DecidableEq, Repr

/-- Data types `hipdnnDataType_t` named in `hipTomiopenDataType`. -/
inductive hipdnnDataType_t
  | HIPDNN_DATA_FLOAT
  | HIPDNN_DATA_DOUBLE
  | HIPDNN_DATA_HALF
  | HIPDNN_DATA_INT8
  | HIPDNN_DATA_INT32
  | HIPDNN_DATA_INT8x4
  | other (code : Nat)
  deriving DecidableEq, Repr

/-- Backend data types `miopenDataType_t`. -/
inductive miopenDataType_t
  | miopenHalf
  | miopenFloat
  | other (code : Nat)
  deriving DecidableEq, Repr

/-- Tensor operations `hipdnnOpTensorOp_t`. -/
inductive hipdnnOpTensorOp_t
  | HIPDNN_OP_TENSOR_ADD
  | HIPDNN_OP_TENSOR_MUL
  | HIPDNN_OP_TENSOR_MIN
  | HIPDNN_OP_TENSOR_MAX
  | HIPDNN_OP_TENSOR_SQRT
  | other (code : Nat)
  deriving DecidableEq, Repr

/-- Backend tensor operations `miopenTensorOp_t`. -/
inductive miopenTensorOp_t
  | miopenTensorOpAdd
  | miopenTensorOpMul
  | miopenTensorOpMin
  | miopenTensorOpMax
  | other (code : Nat)
  deriving DecidableEq, Repr

/-- Convolution modes `hipdnnConvolutionMode_t`. -/
inductive hipdnnConvolutionMode_t
  | HIPDNN_CONVOLUTION
  | HIPDNN_CROSS_CORRELATION
  | other (code : Nat)
  deriving DecidableEq, Repr

/-- Backend convolution modes `miopenConvolutionMode_t`. -/
inductive miopenConvolutionMode_t
  | miopenConvolution
  | miopenTranspose
  | other (code : Nat)
  deriving DecidableEq, Repr

/-- Pooling modes `hipdnnPoolingMode_t`. -/
inductive hipdnnPoolingMode_t
  | HIPDNN_POOLING_MAX
  | HIPDNN_POOLING_AVERAGE_COUNT_INCLUDE_PADDING
  | HIPDNN_POOLING_AVERAGE_COUNT_EXCLUDE_PADDING
  | HIPDNN_POOLING_MAX_DETERMINISTIC
  | other (code : Nat)
  deriving DecidableEq, Repr

/-- Backend pooling modes `miopenPoolingMode_t`. -/
inductive miopenPoolingMode_t
  | miopenPoolingMax
  | miopenPoolingAverage
  | other (code : Nat)
  deriving DecidableEq, Repr

/-- Activation modes `hipdnnActivationMode_t`. -/
inductive hipdnnActivationMode_t
  | HIPDNN_ACTIVATION_SIGMOID
  | HIPDNN_ACTIVATION_RELU
  | HIPDNN_ACTIVATION_TANH
  | HIPDNN_ACTIVATION_CLIPPED_RELU
  | HIPDNN_ACTIVATION_ELU
  | HIPDNN_ACTIVATION_PATHTRU
  | HIPDNN_ACTIVATION_SOFTRELU
  | HIPDNN_ACTIVATION_ABS
  | HIPDNN_ACTIVATION_POWER
  | other (code : Nat)
  deriving DecidableEq, Repr

/-- Backend activation modes `miopenActivationMode_t`. -/
inductive miopenActivationMode_t
  | miopenActivationPASTHRU
  | miopenActivationLOGISTIC
  | miopenActivationTANH
  | miopenActivationRELU
  | miopenActivationSOFTRELU
  | miopenActivationABS
  | miopenActivationPOWER
  | other (code : Nat)
  deriving DecidableEq, Repr

/-- Batch-normalisation modes `hipdnnBatchNormMode_t`. -/
inductive hipdnnBatchNormMode_t
  | HIPDNN_BATCHNORM_PER_ACTIVATION
  | HIPDNN_BATCHNORM_SPATIAL
  | HIPDNN_BATCHNORM_SPATIAL_PERSISTENT
  | other (code : Nat)
  deriving DecidableEq, Repr

/-- Backend batch-normalisation modes `miopenBatchNormMode_t`. -/
inductive miopenBatchNormMode_t
  | miopenBNPerActivation
  | miopenBNSpatial
  | other (code : Nat)
  deriving DecidableEq, Repr

open hipdnnTensorFormat_t hipdnnDataType_t miopenDataType_t hipdnnOpTensorOp_t miopenTensorOp_t
  hipdnnConvolutionMode_t miopenConvolutionMode_t hipdnnPoolingMode_t miopenPoolingMode_t
  hipdnnActivationMode_t miopenActivationMode_t hipdnnBatchNormMode_t miopenBatchNormMode_t

/-- Translation `hipTomiopenDataType` (lines 182-200): the status and, when it was written,
`*out`. -/
def hipTomiopenDataType : hipdnnDataType_t → hipdnnStatus_t × Option miopenDataType_t
  | HIPDNN_DATA_FLOAT => (HIPDNN_STATUS_SUCCESS, some miopenFloat)
  | HIPDNN_DATA_HALF => (HIPDNN_STATUS_SUCCESS, some miopenHalf)
  | _ => (HIPDNN_STATUS_NOT_SUPPORTED, none)

/-- Translation `miopenTohipDataType` (lines 202-216). -/
def miopenTohipDataType : miopenDataType_t → hipdnnStatus_t × Option hipdnnDataType_t
  | miopenFloat => (HIPDNN_STATUS_SUCCESS, some HIPDNN_DATA_FLOAT)
  | miopenHalf => (HIPDNN_STATUS_SUCCESS, some HIPDNN_DATA_HALF)
  | .other _ => (HIPDNN_STATUS_NOT_SUPPORTED, none)

/-- Translation `miopenTohipOpTensorOp` (lines 220-241). -/
def miopenTohipOpTensorOp : miopenTensorOp_t → hipdnnStatus_t × Option hipdnnOpTensorOp_t
  | miopenTensorOpAdd => (HIPDNN_STATUS_SUCCESS, some HIPDNN_OP_TENSOR_ADD)
  | miopenTensorOpMul => (HIPDNN_STATUS_SUCCESS, some HIPDNN_OP_TENSOR_MUL)
  | miopenTensorOpMin => (HIPDNN_STATUS_SUCCESS, some HIPDNN_OP_TENSOR_MIN)
  | miopenTensorOpMax => (HIPDNN_STATUS_SUCCESS, some HIPDNN_OP_TENSOR_MAX)
  | .other _ => (HIPDNN_STATUS_NOT_SUPPORTED, none)

/-- Translation `hipTomiopenOpTensorOp` (lines 243-266). -/
def hipTomiopenOpTensorOp : hipdnnOpTensorOp_t → hipdnnStatus_t × Option miopenTensorOp_t
  | HIPDNN_OP_TENSOR_ADD => (HIPDNN_STATUS_SUCCESS, some miopenTensorOpAdd)
  | HIPDNN_OP_TENSOR_MUL => (HIPDNN_STATUS_SUCCESS, some miopenTensorOpMul)
  | HIPDNN_OP_TENSOR_MIN => (HIPDNN_STATUS_SUCCESS, some miopenTensorOpMin)
  | HIPDNN_OP_TENSOR_MAX => (HIPDNN_STATUS_SUCCESS, some miopenTensorOpMax)
  | _ => (HIPDNN_STATUS_NOT_SUPPORTED, none)

/-- Translation `miopenTohipConvolutionMode` (lines 270-275): it has no status. -/
def miopenTohipConvolutionMode (i : miopenConvolutionMode_t) : hipdnnConvolutionMode_t :=
  if i = miopenConvolution then HIPDNN_CONVOLUTION else HIPDNN_CONVOLUTION

/-- Translation `hipTomiopenConvolutionMode` (lines 277-282): it has no status. -/
def hipTomiopenConvolutionMode (i : hipdnnConvolutionMode_t) : miopenConvolutionMode_t :=
  if i = HIPDNN_CONVOLUTION then miopenConvolution else miopenConvolution

/-- Translation `hipTomiopenPoolingMode` (lines 286-307). -/
def hipTomiopenPoolingMode : hipdnnPoolingMode_t → hipdnnStatus_t × Option miopenPoolingMode_t
  | HIPDNN_POOLING_MAX => (HIPDNN_STATUS_SUCCESS, some miopenPoolingMax)
  | HIPDNN_POOLING_AVERAGE_COUNT_INCLUDE_PADDING =>
    (HIPDNN_STATUS_SUCCESS, some miopenPoolingAverage)
  | HIPDNN_POOLING_AVERAGE_COUNT_EXCLUDE_PADDING =>
    (HIPDNN_STATUS_SUCCESS, some miopenPoolingAverage)
  | HIPDNN_POOLING_MAX_DETERMINISTIC => (HIPDNN_STATUS_SUCCESS, some miopenPoolingMax)
  | .other _ => (HIPDNN_STATUS_NOT_SUPPORTED, none)

/-- Translation `miopenTohipPoolingMode` (lines 309-326). -/
def miopenTohipPoolingMode : miopenPoolingMode_t → hipdnnStatus_t × Option hipdnnPoolingMode_t
  | miopenPoolingMax => (HIPDNN_STATUS_SUCCESS, some HIPDNN_POOLING_MAX)
  | miopenPoolingAverage =>
    (HIPDNN_STATUS_SUCCESS, some HIPDNN_POOLING_AVERAGE_COUNT_INCLUDE_PADDING)
  | .other _ => (HIPDNN_STATUS_NOT_SUPPORTED, none)

/-- Translation `miopenTohipLRNMode` (lines 346-360). -/
def miopenTohipLRNMode : miopenLRNMode_t → hipdnnStatus_t × Option hipdnnLRNMode_t
  | miopenLRNWithinChannel => (HIPDNN_STATUS_SUCCESS, some HIPDNN_LRN_WITHIN_CHANNEL)
  | miopenLRNCrossChannel => (HIPDNN_STATUS_SUCCESS, some HIPDNN_LRN_CROSS_CHANNEL)
  | .other _ => (HIPDNN_STATUS_NOT_SUPPORTED, none)

/-- Translation `hipTomiopenBatchNormMode` (lines 364-383). -/
def hipTomiopenBatchNormMode :
    hipdnnBatchNormMode_t → hipdnnStatus_t × Option miopenBatchNormMode_t
  | HIPDNN_BATCHNORM_PER_ACTIVATION => (HIPDNN_STATUS_SUCCESS, some miopenBNPerActivation)
  | HIPDNN_BATCHNORM_SPATIAL => (HIPDNN_STATUS_SUCCESS, some miopenBNSpatial)
  | HIPDNN_BATCHNORM_SPATIAL_PERSISTENT => (HIPDNN_STATUS_SUCCESS, some miopenBNSpatial)
  | .other _ => (HIPDNN_STATUS_NOT_SUPPORTED, none)

/-- Translation `miopenTohipActivationMode` (lines 387-424). -/
def miopenTohipActivationMode :
    miopenActivationMode_t → hipdnnStatus_t × Option hipdnnActivationMode_t
  | miopenActivationLOGISTIC => (HIPDNN_STATUS_SUCCESS, some HIPDNN_ACTIVATION_SIGMOID)
  | miopenActivationRELU => (HIPDNN_STATUS_SUCCESS, some HIPDNN_ACTIVATION_RELU)
  | miopenActivationTANH => (HIPDNN_STATUS_SUCCESS, some HIPDNN_ACTIVATION_TANH)
  | miopenActivationPASTHRU => (HIPDNN_STATUS_SUCCESS, some HIPDNN_ACTIVATION_PATHTRU)
  | miopenActivationSOFTRELU => (HIPDNN_STATUS_SUCCESS, some HIPDNN_ACTIVATION_SOFTRELU)
  | miopenActivationABS => (HIPDNN_STATUS_SUCCESS, some HIPDNN_ACTIVATION_ABS)
  | miopenActivationPOWER => (HIPDNN_STATUS_SUCCESS, some HIPDNN_ACTIVATION_POWER)
  | .other _ => (HIPDNN_STATUS_NOT_SUPPORTED, none)

/-- Translation `hipTomiopenActivationMode` (lines 426-476). -/
def hipTomiopenActivationMode :
    hipdnnActivationMode_t → hipdnnStatus_t × Option miopenActivationMode_t
  | HIPDNN_ACTIVATION_SIGMOID => (HIPDNN_STATUS_SUCCESS, some miopenActivationLOGISTIC)
  | HIPDNN_ACTIVATION_RELU => (HIPDNN_STATUS_SUCCESS, some miopenActivationRELU)
  | HIPDNN_ACTIVATION_TANH => (HIPDNN_STATUS_SUCCESS, some miopenActivationTANH)
  | HIPDNN_ACTIVATION_PATHTRU => (HIPDNN_STATUS_SUCCESS, some miopenActivationPASTHRU)
  | HIPDNN_ACTIVATION_SOFTRELU => (HIPDNN_STATUS_SUCCESS, some miopenActivationSOFTRELU)
  | HIPDNN_ACTIVATION_ABS => (HIPDNN_STATUS_SUCCESS, some miopenActivationABS)
  | HIPDNN_ACTIVATION_POWER => (HIPDNN_STATUS_SUCCESS, some miopenActivationPOWER)
  | HIPDNN_ACTIVATION_ELU => (HIPDNN_STATUS_NOT_SUPPORTED, none)
  | HIPDNN_ACTIVATION_CLIPPED_RELU => (HIPDNN_STATUS_NOT_SUPPORTED, none)
  | .other _ => (HIPDNN_STATUS_NOT_SUPPORTED, none)

/-- Check `hipTensorFormatSupported` (lines 762-771). -/
def hipTensorFormatSupported (i : hipdnnTensorFormat_t) : hipdnnStatus_t :=
  if i = HIPDNN_TENSOR_NCHW then HIPDNN_STATUS_SUCCESS else HIPDNN_STATUS_NOT_SUPPORTED

/-! ## State: workspace maps, device heap, device memory, trace of external calls -/

/-- The five workspace families, one pair of file-static maps each (lines 67-90):
`sDescToWorkSpace<Family>` holds the device pointers and `sDescToWorkSpace<Family>Size` the
byte sizes. -/
inductive Family
  | ForwardConvolution
  | BackwardDataConvolution
  | BackwardKernelConvolution
  | Pooling
  | LRN
  deriving DecidableEq, Repr

/-- Host pointer to a scaling factor: a caller's address, or the address of one of the locals
`tempBeta`, `tempBetaDataDiff`, `tempBetaParamDiff` (all initialised to `0`). -/
inductive HostPtr
  | user (addr : Nat)
  | tempBeta
  | tempBetaDataDiff
  | tempBetaParamDiff
  deriving DecidableEq, Repr

/-- Bookkeeping tag of a device allocation (not read by the code): who asked for it.
`workspace fam key opDesc` is the `hipMalloc` of the cache-miss branch of family `fam`, stored
under `key`, in a call made with operation descriptor `opDesc`; `prior` is the `hipMalloc` of
`SaveAsPriorBuffer`; `external` is any other allocation of the process. -/
inductive Owner
  | external
  | prior
  | workspace (fam : Family) (key : Handle) (opDesc : Handle)
  deriving DecidableEq, Repr

/-- An outstanding device allocation. -/
structure Alloc where
  ptr : DevPtr
  size : Nat
  owner : Owner
  deriving DecidableEq, Repr

/-- One call to the MIOpen backend or to the HIP runtime, with the arguments in the order of the
C call (and, for the HIP memory functions, what the runtime answered). -/
inductive Event
  | miopenConvolutionForwardGetWorkSpaceSize (handle wDesc xDesc convDesc yDesc : Handle)
  | miopenConvolutionBackwardWeightsGetWorkSpaceSize (handle dyDesc xDesc convDesc dwDesc : Handle)
  | miopenConvolutionBackwardDataGetWorkSpaceSize (handle dyDesc wDesc convDesc dxDesc : Handle)
  | miopenPoolingGetWorkSpaceSize (yDesc : Handle)
  | miopenLRNGetWorkSpaceSize (yDesc : Handle)
  | hipMalloc (size : Nat) (err : hipError_t) (ptr : DevPtr)
  | hipFree (ptr : DevPtr) (err : hipError_t)
  | hipMemPtrGetInfo (ptr : DevPtr) (err : hipError_t) (size : Nat)
  | hipMemcpy (dst src : DevPtr) (sizeBytes : Nat)
  | hipLaunchKernelGGL_TensorAdd (blocks threadsPerBlock : Nat) (C_d A_d : DevPtr) (N : Int)
  | hipDeviceSynchronize
  | miopenGetTensorDescriptor (tensorDesc : Handle)
  | miopenFindConvolutionForwardAlgorithm (handle xDesc : Handle) (x : DevPtr) (wDesc : Handle)
      (w : DevPtr) (convDesc yDesc : Handle) (y : DevPtr) (requestedAlgoCount : Int)
      (workSpace : DevPtr) (workSpaceSize : Nat) (exhaustiveSearch : Bool)
  | miopenConvolutionForward (handle : Handle) (alpha : HostPtr) (xDesc : Handle) (x : DevPtr)
      (wDesc : Handle) (w : DevPtr) (convDesc : Handle) (algo : Option miopenConvFwdAlgorithm_t)
      (beta : HostPtr) (yDesc : Handle) (y : DevPtr) (workSpace : DevPtr) (workSpaceSize : Nat)
  | miopenFindConvolutionBackwardWeightsAlgorithm (handle dyDesc : Handle) (dy : DevPtr)
      (xDesc : Handle) (x : DevPtr) (convDesc dwDesc : Handle) (dw : DevPtr)
      (requestedAlgoCount : Int) (workSpace : DevPtr) (workSpaceSize : Nat)
      (exhaustiveSearch : Bool)
  | miopenConvolutionBackwardWeights (handle : Handle) (alpha : HostPtr) (dyDesc : Handle)
      (dy : DevPtr) (xDesc : Handle) (x : DevPtr) (convDesc : Handle)
      (algo : Option miopenConvBwdWeightsAlgorithm_t) (beta : HostPtr) (dwDesc : Handle)
      (dw : DevPtr) (workSpace : DevPtr) (workSpaceSize : Nat)
  | miopenFindConvolutionBackwardDataAlgorithm (handle dyDesc : Handle) (dy : DevPtr)
      (wDesc : Handle) (w : DevPtr) (convDesc dxDesc : Handle) (dx : DevPtr)
      (requestedAlgoCount : Int) (workSpace : DevPtr) (workSpaceSize : Nat)
      (exhaustiveSearch : Bool)
  | miopenConvolutionBackwardData (handle : Handle) (alpha : HostPtr) (dyDesc : Handle)
      (dy : DevPtr) (wDesc : Handle) (w : DevPtr) (convDesc : Handle)
      (algo : Option miopenConvBwdDataAlgorithm_t) (beta : HostPtr) (dxDesc : Handle)
      (dx : DevPtr) (workSpace : DevPtr) (workSpaceSize : Nat)
  | miopenDestroyConvolutionDescriptor (convDesc : Handle)
  | miopenPoolingForward (handle poolingDesc : Handle) (alpha : HostPtr) (xDesc : Handle)
      (x : DevPtr) (beta : HostPtr) (yDesc : Handle) (y : DevPtr) (do_backward : Bool)
      (workSpace : DevPtr) (workSpaceSize : Nat)
  | miopenPoolingBackward (handle poolingDesc : Handle) (alpha : HostPtr) (yDesc : Handle)
      (y : DevPtr) (dyDesc : Handle) (dy : DevPtr) (xDesc : Handle) (x : DevPtr) (beta : HostPtr)
      (dxDesc : Handle) (dx : DevPtr) (workSpace : DevPtr)
  | miopenDestroyPoolingDescriptor (poolingDesc : Handle)
  | miopenDestroyTensorDescriptor (tensorDesc : Handle)
  | miopenLRNForward (handle normDesc : Handle) (alpha : HostPtr) (xDesc : Handle) (x : DevPtr)
      (beta : HostPtr) (yDesc : Handle) (y : DevPtr) (do_backward : Bool) (workSpace : DevPtr)
  | miopenLRNBackward (handle normDesc : Handle) (alpha : HostPtr) (yDesc : Handle) (y : DevPtr)
      (dyDesc : Handle) (dy : DevPtr) (xDesc : Handle) (x : DevPtr) (beta : HostPtr)
      (dxDesc : Handle) (dx : DevPtr) (workSpace : DevPtr)
  | miopenDestroyLRNDescriptor (normDesc : Handle)
  | miopenBatchNormalizationBackward (handle : Handle) (mode : Option miopenBatchNormMode_t)
      (alphaDataDiff betaDataDiff alphaParamDiff betaParamDiff : HostPtr) (xDesc : Handle)
      (x : DevPtr) (dyDesc : Handle) (dy : DevPtr) (dxDesc : Handle) (dx : DevPtr)
      (bnScaleBiasDiffDesc : Handle) (bnScale resultBnScaleDiff resultBnBiasDiff : DevPtr)
      (epsilon : Nat) (savedMean savedInvVariance : DevPtr)
  | miopenSet4dTensorDescriptor (tensorDesc : Handle) (dataType : Option miopenDataType_t)
      (n c h w : Int)
  | miopenSetTensorDescriptor (tensorDesc : Handle) (dataType : Option miopenDataType_t)
      (nbDims : Int) (dimsA stridesA : List Int)
  | miopenInitConvolutionDescriptor (convDesc : Handle) (mode : miopenConvolutionMode_t)
      (pad_h pad_w u v upscalex upscaley : Int)
  | miopenSet2dPoolingDescriptor (poolDesc : Handle) (mode : Option miopenPoolingMode_t)
      (windowHeight windowWidth pad_h pad_w u v : Int)
  | miopenGet2dPoolingDescriptor (poolDesc : Handle)
  deriving DecidableEq, Repr

/-- Process state seen by the shim. `ws fam` and `wsSize fam` are the two file-static maps of
family `fam`; `live` is the set of outstanding device allocations; `mem p i` is element `i` of
the `float` array at device address `p`; `host a` is the `float` at host address `a`; `trace`
lists the external calls made so far, oldest first. -/
structure World (α : Type) where
  ws : Family → StdMap DevPtr
  wsSize : Family → StdMap Nat
  live : List Alloc
  mem : DevPtr → Nat → α
  host : Nat → α
  trace : List Event

namespace World

variable {α : Type}

/-- Process start: all maps empty, nothing allocated, nothing called yet. -/
def start (mem : DevPtr → Nat → α) (host : Nat → α) : World α :=
  ⟨fun _ => StdMap.empty, fun _ => StdMap.empty, [], mem, host, []⟩

/-- Append one external call to the trace. -/
def emit (w : World α) (e : Event) : World α := { w with trace := w.trace ++ [e] }

/-- Replace the pointer map of one family. -/
def setWs (w : World α) (fam : Family) (m : StdMap DevPtr) : World α :=
  { w with ws := Function.update w.ws fam m }

/-- Replace the size map of one family. -/
def setWsSize (w : World α) (fam : Family) (m : StdMap Nat) : World α :=
  { w with wsSize := Function.update w.wsSize fam m }

/-- Replace the content of the device array at `p`. -/
def writeMem (w : World α) (p : DevPtr) (content : Nat → α) : World α :=
  { w with mem := Function.update w.mem p content }

/-- The value `*static_cast<const float *>(p)` of a scaling factor. -/
def deref [Zero α] (w : World α) : HostPtr → α
  | .user addr => w.host addr
  | _ => 0

/-- The map `sDescToWorkSpaceForwardConvolution`. -/
def sDescToWorkSpaceForwardConvolution (w : World α) : StdMap DevPtr :=
  w.ws .ForwardConvolution

/-- The map `sDescToWorkSpaceForwardConvolutionSize`. -/
def sDescToWorkSpaceForwardConvolutionSize (w : World α) : StdMap Nat :=
  w.wsSize .ForwardConvolution

/-- The map `sDescToWorkSpaceBackwardDataConvolution`. -/
def sDescToWorkSpaceBackwardDataConvolution (w : World α) : StdMap DevPtr :=
  w.ws .BackwardDataConvolution

/-- The map `sDescToWorkSpaceBackwardDataConvolutionSize`. -/
def sDescToWorkSpaceBackwardDataConvolutionSize (w : World α) : StdMap Nat :=
  w.wsSize .BackwardDataConvolution

/-- The map `sDescToWorkSpaceBackwardKernelConvolution`. -/
def sDescToWorkSpaceBackwardKernelConvolution (w : World α) : StdMap DevPtr :=
  w.ws .BackwardKernelConvolution

/-- The map `sDescToWorkSpaceBackwardKernelConvolutionSize`. -/
def sDescToWorkSpaceBackwardKernelConvolutionSize (w : World α) : StdMap Nat :=
  w.wsSize .BackwardKernelConvolution

/-- The map `sDescToWorkspacePooling`. -/
def sDescToWorkspacePooling (w : World α) : StdMap DevPtr := w.ws .Pooling

/-- The map `sDescToWorkspacePoolingSize`. -/
def sDescToWorkspacePoolingSize (w : World α) : StdMap Nat := w.wsSize .Pooling

/-- The map `sDescToWorkspaceLRN`. -/
def sDescToWorkspaceLRN (w : World α) : StdMap DevPtr := w.ws .LRN

/-- The map `sDescToWorkspaceLRNSize`. -/
def sDescToWorkspaceLRNSize (w : World α) : StdMap Nat := w.wsSize .LRN

end World

/-- How an entry point ends: it returns a status, the process is terminated by `std::exit`
(or `abort`), or a launched kernel never finishes. -/
inductive Outcome
  | returned (status : hipdnnStatus_t)
  | exited
  | hang
  deriving DecidableEq, Repr

/-- Result of a part of an entry point: it goes on with a value, or the entry point ends here. -/
inductive Step (α : Type) (β : Type)
  | next (value : β) (w : World α)
  | stop (o : Outcome) (w : World α)

/-- Record `miopenConvAlgoPerf_t` as read by one family (`algo` is the union member
`fwd_algo`, `bwd_weights_algo` or `bwd_data_algo`; `time` is kept as an uninterpreted code). -/
structure miopenConvAlgoPerf_t (A : Type) where
  algo : A
  time : Nat
  memory : Nat
  deriving DecidableEq, Repr

/-- Records `hipdnnConvolutionFwdAlgoPerf_t`, `hipdnnConvolutionBwdFilterAlgoPerf_t` and
`hipdnnConvolutionBwdDataAlgoPerf_t`. -/
structure hipdnnConvolutionAlgoPerf_t (B : Type) where
  algo : B
  status : hipdnnStatus_t
  time : Nat
  memory : Nat
  deriving DecidableEq, Repr

/-- The external world: MIOpen, the HIP runtime, and the build. Every answer may depend on the
whole current state.
* `status w e`: the status MIOpen returns for call `e`;
* `workSpaceSize w e`: the size a `*GetWorkSpaceSize` call stores;
* `output w e`: what a compute or find call leaves in its destination array;
* `fwdPerf`, `bwdWeightsPerf`, `bwdDataPerf`: the `*returnedAlgoCount` results of a find call;
* `tensorDims w d`: the dimensions `miopenGetTensorDescriptor` writes for `d`;
* `uninit i`: what the uninitialised local `gradientArray[i]` holds before that call;
* `hipMallocAddr w n`: the address `hipMalloc` would hand out for `n > 0` bytes (`none`: out of
  memory);
* `hipStatus w e`: the error code of `hipMemcpy` and `hipDeviceSynchronize`;
* `CHECK_HIPDNN_exits`: the macro `CHECK_HIPDNN` is declared in a header that is not part of
  the sources at hand; on a status other than success it either terminates the process
  (`true`) or makes the entry point return that status (`false`). The sources at hand point
  to `true`: `CHECK_MIO` (lines 33-42) calls `std::exit`, and `CHECK_HIPDNN` is also used in
  functions whose return type is an algorithm enumeration (lines 545-562), where a
  `return status;` would not be the status of any entry point;
* `NDEBUG`: whether `assert` is compiled out;
* `pastTheEnd j v`: what the `j`-th load from the element one past the end of a local stride
  array of `hipdnnSetFilterNdDescriptor` yields when `v` is what the program last stored
  there (`0`: the load in the loop over `strideA`, `1`: the load in the loop over
  `strideDimA`, `2`: the load by `miopenSetTensorDescriptor`). The arrays are declared one
  element short (lines 2496 and 2503), the language gives these accesses no meaning, and what
  such a load yields is a matter of the compiler and of what else lives at that address. -/
structure Backend (α : Type) where
  status : World α → Event → miopenStatus_t
  workSpaceSize : World α → Event → Nat
  output : World α → Event → Nat → α
  fwdPerf : World α → Event → List (miopenConvAlgoPerf_t miopenConvFwdAlgorithm_t)
  bwdWeightsPerf : World α → Event → List (miopenConvAlgoPerf_t miopenConvBwdWeightsAlgorithm_t)
  bwdDataPerf : World α → Event → List (miopenConvAlgoPerf_t miopenConvBwdDataAlgorithm_t)
  tensorDims : World α → Handle → List Int
  uninit : Nat → Int
  hipMallocAddr : World α → Nat → Option DevPtr
  hipStatus : World α → Event → hipError_t
  CHECK_HIPDNN_exits : Bool
  NDEBUG : Bool
  pastTheEnd : Nat → Int → Int

/-! ## Error-check macros -/

/-- Macro `CHECK_MIO` (lines 33-42): `some o` when the entry point ends with `o`, `none` when
execution goes on. -/
def CHECK_MIO (expression : miopenStatus_t) : Option Outcome :=
  if miopenTohipdnnStatus expression ≠ HIPDNN_STATUS_SUCCESS then some Outcome.exited else none

/-- Modelled from the spec: the macro `CHECK_HIP` is declared in `hcc_detail/hipdnn_miopen.h`,
which is missing; the spec says that the source's `CHECK_*` macros terminate the process on
backend errors and that a device allocation failure is fatal to the calling operation. -/
def CHECK_HIP (expression : hipError_t) : Option Outcome :=
  if expression ≠ hipSuccess then some Outcome.exited else none

/-- Macro `CHECK_HIPDNN`, whose declaration is missing: a status other than success ends the
entry point, by `std::exit` (the reading the sources and the specification support) or by
returning that status (`Backend.CHECK_HIPDNN_exits`). -/
def CHECK_HIPDNN {α : Type} (env : Backend α) (expression : hipdnnStatus_t) : Option Outcome :=
  if expression ≠ HIPDNN_STATUS_SUCCESS then
    some (if env.CHECK_HIPDNN_exits then Outcome.exited else Outcome.returned expression)
  else none

/-- Statement `assert(p)` on a pointer. -/
def assertPtr {α : Type} (env : Backend α) (p : DevPtr) : Option Outcome :=
  if env.NDEBUG = false ∧ p = 0 then some Outcome.exited else none

/-! ## HIP runtime (external; modelled by its documented contract) -/

section Runtime

variable {α : Type}

/-- Runtime call `hipMalloc(&ptr, size)`. A request of `0` bytes succeeds with `NULL` and
allocates nothing. Otherwise the runtime hands out the address it chooses, which is not `NULL`
and not the address of an outstanding allocation, or reports `hipErrorOutOfMemory`. The
result is `(error, ptr, state)`. -/
def hipMalloc (env : Backend α) (size : Nat) (owner : Owner) (w : World α) :
    hipError_t × DevPtr × World α :=
  if size = 0 then (hipSuccess, 0, w.emit (Event.hipMalloc size hipSuccess 0))
  else
    match env.hipMallocAddr w size with
    | some p =>
      if p ≠ 0 ∧ p ∉ w.live.map Alloc.ptr then
        (hipSuccess, p,
          { w with live := ⟨p, size, owner⟩ :: w.live,
                   trace := w.trace ++ [Event.hipMalloc size hipSuccess p] })
      else (hipErrorOutOfMemory, 0, w.emit (Event.hipMalloc size hipErrorOutOfMemory 0))
    | none => (hipErrorOutOfMemory, 0, w.emit (Event.hipMalloc size hipErrorOutOfMemory 0))

/-- Runtime call `hipFree(ptr)`: `NULL` is accepted and does nothing; the address of an
outstanding allocation releases it; any other address (freed before, or never allocated) is
the error `hipErrorInvalidDevicePointer`. -/
def hipFree (ptr : DevPtr) (w : World α) : hipError_t × World α :=
  if ptr = 0 then (hipSuccess, w.emit (Event.hipFree ptr hipSuccess))
  else if ptr ∈ w.live.map Alloc.ptr then
    (hipSuccess,
      { w with live := w.live.filter (fun a => decide (a.ptr ≠ ptr)),
               trace := w.trace ++ [Event.hipFree ptr hipSuccess] })
  else (hipErrorInvalidDevicePointer, w.emit (Event.hipFree ptr hipErrorInvalidDevicePointer))

/-- Runtime call `hipMemPtrGetInfo(ptr, &size)`: the byte size of the outstanding allocation
that starts at `ptr`. The result is `(error, size, state)`. -/
def hipMemPtrGetInfo (ptr : DevPtr) (w : World α) : hipError_t × Nat × World α :=
  match w.live.find? (fun a => decide (a.ptr = ptr)) with
  | some a => (hipSuccess, a.size, w.emit (Event.hipMemPtrGetInfo ptr hipSuccess a.size))
  | none => (hipErrorInvalidValue, 0, w.emit (Event.hipMemPtrGetInfo ptr hipErrorInvalidValue 0))

/-- Size `sizeof(float)`. -/
def sizeofFloat : Nat := 4

/-- Runtime call `hipMemcpy(dst, src, sizeBytes, hipMemcpyDeviceToDevice)`: on success the first
`sizeBytes / sizeof(float)` elements at `dst` become those at `src`. -/
def hipMemcpy (env : Backend α) (dst src : DevPtr) (sizeBytes : Nat) (w : World α) :
    hipError_t × World α :=
  let e := Event.hipMemcpy dst src sizeBytes
  let err := env.hipStatus w e
  if err = hipSuccess then
    (err, (w.emit e).writeMem dst
      (fun i => if i < sizeBytes / sizeofFloat then w.mem src i else w.mem dst i))
  else (err, w.emit e)

end Runtime

/-! ## Workspace cache -/

section Cache

variable {α : Type}

/-- Function `Free` (lines 94-106), on the pair of maps of family `fam`. -/
def Free (convDesc : Handle) (fam : Family) (w : World α) : World α :=
  if (w.ws fam).find convDesc ≠ none then
    let r1 := (w.ws fam).get convDesc 0
    let w1 := w.setWs fam r1.2
    if r1.1 ≠ 0 then
      let r2 := (w1.wsSize fam).get convDesc 0
      let w2 := w1.setWsSize fam r2.2
      if r2.1 > 0 then
        let r3 := (w2.ws fam).get convDesc 0
        let w3 := (hipFree r3.1 (w2.setWs fam r3.2)).2
        let w4 := w3.setWs fam ((w3.ws fam).erase convDesc)
        w4.setWsSize fam ((w4.wsSize fam).erase convDesc)
      else w2
    else w1
  else w

/-- Run an MIOpen call `e` whose destination array is at `dst`: the status, and the state
after the call. -/
def backendCall (env : Backend α) (e : Event) (dst : DevPtr) (w : World α) :
    miopenStatus_t × World α :=
  (env.status w e, (w.emit e).writeMem dst (env.output w e))

/-- Run an MIOpen call `e` that writes no device array: the status, and the state after. -/
def backendQuery (env : Backend α) (e : Event) (w : World α) : miopenStatus_t × World α :=
  (env.status w e, w.emit e)

/-- The get-or-allocate block that opens every workspace-using entry point (lines 1189-1213,
1282-1306, 1422-1446, 1522-1544, 1699-1724, 1787-1807, 1979-1999, 2027-2045, 2211-2227,
2280-2296): `fam` names the pair of maps, `key` is the descriptor used as key, `sizeQuery` is
the `*GetWorkSpaceSize` call of the site. The value is `(workSpaceInternal,
expectedWorkSpaceSize)`. -/
def acquireWorkSpace (env : Backend α) (fam : Family) (key opDesc : Handle) (sizeQuery : Event)
    (w : World α) : Step α (DevPtr × Nat) :=
  if (w.ws fam).find key = none then
    let expectedWorkSpaceSize := env.workSpaceSize w sizeQuery
    let r := backendQuery env sizeQuery w
    match CHECK_MIO r.1 with
    | some o => Step.stop o r.2
    | none =>
      let m := hipMalloc env expectedWorkSpaceSize (Owner.workspace fam key opDesc) r.2
      match CHECK_HIP m.1 with
      | some o => Step.stop o m.2.2
      | none =>
        let w1 := m.2.2.setWs fam ((m.2.2.ws fam).set key m.2.1)
        let w2 := w1.setWsSize fam ((w1.wsSize fam).set key expectedWorkSpaceSize)
        Step.next (m.2.1, expectedWorkSpaceSize) w2
  else
    let r1 := (w.ws fam).get key 0
    let w1 := w.setWs fam r1.2
    let r2 := (w1.wsSize fam).get key 0
    Step.next (r1.1, r2.1) (w1.setWsSize fam r2.2)

end Cache

/-! ## Accumulation emulation -/

section Emulation

variable {α : Type}

/-- Conversion of an `int` to `size_t` (64 bits). -/
def toSizeT (n : Int) : Nat := (n % 2 ^ 64).toNat

/-- The value an `int` (32 bits, two's complement) holds after arithmetic gave `x`. -/
def wrapInt32 (x : Int) : Int := (x + 2 ^ 31) % 2 ^ 32 - 2 ^ 31

/-- The loop `for (size_t i = offset; i < N; i += stride) C_d[i] = beta * A_d[i] + C_d[i];`
of the kernel, from index `i` on, on the device memory `mem`. It runs at most `fuel`
iterations; `none` means that the loop is still running after them. -/
def TensorAdd.loop [Add α] [Mul α] (C_d A_d : DevPtr) (beta : α) (N stride : Nat) :
    Nat → Nat → (DevPtr → Nat → α) → Option (DevPtr → Nat → α)
  | 0, i, mem => if i < N then none else some mem
  | fuel + 1, i, mem =>
    if i < N then
      TensorAdd.loop C_d A_d beta N stride fuel ((i + stride) % 2 ^ 64)
        (Function.update mem C_d (Function.update (mem C_d) i (beta * mem A_d i + mem C_d i)))
    else some mem

/-- Kernel `TensorAdd<T>` (lines 113-120) for the thread `hipThreadIdx_x` of block
`hipBlockIdx_x`. The fuel `N / stride + 1` is the number of iterations of a loop whose index
does not wrap. -/
def TensorAdd [Add α] [Mul α] (hipBlockIdx_x hipBlockDim_x hipThreadIdx_x hipGridDim_x : Nat)
    (C_d A_d : DevPtr) (beta : α) (N : Int) (mem : DevPtr → Nat → α) :
    Option (DevPtr → Nat → α) :=
  let offset := (hipBlockIdx_x * hipBlockDim_x + hipThreadIdx_x) % 2 ^ 32
  let stride := (hipBlockDim_x * hipGridDim_x) % 2 ^ 32
  TensorAdd.loop C_d A_d beta (toSizeT N) stride (toSizeT N / stride + 1) offset mem

/-- The `(block, thread)` pairs of a launch with `blocks` blocks of `threadsPerBlock` threads. -/
def launchGrid (blocks threadsPerBlock : Nat) : List (Nat × Nat) :=
  (List.range blocks).flatMap (fun b => (List.range threadsPerBlock).map (fun t => (b, t)))

/-- Launch `hipLaunchKernelGGL((TensorAdd<float>), dim3(blocks), dim3(threadsPerBlock), 0, 0,
C_d, A_d, beta, N)`: the threads are run one after the other. -/
def hipLaunchKernelGGL_TensorAdd [Add α] [Mul α] (blocks threadsPerBlock : Nat)
    (C_d A_d : DevPtr) (beta : α) (N : Int) (mem : DevPtr → Nat → α) :
    Option (DevPtr → Nat → α) :=
  (launchGrid blocks threadsPerBlock).foldlM
    (fun m bt => TensorAdd bt.1 threadsPerBlock bt.2 blocks C_d A_d beta N m) mem

/-- Function `SaveAsPriorBuffer` (lines 127-137). -/
def SaveAsPriorBuffer (env : Backend α) (dData : DevPtr) (w : World α) : Step α DevPtr :=
  let r1 := hipMemPtrGetInfo dData w
  match CHECK_HIP r1.1 with
  | some o => Step.stop o r1.2.2
  | none =>
    let dPriorSize := r1.2.1
    let r2 := hipMalloc env dPriorSize Owner.prior r1.2.2
    match CHECK_HIP r2.1 with
    | some o => Step.stop o r2.2.2
    | none =>
      let dPrior := r2.2.1
      let r3 := hipMemcpy env dPrior dData dPriorSize r2.2.2
      match CHECK_HIP r3.1 with
      | some o => Step.stop o r3.2
      | none => Step.next dPrior r3.2

/-- Function `deallocPrior` (lines 140-144). -/
def deallocPrior (dData : DevPtr) (w : World α) : Step α Unit :=
  let r1 := hipMemPtrGetInfo dData w
  match CHECK_HIP r1.1 with
  | some o => Step.stop o r1.2.2
  | none =>
    let dPriorSize := r1.2.1
    if dPriorSize > 0 then
      let r2 := hipFree dData r1.2.2
      match CHECK_HIP r2.1 with
      | some o => Step.stop o r2.2
      | none => Step.next () r2.2
    else Step.next () r1.2.2

/-- The local `int gradientArray[5]` after `miopenGetTensorDescriptor` wrote the dimensions
`dims` of the descriptor into it: entries past the rank keep what the stack held. -/
def gradientArray (env : Backend α) (dims : List Int) (i : Nat) : Int :=
  wrapInt32 (dims.getD i (env.uninit i))

/-- The local `int totalElements` of `accumulateGradients` (lines 815-816). -/
def totalElements (env : Backend α) (dims : List Int) : Int :=
  wrapInt32 (wrapInt32 (wrapInt32 (gradientArray env dims 0 * gradientArray env dims 1) *
    gradientArray env dims 2) * gradientArray env dims 3)

/-- Function `accumulateGradients` (lines 803-827). -/
def accumulateGradients [Zero α] [Add α] [Mul α] (env : Backend α)
    (gradient gradientPrior : DevPtr) (gradientDesc : Handle) (beta : HostPtr) (w : World α) :
    Step α hipdnnStatus_t :=
  let dims := env.tensorDims w gradientDesc
  let r := backendQuery env (Event.miopenGetTensorDescriptor gradientDesc) w
  match CHECK_MIO r.1 with
  | some o => Step.stop o r.2
  | none =>
    let blocks := 512
    let threadsPerBlock := 256
    let betaVal := r.2.deref beta
    let launch := Event.hipLaunchKernelGGL_TensorAdd blocks threadsPerBlock gradient
      gradientPrior (totalElements env dims)
    match hipLaunchKernelGGL_TensorAdd blocks threadsPerBlock gradient gradientPrior betaVal
        (totalElements env dims) r.2.mem with
    | none => Step.stop Outcome.hang (r.2.emit launch)
    | some mem1 =>
      let w1 := { r.2.emit launch with mem := mem1 }
      let err := env.hipStatus w1 Event.hipDeviceSynchronize
      let w2 := w1.emit Event.hipDeviceSynchronize
      match CHECK_HIP err with
      | some o => Step.stop o w2
      | none => Step.next HIPDNN_STATUS_SUCCESS w2

end Emulation

/-! ## Entry points -/

section EntryPoints

variable {α : Type}

/-- Arguments of `hipdnnConvolutionForward`. -/
structure ConvFwdArgs where
  handle : Handle
  alpha : HostPtr
  xDesc : Handle
  x : DevPtr
  wDesc : Handle
  w : DevPtr
  convDesc : Handle
  algo : hipdnnConvolutionFwdAlgo_t
  workSpace : DevPtr
  workSpaceSizeInBytes : Nat
  beta : HostPtr
  yDesc : Handle
  y : DevPtr
  deriving DecidableEq, Repr

/-- Arguments of `hipdnnFindConvolutionForwardAlgorithmEx`. -/
structure FindFwdArgs where
  handle : Handle
  xDesc : Handle
  x : DevPtr
  wDesc : Handle
  w : DevPtr
  convDesc : Handle
  yDesc : Handle
  y : DevPtr
  requestedAlgoCount : Int
  workSpace : DevPtr
  workSpaceSizeInBytes : Nat
  deriving DecidableEq, Repr

/-- Arguments of `hipdnnConvolutionBackwardFilter`. -/
structure ConvBwdFilterArgs where
  handle : Handle
  alpha : HostPtr
  xDesc : Handle
  x : DevPtr
  dyDesc : Handle
  dy : DevPtr
  convDesc : Handle
  algo : hipdnnConvolutionBwdFilterAlgo_t
  workSpace : DevPtr
  workSpaceSizeInBytes : Nat
  beta : HostPtr
  dwDesc : Handle
  dw : DevPtr
  deriving DecidableEq, Repr

/-- Arguments of `hipdnnFindConvolutionBackwardFilterAlgorithmEx`. -/
structure FindBwdFilterArgs where
  handle : Handle
  xDesc : Handle
  x : DevPtr
  dyDesc : Handle
  dy : DevPtr
  convDesc : Handle
  dwDesc : Handle
  dw : DevPtr
  requestedAlgoCount : Int
  workSpace : DevPtr
  workSpaceSizeInBytes : Nat
  deriving DecidableEq, Repr

/-- Arguments of `hipdnnConvolutionBackwardData`. -/
structure ConvBwdDataArgs where
  handle : Handle
  alpha : HostPtr
  wDesc : Handle
  w : DevPtr
  dyDesc : Handle
  dy : DevPtr
  convDesc : Handle
  algo : hipdnnConvolutionBwdDataAlgo_t
  workSpace : DevPtr
  workSpaceSizeInBytes : Nat
  beta : HostPtr
  dxDesc : Handle
  dx : DevPtr
  deriving DecidableEq, Repr

/-- Arguments of `hipdnnFindConvolutionBackwardDataAlgorithmEx`. -/
structure FindBwdDataArgs where
  handle : Handle
  wDesc : Handle
  w : DevPtr
  dyDesc : Handle
  dy : DevPtr
  convDesc : Handle
  dxDesc : Handle
  dx : DevPtr
  requestedAlgoCount : Int
  workSpace : DevPtr
  workSpaceSizeInBytes : Nat
  deriving DecidableEq, Repr

/-- Arguments of `hipdnnPoolingForward`. -/
structure PoolFwdArgs where
  handle : Handle
  poolingDesc : Handle
  alpha : HostPtr
  xDesc : Handle
  x : DevPtr
  beta : HostPtr
  yDesc : Handle
  y : DevPtr
  deriving DecidableEq, Repr

/-- Arguments of `hipdnnPoolingBackward`. -/
structure PoolBwdArgs where
  handle : Handle
  poolingDesc : Handle
  alpha : HostPtr
  yDesc : Handle
  y : DevPtr
  dyDesc : Handle
  dy : DevPtr
  xDesc : Handle
  x : DevPtr
  beta : HostPtr
  dxDesc : Handle
  dx : DevPtr
  deriving DecidableEq, Repr

/-- Arguments of `hipdnnLRNCrossChannelForward`. -/
structure LRNFwdArgs where
  handle : Handle
  normDesc : Handle
  lrnMode : hipdnnLRNMode_t
  alpha : HostPtr
  xDesc : Handle
  x : DevPtr
  beta : HostPtr
  yDesc : Handle
  y : DevPtr
  deriving DecidableEq, Repr

/-- Arguments of `hipdnnLRNCrossChannelBackward`. -/
structure LRNBwdArgs where
  handle : Handle
  normDesc : Handle
  lrnMode : hipdnnLRNMode_t
  alpha : HostPtr
  yDesc : Handle
  y : DevPtr
  dyDesc : Handle
  dy : DevPtr
  xDesc : Handle
  x : DevPtr
  beta : HostPtr
  dxDesc : Handle
  dx : DevPtr
  deriving DecidableEq, Repr

/-- What a `Find*AlgorithmEx` entry point leaves: how it ended, the state, and the entries of
`perfResults` it wrote (`algo` is `none` where the translator did not write it). -/
structure FindResult (α : Type) (B : Type) where
  outcome : Outcome
  world : World α
  perfResults : List (hipdnnConvolutionAlgoPerf_t (Option B))

/-- The loop `for (int i = 0; i < *returnedAlgoCount; i++)` that closes the three
`Find*AlgorithmEx` entry points (lines 1226-1235, 1464-1473, 1753-1763), over the results
`results` of the backend: how the loop ended the entry point, if it did, and the entries
written. -/
def perfLoop {A B : Type} (env : Backend α) (translate : A → hipdnnStatus_t × Option B) :
    List (miopenConvAlgoPerf_t A) → Option Outcome × List (hipdnnConvolutionAlgoPerf_t (Option B))
  | [] => (none, [])
  | r :: rest =>
    match CHECK_HIPDNN env (translate r.algo).1 with
    | some o => (some o, [])
    | none =>
      let t := perfLoop env translate rest
      (t.1, ⟨(translate r.algo).2, HIPDNN_STATUS_SUCCESS, r.time, r.memory⟩ :: t.2)

/-- Expression `new miopenConvAlgoPerf_t[requestedAlgoCount]` of the three algorithm searches
(lines 1181-1182, 1415-1416 and 1696-1697), with its `int` count: for a negative count the
expression throws `std::bad_array_new_length`, which no handler of these functions catches,
and the process ends. An array with a count that is not negative is taken to be served. -/
def newPerfResults (requestedAlgoCount : Int) : Option Outcome :=
  if requestedAlgoCount < 0 then some Outcome.exited else none

/-- The size query of the forward family, as `hipdnnConvolutionForward` and
`hipdnnFindConvolutionForwardAlgorithmEx` issue it. -/
def forwardSizeQuery (handle wDesc xDesc convDesc yDesc : Handle) : Event :=
  Event.miopenConvolutionForwardGetWorkSpaceSize handle wDesc xDesc convDesc yDesc

/-- Entry point `hipdnnFindConvolutionForwardAlgorithmEx` (lines 1168-1239). -/
def hipdnnFindConvolutionForwardAlgorithmEx (env : Backend α) (a : FindFwdArgs) (w : World α) :
    FindResult α hipdnnConvolutionFwdAlgo_t :=
  match assertPtr env a.x, assertPtr env a.w, assertPtr env a.y with
  | some o, _, _ => ⟨o, w, []⟩
  | none, some o, _ => ⟨o, w, []⟩
  | none, none, some o => ⟨o, w, []⟩
  | none, none, none =>
    match newPerfResults a.requestedAlgoCount with
    | some o => ⟨o, w, []⟩
    | none =>
      match acquireWorkSpace env Family.ForwardConvolution a.convDesc a.convDesc
          (forwardSizeQuery a.handle a.wDesc a.xDesc a.convDesc a.yDesc) w with
      | Step.stop o w1 => ⟨o, w1, []⟩
      | Step.next ws w1 =>
        let e := Event.miopenFindConvolutionForwardAlgorithm a.handle a.xDesc a.x a.wDesc a.w
          a.convDesc a.yDesc a.y a.requestedAlgoCount ws.1 ws.2 false
        let results := env.fwdPerf w1 e
        let r := backendCall env e a.y w1
        match CHECK_MIO r.1 with
        | some o => ⟨o, r.2, []⟩
        | none =>
          let l := perfLoop env miopenTohipConvolutionFwdAlgo results
          match l.1 with
          | some o => ⟨o, r.2, l.2⟩
          | none => ⟨Outcome.returned HIPDNN_STATUS_SUCCESS, r.2, l.2⟩

/-- Lines 1308-1320 of `hipdnnConvolutionForward`: algorithm translation and the backend call,
with the workspace `ws` the lines before acquired. -/
def hipdnnConvolutionForward.compute (env : Backend α) (a : ConvFwdArgs) (ws : DevPtr × Nat)
    (w1 : World α) : Outcome × World α :=
  let t := hipTomiopenConvolutionFwdAlgo a.algo
  match CHECK_HIPDNN env t.1 with
  | some o => (o, w1)
  | none =>
    let r := backendCall env
      (Event.miopenConvolutionForward a.handle a.alpha a.xDesc a.x a.wDesc a.w a.convDesc t.2
        a.beta a.yDesc a.y ws.1 ws.2) a.y w1
    match CHECK_MIO r.1 with
    | some o => (o, r.2)
    | none => (Outcome.returned HIPDNN_STATUS_SUCCESS, r.2)

/-- Entry point `hipdnnConvolutionForward` (lines 1269-1320). -/
def hipdnnConvolutionForward (env : Backend α) (a : ConvFwdArgs) (w : World α) :
    Outcome × World α :=
  match acquireWorkSpace env Family.ForwardConvolution a.convDesc a.convDesc
      (forwardSizeQuery a.handle a.wDesc a.xDesc a.convDesc a.yDesc) w with
  | Step.stop o w1 => (o, w1)
  | Step.next ws w1 => hipdnnConvolutionForward.compute env a ws w1

/-- The size query of the backward-filter family. -/
def backwardWeightsSizeQuery (handle dyDesc xDesc convDesc dwDesc : Handle) : Event :=
  Event.miopenConvolutionBackwardWeightsGetWorkSpaceSize handle dyDesc xDesc convDesc dwDesc

/-- Entry point `hipdnnFindConvolutionBackwardFilterAlgorithmEx` (lines 1402-1479). The
`try`/`catch` around the backend call catches C++ exceptions only, which neither the C backend
nor `std::exit` raises. -/
def hipdnnFindConvolutionBackwardFilterAlgorithmEx (env : Backend α) (a : FindBwdFilterArgs)
    (w : World α) : FindResult α hipdnnConvolutionBwdFilterAlgo_t :=
  match assertPtr env a.x, assertPtr env a.dy, assertPtr env a.dw with
  | some o, _, _ => ⟨o, w, []⟩
  | none, some o, _ => ⟨o, w, []⟩
  | none, none, some o => ⟨o, w, []⟩
  | none, none, none =>
    match newPerfResults a.requestedAlgoCount with
    | some o => ⟨o, w, []⟩
    | none =>
      match acquireWorkSpace env Family.BackwardKernelConvolution a.convDesc a.convDesc
          (backwardWeightsSizeQuery a.handle a.dyDesc a.xDesc a.convDesc a.dwDesc) w with
      | Step.stop o w1 => ⟨o, w1, []⟩
      | Step.next ws w1 =>
        let e := Event.miopenFindConvolutionBackwardWeightsAlgorithm a.handle a.dyDesc a.dy
          a.xDesc a.x a.convDesc a.dwDesc a.dw a.requestedAlgoCount ws.1 ws.2 false
        let results := env.bwdWeightsPerf w1 e
        let r := backendCall env e a.dw w1
        match CHECK_MIO r.1 with
        | some o => ⟨o, r.2, []⟩
        | none =>
          let l := perfLoop env miopenTohipConvolutionBwdFilterAlgo results
          match l.1 with
          | some o => ⟨o, r.2, l.2⟩
          | none => ⟨Outcome.returned HIPDNN_STATUS_SUCCESS, r.2, l.2⟩

/-- Lines 1546-1566 of `hipdnnConvolutionBackwardFilter`: algorithm translation and the
`beta` dispatch, with the workspace `ws` the lines before acquired. -/
def hipdnnConvolutionBackwardFilter.compute [Zero α] [Add α] [Mul α] [DecidableEq α]
    (env : Backend α) (a : ConvBwdFilterArgs) (ws : DevPtr × Nat) (w1 : World α) :
    Outcome × World α :=
  let t := hipTomiopenConvolutionBwdFilterAlgo a.algo
  match CHECK_HIPDNN env t.1 with
  | some o => (o, w1)
  | none =>
    if w1.deref a.beta = 0 then
      let r := backendCall env
        (Event.miopenConvolutionBackwardWeights a.handle a.alpha a.dyDesc a.dy a.xDesc a.x
          a.convDesc t.2 a.beta a.dwDesc a.dw ws.1 ws.2) a.dw w1
      match CHECK_MIO r.1 with
      | some o => (o, r.2)
      | none => (Outcome.returned HIPDNN_STATUS_SUCCESS, r.2)
    else
      match SaveAsPriorBuffer env a.dw w1 with
      | Step.stop o w2 => (o, w2)
      | Step.next dwPrior w2 =>
        let r := backendCall env
          (Event.miopenConvolutionBackwardWeights a.handle a.alpha a.dyDesc a.dy a.xDesc a.x
            a.convDesc t.2 HostPtr.tempBeta a.dwDesc a.dw ws.1 ws.2) a.dw w2
        match CHECK_MIO r.1 with
        | some o => (o, r.2)
        | none =>
          match accumulateGradients env a.dw dwPrior a.dwDesc a.beta r.2 with
          | Step.stop o w3 => (o, w3)
          | Step.next _ w3 =>
            match deallocPrior dwPrior w3 with
            | Step.stop o w4 => (o, w4)
            | Step.next _ w4 => (Outcome.returned HIPDNN_STATUS_SUCCESS, w4)

/-- Entry point `hipdnnConvolutionBackwardFilter` (lines 1509-1578). -/
def hipdnnConvolutionBackwardFilter [Zero α] [Add α] [Mul α] [DecidableEq α]
    (env : Backend α) (a : ConvBwdFilterArgs) (w : World α) : Outcome × World α :=
  match acquireWorkSpace env Family.BackwardKernelConvolution a.convDesc a.convDesc
      (backwardWeightsSizeQuery a.handle a.dyDesc a.xDesc a.convDesc a.dwDesc) w with
  | Step.stop o w1 => (o, w1)
  | Step.next ws w1 => hipdnnConvolutionBackwardFilter.compute env a ws w1

/-- The size query of the backward-data family. -/
def backwardDataSizeQuery (handle dyDesc wDesc convDesc dxDesc : Handle) : Event :=
  Event.miopenConvolutionBackwardDataGetWorkSpaceSize handle dyDesc wDesc convDesc dxDesc

/-- Entry point `hipdnnFindConvolutionBackwardDataAlgorithmEx` (lines 1680-1767); after the
get-or-allocate block it asks the backend for the size once more (`infoWorkSpaceSize`). -/
def hipdnnFindConvolutionBackwardDataAlgorithmEx (env : Backend α) (a : FindBwdDataArgs)
    (w : World α) : FindResult α hipdnnConvolutionBwdDataAlgo_t :=
  match newPerfResults a.requestedAlgoCount with
  | some o => ⟨o, w, []⟩
  | none =>
    match acquireWorkSpace env Family.BackwardDataConvolution a.convDesc a.convDesc
        (backwardDataSizeQuery a.handle a.dyDesc a.wDesc a.convDesc a.dxDesc) w with
    | Step.stop o w1 => ⟨o, w1, []⟩
    | Step.next ws w1 =>
      let q := backendQuery env
        (backwardDataSizeQuery a.handle a.dyDesc a.wDesc a.convDesc a.dxDesc) w1
      match CHECK_MIO q.1 with
      | some o => ⟨o, q.2, []⟩
      | none =>
        let e := Event.miopenFindConvolutionBackwardDataAlgorithm a.handle a.dyDesc a.dy
          a.wDesc a.w a.convDesc a.dxDesc a.dx a.requestedAlgoCount ws.1 ws.2 false
        let results := env.bwdDataPerf q.2 e
        let r := backendCall env e a.dx q.2
        match CHECK_MIO r.1 with
        | some o => ⟨o, r.2, []⟩
        | none =>
          let l := perfLoop env miopenTohipConvolutionBwdDataAlgo results
          match l.1 with
          | some o => ⟨o, r.2, l.2⟩
          | none => ⟨Outcome.returned HIPDNN_STATUS_SUCCESS, r.2, l.2⟩

/-- Lines 1809-1850 of `hipdnnConvolutionBackwardData`: algorithm translation and the `beta`
dispatch, with the workspace `ws` the lines before acquired. -/
def hipdnnConvolutionBackwardData.compute [Zero α] [Add α] [Mul α] [DecidableEq α]
    (env : Backend α) (a : ConvBwdDataArgs) (ws : DevPtr × Nat) (w1 : World α) :
    Outcome × World α :=
  let t := hipTomiopenConvolutionBwdDataAlgo a.algo
  match CHECK_HIPDNN env t.1 with
  | some o => (o, w1)
  | none =>
    if w1.deref a.beta = 0 then
      let r := backendCall env
        (Event.miopenConvolutionBackwardData a.handle a.alpha a.dyDesc a.dy a.wDesc a.w
          a.convDesc t.2 a.beta a.dxDesc a.dx ws.1 ws.2) a.dx w1
      match CHECK_MIO r.1 with
      | some o => (o, r.2)
      | none => (Outcome.returned HIPDNN_STATUS_SUCCESS, r.2)
    else
      match SaveAsPriorBuffer env a.dx w1 with
      | Step.stop o w2 => (o, w2)
      | Step.next dxPrior w2 =>
        let r := backendCall env
          (Event.miopenConvolutionBackwardData a.handle a.alpha a.dyDesc a.dy a.wDesc a.w
            a.convDesc t.2 HostPtr.tempBeta a.dxDesc a.dx ws.1 ws.2) a.dx w2
        match CHECK_MIO r.1 with
        | some o => (o, r.2)
        | none =>
          match accumulateGradients env a.dx dxPrior a.dxDesc a.beta r.2 with
          | Step.stop o w3 => (o, w3)
          | Step.next _ w3 =>
            match deallocPrior dxPrior w3 with
            | Step.stop o w4 => (o, w4)
            | Step.next _ w4 => (Outcome.returned HIPDNN_STATUS_SUCCESS, w4)

/-- Entry point `hipdnnConvolutionBackwardData` (lines 1771-1851). -/
def hipdnnConvolutionBackwardData [Zero α] [Add α] [Mul α] [DecidableEq α]
    (env : Backend α) (a : ConvBwdDataArgs) (w : World α) : Outcome × World α :=
  match acquireWorkSpace env Family.BackwardDataConvolution a.convDesc a.convDesc
      (backwardDataSizeQuery a.handle a.dyDesc a.wDesc a.convDesc a.dxDesc) w with
  | Step.stop o w1 => (o, w1)
  | Step.next ws w1 => hipdnnConvolutionBackwardData.compute env a ws w1

/-- Entry point `hipdnnDestroyConvolutionDescriptor` (lines 1064-1077). -/
def hipdnnDestroyConvolutionDescriptor (env : Backend α) (convDesc : Handle) (w : World α) :
    Outcome × World α :=
  let w1 := Free convDesc Family.ForwardConvolution w
  let w2 := Free convDesc Family.BackwardKernelConvolution w1
  let w3 := Free convDesc Family.BackwardDataConvolution w2
  let r := backendQuery env (Event.miopenDestroyConvolutionDescriptor convDesc) w3
  match CHECK_MIO r.1 with
  | some o => (o, r.2)
  | none => (Outcome.returned HIPDNN_STATUS_SUCCESS, r.2)

/-- Entry point `hipdnnDestroyTensorDescriptor` (lines 908-913). -/
def hipdnnDestroyTensorDescriptor (env : Backend α) (tensorDesc : Handle) (w : World α) :
    Outcome × World α :=
  let r := backendQuery env (Event.miopenDestroyTensorDescriptor tensorDesc) w
  match CHECK_MIO r.1 with
  | some o => (o, r.2)
  | none => (Outcome.returned HIPDNN_STATUS_SUCCESS, r.2)

/-- Entry point `hipdnnDestroyPoolingDescriptor` (lines 1957-1964). -/
def hipdnnDestroyPoolingDescriptor (env : Backend α) (poolingDesc : Handle) (w : World α) :
    Outcome × World α :=
  let r := backendQuery env (Event.miopenDestroyPoolingDescriptor poolingDesc) w
  match CHECK_MIO r.1 with
  | some o => (o, r.2)
  | none => (Outcome.returned HIPDNN_STATUS_SUCCESS, r.2)

/-- Entry point `hipdnnDestroyLRNDescriptor` (lines 2185-2190). -/
def hipdnnDestroyLRNDescriptor (env : Backend α) (normDesc : Handle) (w : World α) :
    Outcome × World α :=
  let r := backendQuery env (Event.miopenDestroyLRNDescriptor normDesc) w
  match CHECK_MIO r.1 with
  | some o => (o, r.2)
  | none => (Outcome.returned HIPDNN_STATUS_SUCCESS, r.2)

/-- Entry point `hipdnnPoolingForward` (lines 1968-2009). -/
def hipdnnPoolingForward (env : Backend α) (a : PoolFwdArgs) (w : World α) :
    Outcome × World α :=
  match acquireWorkSpace env Family.Pooling a.yDesc a.poolingDesc
      (Event.miopenPoolingGetWorkSpaceSize a.yDesc) w with
  | Step.stop o w1 => (o, w1)
  | Step.next ws w1 =>
    let r := backendCall env
      (Event.miopenPoolingForward a.handle a.poolingDesc a.alpha a.xDesc a.x a.beta a.yDesc a.y
        true ws.1 ws.2) a.y w1
    match CHECK_MIO r.1 with
    | some o => (o, r.2)
    | none => (Outcome.returned HIPDNN_STATUS_SUCCESS, r.2)

/-- Entry point `hipdnnPoolingBackward` (lines 2013-2054). -/
def hipdnnPoolingBackward (env : Backend α) (a : PoolBwdArgs) (w : World α) :
    Outcome × World α :=
  match acquireWorkSpace env Family.Pooling a.yDesc a.poolingDesc
      (Event.miopenPoolingGetWorkSpaceSize a.yDesc) w with
  | Step.stop o w1 => (o, w1)
  | Step.next ws w1 =>
    let r := backendCall env
      (Event.miopenPoolingBackward a.handle a.poolingDesc a.alpha a.yDesc a.y a.dyDesc a.dy
        a.xDesc a.x a.beta a.dxDesc a.dx ws.1) a.dx w1
    match CHECK_MIO r.1 with
    | some o => (o, r.2)
    | none => (Outcome.returned HIPDNN_STATUS_SUCCESS, r.2)

/-- Entry point `hipdnnLRNCrossChannelForward` (lines 2194-2236). -/
def hipdnnLRNCrossChannelForward (env : Backend α) (a : LRNFwdArgs) (w : World α) :
    Outcome × World α :=
  match CHECK_HIPDNN env (hipTomiopenLRNMode a.lrnMode).1 with
  | some o => (o, w)
  | none =>
    match acquireWorkSpace env Family.LRN a.yDesc a.normDesc
        (Event.miopenLRNGetWorkSpaceSize a.yDesc) w with
    | Step.stop o w1 => (o, w1)
    | Step.next ws w1 =>
      let r := backendCall env
        (Event.miopenLRNForward a.handle a.normDesc a.alpha a.xDesc a.x a.beta a.yDesc a.y
          false ws.1) a.y w1
      match CHECK_MIO r.1 with
      | some o => (o, r.2)
      | none => (Outcome.returned HIPDNN_STATUS_SUCCESS, r.2)

/-- Entry point `hipdnnLRNCrossChannelBackwardEx` (lines 2305-2326), called with the
arguments of `hipdnnLRNCrossChannelBackward` and `workspace`. -/
def hipdnnLRNCrossChannelBackwardEx (env : Backend α) (a : LRNBwdArgs) (workspace : DevPtr)
    (w : World α) : Outcome × World α :=
  match CHECK_HIPDNN env (hipTomiopenLRNMode a.lrnMode).1 with
  | some o => (o, w)
  | none =>
    let r := backendCall env
      (Event.miopenLRNBackward a.handle a.normDesc a.alpha a.yDesc a.y a.dyDesc a.dy a.xDesc
        a.x a.beta a.dxDesc a.dx workspace) a.dx w
    match CHECK_MIO r.1 with
    | some o => (o, r.2)
    | none => (Outcome.returned HIPDNN_STATUS_SUCCESS, r.2)

/-- Entry point `hipdnnLRNCrossChannelBackward` (lines 2262-2303). -/
def hipdnnLRNCrossChannelBackward (env : Backend α) (a : LRNBwdArgs) (w : World α) :
    Outcome × World α :=
  match CHECK_HIPDNN env (hipTomiopenLRNMode a.lrnMode).1 with
  | some o => (o, w)
  | none =>
    match acquireWorkSpace env Family.LRN a.yDesc a.normDesc
        (Event.miopenLRNGetWorkSpaceSize a.yDesc) w with
    | Step.stop o w1 => (o, w1)
    | Step.next ws w1 =>
      match hipdnnLRNCrossChannelBackwardEx env a ws.1 w1 with
      | (Outcome.returned s, w2) =>
        match CHECK_HIPDNN env s with
        | some o => (o, w2)
        | none => (Outcome.returned HIPDNN_STATUS_SUCCESS, w2)
      | (o, w2) => (o, w2)

end EntryPoints

/-! ## Sequences of calls -/

section Sequences

variable {α : Type}

/-- A workspace-acquiring call of the forward-convolution family. -/
inductive ForwardCall
  | find (a : FindFwdArgs)
  | compute (a : ConvFwdArgs)
  deriving DecidableEq, Repr

/-- The convolution descriptor a forward-family call is made with. -/
def ForwardCall.convDesc : ForwardCall → Handle
  | ForwardCall.find a => a.convDesc
  | ForwardCall.compute a => a.convDesc

/-- Run a forward-family call: how it ended and the state it left. -/
def ForwardCall.run (env : Backend α) : ForwardCall → World α → Outcome × World α
  | ForwardCall.find a, w =>
    ((hipdnnFindConvolutionForwardAlgorithmEx env a w).outcome,
      (hipdnnFindConvolutionForwardAlgorithmEx env a w).world)
  | ForwardCall.compute a, w => hipdnnConvolutionForward env a w

/-- The workspace size query a forward-family call issues on a cache miss. -/
def ForwardCall.sizeQuery : ForwardCall → Event
  | ForwardCall.find a => forwardSizeQuery a.handle a.wDesc a.xDesc a.convDesc a.yDesc
  | ForwardCall.compute a => forwardSizeQuery a.handle a.wDesc a.xDesc a.convDesc a.yDesc

/-- The backend primitive call of a forward-family call, when it is handed the workspace
`workSpace` of `workSpaceSize` bytes. -/
def ForwardCall.primitive (c : ForwardCall) (workSpace : DevPtr) (workSpaceSize : Nat) : Event :=
  match c with
  | ForwardCall.find a =>
    Event.miopenFindConvolutionForwardAlgorithm a.handle a.xDesc a.x a.wDesc a.w a.convDesc
      a.yDesc a.y a.requestedAlgoCount workSpace workSpaceSize false
  | ForwardCall.compute a =>
    Event.miopenConvolutionForward a.handle a.alpha a.xDesc a.x a.wDesc a.w a.convDesc
      (hipTomiopenConvolutionFwdAlgo a.algo).2 a.beta a.yDesc a.y workSpace workSpaceSize

/-- A workspace-acquiring convolution call, or the destruction of a convolution descriptor. -/
inductive ConvCall
  | FindForwardEx (a : FindFwdArgs)
  | Forward (a : ConvFwdArgs)
  | FindBackwardFilterEx (a : FindBwdFilterArgs)
  | BackwardFilter (a : ConvBwdFilterArgs)
  | FindBackwardDataEx (a : FindBwdDataArgs)
  | BackwardData (a : ConvBwdDataArgs)
  | Destroy (convDesc : Handle)
  deriving DecidableEq, Repr

/-- Run one convolution call. -/
def ConvCall.run [Zero α] [Add α] [Mul α] [DecidableEq α] (env : Backend α) :
    ConvCall → World α → Outcome × World α
  | ConvCall.FindForwardEx a, w =>
    ((hipdnnFindConvolutionForwardAlgorithmEx env a w).outcome,
      (hipdnnFindConvolutionForwardAlgorithmEx env a w).world)
  | ConvCall.Forward a, w => hipdnnConvolutionForward env a w
  | ConvCall.FindBackwardFilterEx a, w =>
    ((hipdnnFindConvolutionBackwardFilterAlgorithmEx env a w).outcome,
      (hipdnnFindConvolutionBackwardFilterAlgorithmEx env a w).world)
  | ConvCall.BackwardFilter a, w => hipdnnConvolutionBackwardFilter env a w
  | ConvCall.FindBackwardDataEx a, w =>
    ((hipdnnFindConvolutionBackwardDataAlgorithmEx env a w).outcome,
      (hipdnnFindConvolutionBackwardDataAlgorithmEx env a w).world)
  | ConvCall.BackwardData a, w => hipdnnConvolutionBackwardData env a w
  | ConvCall.Destroy convDesc, w => hipdnnDestroyConvolutionDescriptor env convDesc w

/-- Run a sequence of calls of a process, each with `run`: the state reached, and whether the
process is still running (a call that ends in `std::exit` or never ends is the last one). -/
def runCalls {C : Type} (run : C → World α → Outcome × World α) :
    List C → World α → Bool × World α
  | [], w => (true, w)
  | c :: cs, w =>
    match run c w with
    | (Outcome.returned _, w1) => runCalls run cs w1
    | (_, w1) => (false, w1)

/-- A pooling call. -/
inductive PoolCall
  | Forward (a : PoolFwdArgs)
  | Backward (a : PoolBwdArgs)
  deriving DecidableEq, Repr

/-- The output tensor descriptor of a pooling call, the key of its workspace. -/
def PoolCall.yDesc : PoolCall → Handle
  | PoolCall.Forward a => a.yDesc
  | PoolCall.Backward a => a.yDesc

/-- The pooling descriptor of a pooling call. -/
def PoolCall.poolingDesc : PoolCall → Handle
  | PoolCall.Forward a => a.poolingDesc
  | PoolCall.Backward a => a.poolingDesc

/-- Run one pooling call. -/
def PoolCall.run (env : Backend α) : PoolCall → World α → Outcome × World α
  | PoolCall.Forward a, w => hipdnnPoolingForward env a w
  | PoolCall.Backward a, w => hipdnnPoolingBackward env a w

/-- The backend primitive call of a pooling call, when handed the workspace `workSpace` of
`workSpaceSize` bytes (`miopenPoolingBackward` takes no size). -/
def PoolCall.primitive (c : PoolCall) (workSpace : DevPtr) (workSpaceSize : Nat) : Event :=
  match c with
  | PoolCall.Forward a =>
    Event.miopenPoolingForward a.handle a.poolingDesc a.alpha a.xDesc a.x a.beta a.yDesc a.y
      true workSpace workSpaceSize
  | PoolCall.Backward a =>
    Event.miopenPoolingBackward a.handle a.poolingDesc a.alpha a.yDesc a.y a.dyDesc a.dy
      a.xDesc a.x a.beta a.dxDesc a.dx workSpace

/-- No invalid release: every `hipFree` of the trace was accepted by the runtime, that is, it
was handed `NULL` or the address of an allocation outstanding at that moment (never an
address released before). -/
def validFrees (trace : List Event) : Prop :=
  ∀ p e, Event.hipFree p e ∈ trace → e = hipSuccess

/-- The outstanding allocations that are pooling workspaces stored under the key `yDesc`. -/
def poolBuffersOfKey (w : World α) (yDesc : Handle) : List Alloc :=
  w.live.filter (fun a =>
    match a.owner with
    | Owner.workspace Family.Pooling key _ => decide (key = yDesc)
    | _ => false)

/-- The outstanding allocations that are pooling workspaces allocated in a call made with the
pooling descriptor `poolingDesc`. -/
def poolBuffersOfDesc (w : World α) (poolingDesc : Handle) : List Alloc :=
  w.live.filter (fun a =>
    match a.owner with
    | Owner.workspace Family.Pooling _ d => decide (d = poolingDesc)
    | _ => false)

/-- The outstanding allocations that are convolution workspaces of the descriptor `convDesc`
(of any of the three convolution families). -/
def convBuffersOf (w : World α) (convDesc : Handle) : List Alloc :=
  w.live.filter (fun a =>
    match a.owner with
    | Owner.workspace Family.ForwardConvolution key _ => decide (key = convDesc)
    | Owner.workspace Family.BackwardDataConvolution key _ => decide (key = convDesc)
    | Owner.workspace Family.BackwardKernelConvolution key _ => decide (key = convDesc)
    | _ => false)

end Sequences

/-! ## A concrete backend, to run the definitions on -/

/-- A backend on integers that accepts every call, asks for 64 bytes of workspace, writes
zeros, reports rank-4 tensors of two elements, and allocates above every outstanding address;
its `CHECK_HIPDNN` terminates the process, and the element past the end of a stride array
yields what was stored there. -/
def demoBackend : Backend Int where
  status := fun _ _ => miopenStatusSuccess
  workSpaceSize := fun _ _ => 64
  output := fun _ _ _ => 0
  fwdPerf := fun _ _ => [⟨miopenConvolutionFwdAlgoGEMM, 1, 0⟩]
  bwdWeightsPerf := fun _ _ => [⟨miopenConvolutionBwdWeightsAlgoGEMM, 1, 0⟩]
  bwdDataPerf := fun _ _ => [⟨miopenConvolutionBwdDataAlgoGEMM, 1, 0⟩]
  tensorDims := fun _ _ => [2, 1, 1, 1]
  uninit := fun _ => 0
  hipMallocAddr := fun w _ => some ((w.live.map Alloc.ptr).foldr max 0 + 1)
  hipStatus := fun _ _ => hipSuccess
  CHECK_HIPDNN_exits := true
  NDEBUG := false
  pastTheEnd := fun _ v => v

/-- The state at process start with zeroed device and host memory. -/
def demoStart : World Int := World.start (fun _ _ => 0) (fun _ => 0)

/-- A forward convolution on descriptor `7`. -/
def demoFwdArgs : ConvFwdArgs :=
  ⟨1, HostPtr.user 100, 2, 10, 3, 11, 7, HIPDNN_CONVOLUTION_FWD_ALGO_GEMM, 0, 0,
    HostPtr.user 101, 4, 12⟩

/-- A forward algorithm search on descriptor `7`. -/
def demoFindFwdArgs : FindFwdArgs := ⟨1, 2, 10, 3, 11, 7, 4, 12, 1, 0, 0⟩

/-- A backward-data convolution on descriptor `7` with `beta` at host address `101`. -/
def demoBwdDataArgs : ConvBwdDataArgs :=
  ⟨1, HostPtr.user 100, 3, 11, 4, 12, 7, HIPDNN_CONVOLUTION_BWD_DATA_ALGO_0, 0, 0,
    HostPtr.user 101, 2, 10⟩

/-- A backward-filter convolution on descriptor `7` with `beta` at host address `101`. -/
def demoBwdFilterArgs : ConvBwdFilterArgs :=
  ⟨1, HostPtr.user 100, 2, 10, 4, 12, 7, HIPDNN_CONVOLUTION_BWD_FILTER_ALGO_0, 0, 0,
    HostPtr.user 101, 3, 11⟩

/-- A state in which descriptor `7` has the entry `(4096, 64)` in every convolution family. -/
def demoCached : World Int :=
  { demoStart with
    ws := fun _ => ⟨[(7, 4096)]⟩
    wsSize := fun _ => ⟨[(7, 64)]⟩
    live := [⟨4096, 64, Owner.workspace Family.ForwardConvolution 7 7⟩] }

/-- The demo backend, except that every workspace size query answers `0` bytes. -/
def demoBackendZero : Backend Int := { demoBackend with workSpaceSize := fun _ _ => 0 }

/-- A pair of maps of the forward family in which descriptor `7` has a pointer but no size. -/
def demoMismatch : World Int :=
  { demoStart with ws := fun _ => ⟨[(7, 4096)]⟩ }

/-- A pair of maps of every family in which descriptor `7` has the pointer `4096` and the
recorded size `0`. -/
def demoZeroSize : World Int :=
  { demoStart with
    ws := fun _ => ⟨[(7, 4096)]⟩
    wsSize := fun _ => ⟨[(7, 0)]⟩ }

/-- A pair of maps of every family in which descriptor `7` has a null pointer and the
recorded size `8`. -/
def demoNullPointer : World Int :=
  { demoStart with
    ws := fun _ => ⟨[(7, 0)]⟩
    wsSize := fun _ => ⟨[(7, 8)]⟩ }

section ReleaseDefs

variable {α : Type}

/-- The state `Free` leaves when it releases: the buffer handed to `hipFree`, both entries
erased. -/
def Free.released (convDesc : Handle) (fam : Family) (p : DevPtr) (w : World α) : World α :=
  (((hipFree p w).2).setWs fam ((w.ws fam).erase convDesc)).setWsSize fam
    ((w.wsSize fam).erase convDesc)

end ReleaseDefs

section InvariantDefs

variable {α : Type}

/-- The state a part of an entry point leaves, whether it goes on or ends the entry point. -/
def Step.world {β : Type} : Step α β → World α
  | Step.next _ w => w
  | Step.stop _ w => w

/-- A set of device allocations made by the rest of the process (tensors, filters, ...):
distinct non-null addresses, positive sizes, none tagged as made by the shim. -/
def ExternalHeap (live : List Alloc) : Prop :=
  (∀ a ∈ live, a.owner = Owner.external ∧ a.ptr ≠ 0) ∧ (live.map Alloc.ptr).Nodup

/-- Process start with the allocations `ext` of the rest of the process outstanding. -/
def World.startWith (ext : List Alloc) (mem : DevPtr → Nat → α) (host : Nat → α) : World α :=
  { World.start mem host with live := ext }

/-- Consistency of the workspace maps with the device heap:
* a pointer entry has a size entry, and a non-null pointer entry has a positive size and is an
  outstanding allocation made for that family and key;
* an outstanding workspace allocation is the entry of its family and key;
* outstanding allocations have distinct, non-null addresses. -/
def CacheInv (w : World α) : Prop :=
  (∀ fam key p, (w.ws fam).find key = some p →
    ∃ s, (w.wsSize fam).find key = some s ∧
      (p ≠ 0 → 0 < s ∧ ∃ d, (⟨p, s, Owner.workspace fam key d⟩ : Alloc) ∈ w.live)) ∧
  (∀ a ∈ w.live, ∀ fam key d, a.owner = Owner.workspace fam key d →
    (w.ws fam).find key = some a.ptr ∧ (w.wsSize fam).find key = some a.size) ∧
  (∀ a ∈ w.live, a.ptr ≠ 0) ∧
  (w.live.map Alloc.ptr).Nodup

/-- The maps agree with the heap and no `hipFree` so far was refused. -/
def Good (w : World α) : Prop := CacheInv w ∧ validFrees w.trace

end InvariantDefs

/-- A forward pooling on pooling descriptor `8` with output descriptor `4`. -/
def demoPoolFwdArgs : PoolFwdArgs := ⟨1, 8, HostPtr.user 100, 2, 10, HostPtr.user 101, 4, 12⟩

/-- A forward pooling on the same pooling descriptor `8` with output descriptor `5`. -/
def demoPoolFwdArgs2 : PoolFwdArgs := ⟨1, 8, HostPtr.user 100, 2, 10, HostPtr.user 101, 5, 13⟩

/-- A forward LRN on normalisation descriptor `9` with output descriptor `4`. -/
def demoLRNFwdArgs : LRNFwdArgs :=
  ⟨1, 9, HIPDNN_LRN_CROSS_CHANNEL, HostPtr.user 100, 2, 10, HostPtr.user 101, 4, 12⟩

/-- Three tensors of the rest of the process, at the device addresses `10`, `11` and `12`. -/
def demoExt : List Alloc :=
  [⟨10, 8, Owner.external⟩, ⟨11, 8, Owner.external⟩, ⟨12, 8, Owner.external⟩]

/-- A lifetime of descriptor `7`: search, forward, backward-filter and backward-data
convolutions, then its destruction. -/
def demoConvCalls : List ConvCall :=
  [ConvCall.FindForwardEx demoFindFwdArgs, ConvCall.Forward demoFwdArgs,
    ConvCall.BackwardFilter demoBwdFilterArgs, ConvCall.BackwardData demoBwdDataArgs,
    ConvCall.Destroy 7]

/-- A forward pooling on pooling descriptor `8` with output descriptor `7`. -/
def demoPoolFwdArgs7 : PoolFwdArgs := ⟨1, 8, HostPtr.user 100, 2, 10, HostPtr.user 101, 7, 12⟩

/-- Two forward poolings with the one pooling descriptor `8` and the output descriptors `4`
and `5`. -/
def demoPoolCalls : List PoolCall :=
  [PoolCall.Forward demoPoolFwdArgs, PoolCall.Forward demoPoolFwdArgs2]

section BackwardCalls

variable {α : Type}

/-- A call of one of the two entry points that emulate accumulation. -/
inductive BackwardCall
  | filter (a : ConvBwdFilterArgs)
  | data (a : ConvBwdDataArgs)
  deriving DecidableEq, Repr

namespace BackwardCall

/-- Run the call. -/
def run [Zero α] [Add α] [Mul α] [DecidableEq α] (env : Backend α) :
    BackwardCall → World α → Outcome × World α
  | filter a, w => hipdnnConvolutionBackwardFilter env a w
  | data a, w => hipdnnConvolutionBackwardData env a w

/-- The pair of maps the call uses. -/
def family : BackwardCall → Family
  | filter _ => Family.BackwardKernelConvolution
  | data _ => Family.BackwardDataConvolution

/-- Argument `convDesc`. -/
def convDesc : BackwardCall → Handle
  | filter a => a.convDesc
  | data a => a.convDesc

/-- The size query of the call on a miss. -/
def sizeQuery : BackwardCall → Event
  | filter a => backwardWeightsSizeQuery a.handle a.dyDesc a.xDesc a.convDesc a.dwDesc
  | data a => backwardDataSizeQuery a.handle a.dyDesc a.wDesc a.convDesc a.dxDesc

/-- The status of the translation of argument `algo`. -/
def algoStatus : BackwardCall → hipdnnStatus_t
  | filter a => (hipTomiopenConvolutionBwdFilterAlgo a.algo).1
  | data a => (hipTomiopenConvolutionBwdDataAlgo a.algo).1

/-- Argument `alpha`. -/
def alpha : BackwardCall → HostPtr
  | filter a => a.alpha
  | data a => a.alpha

/-- Argument `beta`. -/
def beta : BackwardCall → HostPtr
  | filter a => a.beta
  | data a => a.beta

/-- The destination array: argument `dw`, or `dx`. -/
def dst : BackwardCall → DevPtr
  | filter a => a.dw
  | data a => a.dx

/-- The descriptor of the destination: argument `dwDesc`, or `dxDesc`. -/
def dstDesc : BackwardCall → Handle
  | filter a => a.dwDesc
  | data a => a.dxDesc

/-- The backend primitive of the call, with the scaling factors `alpha` and `beta` and the
workspace `ws` it is handed. -/
def primitive (c : BackwardCall) (alpha beta : HostPtr) (ws : DevPtr × Nat) : Event :=
  match c with
  | filter a =>
    Event.miopenConvolutionBackwardWeights a.handle alpha a.dyDesc a.dy a.xDesc a.x a.convDesc
      (hipTomiopenConvolutionBwdFilterAlgo a.algo).2 beta a.dwDesc a.dw ws.1 ws.2
  | data a =>
    Event.miopenConvolutionBackwardData a.handle alpha a.dyDesc a.dy a.wDesc a.w a.convDesc
      (hipTomiopenConvolutionBwdDataAlgo a.algo).2 beta a.dxDesc a.dx ws.1 ws.2

end BackwardCall

end BackwardCalls

/-- The demo backend, except that every MIOpen call reports `miopenStatusBadParm`. -/
def demoBackendBadParm : Backend Int :=
  { demoBackend with status := fun _ _ => miopenStatusBadParm }

/-- A backend and a runtime that accept every call, with an allocator that always hands out
a non-null address that is not in use. -/
def Backend.Accepting {α : Type} (env : Backend α) : Prop :=
  (∀ w e, env.status w e = miopenStatusSuccess) ∧
  (∀ w e, env.hipStatus w e = hipSuccess) ∧
  (∀ w s, ∃ p, env.hipMallocAddr w s = some p ∧ p ≠ 0 ∧ p ∉ w.live.map Alloc.ptr)

/-- The demo backend, except that every primitive writes `7 + i` into element `i`. -/
def demoBackendSeven : Backend Int :=
  { demoBackend with output := fun _ _ i => 7 + (i : Int) }

/-- The demo backend, except that every tensor has the dimensions `300 x 1000 x 1 x 1`. -/
def demoBackendWide : Backend Int :=
  { demoBackend with tensorDims := fun _ _ => [300, 1000, 1, 1] }

/-- Process start with the three demo tensors outstanding, every device element `5` and
every host scaling factor `3`. -/
def demoAccum : World Int := World.startWith demoExt (fun _ _ => 5) (fun _ => 3)

/-- The demo backend, except that every primitive writes `7` everywhere and every tensor
has the dimensions `65536 x 65536 x 1 x 1`. -/
def demoBackendHuge : Backend Int :=
  { demoBackend with
    output := fun _ _ _ => 7
    tensorDims := fun _ _ => [65536, 65536, 1, 1] }

/-- As `demoAccum`, with room for `65536 * 65536` floats in the tensor at address `11`. -/
def demoHuge : World Int :=
  World.startWith
    [⟨10, 8, Owner.external⟩, ⟨11, 4 * (65536 * 65536 * 1 * 1), Owner.external⟩,
      ⟨12, 8, Owner.external⟩]
    (fun _ _ => 5) (fun _ => 3)

/-- The demo backend, except that every tensor has the rank-5 dimensions
`1 x 1 x 1 x 1 x 2`. -/
def demoBackendRank5 : Backend Int :=
  { demoBackend with tensorDims := fun _ _ => [1, 1, 1, 1, 2] }

/-- The demo backend, except that every tensor has the rank-2 dimensions `2 x 3` and the
stack holds `7` where `gradientArray` is not written. -/
def demoBackendRank2 : Backend Int :=
  { demoBackend with
    tensorDims := fun _ _ => [2, 3]
    uninit := fun _ => 7 }

/-! ## The indices a kernel thread visits -/

/-- The indices `i` at which the loop `for (size_t i = offset; i < N; i += stride)` of
`TensorAdd` runs its body, in order, from index `i` on; the control is that of
`TensorAdd.loop`. -/
def TensorAdd.loopIndices (N stride : Nat) : Nat → Nat → Option (List Nat)
  | 0, i => if i < N then none else some []
  | fuel + 1, i =>
    if i < N then
      (TensorAdd.loopIndices N stride fuel ((i + stride) % 2 ^ 64)).map (fun l => i :: l)
    else some []

/-- The indices the thread `hipThreadIdx_x` of block `hipBlockIdx_x` reads and writes in
kernel `TensorAdd` (lines 113-120), one per loop iteration. -/
def TensorAdd.indices (hipBlockIdx_x hipBlockDim_x hipThreadIdx_x hipGridDim_x : Nat) (N : Int) :
    Option (List Nat) :=
  let offset := (hipBlockIdx_x * hipBlockDim_x + hipThreadIdx_x) % 2 ^ 32
  let stride := (hipBlockDim_x * hipGridDim_x) % 2 ^ 32
  TensorAdd.loopIndices (toSizeT N) stride (toSizeT N / stride + 1) offset

/-! ## Batch normalisation backward -/

/-- Arguments of `hipdnnBatchNormalizationBackward`; `epsilon` is the bit pattern of the
`double`. -/
structure BatchNormBwdArgs where
  handle : Handle
  mode : hipdnnBatchNormMode_t
  alphaDataDiff : HostPtr
  betaDataDiff : HostPtr
  alphaParamDiff : HostPtr
  betaParamDiff : HostPtr
  xDesc : Handle
  x : DevPtr
  dyDesc : Handle
  dy : DevPtr
  dxDesc : Handle
  dx : DevPtr
  bnScaleBiasDiffDesc : Handle
  bnScale : DevPtr
  resultBnScaleDiff : DevPtr
  resultBnBiasDiff : DevPtr
  epsilon : Nat
  savedMean : DevPtr
  savedInvVariance : DevPtr
  deriving DecidableEq, Repr

/-- The call `miopenBatchNormalizationBackward` of an entry point called with `a`, with the
two `beta` pointers it is handed. -/
def BatchNormBwdArgs.primitive (a : BatchNormBwdArgs) (betaDataDiff betaParamDiff : HostPtr) :
    Event :=
  Event.miopenBatchNormalizationBackward a.handle (hipTomiopenBatchNormMode a.mode).2
    a.alphaDataDiff betaDataDiff a.alphaParamDiff betaParamDiff a.xDesc a.x a.dyDesc a.dy
    a.dxDesc a.dx a.bnScaleBiasDiffDesc a.bnScale a.resultBnScaleDiff a.resultBnBiasDiff
    a.epsilon a.savedMean a.savedInvVariance

section BatchNorm

variable {α : Type}

/-- What `miopenBatchNormalizationBackward` (external) writes into its three result arrays,
in the state and for the call it is made in. -/
structure BatchNormOutput (α : Type) where
  dx : World α → Event → Nat → α
  resultBnScaleDiff : World α → Event → Nat → α
  resultBnBiasDiff : World α → Event → Nat → α

/-- Run the call `e` of `miopenBatchNormalizationBackward`, which writes `dx`,
`resultBnScaleDiff` and `resultBnBiasDiff`: the status, and the state after the call. -/
def backendCallBN (env : Backend α) (out : BatchNormOutput α) (e : Event)
    (a : BatchNormBwdArgs) (w : World α) : miopenStatus_t × World α :=
  (env.status w e,
    (((w.emit e).writeMem a.dx (out.dx w e)).writeMem a.resultBnScaleDiff
      (out.resultBnScaleDiff w e)).writeMem a.resultBnBiasDiff (out.resultBnBiasDiff w e))

/-- Entry point `hipdnnBatchNormalizationBackward` (lines 2387-2443). -/
def hipdnnBatchNormalizationBackward [Zero α] [Add α] [Mul α] [DecidableEq α]
    (env : Backend α) (out : BatchNormOutput α) (a : BatchNormBwdArgs) (w : World α) :
    Outcome × World α :=
  match CHECK_HIPDNN env (hipTomiopenBatchNormMode a.mode).1 with
  | some o => (o, w)
  | none =>
    if w.deref a.betaDataDiff = 0 ∧ w.deref a.betaParamDiff = 0 then
      let r := backendCallBN env out (a.primitive a.betaDataDiff a.betaParamDiff) a w
      match CHECK_MIO r.1 with
      | some o => (o, r.2)
      | none => (Outcome.returned HIPDNN_STATUS_SUCCESS, r.2)
    else
      match SaveAsPriorBuffer env a.dx w with
      | Step.stop o w1 => (o, w1)
      | Step.next dxPrior w1 =>
        match SaveAsPriorBuffer env a.resultBnScaleDiff w1 with
        | Step.stop o w2 => (o, w2)
        | Step.next resultBnScaleDiffPrior w2 =>
          match SaveAsPriorBuffer env a.resultBnBiasDiff w2 with
          | Step.stop o w3 => (o, w3)
          | Step.next resultBnBiasDiffPrior w3 =>
            let r := backendCallBN env out
              (a.primitive HostPtr.tempBetaDataDiff HostPtr.tempBetaParamDiff) a w3
            match CHECK_MIO r.1 with
            | some o => (o, r.2)
            | none =>
              match accumulateGradients env a.dx dxPrior a.dxDesc a.betaDataDiff r.2 with
              | Step.stop o w4 => (o, w4)
              | Step.next _ w4 =>
                match accumulateGradients env a.resultBnScaleDiff resultBnScaleDiffPrior
                    a.bnScaleBiasDiffDesc a.betaParamDiff w4 with
                | Step.stop o w5 => (o, w5)
                | Step.next _ w5 =>
                  match accumulateGradients env a.resultBnBiasDiff resultBnBiasDiffPrior
                      a.bnScaleBiasDiffDesc a.betaParamDiff w5 with
                  | Step.stop o w6 => (o, w6)
                  | Step.next _ w6 =>
                    match deallocPrior dxPrior w6 with
                    | Step.stop o w7 => (o, w7)
                    | Step.next _ w7 =>
                      match deallocPrior resultBnBiasDiffPrior w7 with
                      | Step.stop o w8 => (o, w8)
                      | Step.next _ w8 =>
                        match deallocPrior resultBnScaleDiffPrior w8 with
                        | Step.stop o w9 => (o, w9)
                        | Step.next _ w9 => (Outcome.returned HIPDNN_STATUS_SUCCESS, w9)

end BatchNorm

/-! ## Descriptor setters -/

section Setters

variable {α : Type}

/-- Entry point `hipdnnSetTensor4dDescriptor` (lines 866-876). -/
def hipdnnSetTensor4dDescriptor (env : Backend α) (tensorDesc : Handle)
    (format : hipdnnTensorFormat_t) (dataType : hipdnnDataType_t) (n c h w : Int)
    (s : World α) : Outcome × World α :=
  match CHECK_HIPDNN env (hipTensorFormatSupported format) with
  | some o => (o, s)
  | none =>
    match CHECK_HIPDNN env (hipTomiopenDataType dataType).1 with
    | some o => (o, s)
    | none =>
      let r := backendQuery env
        (Event.miopenSet4dTensorDescriptor tensorDesc (hipTomiopenDataType dataType).2 n c h w) s
      match CHECK_MIO r.1 with
      | some o => (o, r.2)
      | none => (Outcome.returned HIPDNN_STATUS_SUCCESS, r.2)

/-- Entry point `hipdnnSetFilter4dDescriptor` (lines 880-890). -/
def hipdnnSetFilter4dDescriptor (env : Backend α) (filterDesc : Handle)
    (format : hipdnnTensorFormat_t) (dataType : hipdnnDataType_t) (k c h w : Int)
    (s : World α) : Outcome × World α :=
  match CHECK_HIPDNN env (hipTensorFormatSupported format) with
  | some o => (o, s)
  | none =>
    match CHECK_HIPDNN env (hipTomiopenDataType dataType).1 with
    | some o => (o, s)
    | none =>
      let r := backendQuery env
        (Event.miopenSet4dTensorDescriptor filterDesc (hipTomiopenDataType dataType).2 k c h w) s
      match CHECK_MIO r.1 with
      | some o => (o, r.2)
      | none => (Outcome.returned HIPDNN_STATUS_SUCCESS, r.2)

/-! ## The stride loops of `hipdnnSetFilterNdDescriptor`, access by access -/

/-- The two local arrays of `hipdnnSetFilterNdDescriptor` and its array argument. -/
inductive FilterNdArray
  | strideA
  | strideDimA
  | filterDimA
  deriving DecidableEq, Repr

/-- The number of elements of each array in a call with `nbDims`: the locals are declared
`int strideA[nbDims - 1]` and `int strideDimA[nbDims - 1]` (lines 2496 and 2503), and the
caller's `filterDimA` holds `nbDims` elements. -/
def FilterNdArray.declaredLength (nbDims : Int) : FilterNdArray → Int
  | .strideA => nbDims - 1
  | .strideDimA => nbDims - 1
  | .filterDimA => nbDims

/-- One access of an array element: the array, the index, and whether it is a store. -/
structure ArrayAccess where
  array : FilterNdArray
  index : Int
  store : Bool
  deriving DecidableEq, Repr

/-- The index of the access is inside the array. -/
def ArrayAccess.inBounds (nbDims : Int) (a : ArrayAccess) : Prop :=
  0 ≤ a.index ∧ a.index < a.array.declaredLength nbDims

instance (nbDims : Int) (a : ArrayAccess) : Decidable (a.inBounds nbDims) :=
  inferInstanceAs (Decidable (0 ≤ a.index ∧ a.index < a.array.declaredLength nbDims))

/-- A load of `arr[i]` from the storage `cells` (cell `i` is what the program last stored at
`arr + i`). Below the declared length the load yields the cell; at or past it the access is
outside the array and yields `pastEnd` of the cell, whatever the build makes of it. -/
def FilterNdArray.load (arr : FilterNdArray) (pastEnd : Int → Int) (nbDims : Int)
    (cells : Int → Int) (i : Int) : Int :=
  if i < arr.declaredLength nbDims then cells i else pastEnd (cells i)

/-- The loop `for (int k = nbDims - 1; k >= 0; k--) arr[k] = (k != nbDims - 1) ? arr[k + 1] *
filterDimA[k + 1] : 1;` (lines 2498-2501 for `strideA`, 2504-2507 for `strideDimA`), from
counter `k` on. The state is the storage at `arr` (cell `i` is the `int` last stored at
`arr + i`, whether or not `i` is below the declared length) and the accesses made so far;
`pastEnd` is what a load outside the array makes of the cell. The value is `none` when the
fuel runs out before the loop ends. -/
def strideLoop (pastEnd : Int → Int) (arr : FilterNdArray) (nbDims : Int)
    (filterDimA : Int → Int) :
    Nat → Int → (Int → Int) × List ArrayAccess → Option ((Int → Int) × List ArrayAccess)
  | 0, _, _ => none
  | fuel + 1, k, st =>
    if k ≥ 0 then
      if k ≠ nbDims - 1 then
        strideLoop pastEnd arr nbDims filterDimA fuel (k - 1)
          (Function.update st.1 k
              (wrapInt32 (arr.load pastEnd nbDims st.1 (k + 1) * filterDimA (k + 1))),
            st.2 ++ [⟨arr, k + 1, false⟩, ⟨FilterNdArray.filterDimA, k + 1, false⟩,
              ⟨arr, k, true⟩])
      else
        strideLoop pastEnd arr nbDims filterDimA fuel (k - 1)
          (Function.update st.1 k 1, st.2 ++ [⟨arr, k, true⟩])
    else some st

/-- The array argument `filterDimA` that holds the list `dims`. -/
def arrayOf (dims : List Int) (i : Int) : Int := dims.getD i.toNat 0

/-- Both stride loops of a call with `filterDimA` holding `dims` and `nbDims = dims.length`,
run on uninitialised storage `init`, in a build in which the element past the end of the
array yields what was stored there. The accesses are the same in every build
(`strideLoop_accesses_any`). -/
def strideLoops (dims : List Int) (init : Int → Int) (arr : FilterNdArray) :
    Option ((Int → Int) × List ArrayAccess) :=
  strideLoop (fun v => v) arr dims.length (arrayOf dims) (dims.length + 1)
    ((dims.length : Int) - 1) (init, [])

/-- The fully packed row-major strides of the dimensions `dims`, with `int` products: `1` for
the last dimension, and for each other dimension the `int` product of the next stride and the
next dimension. This is what the loops of `hipdnnSetFilterNdDescriptor` (lines 2497-2506)
would leave in arrays of `nbDims` elements, and what they leave in a build in which the
element past the end of the array yields what was stored there
(`strideLoops_eq_filterStrides`). The loops themselves are `strideLoop`. -/
def filterStrides : List Int → List Int
  | [] => []
  | [_] => [1]
  | _ :: d :: rest =>
    match filterStrides (d :: rest) with
    | [] => []
    | s :: ss => wrapInt32 (s * d) :: s :: ss

/-- Entry point `hipdnnSetFilterNdDescriptor` (lines 2488-2517), for `filterDimA` holding
`dims` with `nbDims = dims.length`. Argument `format` is not read. The loop over `strideA`
runs first, then the data type is translated, then the loop over `strideDimA` runs, and
`miopenSetTensorDescriptor` is handed `nbDims`, `filterDimA` and `strideDimA`, of which it
reads `nbDims` elements: the elements `0 .. nbDims - 2` of the array and the element past its
end. The call site is left with an unresolved merge conflict between `strideDimA` (side
`HEAD`, taken here) and `strideA`. Each local array starts as uninitialised storage, taken as
zeros: the loop stores every element before it loads it. -/
def hipdnnSetFilterNdDescriptor (env : Backend α) (filterDesc : Handle)
    (dataType : hipdnnDataType_t) (format : hipdnnTensorFormat_t) (dims : List Int)
    (s : World α) : Outcome × World α :=
  match strideLoop (env.pastTheEnd 0) FilterNdArray.strideA dims.length (arrayOf dims)
      (dims.length + 1) ((dims.length : Int) - 1) (fun _ => 0, []) with
  | none => (Outcome.hang, s)
  | some _ =>
    match CHECK_HIPDNN env (hipTomiopenDataType dataType).1 with
    | some o => (o, s)
    | none =>
      match strideLoop (env.pastTheEnd 1) FilterNdArray.strideDimA dims.length (arrayOf dims)
          (dims.length + 1) ((dims.length : Int) - 1) (fun _ => 0, []) with
      | none => (Outcome.hang, s)
      | some strideDimA =>
        let r := backendQuery env
          (Event.miopenSetTensorDescriptor filterDesc (hipTomiopenDataType dataType).2
            (dims.length : Int) dims
            ((List.range dims.length).map fun (i : Nat) =>
              FilterNdArray.strideDimA.load (env.pastTheEnd 2) dims.length strideDimA.1
                (i : Int))) s
        match CHECK_MIO r.1 with
        | some o => (o, r.2)
        | none => (Outcome.returned HIPDNN_STATUS_SUCCESS, r.2)

/-- Entry point `hipdnnSetConvolution2dDescriptor` (lines 1017-1026). Argument `computeType`
is not read. -/
def hipdnnSetConvolution2dDescriptor (env : Backend α) (convDesc : Handle)
    (pad_h pad_w u v upscalex upscaley : Int) (mode : hipdnnConvolutionMode_t)
    (computeType : hipdnnDataType_t) (s : World α) : Outcome × World α :=
  let r := backendQuery env
    (Event.miopenInitConvolutionDescriptor convDesc (hipTomiopenConvolutionMode mode) pad_h
      pad_w u v upscalex upscaley) s
  match CHECK_MIO r.1 with
  | some o => (o, r.2)
  | none => (Outcome.returned HIPDNN_STATUS_SUCCESS, r.2)

end Setters

/-- The external calls of one emulated accumulation after the get-or-allocate block, in the
order the specification gives them: snapshot (size query, allocation, device-to-device copy),
the backend primitive with the caller's `alpha` and `beta` forced to `0`, recombination
(descriptor query, `TensorAdd` launch, synchronize), release of the snapshot (size query,
`hipFree`). The arguments are what the runtime answered. -/
def BackwardCall.emulationCalls (c : BackwardCall) (ws : DevPtr × Nat) (size : Nat)
    (e1 e2 : hipError_t) (prior : DevPtr) (N : Int) (size1 : Nat) (e3 e4 : hipError_t) :
    List Event :=
  [Event.hipMemPtrGetInfo c.dst e1 size, Event.hipMalloc size e2 prior,
    Event.hipMemcpy prior c.dst size, c.primitive c.alpha HostPtr.tempBeta ws,
    Event.miopenGetTensorDescriptor c.dstDesc,
    Event.hipLaunchKernelGGL_TensorAdd 512 256 c.dst prior N, Event.hipDeviceSynchronize,
    Event.hipMemPtrGetInfo prior e3 size1, Event.hipFree prior e4]

/-- The demo backend, except that it refuses `miopenConvolutionBackwardWeights`. -/
def demoBackendNoWeights : Backend Int :=
  { demoBackend with
    status := fun _ e =>
      match e with
      | Event.miopenConvolutionBackwardWeights _ _ _ _ _ _ _ _ _ _ _ _ _ => miopenStatusBadParm
      | _ => miopenStatusSuccess }

/-- The heap `L` is the heap `L0` with snapshot buffers on top: non-empty allocations at
non-null addresses taken from `ps`. -/
def Snapshots (L0 L : List Alloc) (ps : List DevPtr) : Prop :=
  ∃ S : List Alloc, L = S ++ L0 ∧ ∀ a ∈ S, 0 < a.size ∧ a.ptr ≠ 0 ∧ a.ptr ∈ ps

/-- Whether an external call is a call of `miopenBatchNormalizationBackward`. -/
def Event.isBatchNormalizationBackward : Event → Bool
  | Event.miopenBatchNormalizationBackward _ _ _ _ _ _ _ _ _ _ _ _ _ _ _ _ _ _ _ => true
  | _ => false

/-- A batch-normalisation backward with `dx`, `resultBnScaleDiff` and `resultBnBiasDiff` at
the addresses `10`, `11` and `12`, `betaDataDiff` at host address `101` and `betaParamDiff` at
host address `102`. -/
def demoBNArgs : BatchNormBwdArgs :=
  ⟨1, hipdnnBatchNormMode_t.HIPDNN_BATCHNORM_SPATIAL, HostPtr.user 100, HostPtr.user 101,
    HostPtr.user 100, HostPtr.user 102, 2, 20, 4, 21, 5, 10, 6, 22, 11, 12, 0, 23, 24⟩

/-- A backend batch normalisation that writes `7 + i`, `8 + i` and `9 + i` into element `i`
of its three result arrays. -/
def demoBNOutput : BatchNormOutput Int :=
  ⟨fun _ _ i => 7 + (i : Int), fun _ _ i => 8 + (i : Int), fun _ _ i => 9 + (i : Int)⟩

/-- The demo backend with a device that has no memory left. -/
def demoBackendOOM : Backend Int :=
  { demoBackendSeven with hipMallocAddr := fun _ _ => none }

/-- As `demoAccum`, with room for `65536 * 65536` floats in each of the three tensors. -/
def demoHuge3 : World Int :=
  World.startWith
    [⟨10, 4 * (65536 * 65536 * 1 * 1), Owner.external⟩,
      ⟨11, 4 * (65536 * 65536 * 1 * 1), Owner.external⟩,
      ⟨12, 4 * (65536 * 65536 * 1 * 1), Owner.external⟩]
    (fun _ _ => 5) (fun _ => 3)

/-- The demo backend in a build whose `CHECK_HIPDNN` returns the status it is given. -/
def demoBackendReturns : Backend Int :=
  { demoBackend with CHECK_HIPDNN_exits := false }

/-- The demo backend, except that the `j`-th load from the element past the end of a stride
array yields `j` more than was stored there. -/
def demoBackendPastEnd : Backend Int :=
  { demoBackend with pastTheEnd := fun j v => v + (j : Int) }

/-! ## Status strings -/

/-- What a C variable of type `hipdnnStatus_t` can hold: one of the twelve enumerators, or
another integer. -/
inductive hipdnnStatusValue
  | named (status : hipdnnStatus_t)
  | other (code : Int)
  deriving DecidableEq, Repr

/-- Function `hipdnnGetErrorString` (lines 2763-2804). -/
def hipdnnGetErrorString : hipdnnStatusValue → String
  | .named HIPDNN_STATUS_SUCCESS => "HIPDNN_STATUS_SUCCESS"
  | .named HIPDNN_STATUS_NOT_INITIALIZED => "HIPDNN_STATUS_NOT_INITIALIZED"
  | .named HIPDNN_STATUS_ALLOC_FAILED => "HIPDNN_STATUS_ALLOC_FAILED"
  | .named HIPDNN_STATUS_BAD_PARAM => "HIPDNN_STATUS_BAD_PARAM"
  | .named HIPDNN_STATUS_INTERNAL_ERROR => "HIPDNN_STATUS_INTERNAL_ERROR"
  | .named HIPDNN_STATUS_INVALID_VALUE => "HIPDNN_STATUS_INVALID_VALUE"
  | .named HIPDNN_STATUS_ARCH_MISMATCH => "HIPDNN_STATUS_ARCH_MISMATCH"
  | .named HIPDNN_STATUS_MAPPING_ERROR => "HIPDNN_STATUS_MAPPING_ERROR"
  | .named HIPDNN_STATUS_EXECUTION_FAILED => "HIPDNN_STATUS_EXECUTION_FAILED"
  | .named HIPDNN_STATUS_NOT_SUPPORTED => "HIPDNN_STATUS_NOT_SUPPORTED"
  | .named HIPDNN_STATUS_LICENSE_ERROR => "HIPDNN_STATUS_LICENSE_ERROR"
  | .named HIPDNN_STATUS_RUNTIME_PREREQUISITE_MISSING =>
    "HIPDNN_STATUS_RUNTIME_PREREQUISITE_MISSING"
  | .other _ => "Unrecognized Status Code"

/-- The enumerator's name of a status code, as the header spells it after the common start
`HIPDNN_STATUS_`. -/
def hipdnnStatus_t.enumeratorName : hipdnnStatus_t → String
  | HIPDNN_STATUS_SUCCESS => "SUCCESS"
  | HIPDNN_STATUS_NOT_INITIALIZED => "NOT_INITIALIZED"
  | HIPDNN_STATUS_ALLOC_FAILED => "ALLOC_FAILED"
  | HIPDNN_STATUS_BAD_PARAM => "BAD_PARAM"
  | HIPDNN_STATUS_INTERNAL_ERROR => "INTERNAL_ERROR"
  | HIPDNN_STATUS_INVALID_VALUE => "INVALID_VALUE"
  | HIPDNN_STATUS_ARCH_MISMATCH => "ARCH_MISMATCH"
  | HIPDNN_STATUS_MAPPING_ERROR => "MAPPING_ERROR"
  | HIPDNN_STATUS_EXECUTION_FAILED => "EXECUTION_FAILED"
  | HIPDNN_STATUS_NOT_SUPPORTED => "NOT_SUPPORTED"
  | HIPDNN_STATUS_LICENSE_ERROR => "LICENSE_ERROR"
  | HIPDNN_STATUS_RUNTIME_PREREQUISITE_MISSING => "RUNTIME_PREREQUISITE_MISSING"

/-! ## Algorithm enumerators -/

/-- The cast `(miopenConvFwdAlgorithm_t)i`, with the enumerator values of MIOpen's header
(external): GEMM `0`, Direct `1`, FFT `2`, Winograd `3`. -/
def miopenConvFwdAlgorithm_t.ofInt (i : Int) : miopenConvFwdAlgorithm_t :=
  if i = 0 then miopenConvolutionFwdAlgoGEMM
  else if i = 1 then miopenConvolutionFwdAlgoDirect
  else if i = 2 then miopenConvolutionFwdAlgoFFT
  else if i = 3 then miopenConvolutionFwdAlgoWinograd
  else .other (i % 2 ^ 32).toNat

/-- The cast `(miopenConvBwdWeightsAlgorithm_t)i`, with the enumerator values of MIOpen's
header (external): GEMM `0`, Direct `1`. -/
def miopenConvBwdWeightsAlgorithm_t.ofInt (i : Int) : miopenConvBwdWeightsAlgorithm_t :=
  if i = 0 then miopenConvolutionBwdWeightsAlgoGEMM
  else if i = 1 then miopenConvolutionBwdWeightsAlgoDirect
  else .other (i % 2 ^ 32).toNat

/-- The cast `(miopenConvBwdDataAlgorithm_t)i`, with the enumerator values of MIOpen's header
(external): GEMM `0`, Direct `1`, FFT `2`, Winograd `3`, transpose GEMM `4`. -/
def miopenConvBwdDataAlgorithm_t.ofInt (i : Int) : miopenConvBwdDataAlgorithm_t :=
  if i = 0 then miopenConvolutionBwdDataAlgoGEMM
  else if i = 1 then miopenConvolutionBwdDataAlgoDirect
  else if i = 2 then miopenConvolutionBwdDataAlgoFFT
  else if i = 3 then miopenConvolutionBwdDataAlgoWinograd
  else if i = 4 then miopenTransposeBwdDataAlgoGEMM
  else .other (i % 2 ^ 32).toNat

section Enumerators

variable {α : Type}

/-- Function `ConvolutionFwdAlgoCount` (line 545). -/
def ConvolutionFwdAlgoCount : Int := 4

/-- Function `GetConvolutionFwdAlgo` (lines 550-562): how `CHECK_HIPDNN` ended the function,
if it did, and `retVal` (`none`: never written). -/
def GetConvolutionFwdAlgo (env : Backend α) (i : Int) :
    Option Outcome × Option hipdnnConvolutionFwdAlgo_t :=
  let mialgo :=
    if i < ConvolutionFwdAlgoCount then miopenConvFwdAlgorithm_t.ofInt i
    else miopenConvolutionFwdAlgoWinograd
  (CHECK_HIPDNN env (miopenTohipConvolutionFwdAlgo mialgo).1,
    (miopenTohipConvolutionFwdAlgo mialgo).2)

/-- Function `ConvolutionBwdFilterAlgoCount` (line 614). -/
def ConvolutionBwdFilterAlgoCount : Int := 2

/-- Function `GetConvolutionBwdFilterAlgo` (lines 619-633). -/
def GetConvolutionBwdFilterAlgo (env : Backend α) (i : Int) :
    Option Outcome × Option hipdnnConvolutionBwdFilterAlgo_t :=
  let mialgo :=
    if i < ConvolutionBwdFilterAlgoCount then miopenConvBwdWeightsAlgorithm_t.ofInt i
    else miopenConvolutionBwdWeightsAlgoGEMM
  (CHECK_HIPDNN env (miopenTohipConvolutionBwdFilterAlgo mialgo).1,
    (miopenTohipConvolutionBwdFilterAlgo mialgo).2)

/-- Function `ConvolutionBwdDataAlgoCount` (line 711). -/
def ConvolutionBwdDataAlgoCount : Int := 2

/-- Function `GetConvolutionBwdDataAlgo` (lines 716-730). -/
def GetConvolutionBwdDataAlgo (env : Backend α) (i : Int) :
    Option Outcome × Option hipdnnConvolutionBwdDataAlgo_t :=
  let mialgo :=
    if i < ConvolutionBwdDataAlgoCount then miopenConvBwdDataAlgorithm_t.ofInt i
    else miopenConvolutionBwdDataAlgoWinograd
  (CHECK_HIPDNN env (miopenTohipConvolutionBwdDataAlgo mialgo).1,
    (miopenTohipConvolutionBwdDataAlgo mialgo).2)

end Enumerators

/-- The demo backend, except that it refuses `miopenConvolutionForward`. -/
def demoBackendNoForward : Backend Int :=
  { demoBackend with
    status := fun _ e =>
      match e with
      | Event.miopenConvolutionForward _ _ _ _ _ _ _ _ _ _ _ _ _ => miopenStatusBadParm
      | _ => miopenStatusSuccess }

/-- A pooling backward on the output descriptor `4` of `demoPoolFwdArgs`. -/
def demoPoolBwdArgs : PoolBwdArgs :=
  ⟨1, 8, HostPtr.user 100, 4, 12, 5, 13, 2, 10, HostPtr.user 101, 3, 11⟩

/-! ## Pooling descriptor setters and getter -/

/-- NaN propagation option `hipdnnNanPropagation_t`. -/
inductive hipdnnNanPropagation_t
  | HIPDNN_NOT_PROPAGATE_NAN
  | HIPDNN_PROPAGATE_NAN
  deriving DecidableEq, Repr

open hipdnnNanPropagation_t

/-- The content of a backend pooling descriptor (external): the record
`miopenSet2dPoolingDescriptor` writes and `miopenGet2dPoolingDescriptor` reads back field by
field. -/
structure miopenPoolingDescriptor where
  mode : Option miopenPoolingMode_t
  windowHeight : Int
  windowWidth : Int
  pad_h : Int
  pad_w : Int
  u : Int
  v : Int
  deriving DecidableEq, Repr

/-- The record of backend descriptor `poolDesc` after the external calls `trace`: what the
last `miopenSet2dPoolingDescriptor` call on it stored (`none`: never set). -/
def poolingDescriptorOf (poolDesc : Handle) : List Event → Option miopenPoolingDescriptor
  | [] => none
  | e :: rest =>
    match poolingDescriptorOf poolDesc rest with
    | some d => some d
    | none =>
      match e with
      | Event.miopenSet2dPoolingDescriptor d mode windowHeight windowWidth pad_h pad_w u v =>
        if d = poolDesc then some ⟨mode, windowHeight, windowWidth, pad_h, pad_w, u, v⟩
        else none
      | _ => none

/-- The caller's variables behind the eight output pointers of
`hipdnnGetPooling2dDescriptor`. -/
structure Pooling2dOut where
  mode : hipdnnPoolingMode_t
  maxpoolingNanOpt : hipdnnNanPropagation_t
  windowHeight : Int
  windowWidth : Int
  verticalPadding : Int
  horizontalPadding : Int
  verticalStride : Int
  horizontalStride : Int
  deriving DecidableEq, Repr

section PoolingSetters

variable {α : Type}

/-- Entry point `hipdnnSetPooling2dDescriptor` (lines 1903-1918). Argument `maxpoolingNanOpt`
is not read. -/
def hipdnnSetPooling2dDescriptor (env : Backend α) (poolingDesc : Handle)
    (mode : hipdnnPoolingMode_t) (maxpoolingNanOpt : hipdnnNanPropagation_t)
    (windowHeight windowWidth verticalPadding horizontalPadding verticalStride
      horizontalStride : Int) (s : World α) : Outcome × World α :=
  match CHECK_HIPDNN env (hipTomiopenPoolingMode mode).1 with
  | some o => (o, s)
  | none =>
    let r := backendQuery env
      (Event.miopenSet2dPoolingDescriptor poolingDesc (hipTomiopenPoolingMode mode).2
        windowHeight windowWidth horizontalPadding verticalPadding horizontalStride
        verticalStride) s
    match CHECK_MIO r.1 with
    | some o => (o, r.2)
    | none => (Outcome.returned HIPDNN_STATUS_SUCCESS, r.2)

/-- Entry point `hipdnnSetPoolingNdDescriptor` (lines 2732-2759); the three array arguments
are given by their elements. Argument `maxpoolingNanOpt` is not read. -/
def hipdnnSetPoolingNdDescriptor (env : Backend α) (poolingDesc : Handle)
    (mode : hipdnnPoolingMode_t) (maxpoolingNanOpt : hipdnnNanPropagation_t) (nbDims : Int)
    (windowDimA paddingA strideA : Nat → Int) (s : World α) : Outcome × World α :=
  if nbDims = 2 then
    let windowHeight := windowDimA 0
    let windowWidth := windowDimA 1
    let pad_h := paddingA 0
    let pad_w := paddingA 1
    let u := strideA 0
    let v := strideA 1
    match CHECK_HIPDNN env (hipTomiopenPoolingMode mode).1 with
    | some o => (o, s)
    | none =>
      let r := backendQuery env
        (Event.miopenSet2dPoolingDescriptor poolingDesc (hipTomiopenPoolingMode mode).2
          windowHeight windowWidth pad_h pad_w u v) s
      match CHECK_MIO r.1 with
      | some o => (o, r.2)
      | none => (Outcome.returned HIPDNN_STATUS_SUCCESS, r.2)
  else (Outcome.returned HIPDNN_STATUS_NOT_SUPPORTED, s)

/-- Entry point `hipdnnGetPooling2dDescriptor` (lines 1922-1939). `out` holds the caller's
variables before the call; the value holds them after it. The backend stores the fields of
its record through the pointers it is given, position by position: `windowHeight`,
`windowWidth`, then `pad_h` and `pad_w` both through `horizontalPadding` (`padWLast` tells
which of these two stores comes last), `u` through `horizontalStride` and `v` through
`verticalStride`; nothing is stored through `verticalPadding`. `fresh` is the record of a
descriptor that was never set. A local `mipmmode` that holds no mode is taken to be a value
the translator does not know. -/
def hipdnnGetPooling2dDescriptor (env : Backend α) (poolingDesc : Handle)
    (fresh : miopenPoolingDescriptor) (padWLast : Bool) (out : Pooling2dOut) (s : World α) :
    Outcome × World α × Pooling2dOut :=
  let d := (poolingDescriptorOf poolingDesc s.trace).getD fresh
  let r := backendQuery env (Event.miopenGet2dPoolingDescriptor poolingDesc) s
  let mipmmode := d.mode
  let out1 : Pooling2dOut :=
    { out with
      windowHeight := d.windowHeight
      windowWidth := d.windowWidth
      horizontalPadding := if padWLast then d.pad_w else d.pad_h
      horizontalStride := d.u
      verticalStride := d.v }
  match CHECK_MIO r.1 with
  | some o => (o, r.2, out1)
  | none =>
    let out2 : Pooling2dOut := { out1 with maxpoolingNanOpt := HIPDNN_PROPAGATE_NAN }
    let t : hipdnnStatus_t × Option hipdnnPoolingMode_t :=
      match mipmmode with
      | some m => miopenTohipPoolingMode m
      | none => (HIPDNN_STATUS_NOT_SUPPORTED, none)
    let out3 : Pooling2dOut := { out2 with mode := t.2.getD out2.mode }
    match CHECK_HIPDNN env t.1 with
    | some o => (o, r.2, out3)
    | none => (Outcome.returned HIPDNN_STATUS_SUCCESS, r.2, out3)

end PoolingSetters

/-- Caller's variables before a `hipdnnGetPooling2dDescriptor` call of the demo: every
integer holds `7`. -/
def demoPoolingOut : Pooling2dOut :=
  ⟨hipdnnPoolingMode_t.other 9, hipdnnNanPropagation_t.HIPDNN_NOT_PROPAGATE_NAN, 7, 7, 7, 7,
    7, 7⟩

/-- A backend pooling descriptor nobody has set. -/
def demoFreshPooling : miopenPoolingDescriptor := ⟨none, 0, 0, 0, 0, 0, 0⟩

/-! ## CPU reference max pooling of the tests -/

/-- Structure `test_2dpool_desc_t` (test_pooling_fwd_common.hpp, lines 21-28). -/
structure test_2dpool_desc_t where
  mb : Int
  c : Int
  ih : Int
  iw : Int
  oh : Int
  ow : Int
  kh : Int
  kw : Int
  padt : Int
  padl : Int
  strh : Int
  strw : Int
  deriving DecidableEq, Repr

/-- The locals `acc_ref`, `out_ref_index` and `is_initialized` of
`compute_cpuref_maxpool_fwd`. -/
structure MaxpoolAcc (α : Type) where
  acc_ref : α
  out_ref_index : Int
  is_initialized : Bool

section Maxpool

variable {α : Type} [LinearOrder α]

/-- The body of the two window loops of `compute_cpuref_maxpool_fwd` (lines 53-75) for one
`(kh, kw)`: the locals, and the indices of `src` read so far. -/
def maxpoolWindowStep (pd : test_2dpool_desc_t) (src : Nat → α) (n c oh ow : Int)
    (st : MaxpoolAcc α × List Nat) (kh kw : Int) : MaxpoolAcc α × List Nat :=
  let ih := wrapInt32 (wrapInt32 (wrapInt32 (oh * pd.strh) - pd.padt) + kh)
  let iw := wrapInt32 (wrapInt32 (wrapInt32 (ow * pd.strw) - pd.padl) + kw)
  if ih < 0 ∨ ih ≥ pd.ih then st
  else if iw < 0 ∨ iw ≥ pd.iw then st
  else
    let iidx := (toSizeT n * toSizeT pd.c * toSizeT pd.ih * toSizeT pd.iw
      + toSizeT c * toSizeT pd.ih * toSizeT pd.iw + toSizeT ih * toSizeT pd.iw + toSizeT iw)
      % 2 ^ 64
    let d := src iidx
    if ¬ st.1.is_initialized then
      (⟨d, wrapInt32 (wrapInt32 (kh * pd.kw) + kw), true⟩, st.2 ++ [iidx])
    else if st.1.acc_ref < d then
      (⟨d, wrapInt32 (wrapInt32 (kh * pd.kw) + kw), true⟩, st.2 ++ [iidx])
    else (st.1, st.2 ++ [iidx])

/-- The two window loops (lines 50-76) for the output position `(n, c, oh, ow)`, from
`acc_ref = lowest`. -/
def maxpoolWindow (lowest : α) (pd : test_2dpool_desc_t) (src : Nat → α) (n c oh ow : Int) :
    MaxpoolAcc α × List Nat :=
  (List.range pd.kh.toNat).foldl
    (fun st (kh : Nat) => (List.range pd.kw.toNat).foldl
      (fun st (kw : Nat) => maxpoolWindowStep pd src n c oh ow st (kh : Int) (kw : Int)) st)
    (⟨lowest, 0, false⟩, [])

/-- The body of the four outer loops (lines 39-81) for the output position `(n, c, oh, ow)`.
The state is the array `dst`, the indices of `src` read so far, and the indices of `dst`
written so far. -/
def maxpoolOutputStep (lowest : α) (pd : test_2dpool_desc_t) (src : Nat → α)
    (st : (Nat → α) × List Nat × List Nat) (n c oh ow : Int) :
    (Nat → α) × List Nat × List Nat :=
  let oidx := (toSizeT n * toSizeT pd.c * toSizeT pd.oh * toSizeT pd.ow
    + toSizeT c * toSizeT pd.oh * toSizeT pd.ow + toSizeT oh * toSizeT pd.ow + toSizeT ow)
    % 2 ^ 64
  let r := maxpoolWindow lowest pd src n c oh ow
  (Function.update st.1 oidx r.1.acc_ref, st.2.1 ++ r.2, st.2.2 ++ [oidx])

/-- Function `compute_cpuref_maxpool_fwd` (test_pooling_fwd_common.hpp, lines 33-86), with
`lowest` for `std::numeric_limits<dataType>::lowest()`: the array `dst` after the call, the
indices of `src` it read and the indices of `dst` it wrote. -/
def compute_cpuref_maxpool_fwd (lowest : α) (pd : test_2dpool_desc_t) (src dst : Nat → α) :
    (Nat → α) × List Nat × List Nat :=
  (List.range pd.mb.toNat).foldl
    (fun st (n : Nat) => (List.range pd.c.toNat).foldl
      (fun st (c : Nat) => (List.range pd.oh.toNat).foldl
        (fun st (oh : Nat) => (List.range pd.ow.toNat).foldl
          (fun st (ow : Nat) =>
            maxpoolOutputStep lowest pd src st (n : Int) (c : Int) (oh : Int) (ow : Int))
          st) st) st)
    (dst, [], [])

/-- The pairs `(kh, kw)` with `0 <= kh < KH` and `0 <= kw < KW`, in the order of the two
window loops. -/
def windowPairs (pd : test_2dpool_desc_t) : List (Nat × Nat) :=
  (List.range pd.kh.toNat).flatMap fun kh => (List.range pd.kw.toNat).map fun kw => (kh, kw)

/-- The window position `(ih, iw) = (oh * strh - padt + kh, ow * strw - padl + kw)` of the
output position `(oh, ow)` for the window element `k = (kh, kw)`, as the specification words
it (exact integers). -/
def windowPositionOf (pd : test_2dpool_desc_t) (oh ow : Int) (k : Nat × Nat) : Int × Int :=
  (oh * pd.strh - pd.padt + (k.1 : Int), ow * pd.strw - pd.padl + (k.2 : Int))

/-- The position `(ih, iw)` lies inside the input: `0 <= ih < IH` and `0 <= iw < IW`. -/
def test_2dpool_desc_t.inside (pd : test_2dpool_desc_t) (p : Int × Int) : Prop :=
  0 ≤ p.1 ∧ p.1 < pd.ih ∧ 0 ≤ p.2 ∧ p.2 < pd.iw

instance (pd : test_2dpool_desc_t) (p : Int × Int) : Decidable (pd.inside p) :=
  inferInstanceAs (Decidable (0 ≤ p.1 ∧ p.1 < pd.ih ∧ 0 ≤ p.2 ∧ p.2 < pd.iw))

/-- The index `((n * C + c) * IH + ih) * IW + iw` of the input element `(n, c, ih, iw)`. -/
def srcIndex (pd : test_2dpool_desc_t) (n c : Int) (p : Int × Int) : Nat :=
  (((n * pd.c + c) * pd.ih + p.1) * pd.iw + p.2).toNat

/-- The index `((n * C + c) * OH + oh) * OW + ow` of the output element `(n, c, oh, ow)`. -/
def dstIndex (pd : test_2dpool_desc_t) (n c oh ow : Int) : Nat :=
  (((n * pd.c + c) * pd.oh + oh) * pd.ow + ow).toNat

/-- The window positions of the output position `(oh, ow)` that lie inside the input. -/
def windowPositions (pd : test_2dpool_desc_t) (oh ow : Int) : List (Int × Int) :=
  ((windowPairs pd).map (windowPositionOf pd oh ow)).filter fun p => pd.inside p

/-- The output positions `(n, c, oh, ow)` in the order of the four outer loops. -/
def outputPositions (pd : test_2dpool_desc_t) : List (Nat × Nat × Nat × Nat) :=
  (List.range pd.mb.toNat).flatMap fun n =>
    (List.range pd.c.toNat).flatMap fun c =>
      (List.range pd.oh.toNat).flatMap fun oh =>
        (List.range pd.ow.toNat).map fun ow => (n, c, oh, ow)

/-- The values of `src` at the window positions of `(n, c, oh, ow)` that lie inside the
input, as the specification words them. -/
def windowValues (pd : test_2dpool_desc_t) (src : Nat → α) (n c oh ow : Int) : List α :=
  (windowPositions pd oh ow).map fun p => src (srcIndex pd n c p)

/-- The value `v` is the maximum of the list `vals`, or `lowest` when the list is empty. -/
def IsWindowMax (lowest : α) (vals : List α) (v : α) : Prop :=
  (vals = [] → v = lowest) ∧ (vals ≠ [] → v ∈ vals) ∧ ∀ x ∈ vals, x ≤ v

/-- The locals of the window loops after the values `vals` were read: nothing read yet and
`acc_ref` at `lowest`, or `acc_ref` at the maximum of `vals`. -/
def MaxpoolAcc.Holds (lowest : α) (a : MaxpoolAcc α) (vals : List α) : Prop :=
  (a.is_initialized = false → vals = [] ∧ a.acc_ref = lowest) ∧
  (a.is_initialized = true → a.acc_ref ∈ vals ∧ ∀ x ∈ vals, x ≤ a.acc_ref)

end Maxpool

/-- A descriptor whose sizes are within the range of `int`, whose window positions are
computed without `int` overflow, and whose arrays have fewer than `2 ^ 64` elements. -/
def test_2dpool_desc_t.InRange (pd : test_2dpool_desc_t) : Prop :=
  (0 ≤ pd.mb ∧ 0 ≤ pd.c ∧ 0 ≤ pd.ih ∧ 0 ≤ pd.iw ∧ 0 ≤ pd.oh ∧ 0 ≤ pd.ow) ∧
  (0 ≤ pd.kh ∧ 0 ≤ pd.kw ∧ 0 ≤ pd.padt ∧ 0 ≤ pd.padl ∧ 0 ≤ pd.strh ∧ 0 ≤ pd.strw) ∧
  (pd.mb < 2 ^ 31 ∧ pd.c < 2 ^ 31 ∧ pd.ih < 2 ^ 31 ∧ pd.iw < 2 ^ 31 ∧ pd.oh < 2 ^ 31 ∧
    pd.ow < 2 ^ 31) ∧
  (pd.padt < 2 ^ 31 ∧ pd.padl < 2 ^ 31) ∧
  (pd.oh * pd.strh + pd.kh ≤ 2 ^ 31 ∧ pd.ow * pd.strw + pd.kw ≤ 2 ^ 31) ∧
  (pd.mb * pd.c * pd.ih * pd.iw < 2 ^ 64 ∧ pd.mb * pd.c * pd.oh * pd.ow < 2 ^ 64)

instance (pd : test_2dpool_desc_t) : Decidable pd.InRange := by
  unfold test_2dpool_desc_t.InRange
  infer_instance

/-- The descriptor of the test `func_check_zero_padding`: a `4 x 4` input, a `2 x 2` window
with stride `2` and no padding, a `2 x 2` output. -/
def demoPool : test_2dpool_desc_t := ⟨1, 1, 4, 4, 2, 2, 2, 2, 0, 0, 2, 2⟩

/-- A descriptor whose vertical stride is the largest `int`. -/
def demoPoolHugeStride : test_2dpool_desc_t := ⟨1, 1, 1, 1, 3, 1, 3, 1, 0, 0, 2147483647, 1⟩

/-! # Theorems -/

/-! ## `std::map` facts -/

theorem lookup_cons_eq {V : Type} (k : Handle) (v : V) (l : List (Handle × V)) :
    List.lookup k ((k, v) :: l) = some v := by
  simp [List.lookup]

theorem lookup_cons_ne {V : Type} (k k0 : Handle) (v : V) (l : List (Handle × V)) (h : k ≠ k0) :
    List.lookup k ((k0, v) :: l) = List.lookup k l := by
  have h1 : (k == k0) = false := by simpa using h
  simp [List.lookup, h1]

theorem lookup_insertSorted {V : Type} (k k1 : Handle) (v : V) (l : List (Handle × V)) :
    (insertSorted k v l).lookup k1 = if k1 = k then some v else l.lookup k1 := by
  induction l with
  | nil =>
    by_cases h : k1 = k
    · subst h; simp [insertSorted, lookup_cons_eq]
    · simp [insertSorted, lookup_cons_ne _ _ _ _ h, h]
  | cons hd t ih =>
    obtain ⟨k0, v0⟩ := hd
    simp only [insertSorted]
    by_cases h : k1 = k
    · subst h
      rw [if_pos rfl]
      by_cases h1 : k1 < k0
      · rw [if_pos h1, lookup_cons_eq]
      · rw [if_neg h1]
        by_cases h2 : k1 = k0
        · rw [if_pos h2, lookup_cons_eq]
        · rw [if_neg h2, lookup_cons_ne _ _ _ _ h2, ih, if_pos rfl]
    · rw [if_neg h]
      by_cases h1 : k < k0
      · rw [if_pos h1, lookup_cons_ne _ _ _ _ h]
      · rw [if_neg h1]
        by_cases h2 : k = k0
        · rw [if_pos h2]
          subst h2
          rw [lookup_cons_ne _ _ _ _ h, lookup_cons_ne _ _ _ _ h]
        · rw [if_neg h2]
          by_cases h3 : k1 = k0
          · subst h3
            rw [lookup_cons_eq, lookup_cons_eq]
          · rw [lookup_cons_ne _ _ _ _ h3, lookup_cons_ne _ _ _ _ h3, ih, if_neg h]

theorem lookup_filter_ne {V : Type} (k k1 : Handle) (l : List (Handle × V)) :
    (l.filter (fun e => decide (e.1 ≠ k))).lookup k1 = if k1 = k then none else l.lookup k1 := by
  induction l with
  | nil => simp [List.lookup]
  | cons hd t ih =>
    obtain ⟨k0, v0⟩ := hd
    by_cases h0 : k0 = k
    · rw [List.filter_cons_of_neg (by simpa using h0), ih]
      by_cases h1 : k1 = k
      · rw [if_pos h1, if_pos h1]
      · rw [if_neg h1, if_neg h1, lookup_cons_ne _ _ _ _ (by rw [h0]; exact h1)]
    · rw [List.filter_cons_of_pos (by simpa using h0)]
      by_cases h4 : k1 = k0
      · subst h4
        rw [lookup_cons_eq, lookup_cons_eq, if_neg h0]
      · rw [lookup_cons_ne _ _ _ _ h4, lookup_cons_ne _ _ _ _ h4, ih]

namespace StdMap

variable {V : Type}

theorem find_set (m : StdMap V) (k k1 : Handle) (v : V) :
    (m.set k v).find k1 = if k1 = k then some v else m.find k1 :=
  lookup_insertSorted k k1 v m.entries

theorem find_erase (m : StdMap V) (k k1 : Handle) :
    (m.erase k).find k1 = if k1 = k then none else m.find k1 :=
  lookup_filter_ne k k1 m.entries

theorem get_of_find (m : StdMap V) (k : Handle) (v dflt : V) (h : m.find k = some v) :
    m.get k dflt = (v, m) := by
  simp [get, h]

theorem get_of_find_none (m : StdMap V) (k : Handle) (dflt : V) (h : m.find k = none) :
    m.get k dflt = (dflt, m.set k dflt) := by
  simp [get, h]

end StdMap

/-! ## State bookkeeping -/

section Bookkeeping

variable {α : Type}

theorem World.setWs_self (w : World α) (fam : Family) : w.setWs fam (w.ws fam) = w := by
  cases w; simp [World.setWs]

theorem World.setWsSize_self (w : World α) (fam : Family) :
    w.setWsSize fam (w.wsSize fam) = w := by
  cases w; simp [World.setWsSize]

theorem CHECK_MIO_none (s : miopenStatus_t) (h : CHECK_MIO s = none) :
    s = miopenStatusSuccess := by
  cases s <;> simp [ CHECK_MIO, miopenTohipdnnStatus] at h ⊢

theorem CHECK_MIO_some (s : miopenStatus_t) (o : Outcome) (h : CHECK_MIO s = some o) :
    o = Outcome.exited := by
  unfold CHECK_MIO at h
  split_ifs at h
  exact (Option.some.inj h).symm

theorem CHECK_HIP_none (e : hipError_t) (h : CHECK_HIP e = none) : e = hipSuccess := by
  unfold CHECK_HIP at h
  split_ifs at h with h1
  exact not_not.1 h1

theorem CHECK_HIP_some (e : hipError_t) (o : Outcome) (h : CHECK_HIP e = some o) :
    o = Outcome.exited := by
  unfold CHECK_HIP at h
  split_ifs at h
  exact (Option.some.inj h).symm

theorem CHECK_HIPDNN_some (env : Backend α) (s : hipdnnStatus_t) (o : Outcome)
    (h : CHECK_HIPDNN env s = some o) : o ≠ Outcome.returned HIPDNN_STATUS_SUCCESS := by
  unfold CHECK_HIPDNN at h
  split_ifs at h with h1 h2
  · rw [← Option.some.inj h]; simp
  · rw [← Option.some.inj h]
    intro h3
    exact h1 (Outcome.returned.inj h3)

/-- What `hipMalloc` leaves, field by field. -/
theorem hipMalloc_frame (env : Backend α) (size : Nat) (owner : Owner) (w : World α) :
    (hipMalloc env size owner w).2.2.ws = w.ws ∧
    (hipMalloc env size owner w).2.2.wsSize = w.wsSize ∧
    (hipMalloc env size owner w).2.2.mem = w.mem ∧
    (hipMalloc env size owner w).2.2.host = w.host ∧
    (hipMalloc env size owner w).2.2.trace =
      w.trace ++ [Event.hipMalloc size (hipMalloc env size owner w).1
        (hipMalloc env size owner w).2.1] := by
  unfold hipMalloc
  split_ifs with h1
  · simp [World.emit]
  · cases h : env.hipMallocAddr w size with
    | none => simp [World.emit]
    | some p =>
      simp only []
      split_ifs with h2
      · simp
      · simp [World.emit]

/-- The get-or-allocate block on a hit: the cached pair is handed on and nothing changes. -/
theorem acquireWorkSpace_hit (env : Backend α) (fam : Family) (key opDesc : Handle)
    (q : Event) (w : World α) (p : DevPtr) (s : Nat)
    (hp : (w.ws fam).find key = some p) (hs : (w.wsSize fam).find key = some s) :
    acquireWorkSpace env fam key opDesc q w = Step.next (p, s) w := by
  unfold acquireWorkSpace
  rw [if_neg (by simp [hp])]
  simp only [StdMap.get_of_find _ _ _ _ hp, World.setWs_self]
  simp only [StdMap.get_of_find _ _ _ _ hs, World.setWsSize_self]

/-- The get-or-allocate block never ends the entry point by a `return`. -/
theorem acquireWorkSpace_stop (env : Backend α) (fam : Family) (key opDesc : Handle)
    (q : Event) (w w1 : World α) (o : Outcome)
    (h : acquireWorkSpace env fam key opDesc q w = Step.stop o w1) : o = Outcome.exited := by
  unfold acquireWorkSpace at h
  split_ifs at h with h1
  simp only [] at h
  split at h
  · rename_i o1 ho
    cases h
    exact CHECK_MIO_some _ _ ho
  · split at h
    · rename_i o1 ho
      cases h
      exact CHECK_HIP_some _ _ ho
    · cases h

/-- The get-or-allocate block on a miss that goes on: one size query, one `hipMalloc`, and the
pair is stored under the key. -/
theorem acquireWorkSpace_miss (env : Backend α) (fam : Family) (key opDesc : Handle)
    (q : Event) (w w1 : World α) (v : DevPtr × Nat)
    (hmiss : (w.ws fam).find key = none)
    (h : acquireWorkSpace env fam key opDesc q w = Step.next v w1) :
    v.2 = env.workSpaceSize w q ∧
    w1.trace = w.trace ++ [q, Event.hipMalloc v.2 hipSuccess v.1] ∧
    (w1.ws fam).find key = some v.1 ∧ (w1.wsSize fam).find key = some v.2 := by
  unfold acquireWorkSpace at h
  rw [if_pos hmiss] at h
  simp only [] at h
  split at h
  · cases h
  · split at h
    · cases h
    · rename_i hm
      have hf := hipMalloc_frame env (env.workSpaceSize w q)
        (Owner.workspace fam key opDesc) (backendQuery env q w).2
      have he := CHECK_HIP_none _ hm
      cases h
      refine ⟨rfl, ?_, ?_, ?_⟩
      · simp only [World.setWs, World.setWsSize]
        rw [hf.2.2.2.2, he]
        simp [backendQuery, World.emit]
      · simp [World.setWs, World.setWsSize, StdMap.find_set]
      · simp [World.setWs, World.setWsSize, StdMap.find_set]

end Bookkeeping
/-! ## Forward-convolution family -/

section ForwardFamily

variable {α : Type}

/-- A `new[]` that ends the entry point ends the process. -/
theorem newPerfResults_some (n : Int) (o : Outcome) (h : newPerfResults n = some o) :
    o = Outcome.exited := by
  unfold newPerfResults at h
  split_ifs at h
  exact (Option.some.inj h).symm

/-- With a negative `requestedAlgoCount`, `hipdnnFindConvolutionBackwardDataAlgorithmEx` ends
the process at its `new[]`, before any external call. -/
theorem hipdnnFindConvolutionBackwardDataAlgorithmEx_negative (env : Backend α)
    (a : FindBwdDataArgs) (w : World α) (h : a.requestedAlgoCount < 0) :
    hipdnnFindConvolutionBackwardDataAlgorithmEx env a w = ⟨Outcome.exited, w, []⟩ := by
  unfold hipdnnFindConvolutionBackwardDataAlgorithmEx
  simp [newPerfResults, h]

/-- With a negative `requestedAlgoCount` and three pointers that pass the assertions,
`hipdnnFindConvolutionForwardAlgorithmEx` and
`hipdnnFindConvolutionBackwardFilterAlgorithmEx` end the process at their `new[]`, before any
external call. -/
theorem hipdnnFindConvolutionForwardAlgorithmEx_negative (env : Backend α)
    (a : FindFwdArgs) (b : FindBwdFilterArgs) (w : World α)
    (ha : a.requestedAlgoCount < 0) (hb : b.requestedAlgoCount < 0)
    (h1 : a.x ≠ 0) (h2 : a.w ≠ 0) (h3 : a.y ≠ 0) (h4 : b.x ≠ 0) (h5 : b.dy ≠ 0)
    (h6 : b.dw ≠ 0) :
    hipdnnFindConvolutionForwardAlgorithmEx env a w = ⟨Outcome.exited, w, []⟩ ∧
    hipdnnFindConvolutionBackwardFilterAlgorithmEx env b w = ⟨Outcome.exited, w, []⟩ := by
  unfold hipdnnFindConvolutionForwardAlgorithmEx hipdnnFindConvolutionBackwardFilterAlgorithmEx
  simp [newPerfResults, assertPtr, ha, hb, h1, h2, h3, h4, h5, h6]

theorem assertPtr_some (env : Backend α) (p : DevPtr) (o : Outcome)
    (h : assertPtr env p = some o) : o = Outcome.exited := by
  unfold assertPtr at h
  split_ifs at h
  exact (Option.some.inj h).symm

/-- A forward-family call that returns success went through its get-or-allocate block and then
made exactly one backend call, with the pair the block handed on. -/
theorem ForwardCall.run_ok (env : Backend α) (c : ForwardCall) (w : World α)
    (hok : (c.run env w).1 = Outcome.returned HIPDNN_STATUS_SUCCESS) :
    ∃ v w1, acquireWorkSpace env Family.ForwardConvolution c.convDesc c.convDesc c.sizeQuery w
        = Step.next v w1 ∧
      (c.run env w).2.trace = w1.trace ++ [c.primitive v.1 v.2] ∧
      (c.run env w).2.ws = w1.ws ∧ (c.run env w).2.wsSize = w1.wsSize := by
  cases c with
  | compute a =>
    simp only [ForwardCall.run, ForwardCall.convDesc, ForwardCall.sizeQuery,
      ForwardCall.primitive] at hok ⊢
    unfold hipdnnConvolutionForward at hok ⊢
    cases hacq : acquireWorkSpace env Family.ForwardConvolution a.convDesc a.convDesc
        (forwardSizeQuery a.handle a.wDesc a.xDesc a.convDesc a.yDesc) w with
    | stop o w1 =>
      rw [hacq] at hok
      have := acquireWorkSpace_stop _ _ _ _ _ _ _ _ hacq
      subst this
      simp at hok
    | next v w1 =>
      rw [hacq] at hok
      simp only [hipdnnConvolutionForward.compute] at hok ⊢
      cases hc : CHECK_HIPDNN env (hipTomiopenConvolutionFwdAlgo a.algo).1 with
      | some o =>
        rw [hc] at hok
        exact absurd hok (CHECK_HIPDNN_some _ _ _ hc)
      | none =>
        rw [hc] at hok
        simp only [] at hok ⊢
        split at hok
        · rename_i o ho
          have := CHECK_MIO_some _ _ ho
          subst this
          simp at hok
        · refine ⟨v, w1, rfl, ?_⟩
          simp [backendCall, World.emit, World.writeMem]
  | find a =>
    simp only [ForwardCall.run, ForwardCall.convDesc, ForwardCall.sizeQuery,
      ForwardCall.primitive] at hok ⊢
    unfold hipdnnFindConvolutionForwardAlgorithmEx at hok ⊢
    cases e1 : assertPtr env a.x with
    | some o =>
      rw [e1] at hok
      have := assertPtr_some _ _ _ e1
      subst this
      simp at hok
    | none =>
      cases e2 : assertPtr env a.w with
      | some o =>
        rw [e1, e2] at hok
        have := assertPtr_some _ _ _ e2
        subst this
        simp at hok
      | none =>
        cases e3 : assertPtr env a.y with
        | some o =>
          rw [e1, e2, e3] at hok
          have := assertPtr_some _ _ _ e3
          subst this
          simp at hok
        | none =>
          rw [e1, e2, e3] at hok
          simp only [] at hok ⊢
          cases hn : newPerfResults a.requestedAlgoCount with
          | some o =>
            rw [hn] at hok
            have := newPerfResults_some _ _ hn
            subst this
            simp at hok
          | none =>
            rw [hn] at hok
            simp only [] at hok ⊢
            cases hacq : acquireWorkSpace env Family.ForwardConvolution a.convDesc a.convDesc
                (forwardSizeQuery a.handle a.wDesc a.xDesc a.convDesc a.yDesc) w with
            | stop o w1 =>
              rw [hacq] at hok
              have := acquireWorkSpace_stop _ _ _ _ _ _ _ _ hacq
              subst this
              simp at hok
            | next v w1 =>
              rw [hacq] at hok
              simp only [] at hok ⊢
              cases ho : CHECK_MIO (backendCall env
                  (Event.miopenFindConvolutionForwardAlgorithm a.handle a.xDesc a.x a.wDesc a.w
                    a.convDesc a.yDesc a.y a.requestedAlgoCount v.1 v.2 false) a.y w1).1 with
              | some o =>
                rw [ho] at hok
                have := CHECK_MIO_some _ _ ho
                subst this
                simp at hok
              | none =>
                refine ⟨v, w1, rfl, ?_⟩
                simp only []
                split <;> simp [backendCall, World.emit, World.writeMem]

/-- **C1** Workspace cache reuse in the forward-convolution family: from any state with no
entry for the convolution descriptor `h`, when two consecutive workspace-acquiring calls on `h`
(each `hipdnnFindConvolutionForwardAlgorithmEx` or `hipdnnConvolutionForward`) both return
success, the external calls of the first are exactly one size query, one `hipMalloc` and its
backend primitive, and the only external call of the second is its backend primitive, handed
the same pointer and the same byte size as the first. -/
theorem C1_forward_workspace_reuse (env : Backend α) (w : World α) (h : Handle)
    (c1 c2 : ForwardCall) (h1 : c1.convDesc = h) (h2 : c2.convDesc = h)
    (hmiss : w.sDescToWorkSpaceForwardConvolution.find h = none)
    (hok1 : (c1.run env w).1 = Outcome.returned HIPDNN_STATUS_SUCCESS)
    (hok2 : (c2.run env (c1.run env w).2).1 = Outcome.returned HIPDNN_STATUS_SUCCESS) :
    ∃ (p : DevPtr) (s : Nat),
      (c1.run env w).2.trace =
        w.trace ++ [c1.sizeQuery, Event.hipMalloc s hipSuccess p, c1.primitive p s] ∧
      (c2.run env (c1.run env w).2).2.trace = (c1.run env w).2.trace ++ [c2.primitive p s] := by
  obtain ⟨v, w1, hacq, htr, hws, hsz⟩ := ForwardCall.run_ok env c1 w hok1
  obtain ⟨v2, w2, hacq2, htr2, -, -⟩ := ForwardCall.run_ok env c2 _ hok2
  rw [h1] at hacq
  rw [h2] at hacq2
  obtain ⟨-, ht, hp, hs⟩ := acquireWorkSpace_miss env _ _ _ _ _ _ _ hmiss hacq
  rw [← hws] at hp
  rw [← hsz] at hs
  rw [acquireWorkSpace_hit env _ _ _ _ _ _ _ hp hs] at hacq2
  cases hacq2
  refine ⟨v.1, v.2, ?_, htr2⟩
  rw [htr, ht]
  simp

/-- Witness for C1: at process start, a search followed by a forward convolution on
descriptor `7`, with the demo backend. -/
theorem C1_forward_workspace_reuse_witness :
    (ForwardCall.find demoFindFwdArgs).convDesc = 7 ∧
    (ForwardCall.compute demoFwdArgs).convDesc = 7 ∧
    demoStart.sDescToWorkSpaceForwardConvolution.find 7 = none ∧
    ((ForwardCall.find demoFindFwdArgs).run demoBackend demoStart).1
      = Outcome.returned HIPDNN_STATUS_SUCCESS ∧
    ((ForwardCall.compute demoFwdArgs).run demoBackend
      ((ForwardCall.find demoFindFwdArgs).run demoBackend demoStart).2).1
      = Outcome.returned HIPDNN_STATUS_SUCCESS ∧
    ∃ (p : DevPtr) (s : Nat),
      ((ForwardCall.find demoFindFwdArgs).run demoBackend demoStart).2.trace =
        demoStart.trace ++ [(ForwardCall.find demoFindFwdArgs).sizeQuery,
          Event.hipMalloc s hipSuccess p, (ForwardCall.find demoFindFwdArgs).primitive p s] ∧
      ((ForwardCall.compute demoFwdArgs).run demoBackend
        ((ForwardCall.find demoFindFwdArgs).run demoBackend demoStart).2).2.trace =
        ((ForwardCall.find demoFindFwdArgs).run demoBackend demoStart).2.trace ++
          [(ForwardCall.compute demoFwdArgs).primitive p s] :=
  ⟨rfl, rfl, rfl, by decide, by decide,
    C1_forward_workspace_reuse demoBackend demoStart 7 (ForwardCall.find demoFindFwdArgs)
      (ForwardCall.compute demoFwdArgs) rfl rfl rfl (by decide) (by decide)⟩

end ForwardFamily
/-! ## Cache hits -/

section CacheHit

variable {α : Type}

/-- **C2** The cached size is never re-validated: when the maps of a convolution family hold
the entry `(p, s)` for the descriptor `h`, the get-or-allocate block of that family's compute
entry point (`hipdnnConvolutionForward`, `hipdnnConvolutionBackwardData`,
`hipdnnConvolutionBackwardFilter`) hands on exactly `(p, s)` and leaves the whole state as
it was (no size query, no allocation, both maps unchanged), whatever the backend would
answer; the entry point then goes on with `(p, s)`. -/
theorem C2_cached_size_not_revalidated [Zero α] [Add α] [Mul α] [DecidableEq α]
    (env : Backend α) (w : World α) (h : Handle) (p : DevPtr) (s : Nat)
    (af : ConvFwdArgs) (ad : ConvBwdDataArgs) (ak : ConvBwdFilterArgs)
    (hf : af.convDesc = h) (hd : ad.convDesc = h) (hk : ak.convDesc = h) :
    (w.sDescToWorkSpaceForwardConvolution.find h = some p →
      w.sDescToWorkSpaceForwardConvolutionSize.find h = some s →
      acquireWorkSpace env Family.ForwardConvolution af.convDesc af.convDesc
        (forwardSizeQuery af.handle af.wDesc af.xDesc af.convDesc af.yDesc) w
        = Step.next (p, s) w ∧
      hipdnnConvolutionForward env af w = hipdnnConvolutionForward.compute env af (p, s) w) ∧
    (w.sDescToWorkSpaceBackwardDataConvolution.find h = some p →
      w.sDescToWorkSpaceBackwardDataConvolutionSize.find h = some s →
      acquireWorkSpace env Family.BackwardDataConvolution ad.convDesc ad.convDesc
        (backwardDataSizeQuery ad.handle ad.dyDesc ad.wDesc ad.convDesc ad.dxDesc) w
        = Step.next (p, s) w ∧
      hipdnnConvolutionBackwardData env ad w
        = hipdnnConvolutionBackwardData.compute env ad (p, s) w) ∧
    (w.sDescToWorkSpaceBackwardKernelConvolution.find h = some p →
      w.sDescToWorkSpaceBackwardKernelConvolutionSize.find h = some s →
      acquireWorkSpace env Family.BackwardKernelConvolution ak.convDesc ak.convDesc
        (backwardWeightsSizeQuery ak.handle ak.dyDesc ak.xDesc ak.convDesc ak.dwDesc) w
        = Step.next (p, s) w ∧
      hipdnnConvolutionBackwardFilter env ak w
        = hipdnnConvolutionBackwardFilter.compute env ak (p, s) w) := by
  subst hf
  refine ⟨fun hp hs => ?_, fun hp hs => ?_, fun hp hs => ?_⟩
  · have hacq := acquireWorkSpace_hit env Family.ForwardConvolution af.convDesc af.convDesc
      (forwardSizeQuery af.handle af.wDesc af.xDesc af.convDesc af.yDesc) w p s hp hs
    exact ⟨hacq, by rw [hipdnnConvolutionForward, hacq]⟩
  · rw [← hd] at hp hs
    have hacq := acquireWorkSpace_hit env Family.BackwardDataConvolution ad.convDesc ad.convDesc
      (backwardDataSizeQuery ad.handle ad.dyDesc ad.wDesc ad.convDesc ad.dxDesc) w p s hp hs
    exact ⟨hacq, by rw [hipdnnConvolutionBackwardData, hacq]⟩
  · rw [← hk] at hp hs
    have hacq := acquireWorkSpace_hit env Family.BackwardKernelConvolution ak.convDesc
      ak.convDesc
      (backwardWeightsSizeQuery ak.handle ak.dyDesc ak.xDesc ak.convDesc ak.dwDesc) w p s hp hs
    exact ⟨hacq, by rw [hipdnnConvolutionBackwardFilter, hacq]⟩

/-- Witness for C2: descriptor `7` with the entry `(4096, 64)` in all three families, while
the demo backend would report 64 bytes. -/
theorem C2_cached_size_not_revalidated_witness :
    demoFwdArgs.convDesc = 7 ∧ demoBwdDataArgs.convDesc = 7 ∧ demoBwdFilterArgs.convDesc = 7 ∧
    demoCached.sDescToWorkSpaceForwardConvolution.find 7 = some 4096 ∧
    demoCached.sDescToWorkSpaceForwardConvolutionSize.find 7 = some 64 ∧
    demoCached.sDescToWorkSpaceBackwardDataConvolution.find 7 = some 4096 ∧
    demoCached.sDescToWorkSpaceBackwardDataConvolutionSize.find 7 = some 64 ∧
    demoCached.sDescToWorkSpaceBackwardKernelConvolution.find 7 = some 4096 ∧
    demoCached.sDescToWorkSpaceBackwardKernelConvolutionSize.find 7 = some 64 ∧
    hipdnnConvolutionForward demoBackend demoFwdArgs demoCached
      = hipdnnConvolutionForward.compute demoBackend demoFwdArgs (4096, 64) demoCached ∧
    hipdnnConvolutionBackwardData demoBackend demoBwdDataArgs demoCached
      = hipdnnConvolutionBackwardData.compute demoBackend demoBwdDataArgs (4096, 64)
          demoCached ∧
    hipdnnConvolutionBackwardFilter demoBackend demoBwdFilterArgs demoCached
      = hipdnnConvolutionBackwardFilter.compute demoBackend demoBwdFilterArgs (4096, 64)
          demoCached :=
  have h := C2_cached_size_not_revalidated demoBackend demoCached 7 4096 64 demoFwdArgs
    demoBwdDataArgs demoBwdFilterArgs rfl rfl rfl
  ⟨rfl, rfl, rfl, rfl, rfl, rfl, rfl, rfl, rfl, (h.1 rfl rfl).2, (h.2.1 rfl rfl).2,
    (h.2.2 rfl rfl).2⟩

end CacheHit
/-! ## Release -/

section Release

variable {α : Type} {V : Type}

/-- What `hipFree` leaves, field by field. -/
theorem hipFree_frame (p : DevPtr) (w : World α) :
    (hipFree p w).2.ws = w.ws ∧ (hipFree p w).2.wsSize = w.wsSize ∧
    (hipFree p w).2.mem = w.mem ∧ (hipFree p w).2.host = w.host ∧
    (hipFree p w).2.trace = w.trace ++ [Event.hipFree p (hipFree p w).1] := by
  unfold hipFree
  split_ifs <;> simp [World.emit]

/-- Function `Free` by cases on what the two maps hold for the handle. -/
theorem Free_eq (convDesc : Handle) (fam : Family) (w : World α) :
    Free convDesc fam w =
      match (w.ws fam).find convDesc with
      | none => w
      | some p =>
        if p = 0 then w
        else
          match (w.wsSize fam).find convDesc with
          | none => w.setWsSize fam ((w.wsSize fam).set convDesc 0)
          | some s => if 0 < s then Free.released convDesc fam p w else w := by
  unfold Free
  cases hp : (w.ws fam).find convDesc with
  | none => simp
  | some p =>
    simp only [ne_eq, reduceCtorEq, not_false_eq_true, if_true]
    simp only [StdMap.get_of_find _ _ _ _ hp, World.setWs_self]
    by_cases hp0 : p = 0
    · simp [hp0]
    · simp only [hp0, not_false_eq_true, if_true, if_false]
      cases hs : (w.wsSize fam).find convDesc with
      | none =>
        simp only [StdMap.get_of_find_none _ _ _ hs]
        simp
      | some s =>
        simp only [StdMap.get_of_find _ _ _ _ hs, World.setWsSize_self]
        by_cases hs0 : 0 < s
        · simp only [gt_iff_lt, hs0, if_true]
          simp only [StdMap.get_of_find _ _ _ _ hp, World.setWs_self]
          have hf := hipFree_frame p w
          simp only [Free.released, World.setWs, World.setWsSize, hf.1, hf.2.1]
        · simp [hs0]


theorem filter_ne_of_lt {V : Type} (k : Handle) (l : List (Handle × V))
    (h : ∀ e ∈ l, k < e.1) : l.filter (fun e => decide (e.1 ≠ k)) = l := by
  apply List.filter_eq_self.2
  intro e he
  have := h e he
  simp only [ne_eq, decide_not, Bool.not_eq_true', decide_eq_false_iff_not]
  exact Nat.ne_of_gt this

theorem lookup_none_of_lt {V : Type} (k : Handle) (l : List (Handle × V))
    (h : ∀ e ∈ l, k < e.1) : l.lookup k = none := by
  induction l with
  | nil => rfl
  | cons hd t ih =>
    obtain ⟨k0, v0⟩ := hd
    have h0 : k < k0 := h (k0, v0) (List.mem_cons_self _ _)
    rw [lookup_cons_ne _ _ _ _ (Nat.ne_of_lt h0)]
    exact ih (fun e he => h e (List.mem_cons_of_mem _ he))

/-- In a well-formed map, erasing a key that is present removes exactly one entry. -/
theorem StdMap.size_erase (m : StdMap V) (k : Handle) (v : V) (hwf : m.WF)
    (hk : m.find k = some v) : (m.erase k).size + 1 = m.size := by
  obtain ⟨l⟩ := m
  simp only [StdMap.WF, StdMap.find, StdMap.erase, StdMap.size] at *
  induction l with
  | nil => simp [List.lookup] at hk
  | cons hd t ih =>
    obtain ⟨k0, v0⟩ := hd
    rw [List.pairwise_cons] at hwf
    by_cases h0 : k0 = k
    · subst h0
      rw [List.filter_cons_of_neg (by simp), filter_ne_of_lt k0 t (fun e he => hwf.1 e he)]
      simp
    · rw [List.filter_cons_of_pos (by simpa using h0)]
      rw [lookup_cons_ne _ _ _ _ (fun h => h0 h.symm)] at hk
      simp only [List.length_cons]
      have := ih hwf.2 hk
      omega

/-- In a well-formed map a key that is present has exactly one entry. -/
theorem StdMap.count_of_find (m : StdMap V) (k : Handle) (v : V) (hwf : m.WF)
    (hk : m.find k = some v) : m.count k = 1 := by
  obtain ⟨l⟩ := m
  simp only [StdMap.WF, StdMap.find, StdMap.count] at *
  induction l with
  | nil => simp [List.lookup] at hk
  | cons hd t ih =>
    obtain ⟨k0, v0⟩ := hd
    rw [List.pairwise_cons] at hwf
    by_cases h0 : k0 = k
    · subst h0
      rw [List.filter_cons_of_pos (by simp)]
      have : t.filter (fun e => decide (e.1 = k0)) = [] := by
        apply List.filter_eq_nil_iff.2
        intro e he
        have := hwf.1 e he
        simp only [decide_eq_true_eq]
        exact Nat.ne_of_gt this
      simp [this]
    · rw [List.filter_cons_of_neg (by simpa using h0)]
      rw [lookup_cons_ne _ _ _ _ (fun h => h0 h.symm)] at hk
      exact ih hwf.2 hk

/-- After `erase` no entry with the key is left. -/
theorem StdMap.count_erase (m : StdMap V) (k : Handle) : (m.erase k).count k = 0 := by
  simp only [StdMap.count, StdMap.erase, List.filter_filter, List.length_eq_zero]
  apply List.filter_eq_nil_iff.2
  intro e _
  simp

end Release
/-! ## Release on destroy -/

section Destroy

variable {α : Type}

/-- `Free` on one family leaves the maps of every other family alone. -/
theorem Free_other_family (convDesc : Handle) (fam fam1 : Family) (w : World α)
    (hne : fam1 ≠ fam) :
    (Free convDesc fam w).ws fam1 = w.ws fam1 ∧
    (Free convDesc fam w).wsSize fam1 = w.wsSize fam1 := by
  rw [Free_eq]
  have hf := hipFree_frame (α := α)
  cases (w.ws fam).find convDesc with
  | none => simp
  | some p =>
    simp only []
    split_ifs with h0
    · simp
    · cases (w.wsSize fam).find convDesc with
      | none => simp [World.setWsSize, Function.update, hne]
      | some s =>
        simp only []
        split_ifs
        · simp [Free.released, World.setWs, World.setWsSize, Function.update, hne, (hf p w).1,
            (hf p w).2.1]
        · simp

/-- `Free` leaves the entries of every other handle alone. -/
theorem Free_other_handle (convDesc h1 : Handle) (fam : Family) (w : World α)
    (hne : h1 ≠ convDesc) :
    ((Free convDesc fam w).ws fam).find h1 = (w.ws fam).find h1 ∧
    ((Free convDesc fam w).wsSize fam).find h1 = (w.wsSize fam).find h1 := by
  rw [Free_eq]
  cases (w.ws fam).find convDesc with
  | none => simp
  | some p =>
    simp only []
    split_ifs with h0
    · simp
    · cases (w.wsSize fam).find convDesc with
      | none => simp [World.setWsSize, StdMap.find_set, hne]
      | some s =>
        simp only []
        split_ifs
        · simp [Free.released, World.setWs, World.setWsSize, StdMap.find_erase, hne]
        · simp

/-- `Free` on an entry with a non-null pointer and a positive size erases it from both maps. -/
theorem Free_releases (convDesc : Handle) (fam : Family) (w : World α) (p : DevPtr) (s : Nat)
    (hp : (w.ws fam).find convDesc = some p) (hs : (w.wsSize fam).find convDesc = some s)
    (hp0 : p ≠ 0) (hs0 : 0 < s) :
    Free convDesc fam w = Free.released convDesc fam p w := by
  rw [Free_eq, hp]
  simp only [hp0, if_false, hs, hs0, if_true]

theorem Free_released_maps (convDesc : Handle) (fam : Family) (p : DevPtr) (w : World α) :
    (Free.released convDesc fam p w).ws fam = (w.ws fam).erase convDesc ∧
    (Free.released convDesc fam p w).wsSize fam = (w.wsSize fam).erase convDesc := by
  simp [Free.released, World.setWs, World.setWsSize]

/-- Applying `Free` twice gives what applying it once gives. -/
theorem Free_idem (convDesc : Handle) (fam : Family) (w : World α) :
    Free convDesc fam (Free convDesc fam w) = Free convDesc fam w := by
  rw [Free_eq convDesc fam w]
  cases hp : (w.ws fam).find convDesc with
  | none =>
    simp only []
    rw [Free_eq, hp]
  | some p =>
    simp only []
    split_ifs with h0
    · rw [Free_eq, hp]; simp [h0]
    · cases hs : (w.wsSize fam).find convDesc with
      | none =>
        simp only []
        rw [Free_eq]
        have h1 : ((w.setWsSize fam ((w.wsSize fam).set convDesc 0)).ws fam).find convDesc
            = some p := by simpa [World.setWsSize] using hp
        have h2 : ((w.setWsSize fam ((w.wsSize fam).set convDesc 0)).wsSize fam).find convDesc
            = some 0 := by simp [World.setWsSize, StdMap.find_set]
        rw [h1]
        simp only [h0, if_false, h2]
        simp
      | some s =>
        simp only []
        split_ifs with hs0
        · rw [Free_eq]
          have h1 : ((Free.released convDesc fam p w).ws fam).find convDesc = none := by
            rw [(Free_released_maps convDesc fam p w).1, StdMap.find_erase]; simp
          rw [h1]
        · rw [Free_eq, hp]
          simp [h0, hs, hs0]

/-- **C4** (amended) The function `Free` is a guarded, idempotent release. For every handle
`h` and every pair of maps: (1) if the size map has an entry for `h` whenever the pointer
map holds a non-null pointer for `h`, then `Free` changes nothing and calls no `hipFree` unless
`h` has an entry with a non-null pointer and a recorded size greater than zero; (2) in that
case it hands exactly that pointer to `hipFree` and erases both entries; (3) when `h` has no
entry nothing changes; (4) the maps of other families and the entries of every other handle
are never changed; (5) applying `Free` twice gives the state applying it once gives. -/
theorem C4_Free_guarded_idempotent (h : Handle) (fam : Family) (w : World α) :
    ((∀ p, (w.ws fam).find h = some p → p ≠ 0 → (w.wsSize fam).find h ≠ none) →
      (¬ ∃ p s, (w.ws fam).find h = some p ∧ p ≠ 0 ∧
        (w.wsSize fam).find h = some s ∧ 0 < s) →
      Free h fam w = w) ∧
    (∀ p s, (w.ws fam).find h = some p → p ≠ 0 → (w.wsSize fam).find h = some s → 0 < s →
      Free h fam w = Free.released h fam p w ∧
      (Free h fam w).trace = w.trace ++ [Event.hipFree p (hipFree p w).1] ∧
      ((Free h fam w).ws fam).find h = none ∧ ((Free h fam w).wsSize fam).find h = none) ∧
    ((w.ws fam).find h = none → Free h fam w = w) ∧
    (∀ fam1, fam1 ≠ fam →
      (Free h fam w).ws fam1 = w.ws fam1 ∧ (Free h fam w).wsSize fam1 = w.wsSize fam1) ∧
    (∀ h1, h1 ≠ h →
      ((Free h fam w).ws fam).find h1 = (w.ws fam).find h1 ∧
      ((Free h fam w).wsSize fam).find h1 = (w.wsSize fam).find h1) ∧
    Free h fam (Free h fam w) = Free h fam w := by
  refine ⟨?_, ?_, ?_, fun fam1 hne => Free_other_family h fam fam1 w hne,
    fun h1 hne => Free_other_handle h h1 fam w hne, Free_idem h fam w⟩
  · intro hpair hno
    rw [Free_eq]
    cases hp : (w.ws fam).find h with
    | none => rfl
    | some p =>
      simp only []
      split_ifs with h0
      · rfl
      · cases hs : (w.wsSize fam).find h with
        | none => exact absurd hs (hpair p hp h0)
        | some s =>
          simp only []
          split_ifs with hs0
          · exact absurd ⟨p, s, hp, h0, hs, hs0⟩ hno
          · rfl
  · intro p s hp hp0 hs hs0
    have hr := Free_releases h fam w p s hp hs hp0 hs0
    refine ⟨hr, ?_, ?_, ?_⟩
    · rw [hr]
      simp [Free.released, World.setWs, World.setWsSize, (hipFree_frame p w).2.2.2.2]
    · rw [hr, (Free_released_maps h fam p w).1, StdMap.find_erase]; simp
    · rw [hr, (Free_released_maps h fam p w).2, StdMap.find_erase]; simp
  · intro hp
    rw [Free_eq, hp]

/-- Witness for C4, one state for each guard and one for the release. With the entry
`7 ↦ (4096, 64)` the handle has a non-null pointer and a size greater than zero: `Free` hands
`4096` to `hipFree` and erases both entries. With the entry `7 ↦ (4096, 0)` the size guard
fails, with `7 ↦ (0, 8)` the pointer guard fails: in both states the entry exists and `Free`
changes nothing. -/
theorem C4_Free_guarded_idempotent_witness :
    ((demoCached.ws Family.ForwardConvolution).find 7 = some 4096 ∧
      (demoCached.wsSize Family.ForwardConvolution).find 7 = some 64 ∧
      Free 7 Family.ForwardConvolution demoCached
        = Free.released 7 Family.ForwardConvolution 4096 demoCached ∧
      (Free 7 Family.ForwardConvolution demoCached).trace
        = demoCached.trace ++ [Event.hipFree 4096 (hipFree 4096 demoCached).1] ∧
      ((Free 7 Family.ForwardConvolution demoCached).ws Family.ForwardConvolution).find 7
        = none ∧
      ((Free 7 Family.ForwardConvolution demoCached).wsSize Family.ForwardConvolution).find 7
        = none) ∧
    ((demoZeroSize.ws Family.ForwardConvolution).find 7 = some 4096 ∧
      (demoZeroSize.wsSize Family.ForwardConvolution).find 7 = some 0 ∧
      Free 7 Family.ForwardConvolution demoZeroSize = demoZeroSize) ∧
    ((demoNullPointer.ws Family.ForwardConvolution).find 7 = some 0 ∧
      (demoNullPointer.wsSize Family.ForwardConvolution).find 7 = some 8 ∧
      Free 7 Family.ForwardConvolution demoNullPointer = demoNullPointer) := by
  have hz : (demoZeroSize.wsSize Family.ForwardConvolution).find 7 = some 0 := by decide
  have hn : (demoNullPointer.ws Family.ForwardConvolution).find 7 = some 0 := by decide
  refine ⟨⟨by decide, by decide,
      (C4_Free_guarded_idempotent 7 Family.ForwardConvolution demoCached).2.1 4096 64
        (by decide) (by decide) (by decide) (by decide)⟩,
    ⟨by decide, hz,
      (C4_Free_guarded_idempotent 7 Family.ForwardConvolution demoZeroSize).1
        (fun _ _ _ => by rw [hz]; exact Option.some_ne_none _) ?_⟩,
    ⟨hn, by decide,
      (C4_Free_guarded_idempotent 7 Family.ForwardConvolution demoNullPointer).1
        (fun _ _ _ => by decide) ?_⟩⟩
  · rintro ⟨p, s, -, -, hs, hs0⟩
    rw [hz] at hs
    cases hs
    exact absurd hs0 (by decide)
  · rintro ⟨p, s, hp, hp0, -, -⟩
    rw [hn] at hp
    cases hp
    exact hp0 rfl

/-- Counterexample to C4 as stated: with the pointer map `{7 ↦ 4096}` and an empty size map,
the handle `7` has no recorded size greater than zero, yet `Free` changes the size map: reading
`size[convDesc]` inserts the entry `7 ↦ 0`. -/
theorem C4_counterexample :
    (demoMismatch.ws Family.ForwardConvolution).find 7 = some 4096 ∧
    (demoMismatch.wsSize Family.ForwardConvolution).find 7 = none ∧
    (¬ ∃ p s, (demoMismatch.ws Family.ForwardConvolution).find 7 = some p ∧ p ≠ 0 ∧
      (demoMismatch.wsSize Family.ForwardConvolution).find 7 = some s ∧ 0 < s) ∧
    (Free 7 Family.ForwardConvolution demoMismatch).wsSize Family.ForwardConvolution
      = ⟨[(7, 0)]⟩ ∧
    (Free 7 Family.ForwardConvolution demoMismatch).wsSize Family.ForwardConvolution
      ≠ demoMismatch.wsSize Family.ForwardConvolution := by
  refine ⟨by decide, by decide, ?_, by decide, by decide⟩
  rintro ⟨p, s, -, -, hs, -⟩
  have hn : (demoMismatch.wsSize Family.ForwardConvolution).find 7 = none := by decide
  rw [hn] at hs
  cases hs

end Destroy
/-! ## Destroying a convolution descriptor -/

section DestroyConv

variable {α : Type}

/-- The maps `hipdnnDestroyConvolutionDescriptor` leaves are those its three `Free` calls leave. -/
theorem hipdnnDestroyConvolutionDescriptor_maps (env : Backend α) (convDesc : Handle)
    (w : World α) :
    (hipdnnDestroyConvolutionDescriptor env convDesc w).2.ws =
      (Free convDesc Family.BackwardDataConvolution
        (Free convDesc Family.BackwardKernelConvolution
          (Free convDesc Family.ForwardConvolution w))).ws ∧
    (hipdnnDestroyConvolutionDescriptor env convDesc w).2.wsSize =
      (Free convDesc Family.BackwardDataConvolution
        (Free convDesc Family.BackwardKernelConvolution
          (Free convDesc Family.ForwardConvolution w))).wsSize := by
  unfold hipdnnDestroyConvolutionDescriptor
  simp only []
  split <;> simp [backendQuery, World.emit]

/-- Destroying a convolution descriptor erases, in each convolution family, an entry with a
non-null pointer and a positive size. -/
theorem hipdnnDestroyConvolutionDescriptor_erases (env : Backend α) (w : World α) (h : Handle)
    (fam : Family)
    (hfam : fam = Family.ForwardConvolution ∨ fam = Family.BackwardKernelConvolution ∨
      fam = Family.BackwardDataConvolution)
    (p : DevPtr) (s : Nat)
    (hp : (w.ws fam).find h = some p) (hs : (w.wsSize fam).find h = some s)
    (hp0 : p ≠ 0) (hs0 : 0 < s) :
    (hipdnnDestroyConvolutionDescriptor env h w).2.ws fam = (w.ws fam).erase h ∧
    (hipdnnDestroyConvolutionDescriptor env h w).2.wsSize fam = (w.wsSize fam).erase h := by
  obtain ⟨h1, h2⟩ := hipdnnDestroyConvolutionDescriptor_maps env h w
  rw [h1, h2]
  rcases hfam with hf | hf | hf <;> subst hf
  · have e1 := Free_other_family h Family.BackwardDataConvolution Family.ForwardConvolution
      (Free h Family.BackwardKernelConvolution (Free h Family.ForwardConvolution w))
      (by decide)
    have e2 := Free_other_family h Family.BackwardKernelConvolution Family.ForwardConvolution
      (Free h Family.ForwardConvolution w) (by decide)
    rw [e1.1, e1.2, e2.1, e2.2, Free_releases h _ w p s hp hs hp0 hs0]
    exact Free_released_maps h _ p w
  · have e1 := Free_other_family h Family.BackwardDataConvolution
      Family.BackwardKernelConvolution
      (Free h Family.BackwardKernelConvolution (Free h Family.ForwardConvolution w))
      (by decide)
    have e0 := Free_other_family h Family.ForwardConvolution Family.BackwardKernelConvolution
      w (by decide)
    rw [e1.1, e1.2, Free_releases h _ _ p s (by rw [e0.1]; exact hp) (by rw [e0.2]; exact hs)
      hp0 hs0]
    have := Free_released_maps h Family.BackwardKernelConvolution p
      (Free h Family.ForwardConvolution w)
    rw [this.1, this.2, e0.1, e0.2]
    exact ⟨rfl, rfl⟩
  · have e0 := Free_other_family h Family.ForwardConvolution Family.BackwardDataConvolution
      w (by decide)
    have e1 := Free_other_family h Family.BackwardKernelConvolution
      Family.BackwardDataConvolution (Free h Family.ForwardConvolution w) (by decide)
    rw [Free_releases h _ _ p s (by rw [e1.1, e0.1]; exact hp) (by rw [e1.2, e0.2]; exact hs)
      hp0 hs0]
    have := Free_released_maps h Family.BackwardDataConvolution p
      (Free h Family.BackwardKernelConvolution (Free h Family.ForwardConvolution w))
    rw [this.1, this.2, e1.1, e1.2, e0.1, e0.2]
    exact ⟨rfl, rfl⟩

/-- **C3** (amended) Cache release: for every convolution descriptor `h` and every state in
which a convolution family map holds for `h` an entry with a non-null pointer and a recorded
size greater than zero, after `hipdnnDestroyConvolutionDescriptor(h)` a lookup of `h` in that
family's pointer map and size map finds no entry, and both maps have exactly one entry
fewer (the number of entries for `h` drops from one to zero). -/
theorem C3_destroy_erases_entry (env : Backend α) (w : World α) (h : Handle) (fam : Family)
    (hfam : fam = Family.ForwardConvolution ∨ fam = Family.BackwardKernelConvolution ∨
      fam = Family.BackwardDataConvolution)
    (p : DevPtr) (s : Nat)
    (hp : (w.ws fam).find h = some p) (hs : (w.wsSize fam).find h = some s)
    (hp0 : p ≠ 0) (hs0 : 0 < s) (hwf1 : (w.ws fam).WF) (hwf2 : (w.wsSize fam).WF) :
    ((hipdnnDestroyConvolutionDescriptor env h w).2.ws fam).find h = none ∧
    ((hipdnnDestroyConvolutionDescriptor env h w).2.wsSize fam).find h = none ∧
    (w.ws fam).count h = 1 ∧
    ((hipdnnDestroyConvolutionDescriptor env h w).2.ws fam).count h = 0 ∧
    (w.wsSize fam).count h = 1 ∧
    ((hipdnnDestroyConvolutionDescriptor env h w).2.wsSize fam).count h = 0 ∧
    ((hipdnnDestroyConvolutionDescriptor env h w).2.ws fam).size + 1 = (w.ws fam).size ∧
    ((hipdnnDestroyConvolutionDescriptor env h w).2.wsSize fam).size + 1
      = (w.wsSize fam).size := by
  obtain ⟨e1, e2⟩ := hipdnnDestroyConvolutionDescriptor_erases env w h fam hfam p s hp hs hp0 hs0
  rw [e1, e2]
  refine ⟨?_, ?_, StdMap.count_of_find _ _ _ hwf1 hp, StdMap.count_erase _ _,
    StdMap.count_of_find _ _ _ hwf2 hs, StdMap.count_erase _ _,
    StdMap.size_erase _ _ _ hwf1 hp, StdMap.size_erase _ _ _ hwf2 hs⟩
  · rw [StdMap.find_erase]; simp
  · rw [StdMap.find_erase]; simp

/-- Witness for C3: descriptor `7` with the entry `(4096, 64)` in the forward family. -/
theorem C3_destroy_erases_entry_witness :
    (demoCached.ws Family.ForwardConvolution).find 7 = some 4096 ∧
    (demoCached.wsSize Family.ForwardConvolution).find 7 = some 64 ∧
    (4096 : DevPtr) ≠ 0 ∧ 0 < 64 ∧
    (demoCached.ws Family.ForwardConvolution).WF ∧
    (demoCached.wsSize Family.ForwardConvolution).WF ∧
    ((hipdnnDestroyConvolutionDescriptor demoBackend 7 demoCached).2.ws
      Family.ForwardConvolution).find 7 = none ∧
    ((hipdnnDestroyConvolutionDescriptor demoBackend 7 demoCached).2.wsSize
      Family.ForwardConvolution).find 7 = none ∧
    ((hipdnnDestroyConvolutionDescriptor demoBackend 7 demoCached).2.ws
      Family.ForwardConvolution).size + 1 = (demoCached.ws Family.ForwardConvolution).size :=
  have hw1 : (demoCached.ws Family.ForwardConvolution).WF := by
    simp [demoCached, StdMap.WF]
  have hw2 : (demoCached.wsSize Family.ForwardConvolution).WF := by
    simp [demoCached, StdMap.WF]
  have h := C3_destroy_erases_entry demoBackend demoCached 7 Family.ForwardConvolution
    (Or.inl rfl) 4096 64 rfl rfl (by decide) (by decide) hw1 hw2
  ⟨rfl, rfl, by decide, by decide, hw1, hw2, h.1, h.2.1, h.2.2.2.2.2.2.1⟩

/-- Counterexample to C3 as stated: with a backend that reports a workspace of `0` bytes, a
forward convolution on descriptor `7` stores the entry `(NULL, 0)`; the entry exists, and
after `hipdnnDestroyConvolutionDescriptor(7)` has returned success a lookup still finds it
in both maps. -/
theorem C3_counterexample :
    ((hipdnnConvolutionForward demoBackendZero demoFwdArgs demoStart).2.ws
      Family.ForwardConvolution).find 7 = some 0 ∧
    ((hipdnnConvolutionForward demoBackendZero demoFwdArgs demoStart).2.wsSize
      Family.ForwardConvolution).find 7 = some 0 ∧
    (hipdnnDestroyConvolutionDescriptor demoBackendZero 7
      (hipdnnConvolutionForward demoBackendZero demoFwdArgs demoStart).2).1
      = Outcome.returned HIPDNN_STATUS_SUCCESS ∧
    ((hipdnnDestroyConvolutionDescriptor demoBackendZero 7
      (hipdnnConvolutionForward demoBackendZero demoFwdArgs demoStart).2).2.ws
      Family.ForwardConvolution).find 7 = some 0 ∧
    ((hipdnnDestroyConvolutionDescriptor demoBackendZero 7
      (hipdnnConvolutionForward demoBackendZero demoFwdArgs demoStart).2).2.wsSize
      Family.ForwardConvolution).find 7 = some 0 ∧
    ((hipdnnDestroyConvolutionDescriptor demoBackendZero 7
      (hipdnnConvolutionForward demoBackendZero demoFwdArgs demoStart).2).2.ws
      Family.ForwardConvolution).count 7 = 1 := by
  decide

end DestroyConv
/-! ## The cache invariant -/

section Invariant

variable {α : Type}

theorem validFrees_append (tr : List Event) (e : Event) (h : validFrees tr)
    (he : ∀ p er, e = Event.hipFree p er → er = hipSuccess) : validFrees (tr ++ [e]) := by
  intro p er hmem
  rcases List.mem_append.1 hmem with h1 | h1
  · exact h p er h1
  · exact he p er (List.mem_singleton.1 h1).symm

/-- The invariant only reads the maps and the heap. -/
theorem CacheInv_congr (w w1 : World α) (h1 : w1.ws = w.ws) (h2 : w1.wsSize = w.wsSize)
    (h3 : w1.live = w.live) (h : CacheInv w) : CacheInv w1 := by
  unfold CacheInv at *
  rw [h1, h2, h3]
  exact h

theorem Good_emit (w : World α) (e : Event) (h : Good w)
    (he : ∀ p er, e = Event.hipFree p er → er = hipSuccess) : Good (w.emit e) :=
  ⟨CacheInv_congr w _ rfl rfl rfl h.1, validFrees_append _ _ h.2 he⟩

theorem Good_backendQuery (env : Backend α) (e : Event) (w : World α) (h : Good w)
    (he : ∀ p er, e ≠ Event.hipFree p er) : Good (backendQuery env e w).2 :=
  Good_emit w e h (fun p er h1 => absurd h1 (he p er))

theorem Good_backendCall (env : Backend α) (e : Event) (dst : DevPtr) (w : World α)
    (h : Good w) (he : ∀ p er, e ≠ Event.hipFree p er) : Good (backendCall env e dst w).2 :=
  ⟨CacheInv_congr w _ rfl rfl rfl h.1,
    validFrees_append _ _ h.2 (fun p er h1 => absurd h1 (he p er))⟩

theorem backendCall_live (env : Backend α) (e : Event) (dst : DevPtr) (w : World α) :
    (backendCall env e dst w).2.live = w.live := rfl

/-- The three ways `hipMalloc` can answer. -/
theorem hipMalloc_cases (env : Backend α) (size : Nat) (owner : Owner) (w : World α) :
    ((hipMalloc env size owner w).1 = hipSuccess ∧ size = 0 ∧
      (hipMalloc env size owner w).2.1 = 0 ∧ (hipMalloc env size owner w).2.2.live = w.live) ∨
    ((hipMalloc env size owner w).1 = hipSuccess ∧ 0 < size ∧
      (hipMalloc env size owner w).2.1 ≠ 0 ∧
      (hipMalloc env size owner w).2.1 ∉ w.live.map Alloc.ptr ∧
      (hipMalloc env size owner w).2.2.live
        = ⟨(hipMalloc env size owner w).2.1, size, owner⟩ :: w.live) ∨
    ((hipMalloc env size owner w).1 ≠ hipSuccess ∧
      (hipMalloc env size owner w).2.2.live = w.live) := by
  unfold hipMalloc
  split_ifs with h1
  · exact Or.inl ⟨rfl, h1, rfl, rfl⟩
  · cases h : env.hipMallocAddr w size with
    | none => exact Or.inr (Or.inr ⟨by simp, rfl⟩)
    | some p =>
      simp only []
      split_ifs with h2
      · exact Or.inr (Or.inl ⟨rfl, Nat.pos_of_ne_zero h1, h2.1, h2.2, rfl⟩)
      · exact Or.inr (Or.inr ⟨by simp, rfl⟩)

theorem hipMalloc_trace_valid (env : Backend α) (size : Nat) (owner : Owner) (w : World α)
    (h : validFrees w.trace) : validFrees (hipMalloc env size owner w).2.2.trace := by
  rw [(hipMalloc_frame env size owner w).2.2.2.2]
  exact validFrees_append _ _ h (fun p er h1 => by cases h1)

/-- An allocation that is not tagged as a workspace keeps the invariant. -/
theorem Good_hipMalloc (env : Backend α) (size : Nat) (owner : Owner) (w : World α)
    (h : Good w) (ho : ∀ fam key d, owner ≠ Owner.workspace fam key d) :
    Good (hipMalloc env size owner w).2.2 := by
  refine ⟨?_, hipMalloc_trace_valid env size owner w h.2⟩
  have hf := hipMalloc_frame env size owner w
  rcases hipMalloc_cases env size owner w with hc | hc | hc
  · exact CacheInv_congr w _ hf.1 hf.2.1 hc.2.2.2 h.1
  · obtain ⟨-, -, hp0, hfresh, hlive⟩ := hc
    obtain ⟨i1, i2, i3, i4⟩ := h.1
    unfold CacheInv
    rw [hf.1, hf.2.1, hlive]
    refine ⟨?_, ?_, ?_, ?_⟩
    · intro fam key p hp
      obtain ⟨s, hs, himp⟩ := i1 fam key p hp
      refine ⟨s, hs, fun hp0 => ?_⟩
      obtain ⟨hs0, d, hd⟩ := himp hp0
      exact ⟨hs0, d, List.mem_cons_of_mem _ hd⟩
    · intro a ha fam key d hown
      rcases List.mem_cons.1 ha with h1 | h1
      · subst h1
        exact absurd hown (ho fam key d)
      · exact i2 a h1 fam key d hown
    · intro a ha
      rcases List.mem_cons.1 ha with h1 | h1
      · subst h1; exact hp0
      · exact i3 a h1
    · rw [List.map_cons, List.nodup_cons]
      exact ⟨hfresh, i4⟩
  · exact CacheInv_congr w _ hf.1 hf.2.1 hc.2 h.1

theorem hipMemPtrGetInfo_frame (p : DevPtr) (w : World α) :
    (hipMemPtrGetInfo p w).2.2.ws = w.ws ∧ (hipMemPtrGetInfo p w).2.2.wsSize = w.wsSize ∧
    (hipMemPtrGetInfo p w).2.2.live = w.live ∧ (hipMemPtrGetInfo p w).2.2.mem = w.mem ∧
    (hipMemPtrGetInfo p w).2.2.host = w.host ∧
    (hipMemPtrGetInfo p w).2.2.trace = w.trace ++
      [Event.hipMemPtrGetInfo p (hipMemPtrGetInfo p w).1 (hipMemPtrGetInfo p w).2.1] := by
  unfold hipMemPtrGetInfo
  split <;> simp [World.emit]

theorem Good_hipMemPtrGetInfo (p : DevPtr) (w : World α) (h : Good w) :
    Good (hipMemPtrGetInfo p w).2.2 := by
  have hf := hipMemPtrGetInfo_frame p w
  refine ⟨CacheInv_congr w _ hf.1 hf.2.1 hf.2.2.1 h.1, ?_⟩
  rw [hf.2.2.2.2.2]
  exact validFrees_append _ _ h.2 (fun p er h1 => by cases h1)

/-- A successful `hipMemPtrGetInfo` means the address is that of an outstanding allocation. -/
theorem hipMemPtrGetInfo_ok (p : DevPtr) (w : World α)
    (h : (hipMemPtrGetInfo p w).1 = hipSuccess) :
    ∃ a ∈ w.live, a.ptr = p ∧ (hipMemPtrGetInfo p w).2.1 = a.size := by
  unfold hipMemPtrGetInfo at h ⊢
  cases hfind : w.live.find? (fun a => decide (a.ptr = p)) with
  | none => rw [hfind] at h; simp at h
  | some a =>
    refine ⟨a, List.mem_of_find?_eq_some hfind, ?_, rfl⟩
    have := List.find?_some hfind
    simpa using this

theorem hipMemcpy_frame (env : Backend α) (dst src : DevPtr) (n : Nat) (w : World α) :
    (hipMemcpy env dst src n w).2.ws = w.ws ∧ (hipMemcpy env dst src n w).2.wsSize = w.wsSize ∧
    (hipMemcpy env dst src n w).2.live = w.live ∧ (hipMemcpy env dst src n w).2.host = w.host ∧
    (hipMemcpy env dst src n w).2.trace = w.trace ++ [Event.hipMemcpy dst src n] := by
  unfold hipMemcpy
  simp only []
  split_ifs <;> simp [World.emit, World.writeMem]

theorem Good_hipMemcpy (env : Backend α) (dst src : DevPtr) (n : Nat) (w : World α)
    (h : Good w) : Good (hipMemcpy env dst src n w).2 := by
  have hf := hipMemcpy_frame env dst src n w
  refine ⟨CacheInv_congr w _ hf.1 hf.2.1 hf.2.2.1 h.1, ?_⟩
  rw [hf.2.2.2.2]
  exact validFrees_append _ _ h.2 (fun p er h1 => by cases h1)

/-- Releasing an allocation that is not a workspace keeps the invariant, and the release is
accepted. -/
theorem Good_hipFree (p : DevPtr) (w : World α) (h : Good w)
    (hp : ∀ a ∈ w.live, a.ptr = p → ∀ fam key d, a.owner ≠ Owner.workspace fam key d)
    (hlive : p = 0 ∨ p ∈ w.live.map Alloc.ptr) : Good (hipFree p w).2 := by
  have hf := hipFree_frame p w
  have hst : (hipFree p w).1 = hipSuccess := by
    unfold hipFree
    split_ifs with h1 h2
    · rfl
    · rfl
    · rcases hlive with h3 | h3
      · exact absurd h3 h1
      · exact absurd h3 h2
  refine ⟨?_, ?_⟩
  · have hl : (hipFree p w).2.live = w.live ∨
        (hipFree p w).2.live = w.live.filter (fun a => decide (a.ptr ≠ p)) := by
      unfold hipFree
      split_ifs
      · exact Or.inl rfl
      · exact Or.inr rfl
      · exact Or.inl rfl
    rcases hl with hl | hl
    · exact CacheInv_congr w _ hf.1 hf.2.1 hl h.1
    · obtain ⟨i1, i2, i3, i4⟩ := h.1
      unfold CacheInv
      rw [hf.1, hf.2.1, hl]
      refine ⟨?_, ?_, ?_, ?_⟩
      · intro fam key q hq
        obtain ⟨s, hs, himp⟩ := i1 fam key q hq
        refine ⟨s, hs, fun hq0 => ?_⟩
        obtain ⟨hs0, d, hd⟩ := himp hq0
        refine ⟨hs0, d, List.mem_filter.2 ⟨hd, ?_⟩⟩
        simp only [ne_eq, decide_not, Bool.not_eq_true', decide_eq_false_iff_not]
        intro hqp
        exact hp _ hd hqp fam key d rfl
      · intro a ha fam key d hown
        exact i2 a (List.mem_filter.1 ha).1 fam key d hown
      · intro a ha
        exact i3 a (List.mem_filter.1 ha).1
      · exact (List.Nodup.sublist (List.Sublist.map _ (List.filter_sublist _)) i4)
  · rw [hf.2.2.2.2, hst]
    exact validFrees_append _ _ h.2 (fun _ _ h1 => by cases h1; rfl)

end Invariant
/-! ## The cache invariant through the cache operations -/

section InvariantCache

variable {α : Type}

/-- The get-or-allocate block keeps the invariant, whichever way it ends. -/
theorem Good_acquireWorkSpace (env : Backend α) (fam : Family) (key opDesc : Handle)
    (q : Event) (w : World α) (h : Good w) (hq : ∀ p er, q ≠ Event.hipFree p er) :
    Good (acquireWorkSpace env fam key opDesc q w).world := by
  cases hfind : (w.ws fam).find key with
  | some p =>
    obtain ⟨s, hs, -⟩ := h.1.1 fam key p hfind
    rw [acquireWorkSpace_hit env fam key opDesc q w p s hfind hs]
    exact h
  | none =>
    unfold acquireWorkSpace
    rw [if_pos hfind]
    simp only []
    have hg1 : Good (backendQuery env q w).2 := Good_backendQuery env q w h hq
    split
    · exact hg1
    · have hf := hipMalloc_frame env (env.workSpaceSize w q)
        (Owner.workspace fam key opDesc) (backendQuery env q w).2
      have hv := hipMalloc_trace_valid env (env.workSpaceSize w q)
        (Owner.workspace fam key opDesc) (backendQuery env q w).2 hg1.2
      have hws : (backendQuery env q w).2.ws = w.ws := rfl
      have hwsz : (backendQuery env q w).2.wsSize = w.wsSize := rfl
      have hlv : (backendQuery env q w).2.live = w.live := rfl
      obtain ⟨i1, i2, i3, i4⟩ := h.1
      split
      · rename_i hm
        simp only [Step.world]
        refine ⟨?_, hv⟩
        rcases hipMalloc_cases env (env.workSpaceSize w q)
          (Owner.workspace fam key opDesc) (backendQuery env q w).2 with hc | hc | hc
        · exact CacheInv_congr w _ (hf.1.trans hws) (hf.2.1.trans hwsz) (hc.2.2.2.trans hlv)
            h.1
        · rw [hc.1] at hm
          simp [CHECK_HIP] at hm
        · exact CacheInv_congr w _ (hf.1.trans hws) (hf.2.1.trans hwsz) (hc.2.trans hlv) h.1
      · simp only [Step.world]
        refine ⟨?_, hv⟩
        have noTag : ∀ a ∈ w.live, ∀ d, a.owner ≠ Owner.workspace fam key d := by
          intro a ha d hown
          have := (i2 a ha fam key d hown).1
          rw [hfind] at this
          cases this
        unfold CacheInv
        simp only [World.setWs, World.setWsSize, hf.1, hf.2.1, hws, hwsz]
        rcases hipMalloc_cases env (env.workSpaceSize w q)
          (Owner.workspace fam key opDesc) (backendQuery env q w).2 with hc | hc | hc
        · obtain ⟨-, hs0, hp0, hlive⟩ := hc
          rw [hlive, hlv, hp0, hs0]
          refine ⟨?_, ?_, i3, i4⟩
          · intro fam1 key1 p hp
            by_cases hfk : fam1 = fam
            · subst hfk
              simp only [Function.update_same, StdMap.find_set] at hp ⊢
              by_cases hk : key1 = key
              · subst hk
                simp only [if_true] at hp ⊢
                cases hp
                exact ⟨0, rfl, fun h0 => absurd rfl h0⟩
              · simp only [hk, if_false] at hp ⊢
                exact i1 fam1 key1 p hp
            · simp only [Function.update_noteq hfk] at hp ⊢
              exact i1 fam1 key1 p hp
          · intro a ha fam1 key1 d hown
            by_cases hfk : fam1 = fam
            · subst hfk
              simp only [Function.update_same, StdMap.find_set]
              by_cases hk : key1 = key
              · subst hk
                exact absurd hown (noTag a ha d)
              · simp only [hk, if_false]
                exact i2 a ha fam1 key1 d hown
            · simp only [Function.update_noteq hfk]
              exact i2 a ha fam1 key1 d hown
        · obtain ⟨-, hs0, hp0, hfresh, hlive⟩ := hc
          rw [hlive, hlv]
          rw [hlv] at hfresh
          refine ⟨?_, ?_, ?_, ?_⟩
          · intro fam1 key1 p hp
            by_cases hfk : fam1 = fam
            · subst hfk
              simp only [Function.update_same, StdMap.find_set] at hp ⊢
              by_cases hk : key1 = key
              · subst hk
                simp only [if_true] at hp ⊢
                cases hp
                exact ⟨_, rfl, fun _ => ⟨hs0, opDesc, List.mem_cons_self _ _⟩⟩
              · simp only [hk, if_false] at hp ⊢
                obtain ⟨s, hs, himp⟩ := i1 fam1 key1 p hp
                refine ⟨s, hs, fun h0 => ?_⟩
                obtain ⟨hs1, d, hd⟩ := himp h0
                exact ⟨hs1, d, List.mem_cons_of_mem _ hd⟩
            · simp only [Function.update_noteq hfk] at hp ⊢
              obtain ⟨s, hs, himp⟩ := i1 fam1 key1 p hp
              refine ⟨s, hs, fun h0 => ?_⟩
              obtain ⟨hs1, d, hd⟩ := himp h0
              exact ⟨hs1, d, List.mem_cons_of_mem _ hd⟩
          · intro a ha fam1 key1 d hown
            rcases List.mem_cons.1 ha with h1 | h1
            · subst h1
              simp only [Owner.workspace.injEq] at hown
              obtain ⟨e1, e2, -⟩ := hown
              subst e1; subst e2
              simp [StdMap.find_set]
            · by_cases hfk : fam1 = fam
              · subst hfk
                simp only [Function.update_same, StdMap.find_set]
                by_cases hk : key1 = key
                · subst hk
                  exact absurd hown (noTag a h1 d)
                · simp only [hk, if_false]
                  exact i2 a h1 fam1 key1 d hown
              · simp only [Function.update_noteq hfk]
                exact i2 a h1 fam1 key1 d hown
          · intro a ha
            rcases List.mem_cons.1 ha with h1 | h1
            · subst h1; exact hp0
            · exact i3 a h1
          · rw [List.map_cons, List.nodup_cons]
            exact ⟨hfresh, i4⟩
        · rename_i hm
          exact absurd (CHECK_HIP_none _ hm) hc.1

end InvariantCache
/-! ## The cache invariant through release and emulation -/

section InvariantRelease

variable {α : Type}

/-- Releasing through `Free` keeps the invariant: the pointer handed to `hipFree` is
outstanding, and no other entry refers to it. -/
theorem Good_Free (convDesc : Handle) (fam : Family) (w : World α) (h : Good w) :
    Good (Free convDesc fam w) := by
  rw [Free_eq]
  cases hp : (w.ws fam).find convDesc with
  | none => exact h
  | some p =>
    simp only []
    split_ifs with hp0
    · exact h
    · obtain ⟨i1, i2, i3, i4⟩ := h.1
      obtain ⟨s, hs, himp⟩ := i1 fam convDesc p hp
      obtain ⟨hs0, d, hd⟩ := himp hp0
      rw [hs]
      simp only [hs0, if_true]
      have hf := hipFree_frame p w
      have hmem : p ∈ w.live.map Alloc.ptr := List.mem_map.2 ⟨_, hd, rfl⟩
      have hst : (hipFree p w).1 = hipSuccess := by
        unfold hipFree
        rw [if_neg hp0, if_pos hmem]
      have hlive : (hipFree p w).2.live = w.live.filter (fun a => decide (a.ptr ≠ p)) := by
        unfold hipFree
        rw [if_neg hp0, if_pos hmem]
      -- an outstanding allocation at `p` is the one of this entry
      have huniq : ∀ a ∈ w.live, a.ptr = p → a = ⟨p, s, Owner.workspace fam convDesc d⟩ := by
        intro a ha hap
        have hinj := List.inj_on_of_nodup_map i4
        exact hinj ha hd hap
      refine ⟨?_, ?_⟩
      · unfold CacheInv
        simp only [Free.released, World.setWs, World.setWsSize, hf.1, hf.2.1, hlive]
        refine ⟨?_, ?_, ?_, ?_⟩
        · intro fam1 key1 q hq
          by_cases hfk : fam1 = fam
          · subst hfk
            simp only [Function.update_same, StdMap.find_erase] at hq ⊢
            by_cases hk : key1 = convDesc
            · simp [hk] at hq
            · simp only [hk, if_false] at hq ⊢
              obtain ⟨s1, hs1, himp1⟩ := i1 fam1 key1 q hq
              refine ⟨s1, hs1, fun hq0 => ?_⟩
              obtain ⟨hs2, d1, hd1⟩ := himp1 hq0
              refine ⟨hs2, d1, List.mem_filter.2 ⟨hd1, ?_⟩⟩
              simp only [ne_eq, decide_not, Bool.not_eq_true', decide_eq_false_iff_not]
              intro hqp
              have := huniq _ hd1 hqp
              simp only [Alloc.mk.injEq, Owner.workspace.injEq] at this
              exact hk this.2.2.2.1
          · simp only [Function.update_noteq hfk] at hq ⊢
            obtain ⟨s1, hs1, himp1⟩ := i1 fam1 key1 q hq
            refine ⟨s1, hs1, fun hq0 => ?_⟩
            obtain ⟨hs2, d1, hd1⟩ := himp1 hq0
            refine ⟨hs2, d1, List.mem_filter.2 ⟨hd1, ?_⟩⟩
            simp only [ne_eq, decide_not, Bool.not_eq_true', decide_eq_false_iff_not]
            intro hqp
            have := huniq _ hd1 hqp
            simp only [Alloc.mk.injEq, Owner.workspace.injEq] at this
            exact hfk this.2.2.1
        · intro a ha fam1 key1 d1 hown
          obtain ⟨ha1, ha2⟩ := List.mem_filter.1 ha
          simp only [ne_eq, decide_not, Bool.not_eq_true', decide_eq_false_iff_not] at ha2
          have hold := i2 a ha1 fam1 key1 d1 hown
          by_cases hfk : fam1 = fam
          · subst hfk
            simp only [Function.update_same, StdMap.find_erase]
            by_cases hk : key1 = convDesc
            · subst hk
              rw [hp] at hold
              exact absurd (Option.some.inj hold.1).symm ha2
            · simp only [hk, if_false]
              exact hold
          · simp only [Function.update_noteq hfk]
            exact hold
        · intro a ha
          exact i3 a (List.mem_filter.1 ha).1
        · exact (List.Nodup.sublist (List.Sublist.map _ (List.filter_sublist _)) i4)
      · simp only [Free.released, World.setWs, World.setWsSize, hf.2.2.2.2, hst]
        exact validFrees_append _ _ h.2 (fun _ _ h1 => by cases h1; rfl)

/-- After `Free` under the invariant, no workspace of that family and key is outstanding. -/
theorem Free_no_buffer (convDesc : Handle) (fam : Family) (w : World α) (h : Good w) :
    ∀ a ∈ (Free convDesc fam w).live, ∀ d, a.owner ≠ Owner.workspace fam convDesc d := by
  intro a ha d hown
  have hg := Good_Free convDesc fam w h
  have hent := hg.1.2.1 a ha fam convDesc d hown
  have ha0 := hg.1.2.2.1 a ha
  -- the entry survived `Free`, so it was there before with the same non-null pointer
  rw [Free_eq] at hent ha
  obtain ⟨i1, -, -, -⟩ := h.1
  cases hp : (w.ws fam).find convDesc with
  | none =>
    rw [hp] at hent ha
    simp only [] at hent
    rw [hp] at hent
    cases hent.1
  | some p =>
    rw [hp] at hent ha
    simp only [] at hent ha
    obtain ⟨s, hs, himp⟩ := i1 fam convDesc p hp
    by_cases hp0 : p = 0
    · simp only [hp0, if_true] at hent
      rw [hp] at hent
      exact ha0 ((Option.some.inj hent.1).symm.trans hp0)
    · simp only [hp0, if_false, hs, (himp hp0).1, if_true] at hent
      rw [(Free_released_maps convDesc fam p w).1, StdMap.find_erase] at hent
      simp at hent

end InvariantRelease
/-! ## The cache invariant through the emulation helpers -/

section InvariantEmulation

variable {α : Type}

/-- `SaveAsPriorBuffer` keeps the invariant, and an outstanding allocation at the address it
returns is the snapshot. -/
theorem Good_SaveAsPriorBuffer (env : Backend α) (dData : DevPtr) (w : World α) (h : Good w) :
    Good (SaveAsPriorBuffer env dData w).world ∧
    ∀ dPrior w2, SaveAsPriorBuffer env dData w = Step.next dPrior w2 →
      ∀ a ∈ w2.live, a.ptr = dPrior → a.owner = Owner.prior := by
  unfold SaveAsPriorBuffer
  simp only []
  have g1 := Good_hipMemPtrGetInfo dData w h
  split
  · exact ⟨g1, fun _ _ h1 => by cases h1⟩
  · have g2 := Good_hipMalloc env (hipMemPtrGetInfo dData w).2.1 Owner.prior
      (hipMemPtrGetInfo dData w).2.2 g1 (fun _ _ _ h1 => by cases h1)
    have g3 := Good_hipMemcpy env
      (hipMalloc env (hipMemPtrGetInfo dData w).2.1 Owner.prior (hipMemPtrGetInfo dData w).2.2).2.1
      dData (hipMemPtrGetInfo dData w).2.1
      (hipMalloc env (hipMemPtrGetInfo dData w).2.1 Owner.prior
        (hipMemPtrGetInfo dData w).2.2).2.2 g2
    split
    · exact ⟨g2, fun _ _ h1 => by cases h1⟩
    · rename_i hm
      split
      · exact ⟨g3, fun _ _ h1 => by cases h1⟩
      · refine ⟨g3, ?_⟩
        intro dPrior w2 heq a ha hap
        cases heq
        rw [(hipMemcpy_frame env _ _ _ _).2.2.1] at ha
        rcases hipMalloc_cases env (hipMemPtrGetInfo dData w).2.1 Owner.prior
          (hipMemPtrGetInfo dData w).2.2 with hc | hc | hc
        · rw [hc.2.2.2] at ha
          exact absurd (hap.trans hc.2.2.1) (g1.1.2.2.1 a ha)
        · rw [hc.2.2.2.2] at ha
          rcases List.mem_cons.1 ha with h1 | h1
          · rw [h1]
          · exact absurd (List.mem_map.2 ⟨a, h1, hap⟩) hc.2.2.2.1
        · exact absurd (CHECK_HIP_none _ hm) hc.1

/-- `deallocPrior` on a snapshot keeps the invariant. -/
theorem Good_deallocPrior (dData : DevPtr) (w : World α) (h : Good w)
    (hp : ∀ a ∈ w.live, a.ptr = dData → a.owner = Owner.prior) :
    Good (deallocPrior dData w).world := by
  unfold deallocPrior
  simp only []
  have g1 := Good_hipMemPtrGetInfo dData w h
  have hl := (hipMemPtrGetInfo_frame dData w).2.2.1
  split
  · exact g1
  · rename_i hm
    have hok := hipMemPtrGetInfo_ok dData w (CHECK_HIP_none _ hm)
    obtain ⟨a, ha, hap, -⟩ := hok
    have g2 : Good (hipFree dData (hipMemPtrGetInfo dData w).2.2).2 := by
      apply Good_hipFree _ _ g1
      · intro b hb hbp fam key d hown
        rw [hl] at hb
        rw [hp b hb hbp] at hown
        cases hown
      · right
        rw [hl]
        exact List.mem_map.2 ⟨a, ha, hap⟩
    split_ifs
    · split
      · exact g2
      · exact g2
    · exact g1

theorem deallocPrior_stop (dData : DevPtr) (w w1 : World α) (o : Outcome)
    (h : deallocPrior dData w = Step.stop o w1) : o = Outcome.exited := by
  unfold deallocPrior at h
  simp only [] at h
  split at h
  · rename_i o1 ho
    cases h
    exact CHECK_HIP_some _ _ ho
  · split_ifs at h
    · split at h
      · rename_i o1 ho
        cases h
        exact CHECK_HIP_some _ _ ho
      · cases h

/-- `accumulateGradients` touches neither the maps nor the heap and releases nothing. -/
theorem Good_accumulateGradients [Zero α] [Add α] [Mul α] (env : Backend α)
    (gradient gradientPrior : DevPtr) (gradientDesc : Handle) (beta : HostPtr) (w : World α)
    (h : Good w) :
    Good (accumulateGradients env gradient gradientPrior gradientDesc beta w).world ∧
    (accumulateGradients env gradient gradientPrior gradientDesc beta w).world.live
      = w.live := by
  unfold accumulateGradients
  simp only []
  have g1 := Good_backendQuery env (Event.miopenGetTensorDescriptor gradientDesc) w h
    (fun _ _ h1 => by cases h1)
  split
  · exact ⟨g1, rfl⟩
  · have g2 := Good_emit _ (Event.hipLaunchKernelGGL_TensorAdd 512 256 gradient gradientPrior
      (totalElements env (env.tensorDims w gradientDesc))) g1 (fun _ _ h1 => by cases h1)
    split
    · exact ⟨g2, rfl⟩
    · rename_i mem1 _
      have g3 : Good ({ (backendQuery env (Event.miopenGetTensorDescriptor gradientDesc) w).2.emit
          (Event.hipLaunchKernelGGL_TensorAdd 512 256 gradient gradientPrior
            (totalElements env (env.tensorDims w gradientDesc))) with mem := mem1 } :
            World α) :=
        ⟨CacheInv_congr _ _ rfl rfl rfl g2.1, g2.2⟩
      have g4 := Good_emit _ Event.hipDeviceSynchronize g3 (fun _ _ h1 => by cases h1)
      split
      · exact ⟨g4, rfl⟩
      · exact ⟨g4, rfl⟩

end InvariantEmulation
/-! ## The cache invariant through the entry points -/

section InvariantEntryPoints

variable {α : Type}

/-- Lines 1546-1566 of `hipdnnConvolutionBackwardFilter` keep the invariant, whichever way they end. -/
theorem Good_hipdnnConvolutionBackwardFilter_compute [Zero α] [Add α] [Mul α] [DecidableEq α] (env : Backend α)
    (a : ConvBwdFilterArgs) (ws : DevPtr × Nat) (w1 : World α) (h : Good w1) :
    Good (hipdnnConvolutionBackwardFilter.compute env a ws w1).2 := by
  unfold hipdnnConvolutionBackwardFilter.compute
  simp only []
  split
  · exact h
  · split_ifs with hb
    · have g := Good_backendCall env
        (Event.miopenConvolutionBackwardWeights a.handle a.alpha a.dyDesc a.dy a.xDesc a.x a.convDesc
          (hipTomiopenConvolutionBwdFilterAlgo a.algo).2 a.beta a.dwDesc a.dw ws.1 ws.2) a.dw w1 h
        (fun _ _ h1 => by cases h1)
      split
      · exact g
      · exact g
    · have hs := Good_SaveAsPriorBuffer env a.dw w1 h
      cases hsv : SaveAsPriorBuffer env a.dw w1 with
      | stop o w2 =>
        rw [hsv] at hs
        exact hs.1
      | next dPrior w2 =>
        rw [hsv] at hs
        have hP := hs.2 dPrior w2 rfl
        have g2 : Good w2 := hs.1
        simp only []
        have g3 := Good_backendCall env
          (Event.miopenConvolutionBackwardWeights a.handle a.alpha a.dyDesc a.dy a.xDesc a.x a.convDesc
            (hipTomiopenConvolutionBwdFilterAlgo a.algo).2 HostPtr.tempBeta a.dwDesc a.dw ws.1 ws.2) a.dw w2 g2
          (fun _ _ h1 => by cases h1)
        split
        · exact g3
        · have ha := Good_accumulateGradients env a.dw dPrior a.dwDesc a.beta _ g3
          cases hav : accumulateGradients env a.dw dPrior a.dwDesc a.beta
              (backendCall env
                (Event.miopenConvolutionBackwardWeights a.handle a.alpha a.dyDesc a.dy a.xDesc a.x a.convDesc
                  (hipTomiopenConvolutionBwdFilterAlgo a.algo).2 HostPtr.tempBeta a.dwDesc a.dw ws.1 ws.2) a.dw w2).2 with
          | stop o w3 =>
            rw [hav] at ha
            exact ha.1
          | next st w3 =>
            rw [hav] at ha
            simp only []
            have hl : w3.live = w2.live := ha.2
            have hd := Good_deallocPrior dPrior w3 ha.1 (by rw [hl]; exact hP)
            cases hdv : deallocPrior dPrior w3 with
            | stop o w4 => rw [hdv] at hd; exact hd
            | next u w4 => rw [hdv] at hd; exact hd

/-- Entry point `hipdnnConvolutionBackwardFilter` keeps the invariant. -/
theorem Good_hipdnnConvolutionBackwardFilter [Zero α] [Add α] [Mul α] [DecidableEq α] (env : Backend α)
    (a : ConvBwdFilterArgs) (w : World α) (h : Good w) : Good (hipdnnConvolutionBackwardFilter env a w).2 := by
  unfold hipdnnConvolutionBackwardFilter
  have hq := Good_acquireWorkSpace env Family.BackwardKernelConvolution a.convDesc a.convDesc
    (backwardWeightsSizeQuery a.handle a.dyDesc a.xDesc a.convDesc a.dwDesc) w h (fun _ _ h1 => by cases h1)
  cases hv : acquireWorkSpace env Family.BackwardKernelConvolution a.convDesc a.convDesc
      (backwardWeightsSizeQuery a.handle a.dyDesc a.xDesc a.convDesc a.dwDesc) w with
  | stop o w1 => rw [hv] at hq; exact hq
  | next ws w1 =>
    rw [hv] at hq
    exact Good_hipdnnConvolutionBackwardFilter_compute env a ws w1 hq

/-- Lines 1809-1850 of `hipdnnConvolutionBackwardData` keep the invariant, whichever way they end. -/
theorem Good_hipdnnConvolutionBackwardData_compute [Zero α] [Add α] [Mul α] [DecidableEq α] (env : Backend α)
    (a : ConvBwdDataArgs) (ws : DevPtr × Nat) (w1 : World α) (h : Good w1) :
    Good (hipdnnConvolutionBackwardData.compute env a ws w1).2 := by
  unfold hipdnnConvolutionBackwardData.compute
  simp only []
  split
  · exact h
  · split_ifs with hb
    · have g := Good_backendCall env
        (Event.miopenConvolutionBackwardData a.handle a.alpha a.dyDesc a.dy a.wDesc a.w a.convDesc
          (hipTomiopenConvolutionBwdDataAlgo a.algo).2 a.beta a.dxDesc a.dx ws.1 ws.2) a.dx w1 h
        (fun _ _ h1 => by cases h1)
      split
      · exact g
      · exact g
    · have hs := Good_SaveAsPriorBuffer env a.dx w1 h
      cases hsv : SaveAsPriorBuffer env a.dx w1 with
      | stop o w2 =>
        rw [hsv] at hs
        exact hs.1
      | next dPrior w2 =>
        rw [hsv] at hs
        have hP := hs.2 dPrior w2 rfl
        have g2 : Good w2 := hs.1
        simp only []
        have g3 := Good_backendCall env
          (Event.miopenConvolutionBackwardData a.handle a.alpha a.dyDesc a.dy a.wDesc a.w a.convDesc
            (hipTomiopenConvolutionBwdDataAlgo a.algo).2 HostPtr.tempBeta a.dxDesc a.dx ws.1 ws.2) a.dx w2 g2
          (fun _ _ h1 => by cases h1)
        split
        · exact g3
        · have ha := Good_accumulateGradients env a.dx dPrior a.dxDesc a.beta _ g3
          cases hav : accumulateGradients env a.dx dPrior a.dxDesc a.beta
              (backendCall env
                (Event.miopenConvolutionBackwardData a.handle a.alpha a.dyDesc a.dy a.wDesc a.w a.convDesc
                  (hipTomiopenConvolutionBwdDataAlgo a.algo).2 HostPtr.tempBeta a.dxDesc a.dx ws.1 ws.2) a.dx w2).2 with
          | stop o w3 =>
            rw [hav] at ha
            exact ha.1
          | next st w3 =>
            rw [hav] at ha
            simp only []
            have hl : w3.live = w2.live := ha.2
            have hd := Good_deallocPrior dPrior w3 ha.1 (by rw [hl]; exact hP)
            cases hdv : deallocPrior dPrior w3 with
            | stop o w4 => rw [hdv] at hd; exact hd
            | next u w4 => rw [hdv] at hd; exact hd

/-- Entry point `hipdnnConvolutionBackwardData` keeps the invariant. -/
theorem Good_hipdnnConvolutionBackwardData [Zero α] [Add α] [Mul α] [DecidableEq α] (env : Backend α)
    (a : ConvBwdDataArgs) (w : World α) (h : Good w) : Good (hipdnnConvolutionBackwardData env a w).2 := by
  unfold hipdnnConvolutionBackwardData
  have hq := Good_acquireWorkSpace env Family.BackwardDataConvolution a.convDesc a.convDesc
    (backwardDataSizeQuery a.handle a.dyDesc a.wDesc a.convDesc a.dxDesc) w h (fun _ _ h1 => by cases h1)
  cases hv : acquireWorkSpace env Family.BackwardDataConvolution a.convDesc a.convDesc
      (backwardDataSizeQuery a.handle a.dyDesc a.wDesc a.convDesc a.dxDesc) w with
  | stop o w1 => rw [hv] at hq; exact hq
  | next ws w1 =>
    rw [hv] at hq
    exact Good_hipdnnConvolutionBackwardData_compute env a ws w1 hq

/-- Entry point `hipdnnConvolutionForward` keeps the invariant. -/
theorem Good_hipdnnConvolutionForward (env : Backend α) (a : ConvFwdArgs) (w : World α)
    (h : Good w) : Good (hipdnnConvolutionForward env a w).2 := by
  unfold hipdnnConvolutionForward
  have hq := Good_acquireWorkSpace env Family.ForwardConvolution a.convDesc a.convDesc
    (forwardSizeQuery a.handle a.wDesc a.xDesc a.convDesc a.yDesc) w h
    (fun _ _ h1 => by cases h1)
  cases hv : acquireWorkSpace env Family.ForwardConvolution a.convDesc a.convDesc
      (forwardSizeQuery a.handle a.wDesc a.xDesc a.convDesc a.yDesc) w with
  | stop o w1 => rw [hv] at hq; exact hq
  | next ws w1 =>
    rw [hv] at hq
    simp only [hipdnnConvolutionForward.compute, Step.world] at hq ⊢
    split
    · exact hq
    · have g := Good_backendCall env
        (Event.miopenConvolutionForward a.handle a.alpha a.xDesc a.x a.wDesc a.w a.convDesc
          (hipTomiopenConvolutionFwdAlgo a.algo).2 a.beta a.yDesc a.y ws.1 ws.2) a.y w1 hq
        (fun _ _ h1 => by cases h1)
      split
      · exact g
      · exact g

/-- Entry point `hipdnnFindConvolutionForwardAlgorithmEx` keeps the invariant. -/
theorem Good_hipdnnFindConvolutionForwardAlgorithmEx (env : Backend α) (a : FindFwdArgs)
    (w : World α) (h : Good w) :
    Good (hipdnnFindConvolutionForwardAlgorithmEx env a w).world := by
  unfold hipdnnFindConvolutionForwardAlgorithmEx
  have hq := Good_acquireWorkSpace env Family.ForwardConvolution a.convDesc a.convDesc
    (forwardSizeQuery a.handle a.wDesc a.xDesc a.convDesc a.yDesc) w h
    (fun _ _ h1 => by cases h1)
  split
  · exact h
  · exact h
  · exact h
  · cases hn : newPerfResults a.requestedAlgoCount with
    | some o => exact h
    | none =>
      simp only []
      cases hv : acquireWorkSpace env Family.ForwardConvolution a.convDesc a.convDesc
          (forwardSizeQuery a.handle a.wDesc a.xDesc a.convDesc a.yDesc) w with
      | stop o w1 => rw [hv] at hq; exact hq
      | next ws w1 =>
        rw [hv] at hq
        simp only [Step.world] at hq ⊢
        have g := Good_backendCall env
          (Event.miopenFindConvolutionForwardAlgorithm a.handle a.xDesc a.x a.wDesc a.w
            a.convDesc a.yDesc a.y a.requestedAlgoCount ws.1 ws.2 false) a.y w1 hq
          (fun _ _ h1 => by cases h1)
        split
        · exact g
        · split
          · exact g
          · exact g

/-- Entry point `hipdnnFindConvolutionBackwardFilterAlgorithmEx` keeps the invariant. -/
theorem Good_hipdnnFindConvolutionBackwardFilterAlgorithmEx (env : Backend α)
    (a : FindBwdFilterArgs) (w : World α) (h : Good w) :
    Good (hipdnnFindConvolutionBackwardFilterAlgorithmEx env a w).world := by
  unfold hipdnnFindConvolutionBackwardFilterAlgorithmEx
  have hq := Good_acquireWorkSpace env Family.BackwardKernelConvolution a.convDesc a.convDesc
    (backwardWeightsSizeQuery a.handle a.dyDesc a.xDesc a.convDesc a.dwDesc) w h
    (fun _ _ h1 => by cases h1)
  split
  · exact h
  · exact h
  · exact h
  · cases hn : newPerfResults a.requestedAlgoCount with
    | some o => exact h
    | none =>
      simp only []
      cases hv : acquireWorkSpace env Family.BackwardKernelConvolution a.convDesc a.convDesc
          (backwardWeightsSizeQuery a.handle a.dyDesc a.xDesc a.convDesc a.dwDesc) w with
      | stop o w1 => rw [hv] at hq; exact hq
      | next ws w1 =>
        rw [hv] at hq
        simp only [Step.world] at hq ⊢
        have g := Good_backendCall env
          (Event.miopenFindConvolutionBackwardWeightsAlgorithm a.handle a.dyDesc a.dy a.xDesc
            a.x a.convDesc a.dwDesc a.dw a.requestedAlgoCount ws.1 ws.2 false) a.dw w1 hq
          (fun _ _ h1 => by cases h1)
        split
        · exact g
        · split
          · exact g
          · exact g

/-- Entry point `hipdnnFindConvolutionBackwardDataAlgorithmEx` keeps the invariant. -/
theorem Good_hipdnnFindConvolutionBackwardDataAlgorithmEx (env : Backend α)
    (a : FindBwdDataArgs) (w : World α) (h : Good w) :
    Good (hipdnnFindConvolutionBackwardDataAlgorithmEx env a w).world := by
  unfold hipdnnFindConvolutionBackwardDataAlgorithmEx
  have hq := Good_acquireWorkSpace env Family.BackwardDataConvolution a.convDesc a.convDesc
    (backwardDataSizeQuery a.handle a.dyDesc a.wDesc a.convDesc a.dxDesc) w h
    (fun _ _ h1 => by cases h1)
  cases hn : newPerfResults a.requestedAlgoCount with
  | some o => exact h
  | none =>
    simp only []
    cases hv : acquireWorkSpace env Family.BackwardDataConvolution a.convDesc a.convDesc
        (backwardDataSizeQuery a.handle a.dyDesc a.wDesc a.convDesc a.dxDesc) w with
    | stop o w1 => rw [hv] at hq; exact hq
    | next ws w1 =>
      rw [hv] at hq
      simp only [Step.world] at hq ⊢
      have g1 := Good_backendQuery env
        (backwardDataSizeQuery a.handle a.dyDesc a.wDesc a.convDesc a.dxDesc) w1 hq
        (fun _ _ h1 => by cases h1)
      split
      · exact g1
      · have g := Good_backendCall env
          (Event.miopenFindConvolutionBackwardDataAlgorithm a.handle a.dyDesc a.dy a.wDesc a.w
            a.convDesc a.dxDesc a.dx a.requestedAlgoCount ws.1 ws.2 false) a.dx _ g1
          (fun _ _ h1 => by cases h1)
        split
        · exact g
        · split
          · exact g
          · exact g

/-- Entry point `hipdnnDestroyConvolutionDescriptor` keeps the invariant, and leaves no
workspace of the descriptor outstanding in any convolution family. -/
theorem Good_hipdnnDestroyConvolutionDescriptor (env : Backend α) (convDesc : Handle)
    (w : World α) (h : Good w) :
    Good (hipdnnDestroyConvolutionDescriptor env convDesc w).2 ∧
    convBuffersOf (hipdnnDestroyConvolutionDescriptor env convDesc w).2 convDesc = [] := by
  have g1 := Good_Free convDesc Family.ForwardConvolution w h
  have g2 := Good_Free convDesc Family.BackwardKernelConvolution _ g1
  have g3 := Good_Free convDesc Family.BackwardDataConvolution _ g2
  have g4 := Good_backendQuery env (Event.miopenDestroyConvolutionDescriptor convDesc) _ g3
    (fun _ _ h1 => by cases h1)
  have hlive : (hipdnnDestroyConvolutionDescriptor env convDesc w).2.live =
      (Free convDesc Family.BackwardDataConvolution
        (Free convDesc Family.BackwardKernelConvolution
          (Free convDesc Family.ForwardConvolution w))).live := by
    unfold hipdnnDestroyConvolutionDescriptor
    simp only []
    split <;> rfl
  have hgood : Good (hipdnnDestroyConvolutionDescriptor env convDesc w).2 := by
    unfold hipdnnDestroyConvolutionDescriptor
    simp only []
    split
    · exact g4
    · exact g4
  refine ⟨hgood, ?_⟩
  unfold convBuffersOf
  rw [hlive]
  apply List.filter_eq_nil_iff.2
  intro a ha
  -- a workspace of `convDesc` still outstanding would be the entry of its family (invariant),
  -- but the three maps have no non-null entry for `convDesc` any more
  have hent := g3.1.2.1 a ha
  have ha0 := g3.1.2.2.1 a ha
  have hmaps := hipdnnDestroyConvolutionDescriptor_maps env convDesc w
  cases hown : a.owner with
  | external => simp
  | prior => simp
  | workspace fam key d =>
    have hk : ∀ (f : Family) (hf : f = Family.ForwardConvolution ∨
        f = Family.BackwardKernelConvolution ∨ f = Family.BackwardDataConvolution),
        fam = f → key ≠ convDesc := by
      intro f hf hfam hkey
      subst hfam; subst hkey
      rcases hf with hf | hf | hf
      · subst hf
        -- forward: erased by the first `Free`, untouched by the other two
        have n1 := Free_no_buffer key Family.ForwardConvolution w h
        have e3 := (hent Family.ForwardConvolution key d hown).1
        rw [(Free_other_family key Family.BackwardDataConvolution Family.ForwardConvolution _
          (by decide)).1,
          (Free_other_family key Family.BackwardKernelConvolution Family.ForwardConvolution _
          (by decide)).1] at e3
        -- the entry of the forward family after the first `Free` is null or absent
        have := g1.1.1 Family.ForwardConvolution key a.ptr e3
        obtain ⟨s, -, himp⟩ := this
        obtain ⟨-, d1, hd1⟩ := himp ha0
        exact n1 _ hd1 d1 rfl
      · subst hf
        have n1 := Free_no_buffer key Family.BackwardKernelConvolution _ g1
        have e3 := (hent Family.BackwardKernelConvolution key d hown).1
        rw [(Free_other_family key Family.BackwardDataConvolution
          Family.BackwardKernelConvolution _ (by decide)).1] at e3
        obtain ⟨s, -, himp⟩ := g2.1.1 Family.BackwardKernelConvolution key a.ptr e3
        obtain ⟨-, d1, hd1⟩ := himp ha0
        exact n1 _ hd1 d1 rfl
      · subst hf
        exact Free_no_buffer key Family.BackwardDataConvolution _ g2 a ha d hown
    cases fam with
    | ForwardConvolution => simpa using hk _ (Or.inl rfl) rfl
    | BackwardDataConvolution => simpa using hk _ (Or.inr (Or.inr rfl)) rfl
    | BackwardKernelConvolution => simpa using hk _ (Or.inr (Or.inl rfl)) rfl
    | Pooling => simp
    | LRN => simp

end InvariantEntryPoints
/-! ## No leak and no double free -/

section Lifetime

variable {α : Type}

/-- At process start, with any allocations of the rest of the process, the invariant holds. -/
theorem Good_startWith (ext : List Alloc) (mem : DevPtr → Nat → α) (host : Nat → α)
    (hext : ExternalHeap ext) : Good (World.startWith ext mem host) := by
  refine ⟨⟨?_, ?_, ?_, hext.2⟩, ?_⟩
  · intro fam key p hp
    simp [World.startWith, World.start, StdMap.empty, StdMap.find] at hp
  · intro a ha fam key d hown
    have := (hext.1 a ha).1
    rw [this] at hown
    cases hown
  · intro a ha
    exact (hext.1 a ha).2
  · intro p e hmem
    simp [World.startWith, World.start] at hmem

/-- A sequence of calls keeps what each call keeps. -/
theorem runCalls_preserves {C : Type} (run : C → World α → Outcome × World α)
    (P : World α → Prop) (hrun : ∀ c w, P w → P (run c w).2) (calls : List C) (w : World α)
    (h : P w) : P (runCalls run calls w).2 := by
  induction calls generalizing w with
  | nil => exact h
  | cons c cs ih =>
    have h1 := hrun c w h
    unfold runCalls
    cases hr : run c w with
    | mk o w1 =>
      rw [hr] at h1
      cases o with
      | returned s => exact ih w1 h1
      | exited => exact h1
      | hang => exact h1

/-- Every convolution call keeps the invariant. -/
theorem Good_ConvCall_run [Zero α] [Add α] [Mul α] [DecidableEq α] (env : Backend α)
    (c : ConvCall) (w : World α) (h : Good w) : Good (c.run env w).2 := by
  cases c with
  | FindForwardEx a => exact Good_hipdnnFindConvolutionForwardAlgorithmEx env a w h
  | Forward a => exact Good_hipdnnConvolutionForward env a w h
  | FindBackwardFilterEx a => exact Good_hipdnnFindConvolutionBackwardFilterAlgorithmEx env a w h
  | BackwardFilter a => exact Good_hipdnnConvolutionBackwardFilter env a w h
  | FindBackwardDataEx a => exact Good_hipdnnFindConvolutionBackwardDataAlgorithmEx env a w h
  | BackwardData a => exact Good_hipdnnConvolutionBackwardData env a w h
  | Destroy convDesc => exact (Good_hipdnnDestroyConvolutionDescriptor env convDesc w h).1

/-- **C7** No leak and no double free across a convolution descriptor's lifetime: from
process start (with any allocations `ext` of the rest of the process outstanding), after
every finite sequence of workspace-acquiring convolution calls (forward, backward-data,
backward-filter, their `Find*Ex` variants) and `hipdnnDestroyConvolutionDescriptor` calls,
every `hipFree` issued was accepted by the runtime, that is, it released an allocation
outstanding at that moment, so no buffer is released twice; and immediately after a further
`hipdnnDestroyConvolutionDescriptor(h)` no workspace that the cache allocated for `h` (in any
convolution family) is still allocated. -/
theorem C7_no_leak_no_double_free [Zero α] [Add α] [Mul α] [DecidableEq α] (env : Backend α)
    (ext : List Alloc) (mem : DevPtr → Nat → α) (host : Nat → α) (hext : ExternalHeap ext)
    (calls : List ConvCall) (h : Handle) :
    validFrees (runCalls (ConvCall.run env) calls (World.startWith ext mem host)).2.trace ∧
    validFrees (hipdnnDestroyConvolutionDescriptor env h
      (runCalls (ConvCall.run env) calls (World.startWith ext mem host)).2).2.trace ∧
    convBuffersOf (hipdnnDestroyConvolutionDescriptor env h
      (runCalls (ConvCall.run env) calls (World.startWith ext mem host)).2).2 h = [] := by
  have g := runCalls_preserves (ConvCall.run env) Good (Good_ConvCall_run env) calls _
    (Good_startWith ext mem host hext)
  have gd := Good_hipdnnDestroyConvolutionDescriptor env h _ g
  exact ⟨g.2, gd.1.2, gd.2⟩

/-- Witness for C7: the lifetime `demoConvCalls` of descriptor `7`, run with the demo backend
while three tensors of the process are allocated. -/
theorem C7_no_leak_no_double_free_witness :
    ExternalHeap demoExt ∧
    validFrees (runCalls (ConvCall.run demoBackend) demoConvCalls
      (World.startWith demoExt (fun _ _ => 0) (fun _ => 0))).2.trace ∧
    validFrees (hipdnnDestroyConvolutionDescriptor demoBackend 7
      (runCalls (ConvCall.run demoBackend) demoConvCalls
        (World.startWith demoExt (fun _ _ => 0) (fun _ => 0))).2).2.trace ∧
    convBuffersOf (hipdnnDestroyConvolutionDescriptor demoBackend 7
      (runCalls (ConvCall.run demoBackend) demoConvCalls
        (World.startWith demoExt (fun _ _ => 0) (fun _ => 0))).2).2 7 = [] :=
  have hext : ExternalHeap demoExt := by
    unfold ExternalHeap demoExt
    decide
  ⟨hext, C7_no_leak_no_double_free demoBackend demoExt (fun _ _ => 0) (fun _ => 0) hext
    demoConvCalls 7⟩

end Lifetime
/-! ## Pooling family -/

section Pooling

variable {α : Type}

/-- The get-or-allocate block leaves the entries of every other key and family alone. -/
theorem acquireWorkSpace_find_other (env : Backend α) (fam : Family) (key opDesc : Handle)
    (q : Event) (w : World α) (fam1 : Family) (key1 : Handle)
    (hne : fam1 ≠ fam ∨ key1 ≠ key) :
    ((acquireWorkSpace env fam key opDesc q w).world.ws fam1).find key1
      = (w.ws fam1).find key1 ∧
    ((acquireWorkSpace env fam key opDesc q w).world.wsSize fam1).find key1
      = (w.wsSize fam1).find key1 := by
  have hupd : ∀ (V : Type) (f : Family → StdMap V) (v : V),
      (Function.update f fam ((f fam).set key v) fam1).find key1 = (f fam1).find key1 := by
    intro V f v
    by_cases hf : fam1 = fam
    · subst hf
      have hk : key1 ≠ key := by
        rcases hne with h | h
        · exact absurd rfl h
        · exact h
      simp [StdMap.find_set, hk]
    · simp [Function.update_noteq hf]
  unfold acquireWorkSpace
  split_ifs with hfind
  · simp only []
    have hf := hipMalloc_frame env (env.workSpaceSize w q)
      (Owner.workspace fam key opDesc) (backendQuery env q w).2
    split
    · exact ⟨rfl, rfl⟩
    · split
      · simp only [Step.world, hf.1, hf.2.1]
        exact ⟨rfl, rfl⟩
      · simp only [Step.world, World.setWs, World.setWsSize, hf.1, hf.2.1]
        exact ⟨hupd _ _ _, hupd _ _ _⟩
  · simp only [Step.world, World.setWs, World.setWsSize]
    obtain ⟨p, hp⟩ := Option.ne_none_iff_exists'.1 hfind
    rw [StdMap.get_of_find _ _ _ _ hp]
    simp only [Function.update_eq_self, true_and]
    cases hs : (w.wsSize fam).find key with
    | some s =>
      rw [StdMap.get_of_find _ _ _ _ hs]
      simp
    | none =>
      rw [StdMap.get_of_find_none _ _ _ hs]
      exact hupd _ _ _

/-- A pooling call whose output descriptor has an entry makes one external call, its backend
primitive with the cached pointer, and changes neither the maps nor the heap. -/
theorem PoolCall.run_hit (env : Backend α) (c : PoolCall) (w : World α) (p : DevPtr) (s : Nat)
    (hp : w.sDescToWorkspacePooling.find c.yDesc = some p)
    (hs : w.sDescToWorkspacePoolingSize.find c.yDesc = some s) :
    (c.run env w).2.trace = w.trace ++ [c.primitive p s] ∧
    (c.run env w).2.ws = w.ws ∧ (c.run env w).2.wsSize = w.wsSize ∧
    (c.run env w).2.live = w.live := by
  cases c with
  | Forward a =>
    simp only [PoolCall.run, PoolCall.primitive, PoolCall.yDesc] at hp hs ⊢
    unfold hipdnnPoolingForward
    rw [acquireWorkSpace_hit env Family.Pooling a.yDesc a.poolingDesc _ w p s hp hs]
    simp only []
    split <;> simp [backendCall, World.emit, World.writeMem]
  | Backward a =>
    simp only [PoolCall.run, PoolCall.primitive, PoolCall.yDesc] at hp hs ⊢
    unfold hipdnnPoolingBackward
    rw [acquireWorkSpace_hit env Family.Pooling a.yDesc a.poolingDesc _ w p s hp hs]
    simp only []
    split <;> simp [backendCall, World.emit, World.writeMem]

/-- After its get-or-allocate block a pooling call changes no map. -/
theorem PoolCall.run_maps (env : Backend α) (c : PoolCall) (w : World α) :
    (c.run env w).2.ws = (acquireWorkSpace env Family.Pooling c.yDesc c.poolingDesc
      (Event.miopenPoolingGetWorkSpaceSize c.yDesc) w).world.ws ∧
    (c.run env w).2.wsSize = (acquireWorkSpace env Family.Pooling c.yDesc c.poolingDesc
      (Event.miopenPoolingGetWorkSpaceSize c.yDesc) w).world.wsSize := by
  cases c with
  | Forward a =>
    simp only [PoolCall.run, PoolCall.yDesc, PoolCall.poolingDesc]
    unfold hipdnnPoolingForward
    cases acquireWorkSpace env Family.Pooling a.yDesc a.poolingDesc
        (Event.miopenPoolingGetWorkSpaceSize a.yDesc) w with
    | stop o w1 => exact ⟨rfl, rfl⟩
    | next v w1 =>
      simp only [Step.world]
      split <;> exact ⟨rfl, rfl⟩
  | Backward a =>
    simp only [PoolCall.run, PoolCall.yDesc, PoolCall.poolingDesc]
    unfold hipdnnPoolingBackward
    cases acquireWorkSpace env Family.Pooling a.yDesc a.poolingDesc
        (Event.miopenPoolingGetWorkSpaceSize a.yDesc) w with
    | stop o w1 => exact ⟨rfl, rfl⟩
    | next v w1 =>
      simp only [Step.world]
      split <;> exact ⟨rfl, rfl⟩

/-- A pooling entry, once stored, is kept by every pooling call. -/
theorem PoolCall.run_keeps_entry (env : Backend α) (c : PoolCall) (w : World α) (y : Handle)
    (p : DevPtr) (s : Nat)
    (hp : w.sDescToWorkspacePooling.find y = some p)
    (hs : w.sDescToWorkspacePoolingSize.find y = some s) :
    (c.run env w).2.sDescToWorkspacePooling.find y = some p ∧
    (c.run env w).2.sDescToWorkspacePoolingSize.find y = some s := by
  by_cases hy : c.yDesc = y
  · subst hy
    obtain ⟨-, h1, h2, -⟩ := PoolCall.run_hit env c w p s hp hs
    simp only [World.sDescToWorkspacePooling, World.sDescToWorkspacePoolingSize, h1, h2]
    exact ⟨hp, hs⟩
  · obtain ⟨h1, h2⟩ := PoolCall.run_maps env c w
    obtain ⟨h3, h4⟩ := acquireWorkSpace_find_other env Family.Pooling c.yDesc c.poolingDesc
      (Event.miopenPoolingGetWorkSpaceSize c.yDesc) w Family.Pooling y
      (Or.inr (fun h => hy h.symm))
    simp only [World.sDescToWorkspacePooling, World.sDescToWorkspacePoolingSize, h1, h2, h3, h4]
    exact ⟨hp, hs⟩

/-- Every pooling call keeps the invariant. -/
theorem Good_PoolCall_run (env : Backend α) (c : PoolCall) (w : World α) (h : Good w) :
    Good (c.run env w).2 := by
  cases c with
  | Forward a =>
    simp only [PoolCall.run]
    unfold hipdnnPoolingForward
    have hq := Good_acquireWorkSpace env Family.Pooling a.yDesc a.poolingDesc
      (Event.miopenPoolingGetWorkSpaceSize a.yDesc) w h (fun _ _ h1 => by cases h1)
    cases hv : acquireWorkSpace env Family.Pooling a.yDesc a.poolingDesc
        (Event.miopenPoolingGetWorkSpaceSize a.yDesc) w with
    | stop o w1 => rw [hv] at hq; exact hq
    | next ws w1 =>
      rw [hv] at hq
      simp only [Step.world] at hq ⊢
      have g := Good_backendCall env
        (Event.miopenPoolingForward a.handle a.poolingDesc a.alpha a.xDesc a.x a.beta a.yDesc
          a.y true ws.1 ws.2) a.y w1 hq (fun _ _ h1 => by cases h1)
      split
      · exact g
      · exact g
  | Backward a =>
    simp only [PoolCall.run]
    unfold hipdnnPoolingBackward
    have hq := Good_acquireWorkSpace env Family.Pooling a.yDesc a.poolingDesc
      (Event.miopenPoolingGetWorkSpaceSize a.yDesc) w h (fun _ _ h1 => by cases h1)
    cases hv : acquireWorkSpace env Family.Pooling a.yDesc a.poolingDesc
        (Event.miopenPoolingGetWorkSpaceSize a.yDesc) w with
    | stop o w1 => rw [hv] at hq; exact hq
    | next ws w1 =>
      rw [hv] at hq
      simp only [Step.world] at hq ⊢
      have g := Good_backendCall env
        (Event.miopenPoolingBackward a.handle a.poolingDesc a.alpha a.yDesc a.y a.dyDesc a.dy
          a.xDesc a.x a.beta a.dxDesc a.dx ws.1) a.dx w1 hq (fun _ _ h1 => by cases h1)
      split
      · exact g
      · exact g

theorem length_le_one_of_nodup_const {β : Type} (l : List β) (b : β) (hn : l.Nodup)
    (hc : ∀ x ∈ l, x = b) : l.length ≤ 1 := by
  match l, hn, hc with
  | [], _, _ => simp
  | [_], _, _ => simp
  | x :: y :: t, hn, hc =>
    have hx := hc x (List.mem_cons_self _ _)
    have hy := hc y (List.mem_cons_of_mem _ (List.mem_cons_self _ _))
    rw [List.nodup_cons] at hn
    exact absurd (hx.trans hy.symm ▸ List.mem_cons_self _ _) hn.1

/-- Under the invariant at most one pooling workspace is outstanding per key. -/
theorem poolBuffersOfKey_le_one (w : World α) (y : Handle) (h : CacheInv w) :
    (poolBuffersOfKey w y).length ≤ 1 := by
  obtain ⟨-, i2, -, i4⟩ := h
  have hsub : ((poolBuffersOfKey w y).map Alloc.ptr).Nodup :=
    List.Nodup.sublist (List.Sublist.map _ (List.filter_sublist _)) i4
  cases hfind : (w.ws Family.Pooling).find y with
  | none =>
    have : poolBuffersOfKey w y = [] := by
      unfold poolBuffersOfKey
      apply List.filter_eq_nil_iff.2
      intro a ha
      cases hown : a.owner with
      | external => simp
      | prior => simp
      | workspace fam key d =>
        cases fam <;> simp
        intro hk
        subst hk
        have := (i2 a ha _ _ _ hown).1
        rw [hfind] at this
        cases this
    simp [this]
  | some p =>
    have := length_le_one_of_nodup_const ((poolBuffersOfKey w y).map Alloc.ptr) p hsub (by
      intro x hx
      obtain ⟨a, ha, rfl⟩ := List.mem_map.1 hx
      unfold poolBuffersOfKey at ha
      obtain ⟨ha1, ha2⟩ := List.mem_filter.1 ha
      cases hown : a.owner with
      | external => rw [hown] at ha2; simp at ha2
      | prior => rw [hown] at ha2; simp at ha2
      | workspace fam key d =>
        rw [hown] at ha2
        cases fam <;> simp at ha2
        subst ha2
        have := (i2 a ha1 _ _ _ hown).1
        rw [hfind] at this
        exact (Option.some.inj this).symm)
    simpa using this

/-- **C5** (amended) Invariant I1 for the pooling family, per output tensor descriptor: from
process start (with any allocations `ext` of the rest of the process), after every sequence
of `hipdnnPoolingForward` / `hipdnnPoolingBackward` calls with arbitrary descriptors, at most
one pooling workspace buffer is resident for each output tensor descriptor `y`; and once an
entry `(p, s)` for `y` is resident in a state `w`, it stays the entry of `y` through every
further sequence of pooling calls, and a later call with the same `yDesc` makes exactly one
external call, its backend primitive handed `p`: it is a reuse of that buffer, not a new
allocation. -/
theorem C5_pooling_one_buffer_per_yDesc (env : Backend α) (ext : List Alloc)
    (mem : DevPtr → Nat → α) (host : Nat → α) (hext : ExternalHeap ext)
    (calls : List PoolCall) (y : Handle) :
    (poolBuffersOfKey (runCalls (PoolCall.run env) calls (World.startWith ext mem host)).2
      y).length ≤ 1 ∧
    ∀ (w : World α) (p : DevPtr) (s : Nat) (c : PoolCall),
      w.sDescToWorkspacePooling.find y = some p →
      w.sDescToWorkspacePoolingSize.find y = some s → c.yDesc = y →
      (runCalls (PoolCall.run env) calls w).2.sDescToWorkspacePooling.find y = some p ∧
      (runCalls (PoolCall.run env) calls w).2.sDescToWorkspacePoolingSize.find y = some s ∧
      (c.run env (runCalls (PoolCall.run env) calls w).2).2.trace =
        (runCalls (PoolCall.run env) calls w).2.trace ++ [c.primitive p s] ∧
      (c.run env (runCalls (PoolCall.run env) calls w).2).2.live =
        (runCalls (PoolCall.run env) calls w).2.live := by
  refine ⟨?_, ?_⟩
  · exact poolBuffersOfKey_le_one _ y
      (runCalls_preserves (PoolCall.run env) Good (Good_PoolCall_run env) calls _
        (Good_startWith ext mem host hext)).1
  · intro w p s c hp hs hc
    have hk := runCalls_preserves (PoolCall.run env)
      (fun w1 => w1.sDescToWorkspacePooling.find y = some p ∧
        w1.sDescToWorkspacePoolingSize.find y = some s)
      (fun c1 w1 h1 => PoolCall.run_keeps_entry env c1 w1 y p s h1.1 h1.2) calls w ⟨hp, hs⟩
    subst hc
    obtain ⟨h1, -, -, h4⟩ := PoolCall.run_hit env c _ p s hk.1 hk.2
    exact ⟨hk.1, hk.2, h1, h4⟩

end Pooling
/-! ## Pooling and LRN workspaces: concrete runs -/

section PoolingRuns

/-- Witness for C5: two forward poolings from process start, and a later pooling on the
output descriptor `7`, which has the entry `(4096, 64)` in `demoCached`. -/
theorem C5_pooling_one_buffer_per_yDesc_witness :
    ExternalHeap demoExt ∧
    demoCached.sDescToWorkspacePooling.find 7 = some 4096 ∧
    demoCached.sDescToWorkspacePoolingSize.find 7 = some 64 ∧
    (PoolCall.Forward demoPoolFwdArgs7).yDesc = 7 ∧
    (poolBuffersOfKey (runCalls (PoolCall.run demoBackend) demoPoolCalls
      (World.startWith demoExt (fun _ _ => 0) (fun _ => 0))).2 7).length ≤ 1 ∧
    (runCalls (PoolCall.run demoBackend) demoPoolCalls demoCached).2.sDescToWorkspacePooling.find
      7 = some 4096 ∧
    ((PoolCall.Forward demoPoolFwdArgs7).run demoBackend
      (runCalls (PoolCall.run demoBackend) demoPoolCalls demoCached).2).2.trace =
      (runCalls (PoolCall.run demoBackend) demoPoolCalls demoCached).2.trace ++
        [(PoolCall.Forward demoPoolFwdArgs7).primitive 4096 64] :=
  have hext : ExternalHeap demoExt := by
    unfold ExternalHeap demoExt
    decide
  have h := C5_pooling_one_buffer_per_yDesc demoBackend demoExt (fun _ _ => 0) (fun _ => 0)
    hext demoPoolCalls 7
  have h2 := h.2 demoCached 4096 64 (PoolCall.Forward demoPoolFwdArgs7) rfl rfl rfl
  ⟨hext, rfl, rfl, rfl, h.1, h2.1, h2.2.2.1⟩

/-- Counterexample to C5 as stated: from process start, two forward poolings that use the one
live pooling descriptor `8`, with the output descriptors `4` and `5`, both return success; the
second one queries the size and allocates again, and two pooling workspace buffers are
resident on behalf of descriptor `8`. -/
theorem C5_counterexample :
    (PoolCall.Forward demoPoolFwdArgs).poolingDesc = 8 ∧
    (PoolCall.Forward demoPoolFwdArgs2).poolingDesc = 8 ∧
    (hipdnnPoolingForward demoBackend demoPoolFwdArgs demoStart).1
      = Outcome.returned HIPDNN_STATUS_SUCCESS ∧
    (hipdnnPoolingForward demoBackend demoPoolFwdArgs2
      (hipdnnPoolingForward demoBackend demoPoolFwdArgs demoStart).2).1
      = Outcome.returned HIPDNN_STATUS_SUCCESS ∧
    (hipdnnPoolingForward demoBackend demoPoolFwdArgs2
      (hipdnnPoolingForward demoBackend demoPoolFwdArgs demoStart).2).2.trace
      = (hipdnnPoolingForward demoBackend demoPoolFwdArgs demoStart).2.trace ++
        [Event.miopenPoolingGetWorkSpaceSize 5, Event.hipMalloc 64 hipSuccess 2,
          Event.miopenPoolingForward 1 8 (HostPtr.user 100) 2 10 (HostPtr.user 101) 5 13 true
            2 64] ∧
    poolBuffersOfDesc (hipdnnPoolingForward demoBackend demoPoolFwdArgs2
      (hipdnnPoolingForward demoBackend demoPoolFwdArgs demoStart).2).2 8
      = [⟨2, 64, Owner.workspace Family.Pooling 5 8⟩,
          ⟨1, 64, Owner.workspace Family.Pooling 4 8⟩] ∧
    (poolBuffersOfDesc (runCalls (PoolCall.run demoBackend) demoPoolCalls demoStart).2
      8).length = 2 := by
  decide

/-- **C6** (the code at the failing input) The pooling and LRN workspaces are not released on
destroy. After a forward pooling, and likewise after a forward LRN, with output descriptor `4`,
the workspace is resident; destroying the key tensor descriptor `4` and then the pooling
descriptor `8` (the LRN descriptor `9`) returns success, makes no `hipFree` call (the only
external calls are the two backend destroy calls), leaves the buffer allocated and leaves the
entry in `sDescToWorkspacePooling` (`sDescToWorkspaceLRN`) and in its size map. -/
theorem C6_pooling_lrn_not_released_on_destroy :
    ((hipdnnPoolingForward demoBackend demoPoolFwdArgs demoStart).2.live
        = [⟨1, 64, Owner.workspace Family.Pooling 4 8⟩] ∧
      (hipdnnDestroyPoolingDescriptor demoBackend 8
        (hipdnnDestroyTensorDescriptor demoBackend 4
          (hipdnnPoolingForward demoBackend demoPoolFwdArgs demoStart).2).2).1
        = Outcome.returned HIPDNN_STATUS_SUCCESS ∧
      (hipdnnDestroyPoolingDescriptor demoBackend 8
        (hipdnnDestroyTensorDescriptor demoBackend 4
          (hipdnnPoolingForward demoBackend demoPoolFwdArgs demoStart).2).2).2.trace
        = (hipdnnPoolingForward demoBackend demoPoolFwdArgs demoStart).2.trace ++
          [Event.miopenDestroyTensorDescriptor 4, Event.miopenDestroyPoolingDescriptor 8] ∧
      (hipdnnDestroyPoolingDescriptor demoBackend 8
        (hipdnnDestroyTensorDescriptor demoBackend 4
          (hipdnnPoolingForward demoBackend demoPoolFwdArgs demoStart).2).2).2.live
        = [⟨1, 64, Owner.workspace Family.Pooling 4 8⟩] ∧
      (hipdnnDestroyPoolingDescriptor demoBackend 8
        (hipdnnDestroyTensorDescriptor demoBackend 4
          (hipdnnPoolingForward demoBackend demoPoolFwdArgs
            demoStart).2).2).2.sDescToWorkspacePooling.find 4 = some 1 ∧
      (hipdnnDestroyPoolingDescriptor demoBackend 8
        (hipdnnDestroyTensorDescriptor demoBackend 4
          (hipdnnPoolingForward demoBackend demoPoolFwdArgs
            demoStart).2).2).2.sDescToWorkspacePoolingSize.find 4 = some 64) ∧
    ((hipdnnLRNCrossChannelForward demoBackend demoLRNFwdArgs demoStart).2.live
        = [⟨1, 64, Owner.workspace Family.LRN 4 9⟩] ∧
      (hipdnnDestroyLRNDescriptor demoBackend 9
        (hipdnnDestroyTensorDescriptor demoBackend 4
          (hipdnnLRNCrossChannelForward demoBackend demoLRNFwdArgs demoStart).2).2).1
        = Outcome.returned HIPDNN_STATUS_SUCCESS ∧
      (hipdnnDestroyLRNDescriptor demoBackend 9
        (hipdnnDestroyTensorDescriptor demoBackend 4
          (hipdnnLRNCrossChannelForward demoBackend demoLRNFwdArgs demoStart).2).2).2.trace
        = (hipdnnLRNCrossChannelForward demoBackend demoLRNFwdArgs demoStart).2.trace ++
          [Event.miopenDestroyTensorDescriptor 4, Event.miopenDestroyLRNDescriptor 9] ∧
      (hipdnnDestroyLRNDescriptor demoBackend 9
        (hipdnnDestroyTensorDescriptor demoBackend 4
          (hipdnnLRNCrossChannelForward demoBackend demoLRNFwdArgs demoStart).2).2).2.live
        = [⟨1, 64, Owner.workspace Family.LRN 4 9⟩] ∧
      (hipdnnDestroyLRNDescriptor demoBackend 9
        (hipdnnDestroyTensorDescriptor demoBackend 4
          (hipdnnLRNCrossChannelForward demoBackend demoLRNFwdArgs
            demoStart).2).2).2.sDescToWorkspaceLRN.find 4 = some 1 ∧
      (hipdnnDestroyLRNDescriptor demoBackend 9
        (hipdnnDestroyTensorDescriptor demoBackend 4
          (hipdnnLRNCrossChannelForward demoBackend demoLRNFwdArgs
            demoStart).2).2).2.sDescToWorkspaceLRNSize.find 4 = some 64) := by
  decide

end PoolingRuns
/-! ## The recombination kernel -/

section Kernel

variable {α : Type}

/-- The grid-stride loop of one thread, started at index `i` with enough fuel and no index
wrap-around: it ends, it rewrites exactly the indices `i + k * stride` below `N` of the array
at `C_d`, each from the values before the loop, and nothing else. -/
theorem TensorAdd.loop_spec [Add α] [Mul α] (C_d A_d : DevPtr) (beta : α) (N stride : Nat)
    (hAC : A_d ≠ C_d) (hs : 0 < stride) (hN : N + stride ≤ 2 ^ 64) (fuel i : Nat)
    (mem : DevPtr → Nat → α) (hfuel : N ≤ i + fuel * stride) :
    ∃ mem1, TensorAdd.loop C_d A_d beta N stride fuel i mem = some mem1 ∧
      (∀ j, j < N → (∃ k, j = i + k * stride) → mem1 C_d j = beta * mem A_d j + mem C_d j) ∧
      (∀ q j, ¬ (q = C_d ∧ j < N ∧ ∃ k, j = i + k * stride) → mem1 q j = mem q j) := by
  induction fuel generalizing i mem with
  | zero =>
    have hi : ¬ i < N := by simp at hfuel; omega
    refine ⟨mem, by simp [TensorAdd.loop, hi], ?_, ?_⟩
    · intro j hj ⟨k, hk⟩
      have : i ≤ j := by rw [hk]; exact Nat.le_add_right _ _
      omega
    · intro q j _; rfl
  | succ fuel ih =>
    by_cases hi : i < N
    · have hmod : (i + stride) % 2 ^ 64 = i + stride := Nat.mod_eq_of_lt (by omega)
      have hfuel1 : N ≤ (i + stride) + fuel * stride := by
        have : (fuel + 1) * stride = fuel * stride + stride := Nat.succ_mul _ _
        omega
      obtain ⟨mem1, h1, h2, h3⟩ := ih (i + stride)
        (Function.update mem C_d (Function.update (mem C_d) i (beta * mem A_d i + mem C_d i)))
        hfuel1
      refine ⟨mem1, ?_, ?_, ?_⟩
      · simp only [TensorAdd.loop, hi, if_true, hmod]
        exact h1
      · intro j hj ⟨k, hk⟩
        cases k with
        | zero =>
          have hji : j = i := by simpa using hk
          subst hji
          rw [h3 C_d j]
          · simp
          · rintro ⟨-, -, k1, hk1⟩
            have : stride ≤ stride + k1 * stride := Nat.le_add_right _ _
            omega
        | succ k1 =>
          have hk2 : j = (i + stride) + k1 * stride := by
            rw [hk, Nat.succ_mul]; omega
          rw [h2 j hj ⟨k1, hk2⟩]
          have hne : j ≠ i := by
            have : 0 ≤ k1 * stride := Nat.zero_le _
            omega
          simp [Function.update_noteq hAC, Function.update_noteq hne]
      · intro q j hnot
        rw [h3 q j]
        · by_cases hq : q = C_d
          · subst hq
            by_cases hji : j = i
            · subst hji
              exact absurd ⟨rfl, hi, 0, by simp⟩ hnot
            · simp [Function.update_noteq hji]
          · simp [Function.update_noteq hq]
        · rintro ⟨hq, hj, k1, hk1⟩
          exact hnot ⟨hq, hj, k1 + 1, by rw [hk1, Nat.succ_mul]; omega⟩
    · refine ⟨mem, by simp [TensorAdd.loop, hi], ?_, ?_⟩
      · intro j hj ⟨k, hk⟩
        have : i ≤ j := by rw [hk]; exact Nat.le_add_right _ _
        omega
      · intro q j _; rfl

theorem exists_mul_add_iff_mod (j o S : Nat) (ho : o < S) :
    (∃ k, j = o + k * S) ↔ j % S = o := by
  constructor
  · rintro ⟨k, rfl⟩
    rw [Nat.add_mul_mod_self_right]
    exact Nat.mod_eq_of_lt ho
  · intro h
    refine ⟨j / S, ?_⟩
    have := Nat.mod_add_div j S
    rw [h, Nat.mul_comm] at this
    exact this.symm

/-- One thread of the kernel, for a non-negative element count below `2 ^ 63` and a grid of
less than `2 ^ 32` threads: thread `o` rewrites exactly the indices below `N` that are
congruent to `o` modulo the grid size. -/
theorem TensorAdd_spec [Add α] [Mul α] (b bd t gd : Nat) (C_d A_d : DevPtr) (beta : α)
    (N : Int) (mem : DevPtr → Nat → α) (hAC : A_d ≠ C_d) (hN0 : 0 ≤ N) (hN : N < 2 ^ 63)
    (hgrid : bd * gd < 2 ^ 32) (ho : b * bd + t < bd * gd) :
    ∃ mem1, TensorAdd b bd t gd C_d A_d beta N mem = some mem1 ∧
      (∀ j : Nat, (j : Int) < N → j % (bd * gd) = b * bd + t →
        mem1 C_d j = beta * mem A_d j + mem C_d j) ∧
      (∀ (q : DevPtr) (j : Nat), ¬ (q = C_d ∧ (j : Int) < N ∧ j % (bd * gd) = b * bd + t) →
        mem1 q j = mem q j) := by
  have hsz : (toSizeT N : Int) = N := by
    unfold toSizeT
    rw [Int.toNat_of_nonneg (Int.emod_nonneg _ (by norm_num))]
    exact Int.emod_eq_of_lt hN0 (by omega)
  have hs : 0 < bd * gd := by omega
  have hstride : (bd * gd) % 2 ^ 32 = bd * gd := Nat.mod_eq_of_lt hgrid
  have hoff : (b * bd + t) % 2 ^ 32 = b * bd + t := Nat.mod_eq_of_lt (by omega)
  have hNn : toSizeT N + bd * gd ≤ 2 ^ 64 := by omega
  have hfuel : toSizeT N ≤ (b * bd + t) + (toSizeT N / (bd * gd) + 1) * (bd * gd) := by
    have h2 : (toSizeT N / (bd * gd) + 1) * (bd * gd)
        = (bd * gd) * (toSizeT N / (bd * gd)) + bd * gd := by ring
    have h3 := Nat.div_add_mod (toSizeT N) (bd * gd)
    have h4 := Nat.mod_lt (toSizeT N) hs
    omega
  obtain ⟨mem1, h1, h2, h3⟩ := TensorAdd.loop_spec C_d A_d beta (toSizeT N) (bd * gd) hAC hs hNn
    (toSizeT N / (bd * gd) + 1) (b * bd + t) mem hfuel
  refine ⟨mem1, ?_, ?_, ?_⟩
  · unfold TensorAdd
    simp only [hstride, hoff]
    exact h1
  · intro j hj hmod
    exact h2 j (by omega) ((exists_mul_add_iff_mod j _ _ ho).2 hmod)
  · intro q j hnot
    apply h3 q j
    rintro ⟨hq, hj, hk⟩
    exact hnot ⟨hq, by omega, (exists_mul_add_iff_mod j _ _ ho).1 hk⟩

end Kernel
/-! ## The kernel launch -/

section Launch

variable {α : Type}

theorem mem_launchGrid (blocks tpb : Nat) (bt : Nat × Nat) :
    bt ∈ launchGrid blocks tpb ↔ bt.1 < blocks ∧ bt.2 < tpb := by
  unfold launchGrid
  simp only [List.mem_flatMap, List.mem_range, List.mem_map]
  constructor
  · rintro ⟨b, hb, t, ht, rfl⟩
    exact ⟨hb, ht⟩
  · rintro ⟨hb, ht⟩
    exact ⟨bt.1, hb, bt.2, ht, rfl⟩

theorem offset_lt_grid (blocks tpb b t : Nat) (hb : b < blocks) (ht : t < tpb) :
    b * tpb + t < tpb * blocks := by
  have h1 : (b + 1) * tpb ≤ blocks * tpb := Nat.mul_le_mul_right _ hb
  have h2 : (b + 1) * tpb = b * tpb + tpb := Nat.succ_mul _ _
  have h3 : blocks * tpb = tpb * blocks := Nat.mul_comm _ _
  omega

/-- Distinct threads of a launch have distinct offsets. -/
theorem launchGrid_pairwise (blocks tpb : Nat) :
    (launchGrid blocks tpb).Pairwise (fun x y => x.1 * tpb + x.2 ≠ y.1 * tpb + y.2) := by
  unfold launchGrid
  rw [List.pairwise_flatMap]
  constructor
  · intro b _
    rw [List.pairwise_map]
    exact List.Pairwise.imp (fun h => by simp only; omega) (List.nodup_range tpb)
  · refine List.Pairwise.imp_of_mem ?_ (List.pairwise_lt_range blocks)
    intro b1 b2 _ _ hlt x hx y hy
    obtain ⟨t1, ht1, rfl⟩ := List.mem_map.1 hx
    obtain ⟨t2, ht2, rfl⟩ := List.mem_map.1 hy
    have ht1' := List.mem_range.1 ht1
    have h1 : (b1 + 1) * tpb ≤ b2 * tpb := Nat.mul_le_mul_right _ hlt
    have h2 : (b1 + 1) * tpb = b1 * tpb + tpb := Nat.succ_mul _ _
    simp only
    omega

/-- Running the threads of a list one after the other: each index below `N` whose residue
modulo the grid size is the offset of a thread of the list is rewritten once, from the values
before the launch; nothing else changes. -/
theorem launch_fold_spec [Add α] [Mul α] (tpb blocks : Nat) (C_d A_d : DevPtr) (beta : α)
    (N : Int) (hAC : A_d ≠ C_d) (hN0 : 0 ≤ N) (hN : N < 2 ^ 63)
    (hgrid : tpb * blocks < 2 ^ 32) (L : List (Nat × Nat)) (mem : DevPtr → Nat → α)
    (hL : ∀ bt ∈ L, bt.1 * tpb + bt.2 < tpb * blocks)
    (hpw : L.Pairwise (fun x y => x.1 * tpb + x.2 ≠ y.1 * tpb + y.2)) :
    ∃ mem1, L.foldlM (fun m bt => TensorAdd bt.1 tpb bt.2 blocks C_d A_d beta N m) mem
        = some mem1 ∧
      (∀ j : Nat, (j : Int) < N → (∃ bt ∈ L, j % (tpb * blocks) = bt.1 * tpb + bt.2) →
        mem1 C_d j = beta * mem A_d j + mem C_d j) ∧
      (∀ (q : DevPtr) (j : Nat),
        ¬ (q = C_d ∧ (j : Int) < N ∧ ∃ bt ∈ L, j % (tpb * blocks) = bt.1 * tpb + bt.2) →
        mem1 q j = mem q j) := by
  induction L generalizing mem with
  | nil =>
    refine ⟨mem, rfl, ?_, fun _ _ _ => rfl⟩
    intro j _ ⟨bt, hbt, _⟩
    cases hbt
  | cons bt rest ih =>
    rw [List.pairwise_cons] at hpw
    obtain ⟨mem0, h0, h1, h2⟩ := TensorAdd_spec bt.1 tpb bt.2 blocks C_d A_d beta N mem hAC
      hN0 hN hgrid (hL bt (List.mem_cons_self _ _))
    obtain ⟨mem1, g0, g1, g2⟩ := ih mem0 (fun x hx => hL x (List.mem_cons_of_mem _ hx)) hpw.2
    refine ⟨mem1, ?_, ?_, ?_⟩
    · rw [List.foldlM_cons, h0]
      exact g0
    · intro j hj ⟨x, hx, hmod⟩
      rcases List.mem_cons.1 hx with hx1 | hx1
      · subst hx1
        rw [g2 C_d j, h1 j hj hmod]
        rintro ⟨-, -, y, hy, hmody⟩
        exact hpw.1 y hy (hmod.symm.trans hmody)
      · rw [g1 j hj ⟨x, hx1, hmod⟩]
        have hne : ¬ (j % (tpb * blocks) = bt.1 * tpb + bt.2) :=
          fun h => hpw.1 x hx1 (h.symm.trans hmod)
        rw [h2 A_d j (fun h => hAC h.1), h2 C_d j (fun h => hne h.2.2)]
    · intro q j hnot
      rw [g2 q j, h2 q j]
      · rintro ⟨hq, hj, hmod⟩
        exact hnot ⟨hq, hj, bt, List.mem_cons_self _ _, hmod⟩
      · rintro ⟨hq, hj, x, hx, hmod⟩
        exact hnot ⟨hq, hj, x, List.mem_cons_of_mem _ hx, hmod⟩

/-- The launch of `TensorAdd` on a non-empty grid of less than `2 ^ 32` threads, for a
non-negative element count `N`: it ends, every element below `N` of the destination becomes
`beta * prior + destination`, and nothing else changes. -/
theorem hipLaunchKernelGGL_TensorAdd_spec [Add α] [Mul α] (blocks tpb : Nat)
    (C_d A_d : DevPtr) (beta : α) (N : Int) (mem : DevPtr → Nat → α) (hAC : A_d ≠ C_d)
    (hN0 : 0 ≤ N) (hN : N < 2 ^ 63) (hgrid : tpb * blocks < 2 ^ 32) (hpos : 0 < tpb * blocks) :
    ∃ mem1, hipLaunchKernelGGL_TensorAdd blocks tpb C_d A_d beta N mem = some mem1 ∧
      (∀ j : Nat, (j : Int) < N → mem1 C_d j = beta * mem A_d j + mem C_d j) ∧
      (∀ (q : DevPtr) (j : Nat), ¬ (q = C_d ∧ (j : Int) < N) → mem1 q j = mem q j) := by
  obtain ⟨mem1, h0, h1, h2⟩ := launch_fold_spec tpb blocks C_d A_d beta N hAC hN0 hN hgrid
    (launchGrid blocks tpb) mem
    (fun bt hbt => offset_lt_grid blocks tpb bt.1 bt.2 ((mem_launchGrid _ _ _).1 hbt).1
      ((mem_launchGrid _ _ _).1 hbt).2)
    (launchGrid_pairwise blocks tpb)
  refine ⟨mem1, h0, ?_, ?_⟩
  · intro j hj
    apply h1 j hj
    have htpb : 0 < tpb := Nat.pos_of_mul_pos_right hpos
    have hlt := Nat.mod_lt j hpos
    refine ⟨(j % (tpb * blocks) / tpb, j % (tpb * blocks) % tpb), ?_, ?_⟩
    · rw [mem_launchGrid]
      exact ⟨Nat.div_lt_of_lt_mul hlt, Nat.mod_lt _ htpb⟩
    · simp only
      exact (Nat.div_add_mod' _ _).symm
  · intro q j hnot
    apply h2 q j
    rintro ⟨hq, hj, -⟩
    exact hnot ⟨hq, hj⟩

end Launch
/-! ## The `beta` dispatch of the backward convolutions -/

section Dispatch

variable {α : Type}

/-- Both backward entry points, in one shape. -/
theorem BackwardCall.run_eq [Zero α] [Add α] [Mul α] [DecidableEq α] (env : Backend α)
    (c : BackwardCall) (w : World α) :
    c.run env w =
      match acquireWorkSpace env c.family c.convDesc c.convDesc c.sizeQuery w with
      | Step.stop o w1 => (o, w1)
      | Step.next ws w1 =>
        match CHECK_HIPDNN env c.algoStatus with
        | some o => (o, w1)
        | none =>
          if w1.deref c.beta = 0 then
            match CHECK_MIO (backendCall env (c.primitive c.alpha c.beta ws) c.dst w1).1 with
            | some o => (o, (backendCall env (c.primitive c.alpha c.beta ws) c.dst w1).2)
            | none => (Outcome.returned HIPDNN_STATUS_SUCCESS,
                (backendCall env (c.primitive c.alpha c.beta ws) c.dst w1).2)
          else
            match SaveAsPriorBuffer env c.dst w1 with
            | Step.stop o w2 => (o, w2)
            | Step.next prior w2 =>
              match CHECK_MIO
                (backendCall env (c.primitive c.alpha HostPtr.tempBeta ws) c.dst w2).1 with
              | some o =>
                (o, (backendCall env (c.primitive c.alpha HostPtr.tempBeta ws) c.dst w2).2)
              | none =>
                match accumulateGradients env c.dst prior c.dstDesc c.beta
                    (backendCall env (c.primitive c.alpha HostPtr.tempBeta ws) c.dst w2).2 with
                | Step.stop o w3 => (o, w3)
                | Step.next _ w3 =>
                  match deallocPrior prior w3 with
                  | Step.stop o w4 => (o, w4)
                  | Step.next _ w4 => (Outcome.returned HIPDNN_STATUS_SUCCESS, w4) := by
  cases c <;> rfl

/-- What the get-or-allocate block does to device memory, host memory, the heap and the
trace, whether it goes on or not. -/
theorem acquireWorkSpace_effect (env : Backend α) (fam : Family) (key opDesc : Handle)
    (q : Event) (w : World α) :
    (acquireWorkSpace env fam key opDesc q w).world.mem = w.mem ∧
    (acquireWorkSpace env fam key opDesc q w).world.host = w.host ∧
    ((acquireWorkSpace env fam key opDesc q w).world.live = w.live ∨
      ∃ p s, p ∉ w.live.map Alloc.ptr ∧ 0 < s ∧
        (acquireWorkSpace env fam key opDesc q w).world.live
          = ⟨p, s, Owner.workspace fam key opDesc⟩ :: w.live) ∧
    ((acquireWorkSpace env fam key opDesc q w).world.trace = w.trace ++ [] ∨
      (acquireWorkSpace env fam key opDesc q w).world.trace = w.trace ++ [q] ∨
      ∃ s err p, (acquireWorkSpace env fam key opDesc q w).world.trace
        = w.trace ++ [q, Event.hipMalloc s err p]) := by
  unfold acquireWorkSpace
  split_ifs with hmiss
  · simp only []
    split
    · refine ⟨rfl, rfl, Or.inl rfl, Or.inr (Or.inl rfl)⟩
    · have hf := hipMalloc_frame env (env.workSpaceSize w q) (Owner.workspace fam key opDesc)
        (backendQuery env q w).2
      have hc := hipMalloc_cases env (env.workSpaceSize w q) (Owner.workspace fam key opDesc)
        (backendQuery env q w).2
      have htr : ∀ x : World α, x.trace = (hipMalloc env (env.workSpaceSize w q)
            (Owner.workspace fam key opDesc) (backendQuery env q w).2).2.2.trace →
          ∃ s err p, x.trace = w.trace ++ [q, Event.hipMalloc s err p] := by
        intro x hx
        refine ⟨env.workSpaceSize w q, (hipMalloc env (env.workSpaceSize w q)
            (Owner.workspace fam key opDesc) (backendQuery env q w).2).1, (hipMalloc env
            (env.workSpaceSize w q) (Owner.workspace fam key opDesc)
            (backendQuery env q w).2).2.1, ?_⟩
        rw [hx, hf.2.2.2.2]
        simp [backendQuery, World.emit]
      have hlv : ∀ x : World α, x.live = (hipMalloc env (env.workSpaceSize w q)
            (Owner.workspace fam key opDesc) (backendQuery env q w).2).2.2.live →
          (x.live = w.live ∨ ∃ p s, p ∉ w.live.map Alloc.ptr ∧ 0 < s ∧
            x.live = ⟨p, s, Owner.workspace fam key opDesc⟩ :: w.live) := by
        intro x hx
        rcases hc with ⟨-, -, -, h4⟩ | ⟨-, h2, -, h4, h5⟩ | ⟨-, h4⟩
        · exact Or.inl (hx.trans h4)
        · exact Or.inr ⟨_, _, h4, h2, hx.trans h5⟩
        · exact Or.inl (hx.trans h4)
      split
      · exact ⟨hf.2.2.1, hf.2.2.2.1, hlv _ rfl, Or.inr (Or.inr (htr _ rfl))⟩
      · exact ⟨hf.2.2.1, hf.2.2.2.1, hlv _ rfl, Or.inr (Or.inr (htr _ rfl))⟩
  · exact ⟨rfl, rfl, Or.inl rfl, Or.inl (by simp [Step.world, World.setWs, World.setWsSize])⟩

theorem backendCall_trace (env : Backend α) (e : Event) (dst : DevPtr) (w : World α) :
    (backendCall env e dst w).2.trace = w.trace ++ [e] := rfl

/-- **C8** (amended) Beta = 0 fast path: for every call of `hipdnnConvolutionBackwardFilter` or
`hipdnnConvolutionBackwardData` whose `beta` value equals 0, the external calls of the call
are those of the get-or-allocate block (nothing, the size query alone, or the size query and
one `hipMalloc`) followed by at most one invocation of the backend primitive, which receives
the caller's own `alpha` and `beta` pointers; when the call returns `HIPDNN_STATUS_SUCCESS`
the primitive is invoked exactly once. So no call of `SaveAsPriorBuffer` and no launch of
`accumulateGradients` happens, and no snapshot buffer is allocated. -/
theorem C8_beta_zero_fast_path [Zero α] [Add α] [Mul α] [DecidableEq α] (env : Backend α)
    (c : BackwardCall) (w : World α) (hb : w.deref c.beta = 0) :
    ∃ (pre : List Event) (ws : DevPtr × Nat),
      (pre = [] ∨ pre = [c.sizeQuery] ∨
        ∃ s err p, pre = [c.sizeQuery, Event.hipMalloc s err p]) ∧
      ((c.run env w).2.trace = w.trace ++ pre ∨
        (c.run env w).2.trace = w.trace ++ pre ++ [c.primitive c.alpha c.beta ws]) ∧
      ((c.run env w).1 = Outcome.returned HIPDNN_STATUS_SUCCESS →
        (c.run env w).2.trace = w.trace ++ pre ++ [c.primitive c.alpha c.beta ws]) ∧
      (∀ al ∈ (c.run env w).2.live, al.owner = Owner.prior → al ∈ w.live) := by
  have he := acquireWorkSpace_effect env c.family c.convDesc c.convDesc c.sizeQuery w
  have hpre : ∃ pre : List Event,
      (pre = [] ∨ pre = [c.sizeQuery] ∨
        ∃ s err p, pre = [c.sizeQuery, Event.hipMalloc s err p]) ∧
      (acquireWorkSpace env c.family c.convDesc c.convDesc c.sizeQuery w).world.trace
        = w.trace ++ pre := by
    rcases he.2.2.2 with h | h | ⟨s, err, p, h⟩
    · exact ⟨_, Or.inl rfl, h⟩
    · exact ⟨_, Or.inr (Or.inl rfl), h⟩
    · exact ⟨_, Or.inr (Or.inr ⟨s, err, p, rfl⟩), h⟩
  obtain ⟨pre, hshape, htr⟩ := hpre
  have hlive : ∀ al ∈ (acquireWorkSpace env c.family c.convDesc c.convDesc c.sizeQuery
      w).world.live, al.owner = Owner.prior → al ∈ w.live := by
    intro al hal hown
    rcases he.2.2.1 with h | ⟨p, s, -, -, h⟩
    · rw [h] at hal
      exact hal
    · rw [h] at hal
      rcases List.mem_cons.1 hal with h1 | h1
      · rw [h1] at hown
        cases hown
      · exact h1
  have hhost := he.2.1
  rw [BackwardCall.run_eq]
  cases hacq : acquireWorkSpace env c.family c.convDesc c.convDesc c.sizeQuery w with
  | stop o w1 =>
    rw [hacq] at htr hlive
    have ho := acquireWorkSpace_stop env _ _ _ _ _ _ _ hacq
    refine ⟨pre, (0, 0), hshape, Or.inl htr, ?_, hlive⟩
    intro h
    rw [ho] at h
    cases h
  | next ws w1 =>
    rw [hacq] at htr hlive hhost
    simp only [Step.world] at htr hlive hhost
    have hb1 : w1.deref c.beta = 0 := by
      rw [← hb]
      cases c.beta <;> simp [World.deref, hhost]
    simp only []
    cases hchk : CHECK_HIPDNN env c.algoStatus with
    | some o =>
      refine ⟨pre, ws, hshape, Or.inl htr, ?_, hlive⟩
      intro h
      exact absurd h (CHECK_HIPDNN_some env _ _ hchk)
    | none =>
      simp only [if_pos hb1]
      have htr2 : (backendCall env (c.primitive c.alpha c.beta ws) c.dst w1).2.trace
          = w.trace ++ pre ++ [c.primitive c.alpha c.beta ws] := by
        rw [backendCall_trace, htr]
      refine ⟨pre, ws, hshape, Or.inr ?_, fun _ => ?_, ?_⟩
      · split <;> exact htr2
      · split <;> exact htr2
      · split <;> exact hlive

/-- Witness for C8: a backward-filter convolution at process start with `beta` stored as `0`. -/
theorem C8_beta_zero_fast_path_witness :
    demoStart.deref (BackwardCall.filter demoBwdFilterArgs).beta = 0 ∧
    ∃ (pre : List Event) (ws : DevPtr × Nat),
      (pre = [] ∨ pre = [(BackwardCall.filter demoBwdFilterArgs).sizeQuery] ∨
        ∃ s err p, pre = [(BackwardCall.filter demoBwdFilterArgs).sizeQuery,
          Event.hipMalloc s err p]) ∧
      (((BackwardCall.filter demoBwdFilterArgs).run demoBackend demoStart).2.trace
          = demoStart.trace ++ pre ∨
        ((BackwardCall.filter demoBwdFilterArgs).run demoBackend demoStart).2.trace
          = demoStart.trace ++ pre ++ [(BackwardCall.filter demoBwdFilterArgs).primitive
              (BackwardCall.filter demoBwdFilterArgs).alpha
              (BackwardCall.filter demoBwdFilterArgs).beta ws]) ∧
      (((BackwardCall.filter demoBwdFilterArgs).run demoBackend demoStart).1
          = Outcome.returned HIPDNN_STATUS_SUCCESS →
        ((BackwardCall.filter demoBwdFilterArgs).run demoBackend demoStart).2.trace
          = demoStart.trace ++ pre ++ [(BackwardCall.filter demoBwdFilterArgs).primitive
              (BackwardCall.filter demoBwdFilterArgs).alpha
              (BackwardCall.filter demoBwdFilterArgs).beta ws]) ∧
      (∀ al ∈ ((BackwardCall.filter demoBwdFilterArgs).run demoBackend demoStart).2.live,
        al.owner = Owner.prior → al ∈ demoStart.live) :=
  ⟨by decide, C8_beta_zero_fast_path demoBackend (BackwardCall.filter demoBwdFilterArgs)
    demoStart (by decide)⟩

/-- Counterexample to C8 as stated: a backward-filter convolution with `beta` stored as `0`
whose workspace size query the backend refuses. `CHECK_MIO` ends the process after the size
query: the backend primitive is not invoked at all. -/
theorem C8_counterexample :
    demoStart.deref demoBwdFilterArgs.beta = 0 ∧
    (hipdnnConvolutionBackwardFilter demoBackendBadParm demoBwdFilterArgs demoStart).1
      = Outcome.exited ∧
    (hipdnnConvolutionBackwardFilter demoBackendBadParm demoBwdFilterArgs demoStart).2.trace
      = [Event.miopenConvolutionBackwardWeightsGetWorkSpaceSize 1 4 2 7 3] := by
  decide

end Dispatch
/-! ## The steps of the accumulation emulation -/

section EmulationSteps

variable {α : Type}

theorem wrapInt32_of_range (x : Int) (h0 : 0 ≤ x) (h1 : x < 2 ^ 31) : wrapInt32 x = x := by
  unfold wrapInt32
  norm_num at h1 ⊢
  omega

theorem wrapInt32_lt (x : Int) : wrapInt32 x < 2 ^ 31 := by
  unfold wrapInt32
  norm_num
  omega

theorem wrapInt32_zero : wrapInt32 0 = 0 := by decide

/-- On a rank-4 descriptor whose element count fits in an `int`, `totalElements` is the
element count. -/
theorem totalElements_rank4 (env : Backend α) (n c h w : Nat) (hfit : n * c * h * w < 2 ^ 31) :
    totalElements env [(n : Int), (c : Int), (h : Int), (w : Int)]
      = ((n * c * h * w : Nat) : Int) := by
  have ha : ∀ i : Nat, i < 4 →
      gradientArray env [(n : Int), (c : Int), (h : Int), (w : Int)] i
        = wrapInt32 ([(n : Int), (c : Int), (h : Int), (w : Int)].getD i 0) := by
    intro i hi
    unfold gradientArray
    interval_cases i <;> rfl
  unfold totalElements
  rw [ha 0 (by decide), ha 1 (by decide), ha 2 (by decide), ha 3 (by decide)]
  simp only [List.getD_cons_zero, List.getD_cons_succ]
  rcases Nat.eq_zero_or_pos n with hn | hn
  · subst hn
    simp [wrapInt32_zero]
  rcases Nat.eq_zero_or_pos c with hc | hc
  · subst hc
    simp [wrapInt32_zero]
  rcases Nat.eq_zero_or_pos h with hh | hh
  · subst hh
    simp [wrapInt32_zero]
  rcases Nat.eq_zero_or_pos w with hw | hw
  · subst hw
    simp [wrapInt32_zero]
  have h1 : n * c ≤ n * c * h := Nat.le_mul_of_pos_right _ hh
  have h2 : n * c * h ≤ n * c * h * w := Nat.le_mul_of_pos_right _ hw
  have h3 : n ≤ n * c := Nat.le_mul_of_pos_right _ hc
  have h4 : c ≤ n * c := Nat.le_mul_of_pos_left _ hn
  have h5 : h ≤ n * c * h := Nat.le_mul_of_pos_left _ (Nat.mul_pos hn hc)
  have h6 : w ≤ n * c * h * w := Nat.le_mul_of_pos_left _ (Nat.mul_pos (Nat.mul_pos hn hc) hh)
  have cast_lt : ∀ k : Nat, k ≤ n * c * h * w → ((k : Nat) : Int) < 2 ^ 31 := by
    intro k hk
    have : k < 2 ^ 31 := lt_of_le_of_lt hk hfit
    exact_mod_cast this
  rw [wrapInt32_of_range n (Int.natCast_nonneg _) (cast_lt n (by omega)),
    wrapInt32_of_range c (Int.natCast_nonneg _) (cast_lt c (by omega)),
    wrapInt32_of_range h (Int.natCast_nonneg _) (cast_lt h (by omega)),
    wrapInt32_of_range w (Int.natCast_nonneg _) (cast_lt w (by omega))]
  rw [← Nat.cast_mul, wrapInt32_of_range _ (Int.natCast_nonneg _) (cast_lt _ (by omega)),
    ← Nat.cast_mul, wrapInt32_of_range _ (Int.natCast_nonneg _) (cast_lt _ (by omega)),
    ← Nat.cast_mul, wrapInt32_of_range _ (Int.natCast_nonneg _) (cast_lt _ (by omega))]

/-- A launch over zero elements changes nothing. -/
theorem hipLaunchKernelGGL_TensorAdd_zero [Add α] [Mul α] (blocks tpb : Nat)
    (C_d A_d : DevPtr) (beta : α) (mem : DevPtr → Nat → α) :
    hipLaunchKernelGGL_TensorAdd blocks tpb C_d A_d beta 0 mem = some mem := by
  unfold hipLaunchKernelGGL_TensorAdd
  generalize launchGrid blocks tpb = L
  induction L with
  | nil => rfl
  | cons bt rest ih =>
    rw [List.foldlM_cons]
    have h : TensorAdd bt.1 tpb bt.2 blocks C_d A_d beta 0 mem = some mem := by
      simp [TensorAdd, toSizeT, TensorAdd.loop]
    rw [h]
    exact ih

theorem CHECK_HIPDNN_ne_hang (env : Backend α) (s : hipdnnStatus_t) (o : Outcome)
    (h : CHECK_HIPDNN env s = some o) : o ≠ Outcome.hang := by
  unfold CHECK_HIPDNN at h
  split_ifs at h with h1 h2
  · rw [← Option.some.inj h]; simp
  · rw [← Option.some.inj h]; simp

theorem hipMemcpy_mem (env : Backend α) (dst src : DevPtr) (n : Nat) (w : World α)
    (h : (hipMemcpy env dst src n w).1 = hipSuccess) :
    (hipMemcpy env dst src n w).2.mem = Function.update w.mem dst
      (fun i => if i < n / sizeofFloat then w.mem src i else w.mem dst i) := by
  unfold hipMemcpy at h ⊢
  simp only [] at h ⊢
  split_ifs with h1
  · rfl
  · rw [if_neg h1] at h
    exact absurd h h1

theorem SaveAsPriorBuffer_stop (env : Backend α) (d : DevPtr) (w w2 : World α) (o : Outcome)
    (h : SaveAsPriorBuffer env d w = Step.stop o w2) : o = Outcome.exited := by
  unfold SaveAsPriorBuffer at h
  simp only [] at h
  split at h
  · rename_i o1 ho
    cases h
    exact CHECK_HIP_some _ _ ho
  · split at h
    · rename_i o1 ho
      cases h
      exact CHECK_HIP_some _ _ ho
    · split at h
      · rename_i o1 ho
        cases h
        exact CHECK_HIP_some _ _ ho
      · cases h

/-- A `SaveAsPriorBuffer` that goes on: the argument is an outstanding allocation `al`; the
snapshot holds its first `al.size / sizeof(float)` elements; no other array changes; the
snapshot is a new allocation unless `al` has no bytes. -/
theorem SaveAsPriorBuffer_next (env : Backend α) (d prior : DevPtr) (w w2 : World α)
    (h : SaveAsPriorBuffer env d w = Step.next prior w2) :
    ∃ al ∈ w.live, al.ptr = d ∧ w2.host = w.host ∧
      (∀ q, q ≠ prior → w2.mem q = w.mem q) ∧
      (∀ i, i < al.size / sizeofFloat → w2.mem prior i = w.mem d i) ∧
      ((al.size = 0 ∧ w2.live = w.live) ∨
        (0 < al.size ∧ prior ∉ w.live.map Alloc.ptr ∧
          w2.live = ⟨prior, al.size, Owner.prior⟩ :: w.live)) := by
  unfold SaveAsPriorBuffer at h
  simp only [] at h
  split at h
  · cases h
  · rename_i h1
    split at h
    · cases h
    · rename_i h2
      split at h
      · cases h
      · rename_i h3
        have e1 := CHECK_HIP_none _ h1
        have e2 := CHECK_HIP_none _ h2
        have e3 := CHECK_HIP_none _ h3
        obtain ⟨al, hal, hptr, hsz⟩ := hipMemPtrGetInfo_ok d w e1
        have f1 := hipMemPtrGetInfo_frame d w
        have f2 := hipMalloc_frame env (hipMemPtrGetInfo d w).2.1 Owner.prior
          (hipMemPtrGetInfo d w).2.2
        have c2 := hipMalloc_cases env (hipMemPtrGetInfo d w).2.1 Owner.prior
          (hipMemPtrGetInfo d w).2.2
        have f3 := hipMemcpy_frame env (hipMalloc env (hipMemPtrGetInfo d w).2.1 Owner.prior
          (hipMemPtrGetInfo d w).2.2).2.1 d (hipMemPtrGetInfo d w).2.1
          (hipMalloc env (hipMemPtrGetInfo d w).2.1 Owner.prior (hipMemPtrGetInfo d w).2.2).2.2
        have m3 := hipMemcpy_mem env (hipMalloc env (hipMemPtrGetInfo d w).2.1 Owner.prior
          (hipMemPtrGetInfo d w).2.2).2.1 d (hipMemPtrGetInfo d w).2.1
          (hipMalloc env (hipMemPtrGetInfo d w).2.1 Owner.prior (hipMemPtrGetInfo d w).2.2).2.2
          e3
        injection h with hp hw
        subst hp
        subst hw
        refine ⟨al, hal, hptr, ?_, ?_, ?_, ?_⟩
        · rw [f3.2.2.2.1, f2.2.2.2.1, f1.2.2.2.2.1]
        · intro q hq
          rw [m3, Function.update_noteq hq, f2.2.2.1, f1.2.2.2.1]
        · intro i hi
          rw [m3, Function.update_same, if_pos (by rw [hsz]; exact hi), f2.2.2.1, f1.2.2.2.1]
        · rw [f3.2.2.1]
          rcases c2 with ⟨-, g2, -, g4⟩ | ⟨-, g2, -, g4, g5⟩ | ⟨g1, -⟩
          · exact Or.inl ⟨by rw [← hsz]; exact g2, by rw [g4, f1.2.2.1]⟩
          · refine Or.inr ⟨by rw [← hsz]; exact g2, by rw [← f1.2.2.1]; exact g4, ?_⟩
            rw [g5, f1.2.2.1, hsz]
          · exact absurd e2 g1

/-- The two ways `accumulateGradients` can end the entry point: a failed check, or a kernel
that does not end. -/
theorem accumulateGradients_stop [Zero α] [Add α] [Mul α] (env : Backend α)
    (g gp : DevPtr) (desc : Handle) (beta : HostPtr) (w w3 : World α) (o : Outcome)
    (h : accumulateGradients env g gp desc beta w = Step.stop o w3) :
    o = Outcome.exited ∨
      hipLaunchKernelGGL_TensorAdd 512 256 g gp (w.deref beta)
        (totalElements env (env.tensorDims w desc)) w.mem = none := by
  unfold accumulateGradients at h
  simp only [] at h
  split at h
  · rename_i o1 ho
    cases h
    exact Or.inl (CHECK_MIO_some _ _ ho)
  · split at h
    · rename_i hl
      exact Or.inr hl
    · split at h
      · rename_i o1 ho
        cases h
        exact Or.inl (CHECK_HIP_some _ _ ho)
      · cases h

/-- An `accumulateGradients` that goes on: device memory is what the launch leaves. -/
theorem accumulateGradients_next [Zero α] [Add α] [Mul α] (env : Backend α)
    (g gp : DevPtr) (desc : Handle) (beta : HostPtr) (w w3 : World α) (s : hipdnnStatus_t)
    (h : accumulateGradients env g gp desc beta w = Step.next s w3) :
    w3.host = w.host ∧ w3.live = w.live ∧
      hipLaunchKernelGGL_TensorAdd 512 256 g gp (w.deref beta)
        (totalElements env (env.tensorDims w desc)) w.mem = some w3.mem := by
  unfold accumulateGradients at h
  simp only [] at h
  split at h
  · cases h
  · split at h
    · cases h
    · rename_i mem1 hl
      split at h
      · cases h
      · injection h with hs hw
        subst hw
        exact ⟨rfl, rfl, hl⟩

/-- A `deallocPrior` that goes on leaves device and host memory as they were. -/
theorem deallocPrior_next (d : DevPtr) (w w4 : World α) (u : Unit)
    (h : deallocPrior d w = Step.next u w4) : w4.mem = w.mem ∧ w4.host = w.host := by
  unfold deallocPrior at h
  simp only [] at h
  have f1 := hipMemPtrGetInfo_frame d w
  split at h
  · cases h
  · split_ifs at h
    · split at h
      · cases h
      · injection h with hu hw
        subst hw
        have f2 := hipFree_frame d (hipMemPtrGetInfo d w).2.2
        exact ⟨by rw [f2.2.2.1, f1.2.2.2.1], by rw [f2.2.2.2.1, f1.2.2.2.2.1]⟩
    · injection h with hu hw
      subst hw
      exact ⟨f1.2.2.2.1, f1.2.2.2.2.1⟩

end EmulationSteps
/-! ## When the emulation steps go on -/

section EmulationTotal

variable {α : Type}

theorem hipMalloc_ok (env : Backend α) (size : Nat) (owner : Owner) (w : World α)
    (h : ∃ p, env.hipMallocAddr w size = some p ∧ p ≠ 0 ∧ p ∉ w.live.map Alloc.ptr) :
    (hipMalloc env size owner w).1 = hipSuccess := by
  obtain ⟨p, h1, h2, h3⟩ := h
  unfold hipMalloc
  split_ifs with h0
  · rfl
  · rw [h1]
    simp only []
    rw [if_pos ⟨h2, h3⟩]

theorem hipMemPtrGetInfo_live (p : DevPtr) (w : World α) (h : p ∈ w.live.map Alloc.ptr) :
    (hipMemPtrGetInfo p w).1 = hipSuccess := by
  unfold hipMemPtrGetInfo
  cases hfind : w.live.find? (fun a => decide (a.ptr = p)) with
  | some a => rfl
  | none =>
    exfalso
    obtain ⟨a, ha, hp⟩ := List.mem_map.1 h
    have := List.find?_eq_none.1 hfind a ha
    simp [hp] at this

theorem hipFree_live (p : DevPtr) (w : World α) (h : p ∈ w.live.map Alloc.ptr) :
    (hipFree p w).1 = hipSuccess := by
  unfold hipFree
  split_ifs <;> rfl

theorem CHECK_MIO_success : CHECK_MIO miopenStatusSuccess = none := by
  simp [ CHECK_MIO, miopenTohipdnnStatus]

theorem CHECK_HIP_success : CHECK_HIP hipSuccess = none := by
  simp [ CHECK_HIP]

/-- With a backend and an allocator that accept, the get-or-allocate block goes on. -/
theorem acquireWorkSpace_total (env : Backend α) (fam : Family) (key opDesc : Handle)
    (q : Event) (w : World α) (hst : ∀ w1 e, env.status w1 e = miopenStatusSuccess)
    (halloc : ∀ w1 s, ∃ p, env.hipMallocAddr w1 s = some p ∧ p ≠ 0 ∧
      p ∉ w1.live.map Alloc.ptr) :
    ∃ ws w1, acquireWorkSpace env fam key opDesc q w = Step.next ws w1 := by
  unfold acquireWorkSpace
  split_ifs with hmiss
  · simp only []
    have h1 : CHECK_MIO (backendQuery env q w).1 = none := by
      simp only [backendQuery, hst]
      exact CHECK_MIO_success
    rw [h1]
    simp only []
    have h2 : CHECK_HIP (hipMalloc env (env.workSpaceSize w q)
        (Owner.workspace fam key opDesc) (backendQuery env q w).2).1 = none := by
      rw [hipMalloc_ok env _ _ _ (halloc _ _)]
      exact CHECK_HIP_success
    rw [h2]
    exact ⟨_, _, rfl⟩
  · exact ⟨_, _, rfl⟩

/-- With a runtime that accepts, `SaveAsPriorBuffer` of an outstanding allocation goes on. -/
theorem SaveAsPriorBuffer_total (env : Backend α) (d : DevPtr) (w : World α)
    (hhip : ∀ w1 e, env.hipStatus w1 e = hipSuccess)
    (halloc : ∀ w1 s, ∃ p, env.hipMallocAddr w1 s = some p ∧ p ≠ 0 ∧
      p ∉ w1.live.map Alloc.ptr)
    (hd : d ∈ w.live.map Alloc.ptr) :
    ∃ prior w2, SaveAsPriorBuffer env d w = Step.next prior w2 := by
  unfold SaveAsPriorBuffer
  simp only []
  rw [hipMemPtrGetInfo_live d w hd, CHECK_HIP_success]
  simp only []
  rw [hipMalloc_ok env _ _ _ (halloc _ _), CHECK_HIP_success]
  simp only []
  have h3 : ∀ dst src n (w1 : World α), (hipMemcpy env dst src n w1).1 = hipSuccess := by
    intro dst src n w1
    simp [hipMemcpy, hhip]
  rw [h3, CHECK_HIP_success]
  exact ⟨_, _, rfl⟩

/-- With a backend and a runtime that accept, `accumulateGradients` goes on once its kernel
ends. -/
theorem accumulateGradients_total [Zero α] [Add α] [Mul α] (env : Backend α)
    (g gp : DevPtr) (desc : Handle) (beta : HostPtr) (w : World α) (mem3 : DevPtr → Nat → α)
    (hst : ∀ w1 e, env.status w1 e = miopenStatusSuccess)
    (hhip : ∀ w1 e, env.hipStatus w1 e = hipSuccess)
    (hl : hipLaunchKernelGGL_TensorAdd 512 256 g gp (w.deref beta)
      (totalElements env (env.tensorDims w desc)) w.mem = some mem3) :
    ∃ s w3, accumulateGradients env g gp desc beta w = Step.next s w3 := by
  unfold accumulateGradients
  simp only []
  have h1 : CHECK_MIO (backendQuery env (Event.miopenGetTensorDescriptor desc) w).1 = none := by
    simp only [backendQuery, hst]
    exact CHECK_MIO_success
  rw [h1]
  simp only []
  have h2 : hipLaunchKernelGGL_TensorAdd 512 256 g gp
      ((backendQuery env (Event.miopenGetTensorDescriptor desc) w).2.deref beta)
      (totalElements env (env.tensorDims w desc))
      (backendQuery env (Event.miopenGetTensorDescriptor desc) w).2.mem = some mem3 := hl
  rw [h2]
  simp only [hhip, CHECK_HIP_success]
  exact ⟨_, _, rfl⟩

/-- `deallocPrior` of an outstanding allocation goes on. -/
theorem deallocPrior_total (d : DevPtr) (w : World α) (hd : d ∈ w.live.map Alloc.ptr) :
    ∃ w4, deallocPrior d w = Step.next () w4 := by
  unfold deallocPrior
  simp only []
  rw [hipMemPtrGetInfo_live d w hd, CHECK_HIP_success]
  simp only []
  split_ifs
  · have hd2 : d ∈ (hipMemPtrGetInfo d w).2.2.live.map Alloc.ptr := by
      rw [(hipMemPtrGetInfo_frame d w).2.2.1]
      exact hd
    rw [hipFree_live d _ hd2, CHECK_HIP_success]
    exact ⟨_, rfl⟩
  · exact ⟨_, rfl⟩

end EmulationTotal
/-! ## The accumulation identity -/

section Accumulation

variable {α : Type}

theorem World.deref_congr [Zero α] (w w1 : World α) (h : w1.host = w.host) (p : HostPtr) :
    w1.deref p = w.deref p := by
  cases p <;> simp [World.deref, h]

/-- The emulated accumulation with the element count `count` the source computes: the call
never leaves the kernel running; when it returns success the destination holds
`N + beta * P` below `count` and `N` from `count` on; and it does return success when the
backend and the runtime accept, the algorithm is supported and the destination is not an
empty allocation. -/
theorem BackwardCall.run_accumulate [Zero α] [Add α] [Mul α] [DecidableEq α]
    (env : Backend α) (c : BackwardCall) (w : World α) (count : Nat) (N : Nat → α)
    (hcomm : ∀ a b : α, a + b = b + a)
    (hb : w.deref c.beta ≠ 0)
    (hdst : c.dst ∈ w.live.map Alloc.ptr)
    (hsize : ∀ al ∈ w.live, al.ptr = c.dst → sizeofFloat * count ≤ al.size)
    (hcount : ∀ w1, totalElements env (env.tensorDims w1 c.dstDesc) = (count : Int))
    (hN : ∀ w1 ws, env.output w1 (c.primitive c.alpha HostPtr.tempBeta ws) = N) :
    (c.run env w).1 ≠ Outcome.hang ∧
    ((c.run env w).1 = Outcome.returned HIPDNN_STATUS_SUCCESS →
      ∀ i, (c.run env w).2.mem c.dst i
        = if i < count then N i + w.deref c.beta * w.mem c.dst i else N i) ∧
    (env.Accepting → c.algoStatus = HIPDNN_STATUS_SUCCESS →
      (∀ al ∈ w.live, al.ptr = c.dst → 0 < al.size) →
      (c.run env w).1 = Outcome.returned HIPDNN_STATUS_SUCCESS) := by
  have he := acquireWorkSpace_effect env c.family c.convDesc c.convDesc c.sizeQuery w
  rw [BackwardCall.run_eq]
  cases hacq : acquireWorkSpace env c.family c.convDesc c.convDesc c.sizeQuery w with
  | stop o w1 =>
    have ho := acquireWorkSpace_stop env _ _ _ _ _ _ _ hacq
    subst ho
    refine ⟨by simp, (fun h => by cases h), fun ha _ _ => ?_⟩
    obtain ⟨ws1, w2, h⟩ := acquireWorkSpace_total env c.family c.convDesc c.convDesc
      c.sizeQuery w ha.1 ha.2.2
    rw [hacq] at h
    cases h
  | next ws w1 =>
    rw [hacq] at he
    simp only [Step.world] at he
    obtain ⟨hmem1, hhost1, hlive1, -⟩ := he
    have hb1 : ¬ w1.deref c.beta = 0 := by
      rw [World.deref_congr w w1 hhost1]
      exact hb
    have hsub : ∀ al ∈ w.live, al ∈ w1.live := by
      intro al hal
      rcases hlive1 with h | ⟨p, s, -, -, h⟩
      · rw [h]
        exact hal
      · rw [h]
        exact List.mem_cons_of_mem _ hal
    have hd1 : c.dst ∈ w1.live.map Alloc.ptr := by
      obtain ⟨al, hal, hp⟩ := List.mem_map.1 hdst
      exact List.mem_map.2 ⟨al, hsub al hal, hp⟩
    simp only []
    cases hchk : CHECK_HIPDNN env c.algoStatus with
    | some o =>
      refine ⟨CHECK_HIPDNN_ne_hang env _ _ hchk,
        fun h => absurd h (CHECK_HIPDNN_some env _ _ hchk), fun _ halgo _ => ?_⟩
      rw [halgo] at hchk
      simp [CHECK_HIPDNN] at hchk
    | none =>
      simp only [if_neg hb1]
      cases hsv : SaveAsPriorBuffer env c.dst w1 with
      | stop o w2 =>
        have ho := SaveAsPriorBuffer_stop env _ _ _ _ hsv
        subst ho
        refine ⟨by simp, (fun h => by cases h), fun ha _ _ => ?_⟩
        obtain ⟨p1, w3, h⟩ := SaveAsPriorBuffer_total env c.dst w1 ha.2.1 ha.2.2 hd1
        rw [hsv] at h
        cases h
      | next prior w2 =>
        obtain ⟨al, hal, hptr, hhost2, hmem2, hcopy, hal2⟩ :=
          SaveAsPriorBuffer_next env _ _ _ _ hsv
        -- the destination allocation is one of the caller's
        have halw : al ∈ w.live := by
          rcases hlive1 with h | ⟨p, s, hp, -, h⟩
          · rw [h] at hal
            exact hal
          · rw [h] at hal
            rcases List.mem_cons.1 hal with h1 | h1
            · exfalso
              apply hp
              have : p = c.dst := by rw [← hptr, h1]
              rw [this]
              exact hdst
            · exact h1
        simp only []
        cases hmio : CHECK_MIO
            (backendCall env (c.primitive c.alpha HostPtr.tempBeta ws) c.dst w2).1 with
        | some o =>
          have ho := CHECK_MIO_some _ _ hmio
          subst ho
          refine ⟨by simp, (fun h => by cases h), fun ha _ _ => ?_⟩
          simp [backendCall, ha.1, CHECK_MIO_success] at hmio
        | none =>
          simp only []
          -- the state the backend leaves: the destination holds `N`
          have hbmem : (backendCall env (c.primitive c.alpha HostPtr.tempBeta ws) c.dst w2).2.mem
              = Function.update w2.mem c.dst N := by
            simp [backendCall, World.writeMem, World.emit, hN]
          have hbhost : (backendCall env (c.primitive c.alpha HostPtr.tempBeta ws) c.dst
              w2).2.host = w.host := by
            simp [backendCall, World.writeMem, World.emit, hhost2, hhost1]
          have hbeta : (backendCall env (c.primitive c.alpha HostPtr.tempBeta ws) c.dst
              w2).2.deref c.beta = w.deref c.beta := World.deref_congr _ _ hbhost _
          -- what the launch does
          have hlaunch : ∃ mem3,
              hipLaunchKernelGGL_TensorAdd 512 256 c.dst prior
                ((backendCall env (c.primitive c.alpha HostPtr.tempBeta ws) c.dst
                  w2).2.deref c.beta)
                (totalElements env (env.tensorDims
                  (backendCall env (c.primitive c.alpha HostPtr.tempBeta ws) c.dst w2).2
                  c.dstDesc))
                (backendCall env (c.primitive c.alpha HostPtr.tempBeta ws) c.dst w2).2.mem
                = some mem3 ∧
              ∀ i, mem3 c.dst i
                = if i < count then N i + w.deref c.beta * w.mem c.dst i else N i := by
            rw [hcount, hbeta, hbmem]
            rcases Nat.eq_zero_or_pos count with hz | hpos
            · subst hz
              refine ⟨_, hipLaunchKernelGGL_TensorAdd_zero _ _ _ _ _ _, ?_⟩
              intro i
              simp
            · have hsz := hsize al halw hptr
              have hszpos : 0 < al.size := by
                unfold sizeofFloat at hsz
                omega
              have hfresh : prior ∉ w1.live.map Alloc.ptr := by
                rcases hal2 with ⟨h0, -⟩ | ⟨-, h, -⟩
                · omega
                · exact h
              have hne : prior ≠ c.dst := by
                intro h
                apply hfresh
                rw [h, ← hptr]
                exact List.mem_map_of_mem _ hal
              obtain ⟨mem3, h3, h4, h5⟩ := hipLaunchKernelGGL_TensorAdd_spec 512 256 c.dst prior
                (w.deref c.beta) (count : Int) (Function.update w2.mem c.dst N) hne
                (Int.natCast_nonneg _)
                (lt_of_lt_of_le (by rw [← hcount w]; exact wrapInt32_lt _) (by norm_num))
                (by norm_num) (by norm_num)
              refine ⟨mem3, h3, ?_⟩
              intro i
              by_cases hi : i < count
              · rw [if_pos hi, h4 i (by exact_mod_cast hi), Function.update_same,
                  Function.update_noteq hne, hcopy i, hmem1, hcomm]
                unfold sizeofFloat at hsz ⊢
                omega
              · rw [if_neg hi, h5 c.dst i, Function.update_same]
                rintro ⟨-, h⟩
                exact hi (by exact_mod_cast h)
          obtain ⟨mem3, hl3, hval⟩ := hlaunch
          cases hacc : accumulateGradients env c.dst prior c.dstDesc c.beta
              (backendCall env (c.primitive c.alpha HostPtr.tempBeta ws) c.dst w2).2 with
          | stop o w3 =>
            rcases accumulateGradients_stop env _ _ _ _ _ _ _ hacc with ho | hnone
            · subst ho
              refine ⟨by simp, (fun h => by cases h), fun ha _ _ => ?_⟩
              obtain ⟨s1, w4, h⟩ := accumulateGradients_total env c.dst prior c.dstDesc c.beta
                _ mem3 ha.1 ha.2.1 hl3
              rw [hacc] at h
              cases h
            · rw [hl3] at hnone
              cases hnone
          | next s w3 =>
            obtain ⟨-, hlive3, hl⟩ := accumulateGradients_next env _ _ _ _ _ _ _ hacc
            rw [hl3] at hl
            have hm3 : w3.mem = mem3 := (Option.some.inj hl).symm
            simp only []
            cases hde : deallocPrior prior w3 with
            | stop o w4 =>
              have ho := deallocPrior_stop _ _ _ _ hde
              subst ho
              refine ⟨by simp, (fun h => by cases h), fun _ _ hpos => ?_⟩
              have hp3 : prior ∈ w3.live.map Alloc.ptr := by
                rw [hlive3, backendCall_live]
                rcases hal2 with ⟨h0, -⟩ | ⟨-, -, h⟩
                · have := hpos al halw hptr
                  omega
                · rw [h]
                  simp
              obtain ⟨w5, h⟩ := deallocPrior_total prior w3 hp3
              rw [hde] at h
              cases h
            | next u w4 =>
              obtain ⟨hm4, -⟩ := deallocPrior_next _ _ _ _ hde
              refine ⟨by simp, fun _ => ?_, fun _ _ _ => rfl⟩
              intro i
              simp only []
              rw [hm4, hm3]
              exact hval i

/-- **C9** (amended) Accumulation identity: for every call of `hipdnnConvolutionBackwardFilter` or
`hipdnnConvolutionBackwardData` with `beta != 0` on a 4-dimensional destination `n x c x h x w`
whose element count is below `2^31`, where the destination is a device allocation of the
caller with room for `n*c*h*w` floats that holds `P` before the call, and the backend call
with `beta` forced to 0 writes `N`: the recombination kernel ends, and when the call returns
`HIPDNN_STATUS_SUCCESS` every destination element `i < n*c*h*w` equals `N[i] + beta * P[i]`
and every element at an index `>= n*c*h*w` is as the backend wrote it. The arithmetic is
that of any element type whose addition is commutative. -/
theorem C9_accumulation_identity [Zero α] [Add α] [Mul α] [DecidableEq α]
    (env : Backend α) (c : BackwardCall) (w : World α) (n ch h wd : Nat) (N : Nat → α)
    (hcomm : ∀ a b : α, a + b = b + a)
    (hb : w.deref c.beta ≠ 0)
    (hdims : ∀ w1, env.tensorDims w1 c.dstDesc = [(n : Int), (ch : Int), (h : Int), (wd : Int)])
    (hfit : n * ch * h * wd < 2 ^ 31)
    (hdst : c.dst ∈ w.live.map Alloc.ptr)
    (hsize : ∀ al ∈ w.live, al.ptr = c.dst → sizeofFloat * (n * ch * h * wd) ≤ al.size)
    (hN : ∀ w1 ws, env.output w1 (c.primitive c.alpha HostPtr.tempBeta ws) = N) :
    (c.run env w).1 ≠ Outcome.hang ∧
    ((c.run env w).1 = Outcome.returned HIPDNN_STATUS_SUCCESS →
      (∀ i, i < n * ch * h * wd →
        (c.run env w).2.mem c.dst i = N i + w.deref c.beta * w.mem c.dst i) ∧
      (∀ i, n * ch * h * wd ≤ i → (c.run env w).2.mem c.dst i = N i)) := by
  have key := BackwardCall.run_accumulate env c w (n * ch * h * wd) N hcomm hb hdst hsize
    (fun w1 => by rw [hdims w1]; exact totalElements_rank4 env n ch h wd hfit) hN
  refine ⟨key.1, fun hok => ⟨fun i hi => ?_, fun i hi => ?_⟩⟩
  · rw [key.2.1 hok i, if_pos hi]
  · rw [key.2.1 hok i, if_neg (by omega)]

theorem BackwardCall.run_filter [Zero α] [Add α] [Mul α] [DecidableEq α] (env : Backend α)
    (a : ConvBwdFilterArgs) (w : World α) :
    (BackwardCall.filter a).run env w = hipdnnConvolutionBackwardFilter env a w := rfl

theorem le_foldr_max (l : List Nat) (x : Nat) (h : x ∈ l) : x ≤ l.foldr max 0 := by
  induction l with
  | nil => cases h
  | cons y rest ih =>
    rw [List.foldr_cons]
    rcases List.mem_cons.1 h with h1 | h1
    · rw [h1]
      exact le_max_left _ _
    · exact le_trans (ih h1) (le_max_right _ _)

/-- The allocator of the demo backend always has a new address. -/
theorem demoBackend_alloc (w : World Int) (s : Nat) :
    ∃ p, demoBackend.hipMallocAddr w s = some p ∧ p ≠ 0 ∧ p ∉ w.live.map Alloc.ptr := by
  refine ⟨(w.live.map Alloc.ptr).foldr max 0 + 1, rfl, Nat.succ_ne_zero _, ?_⟩
  intro h
  have := le_foldr_max _ _ h
  omega

theorem totalElements_demoSeven :
    totalElements demoBackendSeven [2, 1, 1, 1] = ((2 : Nat) : Int) := by
  decide

theorem totalElements_demoHuge :
    totalElements demoBackendHuge [65536, 65536, 1, 1] = ((0 : Nat) : Int) := by
  decide

theorem demoBackendSeven_accepting : demoBackendSeven.Accepting :=
  ⟨fun _ _ => rfl, fun _ _ => rfl, demoBackend_alloc⟩

theorem demoBackendHuge_accepting : demoBackendHuge.Accepting :=
  ⟨fun _ _ => rfl, fun _ _ => rfl, demoBackend_alloc⟩

/-- Witness for C9: a backward-filter convolution with `beta = 3` on the two-element
destination at address `11`, which holds `5`, with a backend that writes `7 + i`. The call
returns success, so the identity is not vacuous there. -/
theorem C9_accumulation_identity_witness :
    demoAccum.deref (BackwardCall.filter demoBwdFilterArgs).beta ≠ 0 ∧
    2 * 1 * 1 * 1 < 2 ^ 31 ∧
    (BackwardCall.filter demoBwdFilterArgs).dst ∈ demoAccum.live.map Alloc.ptr ∧
    ((BackwardCall.filter demoBwdFilterArgs).run demoBackendSeven demoAccum).1
      = Outcome.returned HIPDNN_STATUS_SUCCESS ∧
    (((BackwardCall.filter demoBwdFilterArgs).run demoBackendSeven demoAccum).1
        ≠ Outcome.hang ∧
      (((BackwardCall.filter demoBwdFilterArgs).run demoBackendSeven demoAccum).1
          = Outcome.returned HIPDNN_STATUS_SUCCESS →
        (∀ i, i < 2 * 1 * 1 * 1 →
          ((BackwardCall.filter demoBwdFilterArgs).run demoBackendSeven demoAccum).2.mem
              (BackwardCall.filter demoBwdFilterArgs).dst i
            = (7 + (i : Int))
              + demoAccum.deref (BackwardCall.filter demoBwdFilterArgs).beta
                * demoAccum.mem (BackwardCall.filter demoBwdFilterArgs).dst i) ∧
        (∀ i, 2 * 1 * 1 * 1 ≤ i →
          ((BackwardCall.filter demoBwdFilterArgs).run demoBackendSeven demoAccum).2.mem
              (BackwardCall.filter demoBwdFilterArgs).dst i
            = 7 + (i : Int)))) := by
  have hb : demoAccum.deref (BackwardCall.filter demoBwdFilterArgs).beta ≠ 0 := by decide
  have hdst : (BackwardCall.filter demoBwdFilterArgs).dst ∈ demoAccum.live.map Alloc.ptr := by
    decide
  have hsize : ∀ al ∈ demoAccum.live, al.ptr = (BackwardCall.filter demoBwdFilterArgs).dst →
      sizeofFloat * (2 * 1 * 1 * 1) ≤ al.size := by decide
  have hpos : ∀ al ∈ demoAccum.live, al.ptr = (BackwardCall.filter demoBwdFilterArgs).dst →
      0 < al.size := by decide
  have halgo : (BackwardCall.filter demoBwdFilterArgs).algoStatus = HIPDNN_STATUS_SUCCESS := by
    decide
  refine ⟨hb, by decide, hdst, ?_, ?_⟩
  · exact (BackwardCall.run_accumulate demoBackendSeven
      (BackwardCall.filter demoBwdFilterArgs) demoAccum 2 (fun i => 7 + (i : Int))
      Int.add_comm hb hdst hsize (fun _ => totalElements_demoSeven) (fun _ _ => rfl)).2.2
      demoBackendSeven_accepting halgo hpos
  · exact C9_accumulation_identity demoBackendSeven (BackwardCall.filter demoBwdFilterArgs)
      demoAccum 2 1 1 1 (fun i => 7 + (i : Int)) Int.add_comm hb (fun _ => rfl) (by decide)
      hdst hsize (fun _ _ => rfl)

/-- Counterexample to C9 as stated: a backward-filter convolution with `beta = 3` on a
destination of dimensions `65536 x 65536 x 1 x 1`, allocated with room for all its `2^32`
floats and holding `5`, with a backend that writes `7`. The `int` product of the four
dimensions is `0`, the kernel covers no element, and element `0` is `7` after the call,
not `7 + 3 * 5`. -/
theorem C9_counterexample :
    demoHuge.deref demoBwdFilterArgs.beta = 3 ∧
    demoBackendHuge.tensorDims demoHuge demoBwdFilterArgs.dwDesc = [65536, 65536, 1, 1] ∧
    (⟨demoBwdFilterArgs.dw, 4 * (65536 * 65536 * 1 * 1), Owner.external⟩ : Alloc)
      ∈ demoHuge.live ∧
    demoHuge.mem demoBwdFilterArgs.dw 0 = 5 ∧
    (hipdnnConvolutionBackwardFilter demoBackendHuge demoBwdFilterArgs demoHuge).1
      = Outcome.returned HIPDNN_STATUS_SUCCESS ∧
    (hipdnnConvolutionBackwardFilter demoBackendHuge demoBwdFilterArgs demoHuge).2.mem
      demoBwdFilterArgs.dw 0 = 7 ∧
    (7 : Int) ≠ 7 + 3 * 5 := by
  have hb : demoHuge.deref (BackwardCall.filter demoBwdFilterArgs).beta ≠ 0 := by decide
  have hdst : (BackwardCall.filter demoBwdFilterArgs).dst ∈ demoHuge.live.map Alloc.ptr := by
    decide
  have hsize : ∀ al ∈ demoHuge.live, al.ptr = (BackwardCall.filter demoBwdFilterArgs).dst →
      sizeofFloat * 0 ≤ al.size := by decide
  have hpos : ∀ al ∈ demoHuge.live, al.ptr = (BackwardCall.filter demoBwdFilterArgs).dst →
      0 < al.size := by decide
  have halgo : (BackwardCall.filter demoBwdFilterArgs).algoStatus = HIPDNN_STATUS_SUCCESS := by
    decide
  have key := BackwardCall.run_accumulate demoBackendHuge
    (BackwardCall.filter demoBwdFilterArgs) demoHuge 0 (fun _ => 7) Int.add_comm hb hdst hsize
    (fun _ => totalElements_demoHuge) (fun _ _ => rfl)
  have hok := key.2.2 demoBackendHuge_accepting halgo hpos
  have h0 := key.2.1 hok 0
  rw [if_neg (by decide), BackwardCall.run_filter,
    show (BackwardCall.filter demoBwdFilterArgs).dst = demoBwdFilterArgs.dw from rfl] at h0
  rw [BackwardCall.run_filter] at hok
  exact ⟨by decide, by decide, by decide, by decide, hok, h0, by decide⟩

end Accumulation

/-! ## The element count of the recombination -/

section ElementCount

variable {α : Type}

/-- Once the descriptor query is accepted, `accumulateGradients` launches the kernel with the
element count `totalElements`. -/
theorem accumulateGradients_launch [Zero α] [Add α] [Mul α] (env : Backend α)
    (g gp : DevPtr) (desc : Handle) (beta : HostPtr) (w : World α)
    (hst : env.status w (Event.miopenGetTensorDescriptor desc) = miopenStatusSuccess) :
    Event.hipLaunchKernelGGL_TensorAdd 512 256 g gp (totalElements env (env.tensorDims w desc))
      ∈ (accumulateGradients env g gp desc beta w).world.trace := by
  unfold accumulateGradients
  simp only []
  have h1 : CHECK_MIO (backendQuery env (Event.miopenGetTensorDescriptor desc) w).1 = none := by
    simp only [backendQuery, hst]
    exact CHECK_MIO_success
  rw [h1]
  simp only []
  split
  · simp [Step.world, World.emit]
  · split <;> simp [Step.world, World.emit]

/-- **C10** (the code at the failing input) On the rank-5 descriptor `1 x 1 x 1 x 1 x 2`,
whose element count is `2`, `accumulateGradients` passes the element count `1` to
`TensorAdd`: the product stops at the fourth dimension. On the rank-2 descriptor `2 x 3` the product takes in two entries of
`gradientArray` that were never written. -/
theorem C10_element_count_stops_at_fourth_dimension :
    demoBackendRank5.tensorDims demoStart 3 = [1, 1, 1, 1, 2] ∧
    ([1, 1, 1, 1, 2] : List Int).prod = 2 ∧
    totalElements demoBackendRank5 (demoBackendRank5.tensorDims demoStart 3) = 1 ∧
    Event.hipLaunchKernelGGL_TensorAdd 512 256 11 13 1
      ∈ (accumulateGradients demoBackendRank5 11 13 3 (HostPtr.user 101)
          demoStart).world.trace ∧
    ([2, 3] : List Int).prod = 6 ∧
    totalElements demoBackendRank2 (demoBackendRank2.tensorDims demoStart 3) = 294 := by
  refine ⟨rfl, by decide, by decide, ?_, by decide, by decide⟩
  have h := accumulateGradients_launch demoBackendRank5 11 13 3 (HostPtr.user 101) demoStart rfl
  have e : totalElements demoBackendRank5 (demoBackendRank5.tensorDims demoStart 3) = 1 := by
    decide
  rw [e] at h
  exact h

end ElementCount
/-! ## The grid-stride decomposition -/

section GridStride

variable {α : Type}

/-- The loop of `TensorAdd` is the fold of its body over the indices it visits. -/
theorem TensorAdd.loop_eq_loopIndices [Add α] [Mul α] (C_d A_d : DevPtr) (beta : α)
    (N stride fuel i : Nat) (mem : DevPtr → Nat → α) :
    TensorAdd.loop C_d A_d beta N stride fuel i mem =
      (TensorAdd.loopIndices N stride fuel i).map (fun l => l.foldl
        (fun (m : DevPtr → Nat → α) (j : Nat) => Function.update m C_d
          (Function.update (m C_d) j (beta * m A_d j + m C_d j))) mem) := by
  induction fuel generalizing i mem with
  | zero =>
    unfold TensorAdd.loop TensorAdd.loopIndices
    split_ifs <;> rfl
  | succ fuel ih =>
    unfold TensorAdd.loop TensorAdd.loopIndices
    split_ifs with h
    · rw [ih]
      cases TensorAdd.loopIndices N stride fuel ((i + stride) % 2 ^ 64) <;> rfl
    · rfl

/-- A thread of `TensorAdd` is the fold of the loop body over `TensorAdd.indices`. -/
theorem TensorAdd_eq_indices [Add α] [Mul α] (b bd t gd : Nat) (C_d A_d : DevPtr) (beta : α)
    (N : Int) (mem : DevPtr → Nat → α) :
    TensorAdd b bd t gd C_d A_d beta N mem =
      (TensorAdd.indices b bd t gd N).map (fun l => l.foldl
        (fun (m : DevPtr → Nat → α) (j : Nat) => Function.update m C_d
          (Function.update (m C_d) j (beta * m A_d j + m C_d j))) mem) := by
  unfold TensorAdd TensorAdd.indices
  exact TensorAdd.loop_eq_loopIndices _ _ _ _ _ _ _ _

/-- The loop started at `i` with enough fuel ends, and its `k`-th iteration is at index
`i + k * stride`, as long as that is below `N`. -/
theorem TensorAdd.loopIndices_spec (N stride : Nat)
    (hN : N + stride ≤ 2 ^ 64) (fuel i : Nat) (hfuel : N ≤ i + fuel * stride) :
    ∃ l, TensorAdd.loopIndices N stride fuel i = some l ∧
      ∀ k j, l[k]? = some j ↔ (i + k * stride = j ∧ j < N) := by
  induction fuel generalizing i with
  | zero =>
    refine ⟨[], ?_, ?_⟩
    · unfold TensorAdd.loopIndices
      rw [if_neg (by omega)]
    · intro k j
      simp only [List.getElem?_nil, false_iff, not_and, reduceCtorEq]
      intro h
      have : 0 ≤ k * stride := Nat.zero_le _
      omega
  | succ fuel ih =>
    unfold TensorAdd.loopIndices
    by_cases h : i < N
    · rw [if_pos h]
      have hmod : (i + stride) % 2 ^ 64 = i + stride := Nat.mod_eq_of_lt (by omega)
      rw [hmod]
      have hf : N ≤ i + stride + fuel * stride := by
        have : (fuel + 1) * stride = fuel * stride + stride := Nat.succ_mul _ _
        omega
      obtain ⟨l, hl, hspec⟩ := ih (i + stride) hf
      refine ⟨i :: l, by rw [hl]; rfl, ?_⟩
      intro k j
      cases k with
      | zero =>
        simp only [List.getElem?_cons_zero, Option.some.injEq, Nat.zero_mul, Nat.add_zero]
        constructor
        · intro e
          exact ⟨e, by omega⟩
        · intro e
          exact e.1
      | succ k =>
        rw [List.getElem?_cons_succ, hspec k j]
        have : (k + 1) * stride = k * stride + stride := Nat.succ_mul _ _
        constructor
        · rintro ⟨e, hj⟩
          exact ⟨by omega, hj⟩
        · rintro ⟨e, hj⟩
          exact ⟨by omega, hj⟩
    · rw [if_neg h]
      refine ⟨[], rfl, ?_⟩
      intro k j
      simp only [List.getElem?_nil, false_iff, not_and, reduceCtorEq]
      intro e
      have : 0 ≤ k * stride := Nat.zero_le _
      omega

/-- A thread of the launch of `accumulateGradients`, for an element count `0 <= N < 2^31`:
its loop ends and its `k`-th iteration is at index `thread id + k * 512 * 256`, as long as
that is below `N`. -/
theorem TensorAdd.indices_spec (b t : Nat) (hb : b < 512) (ht : t < 256) (N : Int)
    (h0 : 0 ≤ N) (h1 : N < 2 ^ 31) :
    ∃ l, TensorAdd.indices b 256 t 512 N = some l ∧
      ∀ k j, l[k]? = some j ↔ ((b * 256 + t) + k * (512 * 256) = j ∧ (j : Int) < N) := by
  obtain ⟨n, rfl⟩ := Int.eq_ofNat_of_zero_le h0
  have hn : n < 2 ^ 31 := by exact_mod_cast h1
  have hsz : toSizeT (n : Int) = n := by
    unfold toSizeT
    have : ((n : Int) % 2 ^ 64) = (n : Int) := Int.emod_eq_of_lt (by omega) (by omega)
    rw [this]
    simp
  unfold TensorAdd.indices
  simp only [hsz]
  have ho : (b * 256 + t) % 2 ^ 32 = b * 256 + t := Nat.mod_eq_of_lt (by omega)
  have hst : (256 * 512) % 2 ^ 32 = 512 * 256 := by norm_num
  rw [ho, hst]
  have hfuel : n ≤ (b * 256 + t) + (n / (512 * 256) + 1) * (512 * 256) := by
    have := Nat.div_add_mod n (512 * 256)
    have := Nat.mod_lt n (show 0 < 512 * 256 by norm_num)
    omega
  obtain ⟨l, hl, hspec⟩ := TensorAdd.loopIndices_spec n (512 * 256) (by omega)
    (n / (512 * 256) + 1) (b * 256 + t) hfuel
  refine ⟨l, hl, ?_⟩
  intro k j
  rw [hspec k j]
  constructor
  · rintro ⟨e, hj⟩
    exact ⟨e, by exact_mod_cast hj⟩
  · rintro ⟨e, hj⟩
    exact ⟨e, by exact_mod_cast hj⟩

end GridStride
/-! ## External calls and heap effect of the emulation steps -/

section EmulationEffects

variable {α : Type}

/-- Everything a `SaveAsPriorBuffer` that goes on does: its three runtime calls, the copy,
and the new allocation (none when the argument has no bytes). -/
theorem SaveAsPriorBuffer_effect (env : Backend α) (d prior : DevPtr) (w w2 : World α)
    (h : SaveAsPriorBuffer env d w = Step.next prior w2) :
    ∃ al ∈ w.live, al.ptr = d ∧ w2.host = w.host ∧ w2.ws = w.ws ∧ w2.wsSize = w.wsSize ∧
      w2.trace = w.trace ++ [Event.hipMemPtrGetInfo d hipSuccess al.size,
        Event.hipMalloc al.size hipSuccess prior, Event.hipMemcpy prior d al.size] ∧
      (∀ q i, w2.mem q i
        = if q = prior ∧ i < al.size / sizeofFloat then w.mem d i else w.mem q i) ∧
      ((al.size = 0 ∧ prior = 0 ∧ w2.live = w.live) ∨
        (0 < al.size ∧ prior ≠ 0 ∧ prior ∉ w.live.map Alloc.ptr ∧
          w2.live = ⟨prior, al.size, Owner.prior⟩ :: w.live)) := by
  unfold SaveAsPriorBuffer at h
  simp only [] at h
  split at h
  · cases h
  · rename_i h1
    split at h
    · cases h
    · rename_i h2
      split at h
      · cases h
      · rename_i h3
        have e1 := CHECK_HIP_none _ h1
        have e2 := CHECK_HIP_none _ h2
        have e3 := CHECK_HIP_none _ h3
        obtain ⟨al, hal, hptr, hsz⟩ := hipMemPtrGetInfo_ok d w e1
        have f1 := hipMemPtrGetInfo_frame d w
        have f2 := hipMalloc_frame env (hipMemPtrGetInfo d w).2.1 Owner.prior
          (hipMemPtrGetInfo d w).2.2
        have c2 := hipMalloc_cases env (hipMemPtrGetInfo d w).2.1 Owner.prior
          (hipMemPtrGetInfo d w).2.2
        have f3 := hipMemcpy_frame env (hipMalloc env (hipMemPtrGetInfo d w).2.1 Owner.prior
          (hipMemPtrGetInfo d w).2.2).2.1 d (hipMemPtrGetInfo d w).2.1
          (hipMalloc env (hipMemPtrGetInfo d w).2.1 Owner.prior (hipMemPtrGetInfo d w).2.2).2.2
        have m3 := hipMemcpy_mem env (hipMalloc env (hipMemPtrGetInfo d w).2.1 Owner.prior
          (hipMemPtrGetInfo d w).2.2).2.1 d (hipMemPtrGetInfo d w).2.1
          (hipMalloc env (hipMemPtrGetInfo d w).2.1 Owner.prior (hipMemPtrGetInfo d w).2.2).2.2
          e3
        injection h with hp hw
        subst hp
        subst hw
        refine ⟨al, hal, hptr, ?_, ?_, ?_, ?_, ?_, ?_⟩
        · rw [f3.2.2.2.1, f2.2.2.2.1, f1.2.2.2.2.1]
        · rw [f3.1, f2.1, f1.1]
        · rw [f3.2.1, f2.2.1, f1.2.1]
        · rw [f3.2.2.2.2, f2.2.2.2.2, f1.2.2.2.2.2, e1, e2, ← hsz]
          simp
        · intro q i
          rw [m3, ← hsz]
          by_cases hq : q = (hipMalloc env (hipMemPtrGetInfo d w).2.1 Owner.prior
              (hipMemPtrGetInfo d w).2.2).2.1
          · subst hq
            rw [Function.update_same]
            by_cases hi : i < (hipMemPtrGetInfo d w).2.1 / sizeofFloat
            · rw [if_pos hi, if_pos ⟨rfl, hi⟩, f2.2.2.1, f1.2.2.2.1]
            · rw [if_neg hi, if_neg (fun hh => hi hh.2), f2.2.2.1, f1.2.2.2.1]
          · rw [Function.update_noteq hq, if_neg (fun hh => hq hh.1), f2.2.2.1, f1.2.2.2.1]
        · rw [f3.2.2.1]
          rcases c2 with ⟨-, g2, g3, g4⟩ | ⟨-, g2, g3, g4, g5⟩ | ⟨g1, -⟩
          · exact Or.inl ⟨by rw [← hsz]; exact g2, g3, by rw [g4, f1.2.2.1]⟩
          · refine Or.inr ⟨by rw [← hsz]; exact g2, g3, by rw [← f1.2.2.1]; exact g4, ?_⟩
            rw [g5, f1.2.2.1, hsz]
          · exact absurd e2 g1

/-- The external calls of `SaveAsPriorBuffer`, however it ends, are an initial part of: size
query, allocation, copy. -/
theorem SaveAsPriorBuffer_trace (env : Backend α) (d : DevPtr) (w : World α) :
    ∃ (s : Nat) (e1 e2 : hipError_t) (p : DevPtr) (l : List Event),
      (SaveAsPriorBuffer env d w).world.trace = w.trace ++ l ∧
      l <+: [Event.hipMemPtrGetInfo d e1 s, Event.hipMalloc s e2 p, Event.hipMemcpy p d s] := by
  have f1 := (hipMemPtrGetInfo_frame d w).2.2.2.2.2
  have f2 := (hipMalloc_frame env (hipMemPtrGetInfo d w).2.1 Owner.prior
    (hipMemPtrGetInfo d w).2.2).2.2.2.2
  have f3 := (hipMemcpy_frame env (hipMalloc env (hipMemPtrGetInfo d w).2.1 Owner.prior
    (hipMemPtrGetInfo d w).2.2).2.1 d (hipMemPtrGetInfo d w).2.1
    (hipMalloc env (hipMemPtrGetInfo d w).2.1 Owner.prior (hipMemPtrGetInfo d w).2.2).2.2).2.2.2.2
  refine ⟨(hipMemPtrGetInfo d w).2.1, (hipMemPtrGetInfo d w).1,
    (hipMalloc env (hipMemPtrGetInfo d w).2.1 Owner.prior (hipMemPtrGetInfo d w).2.2).1,
    (hipMalloc env (hipMemPtrGetInfo d w).2.1 Owner.prior (hipMemPtrGetInfo d w).2.2).2.1, ?_⟩
  unfold SaveAsPriorBuffer
  simp only []
  split
  · refine ⟨[_], ?_, ⟨[_, _], rfl⟩⟩
    simp only [Step.world]
    exact f1
  · split
    · refine ⟨[_, _], ?_, ⟨[_], rfl⟩⟩
      simp only [Step.world]
      rw [f2, f1, List.append_assoc]
      rfl
    · have h3 : (hipMemcpy env (hipMalloc env (hipMemPtrGetInfo d w).2.1 Owner.prior
          (hipMemPtrGetInfo d w).2.2).2.1 d (hipMemPtrGetInfo d w).2.1
          (hipMalloc env (hipMemPtrGetInfo d w).2.1 Owner.prior
            (hipMemPtrGetInfo d w).2.2).2.2).2.trace = w.trace ++
          [Event.hipMemPtrGetInfo d (hipMemPtrGetInfo d w).1 (hipMemPtrGetInfo d w).2.1,
            Event.hipMalloc (hipMemPtrGetInfo d w).2.1 (hipMalloc env (hipMemPtrGetInfo d w).2.1
              Owner.prior (hipMemPtrGetInfo d w).2.2).1 (hipMalloc env
              (hipMemPtrGetInfo d w).2.1 Owner.prior (hipMemPtrGetInfo d w).2.2).2.1,
            Event.hipMemcpy (hipMalloc env (hipMemPtrGetInfo d w).2.1 Owner.prior
              (hipMemPtrGetInfo d w).2.2).2.1 d (hipMemPtrGetInfo d w).2.1] := by
        rw [f3, f2, f1]
        simp
      split
      · refine ⟨[_, _, _], ?_, List.prefix_refl _⟩
        simp only [Step.world]
        exact h3
      · refine ⟨[_, _, _], ?_, List.prefix_refl _⟩
        simp only [Step.world]
        exact h3

/-- The external calls of an `accumulateGradients` that goes on. -/
theorem accumulateGradients_next_trace [Zero α] [Add α] [Mul α] (env : Backend α)
    (g gp : DevPtr) (desc : Handle) (beta : HostPtr) (w w3 : World α) (s : hipdnnStatus_t)
    (h : accumulateGradients env g gp desc beta w = Step.next s w3) :
    w3.ws = w.ws ∧ w3.wsSize = w.wsSize ∧
    w3.trace = w.trace ++ [Event.miopenGetTensorDescriptor desc,
      Event.hipLaunchKernelGGL_TensorAdd 512 256 g gp (totalElements env (env.tensorDims w desc)),
      Event.hipDeviceSynchronize] := by
  unfold accumulateGradients at h
  simp only [] at h
  split at h
  · cases h
  · split at h
    · cases h
    · split at h
      · cases h
      · injection h with hs hw
        subst hw
        simp [backendQuery, World.emit]

/-- The external calls of `accumulateGradients`, however it ends, are an initial part of:
descriptor query, launch, synchronize. -/
theorem accumulateGradients_trace [Zero α] [Add α] [Mul α] (env : Backend α)
    (g gp : DevPtr) (desc : Handle) (beta : HostPtr) (w : World α) :
    ∃ l : List Event, (accumulateGradients env g gp desc beta w).world.trace = w.trace ++ l ∧
      l <+: [Event.miopenGetTensorDescriptor desc,
        Event.hipLaunchKernelGGL_TensorAdd 512 256 g gp
          (totalElements env (env.tensorDims w desc)),
        Event.hipDeviceSynchronize] := by
  unfold accumulateGradients
  simp only []
  split
  · exact ⟨[_], rfl, ⟨_, rfl⟩⟩
  · split
    · refine ⟨[_, _], ?_, ⟨[_], rfl⟩⟩
      simp [Step.world, backendQuery, World.emit]
    · split
      · refine ⟨[_, _, _], ?_, List.prefix_refl _⟩
        simp [Step.world, backendQuery, World.emit]
      · refine ⟨[_, _, _], ?_, List.prefix_refl _⟩
        simp [Step.world, backendQuery, World.emit]

/-- Everything a `deallocPrior` that goes on does. -/
theorem deallocPrior_effect (p : DevPtr) (w w4 : World α) (u : Unit)
    (h : deallocPrior p w = Step.next u w4) :
    ∃ al ∈ w.live, al.ptr = p ∧ w4.mem = w.mem ∧ w4.host = w.host ∧ w4.ws = w.ws ∧
      w4.wsSize = w.wsSize ∧
      ((0 < al.size ∧
          w4.trace = w.trace ++ [Event.hipMemPtrGetInfo p hipSuccess al.size,
            Event.hipFree p hipSuccess] ∧
          w4.live = if p = 0 then w.live else w.live.filter (fun a => decide (a.ptr ≠ p))) ∨
        (al.size = 0 ∧ w4.trace = w.trace ++ [Event.hipMemPtrGetInfo p hipSuccess al.size] ∧
          w4.live = w.live)) := by
  unfold deallocPrior at h
  simp only [] at h
  have f1 := hipMemPtrGetInfo_frame p w
  split at h
  · cases h
  · rename_i h1
    have e1 := CHECK_HIP_none _ h1
    obtain ⟨al, hal, hptr, hsz⟩ := hipMemPtrGetInfo_ok p w e1
    refine ⟨al, hal, hptr, ?_⟩
    split_ifs at h with hpos
    · split at h
      · cases h
      · rename_i h2
        have e2 := CHECK_HIP_none _ h2
        injection h with hu hw
        subst hw
        have f2 := hipFree_frame p (hipMemPtrGetInfo p w).2.2
        refine ⟨by rw [f2.2.2.1, f1.2.2.2.1], by rw [f2.2.2.2.1, f1.2.2.2.2.1],
          by rw [f2.1, f1.1], by rw [f2.2.1, f1.2.1], Or.inl ⟨by rw [← hsz]; exact hpos, ?_, ?_⟩⟩
        · rw [f2.2.2.2.2, f1.2.2.2.2.2, e1, e2, hsz]
          simp
        · have hmem : p ∈ (hipMemPtrGetInfo p w).2.2.live.map Alloc.ptr := by
            rw [f1.2.2.1]
            exact List.mem_map.2 ⟨al, hal, hptr⟩
          unfold hipFree
          split_ifs with hp0
          · simp [World.emit, f1.2.2.1]
          · simp [f1.2.2.1]
    · injection h with hu hw
      subst hw
      refine ⟨f1.2.2.2.1, f1.2.2.2.2.1, f1.1, f1.2.1, Or.inr ⟨by omega, ?_, f1.2.2.1⟩⟩
      rw [f1.2.2.2.2.2, e1, hsz]

/-- The external calls of `deallocPrior`, however it ends, are an initial part of: size
query, release. -/
theorem deallocPrior_trace (p : DevPtr) (w : World α) :
    ∃ (e1 : hipError_t) (s : Nat) (e2 : hipError_t) (l : List Event),
      (deallocPrior p w).world.trace = w.trace ++ l ∧
      l <+: [Event.hipMemPtrGetInfo p e1 s, Event.hipFree p e2] := by
  have f1 := (hipMemPtrGetInfo_frame p w).2.2.2.2.2
  have f2 := (hipFree_frame p (hipMemPtrGetInfo p w).2.2).2.2.2.2
  refine ⟨(hipMemPtrGetInfo p w).1, (hipMemPtrGetInfo p w).2.1,
    (hipFree p (hipMemPtrGetInfo p w).2.2).1, ?_⟩
  have h2 : (hipFree p (hipMemPtrGetInfo p w).2.2).2.trace = w.trace ++
      [Event.hipMemPtrGetInfo p (hipMemPtrGetInfo p w).1 (hipMemPtrGetInfo p w).2.1,
        Event.hipFree p (hipFree p (hipMemPtrGetInfo p w).2.2).1] := by
    rw [f2, f1]
    simp
  unfold deallocPrior
  simp only []
  split
  · refine ⟨[_], ?_, ⟨[_], rfl⟩⟩
    simp only [Step.world]
    exact f1
  · split_ifs
    · split
      · refine ⟨[_, _], ?_, List.prefix_refl _⟩
        simp only [Step.world]
        exact h2
      · refine ⟨[_, _], ?_, List.prefix_refl _⟩
        simp only [Step.world]
        exact h2
    · refine ⟨[_], ?_, ⟨[_], rfl⟩⟩
      simp only [Step.world]
      exact f1

/-- What an `accumulateGradients` that goes on leaves in device memory, for an element count
`count` and a snapshot that is another array than the gradient (or no element at all). -/
theorem accumulateGradients_spec [Zero α] [Add α] [Mul α] (env : Backend α)
    (g gp : DevPtr) (desc : Handle) (beta : HostPtr) (w w3 : World α) (s : hipdnnStatus_t)
    (count : Nat)
    (h : accumulateGradients env g gp desc beta w = Step.next s w3)
    (hcount : totalElements env (env.tensorDims w desc) = (count : Int))
    (hne : count = 0 ∨ gp ≠ g) :
    ∀ q i, w3.mem q i
      = if q = g ∧ i < count then w.deref beta * w.mem gp i + w.mem g i else w.mem q i := by
  obtain ⟨-, -, hl⟩ := accumulateGradients_next env _ _ _ _ _ _ _ h
  rw [hcount] at hl
  rcases Nat.eq_zero_or_pos count with hz | hpos
  · subst hz
    rw [Nat.cast_zero, hipLaunchKernelGGL_TensorAdd_zero] at hl
    intro q i
    rw [← Option.some.inj hl, if_neg (fun hh => by omega)]
  · have hgp : gp ≠ g := by
      rcases hne with h0 | h0
      · omega
      · exact h0
    obtain ⟨mem3, h3, h4, h5⟩ := hipLaunchKernelGGL_TensorAdd_spec 512 256 g gp
      (w.deref beta) (count : Int) w.mem hgp (Int.natCast_nonneg _)
      (lt_of_lt_of_le (by rw [← hcount]; exact wrapInt32_lt _) (by norm_num))
      (by norm_num) (by norm_num)
    rw [h3] at hl
    have hm : w3.mem = mem3 := (Option.some.inj hl).symm
    intro q i
    rw [hm]
    by_cases hq : q = g ∧ i < count
    · rw [if_pos hq, hq.1, h4 i (by exact_mod_cast hq.2)]
    · rw [if_neg hq, h5 q i]
      rintro ⟨h1, h2⟩
      exact hq ⟨h1, by exact_mod_cast h2⟩

end EmulationEffects
/-! ## Grid-stride decomposition of the recombination launch: the claim -/

section GridStrideClaim

variable {α : Type}

/-- The launch of `accumulateGradients` ends for every element count `0 <= N < 2^31`, on any
memory and for any two arrays. -/
theorem hipLaunchKernelGGL_TensorAdd_ends [Add α] [Mul α] (C_d A_d : DevPtr) (beta : α)
    (N : Int) (h0 : 0 ≤ N) (h1 : N < 2 ^ 31) (mem : DevPtr → Nat → α) :
    ∃ mem1, hipLaunchKernelGGL_TensorAdd 512 256 C_d A_d beta N mem = some mem1 := by
  unfold hipLaunchKernelGGL_TensorAdd
  have key : ∀ (L : List (Nat × Nat)) (m : DevPtr → Nat → α),
      (∀ bt ∈ L, bt.1 < 512 ∧ bt.2 < 256) →
      ∃ mem1, L.foldlM (fun m bt => TensorAdd bt.1 256 bt.2 512 C_d A_d beta N m) m
        = some mem1 := by
    intro L
    induction L with
    | nil =>
      intro m _
      exact ⟨m, rfl⟩
    | cons bt L ih =>
      intro m hL
      obtain ⟨hb, ht⟩ := hL bt (List.mem_cons_self _ _)
      obtain ⟨l, hl, -⟩ := TensorAdd.indices_spec bt.1 bt.2 hb ht N h0 h1
      rw [List.foldlM_cons, TensorAdd_eq_indices, hl]
      exact ih _ (fun x hx => hL x (List.mem_cons_of_mem _ hx))
  exact key _ mem (fun bt hbt => (mem_launchGrid 512 256 bt).1 hbt)

/-- **C11** Grid-stride decomposition touches each element exactly once. When the descriptor
query of `accumulateGradients` is accepted and the element count it computes is `N` with
`0 <= N < 2^31`: (1) `accumulateGradients` makes the external calls descriptor query, launch
of `TensorAdd` on 512 blocks of 256 threads with `N`, synchronize, the launch ends, and the
device memory it leaves is what `accumulateGradients` leaves, which for a snapshot that is
another array than the gradient is `beta * prior + gradient` on the elements below `N` of the
gradient and the memory before everywhere else; (2) the launch runs kernel `TensorAdd` once
for each pair of a block `b < 512` and a thread `t < 256`, no pair twice; (3) the loop of
each such thread ends, the kernel is the loop body applied at the indices the loop visits,
its `k`-th iteration is at index `thread id + k * 512 * 256` with thread id `b * 256 + t`,
and no iteration is at an index that is not below `N`; (4) for every index `i < N` there is
exactly one thread and one iteration `k` of that thread's loop at index `i`. -/
theorem C11_grid_stride_touches_once [Zero α] [Add α] [Mul α] (env : Backend α)
    (g gp : DevPtr) (desc : Handle) (beta : HostPtr) (w : World α) (N : Int)
    (hst : env.status w (Event.miopenGetTensorDescriptor desc) = miopenStatusSuccess)
    (hN : totalElements env (env.tensorDims w desc) = N) (h0 : 0 ≤ N) (h1 : N < 2 ^ 31) :
    (∃ mem1, hipLaunchKernelGGL_TensorAdd 512 256 g gp (w.deref beta) N w.mem = some mem1 ∧
      (accumulateGradients env g gp desc beta w).world.mem = mem1 ∧
      (accumulateGradients env g gp desc beta w).world.trace =
        w.trace ++ [Event.miopenGetTensorDescriptor desc,
          Event.hipLaunchKernelGGL_TensorAdd 512 256 g gp N, Event.hipDeviceSynchronize] ∧
      (gp ≠ g → ∀ q i, mem1 q i =
        if q = g ∧ (i : Int) < N then w.deref beta * w.mem gp i + w.mem g i
        else w.mem q i)) ∧
    (hipLaunchKernelGGL_TensorAdd 512 256 g gp (w.deref beta) N w.mem =
        (launchGrid 512 256).foldlM
          (fun m bt => TensorAdd bt.1 256 bt.2 512 g gp (w.deref beta) N m) w.mem ∧
      (∀ bt, bt ∈ launchGrid 512 256 ↔ bt.1 < 512 ∧ bt.2 < 256) ∧
      (launchGrid 512 256).Nodup) ∧
    (∀ b t, b < 512 → t < 256 → ∃ l, TensorAdd.indices b 256 t 512 N = some l ∧
      (∀ mem : DevPtr → Nat → α, TensorAdd b 256 t 512 g gp (w.deref beta) N mem =
        some (l.foldl (fun (m : DevPtr → Nat → α) (j : Nat) => Function.update m g
          (Function.update (m g) j (w.deref beta * m gp j + m g j))) mem)) ∧
      (∀ k j, l[k]? = some j ↔ ((b * 256 + t) + k * (512 * 256) = j ∧ (j : Int) < N)) ∧
      ∀ j ∈ l, (j : Int) < N) ∧
    (∀ i : Nat, (i : Int) < N → ∃! p : Nat × Nat × Nat, p.1 < 512 ∧ p.2.1 < 256 ∧
      ∃ l, TensorAdd.indices p.1 256 p.2.1 512 N = some l ∧ l[p.2.2]? = some i) := by
  refine ⟨?_, ⟨rfl, mem_launchGrid 512 256, ?_⟩, ?_, ?_⟩
  · obtain ⟨mem1, hm⟩ := hipLaunchKernelGGL_TensorAdd_ends g gp (w.deref beta) N h0 h1 w.mem
    have hd : (w.emit (Event.miopenGetTensorDescriptor desc)).deref beta = w.deref beta := by
      cases beta <;> rfl
    have hrun : (accumulateGradients env g gp desc beta w).world =
        ({ (w.emit (Event.miopenGetTensorDescriptor desc)).emit
            (Event.hipLaunchKernelGGL_TensorAdd 512 256 g gp N) with mem := mem1 }).emit
          Event.hipDeviceSynchronize := by
      unfold accumulateGradients
      simp only [backendQuery, hst, CHECK_MIO_success, hN, hd]
      have hm2 : hipLaunchKernelGGL_TensorAdd 512 256 g gp (w.deref beta) N
          (w.emit (Event.miopenGetTensorDescriptor desc)).mem = some mem1 := hm
      rw [hm2]
      simp only []
      split <;> rfl
    refine ⟨mem1, hm, ?_, ?_, ?_⟩
    · rw [hrun]
      rfl
    · rw [hrun]
      simp [World.emit]
    · intro hne
      obtain ⟨mem3, h3, h4, h5⟩ := hipLaunchKernelGGL_TensorAdd_spec 512 256 g gp
        (w.deref beta) N w.mem hne h0 (lt_trans h1 (by norm_num)) (by norm_num) (by norm_num)
      rw [hm] at h3
      cases h3
      intro q i
      by_cases hq : q = g ∧ (i : Int) < N
      · rw [if_pos hq, hq.1, h4 i hq.2]
      · rw [if_neg hq, h5 q i hq]
  · exact (launchGrid_pairwise 512 256).imp (fun h e => h (by rw [e]))
  · intro b t hb ht
    obtain ⟨l, hl, hspec⟩ := TensorAdd.indices_spec b t hb ht N h0 h1
    refine ⟨l, hl, fun mem => ?_, hspec, ?_⟩
    · rw [TensorAdd_eq_indices, hl]
      rfl
    · intro j hj
      obtain ⟨k, hk⟩ := List.getElem?_of_mem hj
      exact ((hspec k j).1 hk).2
  · intro i hi
    refine ⟨(i % 131072 / 256, i % 131072 % 256, i / 131072), ?_, ?_⟩
    · have hb : i % 131072 / 256 < 512 := by omega
      have ht : i % 131072 % 256 < 256 := by omega
      obtain ⟨l, hl, hspec⟩ := TensorAdd.indices_spec _ _ hb ht N h0 h1
      refine ⟨hb, ht, l, hl, ?_⟩
      show l[i / 131072]? = some i
      rw [hspec]
      exact ⟨by omega, hi⟩
    · rintro ⟨b, t, k⟩ ⟨hb, ht, l, hl, hk⟩
      simp only at hb ht hl hk
      obtain ⟨l1, hl1, hspec⟩ := TensorAdd.indices_spec b t hb ht N h0 h1
      rw [hl] at hl1
      cases hl1
      have := (hspec k i).1 hk
      have e := this.1
      simp only [Prod.mk.injEq]
      omega

/-- Witness for C11: `accumulateGradients` on the gradient at address `11` and the snapshot at
address `12`, with a descriptor of `300 x 1000 x 1 x 1` elements, that is, an element count of
`300000` and up to three iterations per thread; every device element holds `5` and `beta` is
`3`. -/
theorem C11_grid_stride_touches_once_witness :
    demoBackendWide.status demoAccum (Event.miopenGetTensorDescriptor 4) = miopenStatusSuccess ∧
    totalElements demoBackendWide (demoBackendWide.tensorDims demoAccum 4) = 300000 ∧
    (0 : Int) ≤ 300000 ∧ (300000 : Int) < 2 ^ 31 ∧
    (∃ mem1, hipLaunchKernelGGL_TensorAdd 512 256 11 12 (demoAccum.deref (HostPtr.user 101))
        300000 demoAccum.mem = some mem1 ∧
      (accumulateGradients demoBackendWide 11 12 4 (HostPtr.user 101) demoAccum).world.mem
        = mem1 ∧
      (accumulateGradients demoBackendWide 11 12 4 (HostPtr.user 101) demoAccum).world.trace =
        demoAccum.trace ++ [Event.miopenGetTensorDescriptor 4,
          Event.hipLaunchKernelGGL_TensorAdd 512 256 11 12 300000,
          Event.hipDeviceSynchronize] ∧
      (∀ q i, mem1 q i =
        if q = 11 ∧ (i : Int) < 300000 then
          demoAccum.deref (HostPtr.user 101) * demoAccum.mem 12 i + demoAccum.mem 11 i
        else demoAccum.mem q i)) ∧
    (∀ i : Nat, (i : Int) < 300000 → ∃! p : Nat × Nat × Nat, p.1 < 512 ∧ p.2.1 < 256 ∧
      ∃ l, TensorAdd.indices p.1 256 p.2.1 512 300000 = some l ∧ l[p.2.2]? = some i) :=
  have h := C11_grid_stride_touches_once demoBackendWide 11 12 4 (HostPtr.user 101) demoAccum
    300000 rfl (by decide) (by decide) (by decide)
  ⟨rfl, by decide, by decide, by decide,
    h.1.imp (fun _ hh => ⟨hh.1, hh.2.1, hh.2.2.1, hh.2.2.2 (by decide)⟩), h.2.2.2⟩

end GridStrideClaim
/-! ## Order of the external calls of an emulated accumulation -/

section EmulationOrder

variable {α : Type}

/-- The get-or-allocate block adds no allocation at `NULL`. -/
theorem acquireWorkSpace_nonnull (env : Backend α) (fam : Family) (key opDesc : Handle)
    (q : Event) (w : World α) (hheap : ∀ a ∈ w.live, a.ptr ≠ 0) :
    ∀ a ∈ (acquireWorkSpace env fam key opDesc q w).world.live, a.ptr ≠ 0 := by
  unfold acquireWorkSpace
  split_ifs with hmiss
  · simp only []
    have hc := hipMalloc_cases env (env.workSpaceSize w q) (Owner.workspace fam key opDesc)
      (backendQuery env q w).2
    have hlv : ∀ a ∈ (hipMalloc env (env.workSpaceSize w q)
        (Owner.workspace fam key opDesc) (backendQuery env q w).2).2.2.live, a.ptr ≠ 0 := by
      intro a ha
      rcases hc with ⟨-, -, -, h4⟩ | ⟨-, -, h3, -, h5⟩ | ⟨-, h4⟩
      · rw [h4] at ha
        exact hheap a ha
      · rw [h5] at ha
        rcases List.mem_cons.1 ha with h | h
        · rw [h]
          exact h3
        · exact hheap a h
      · rw [h4] at ha
        exact hheap a ha
    split
    · exact hheap
    · split
      · exact hlv
      · exact hlv
  · exact hheap

/-- An `accumulateGradients` that ends the entry point does so by `std::exit` or by a kernel
that never ends. -/
theorem accumulateGradients_stop_outcome [Zero α] [Add α] [Mul α] (env : Backend α)
    (g gp : DevPtr) (desc : Handle) (beta : HostPtr) (w w3 : World α) (o : Outcome)
    (h : accumulateGradients env g gp desc beta w = Step.stop o w3) :
    o = Outcome.exited ∨ o = Outcome.hang := by
  unfold accumulateGradients at h
  simp only [] at h
  split at h
  · rename_i o1 ho
    cases h
    exact Or.inl (CHECK_MIO_some _ _ ho)
  · split at h
    · cases h
      exact Or.inr rfl
    · split at h
      · rename_i o1 ho
        cases h
        exact Or.inl (CHECK_HIP_some _ _ ho)
      · cases h

/-- The steps of an emulated accumulation that returns success. -/
theorem BackwardCall.run_chain [Zero α] [Add α] [Mul α] [DecidableEq α] (env : Backend α)
    (c : BackwardCall) (w : World α) (hb : w.deref c.beta ≠ 0)
    (hok : (c.run env w).1 = Outcome.returned HIPDNN_STATUS_SUCCESS) :
    ∃ (ws : DevPtr × Nat) (w1 : World α) (prior : DevPtr) (w2 : World α)
      (s3 : hipdnnStatus_t) (w3 : World α) (u : Unit),
      acquireWorkSpace env c.family c.convDesc c.convDesc c.sizeQuery w = Step.next ws w1 ∧
      SaveAsPriorBuffer env c.dst w1 = Step.next prior w2 ∧
      accumulateGradients env c.dst prior c.dstDesc c.beta
        (backendCall env (c.primitive c.alpha HostPtr.tempBeta ws) c.dst w2).2
        = Step.next s3 w3 ∧
      deallocPrior prior w3 = Step.next u (c.run env w).2 := by
  have he := acquireWorkSpace_effect env c.family c.convDesc c.convDesc c.sizeQuery w
  rw [BackwardCall.run_eq] at hok
  cases hacq : acquireWorkSpace env c.family c.convDesc c.convDesc c.sizeQuery w with
  | stop o w1 =>
    rw [hacq] at hok
    have ho := acquireWorkSpace_stop env _ _ _ _ _ _ _ hacq
    subst ho
    cases hok
  | next ws w1 =>
    rw [hacq] at he hok
    simp only [Step.world] at he
    have hb1 : ¬ w1.deref c.beta = 0 := by
      rw [World.deref_congr w w1 he.2.1]
      exact hb
    simp only [] at hok
    cases hchk : CHECK_HIPDNN env c.algoStatus with
    | some o =>
      rw [hchk] at hok
      exact absurd hok (CHECK_HIPDNN_some env _ _ hchk)
    | none =>
      rw [hchk] at hok
      simp only [if_neg hb1] at hok
      cases hsv : SaveAsPriorBuffer env c.dst w1 with
      | stop o w2 =>
        rw [hsv] at hok
        have ho := SaveAsPriorBuffer_stop env _ _ _ _ hsv
        subst ho
        cases hok
      | next prior w2 =>
        rw [hsv] at hok
        simp only [] at hok
        cases hmio : CHECK_MIO
            (backendCall env (c.primitive c.alpha HostPtr.tempBeta ws) c.dst w2).1 with
        | some o =>
          rw [hmio] at hok
          have ho := CHECK_MIO_some _ _ hmio
          subst ho
          cases hok
        | none =>
          rw [hmio] at hok
          simp only [] at hok
          cases hacc : accumulateGradients env c.dst prior c.dstDesc c.beta
              (backendCall env (c.primitive c.alpha HostPtr.tempBeta ws) c.dst w2).2 with
          | stop o w3 =>
            rw [hacc] at hok
            simp only [] at hok
            rcases accumulateGradients_stop_outcome env _ _ _ _ _ _ _ hacc with ho | ho
            · subst ho
              cases hok
            · subst ho
              cases hok
          | next s3 w3 =>
            rw [hacc] at hok
            simp only [] at hok
            cases hde : deallocPrior prior w3 with
            | stop o w4 =>
              rw [hde] at hok
              have ho := deallocPrior_stop _ _ _ _ hde
              subst ho
              cases hok
            | next u w4 =>
              have hrun : c.run env w = (Outcome.returned HIPDNN_STATUS_SUCCESS, w4) := by
                rw [BackwardCall.run_eq, hacq]
                simp only [hchk, if_neg hb1, hsv, hmio, hacc, hde]
              rw [hrun]
              exact ⟨ws, w1, prior, w2, s3, w3, u, rfl, hsv, hacc, hde⟩

/-- **C13** (amended) Ordering inside one emulated call: for every call of
`hipdnnConvolutionBackwardFilter` or `hipdnnConvolutionBackwardData` with `beta != 0`, in a
state with no allocation at `NULL`, the external calls made after the get-or-allocate block
are an initial part of the sequence: snapshot (size query, allocation, device-to-device copy
of the destination); the backend primitive, with the caller's `alpha` and `beta` forced to
`0`; recombination (descriptor query, `TensorAdd` launch, `hipDeviceSynchronize`); release of
the snapshot (size query, `hipFree`). When the call returns `HIPDNN_STATUS_SUCCESS` they are
exactly that sequence, every runtime call in it having succeeded on a non-null snapshot. -/
theorem C13_emulated_call_order [Zero α] [Add α] [Mul α] [DecidableEq α] (env : Backend α)
    (c : BackwardCall) (w : World α) (hb : w.deref c.beta ≠ 0)
    (hheap : ∀ a ∈ w.live, a.ptr ≠ 0) :
    ∃ (pre : List Event) (ws : DevPtr × Nat) (size : Nat) (e1 e2 : hipError_t)
      (prior : DevPtr) (N : Int) (size1 : Nat) (e3 e4 : hipError_t) (l : List Event),
      (pre = [] ∨ pre = [c.sizeQuery] ∨
        ∃ s err p, pre = [c.sizeQuery, Event.hipMalloc s err p]) ∧
      (c.run env w).2.trace = w.trace ++ pre ++ l ∧
      l <+: c.emulationCalls ws size e1 e2 prior N size1 e3 e4 ∧
      ((c.run env w).1 = Outcome.returned HIPDNN_STATUS_SUCCESS →
        l = c.emulationCalls ws size hipSuccess hipSuccess prior N size hipSuccess hipSuccess ∧
        prior ≠ 0) := by
  have he := acquireWorkSpace_effect env c.family c.convDesc c.convDesc c.sizeQuery w
  have hnn := acquireWorkSpace_nonnull env c.family c.convDesc c.convDesc c.sizeQuery w hheap
  have hpre : ∃ pre : List Event,
      (pre = [] ∨ pre = [c.sizeQuery] ∨
        ∃ s err p, pre = [c.sizeQuery, Event.hipMalloc s err p]) ∧
      (acquireWorkSpace env c.family c.convDesc c.convDesc c.sizeQuery w).world.trace
        = w.trace ++ pre := by
    rcases he.2.2.2 with h | h | ⟨s, err, p, h⟩
    · exact ⟨_, Or.inl rfl, h⟩
    · exact ⟨_, Or.inr (Or.inl rfl), h⟩
    · exact ⟨_, Or.inr (Or.inr ⟨s, err, p, rfl⟩), h⟩
  obtain ⟨pre, hshape, htr⟩ := hpre
  cases hacq : acquireWorkSpace env c.family c.convDesc c.convDesc c.sizeQuery w with
  | stop o w1 =>
    rw [hacq] at htr
    simp only [Step.world] at htr
    have ho := acquireWorkSpace_stop env _ _ _ _ _ _ _ hacq
    subst ho
    have hrun : c.run env w = (Outcome.exited, w1) := by
      rw [BackwardCall.run_eq, hacq]
    rw [hrun]
    exact ⟨pre, (0, 0), 0, hipSuccess, hipSuccess, 0, 0, 0, hipSuccess, hipSuccess, [],
      hshape, by simp [htr], List.nil_prefix, fun h => by cases h⟩
  | next ws w1 =>
    rw [hacq] at he htr hnn
    simp only [Step.world] at he htr hnn
    have hb1 : ¬ w1.deref c.beta = 0 := by
      rw [World.deref_congr w w1 he.2.1]
      exact hb
    cases hchk : CHECK_HIPDNN env c.algoStatus with
    | some o =>
      have hrun : c.run env w = (o, w1) := by
        rw [BackwardCall.run_eq, hacq]
        simp only [hchk]
      rw [hrun]
      exact ⟨pre, ws, 0, hipSuccess, hipSuccess, 0, 0, 0, hipSuccess, hipSuccess, [],
        hshape, by simp [htr], List.nil_prefix,
        fun h => absurd h (CHECK_HIPDNN_some env _ _ hchk)⟩
    | none =>
      cases hsv : SaveAsPriorBuffer env c.dst w1 with
      | stop o w2 =>
        have ho := SaveAsPriorBuffer_stop env _ _ _ _ hsv
        subst ho
        have hrun : c.run env w = (Outcome.exited, w2) := by
          rw [BackwardCall.run_eq, hacq]
          simp only [hchk, if_neg hb1, hsv]
        obtain ⟨s, e1, e2, p, l1, h1, ⟨t, ht⟩⟩ := SaveAsPriorBuffer_trace env c.dst w1
        rw [hsv] at h1
        simp only [Step.world] at h1
        rw [hrun]
        refine ⟨pre, ws, s, e1, e2, p, 0, 0, hipSuccess, hipSuccess, l1, hshape,
          by rw [h1, htr], ⟨t ++ [c.primitive c.alpha HostPtr.tempBeta ws,
            Event.miopenGetTensorDescriptor c.dstDesc,
            Event.hipLaunchKernelGGL_TensorAdd 512 256 c.dst p 0, Event.hipDeviceSynchronize,
            Event.hipMemPtrGetInfo p hipSuccess 0, Event.hipFree p hipSuccess], ?_⟩,
          fun h => by cases h⟩
        rw [← List.append_assoc, ht]
        rfl
      | next prior w2 =>
        obtain ⟨al, hal, hptr, hhost2, -, -, htr2, -, hal2⟩ :=
          SaveAsPriorBuffer_effect env _ _ _ _ hsv
        have htrb : (backendCall env (c.primitive c.alpha HostPtr.tempBeta ws) c.dst w2).2.trace
            = w.trace ++ pre ++ [Event.hipMemPtrGetInfo c.dst hipSuccess al.size,
              Event.hipMalloc al.size hipSuccess prior, Event.hipMemcpy prior c.dst al.size,
              c.primitive c.alpha HostPtr.tempBeta ws] := by
          rw [backendCall_trace, htr2, htr]
          simp
        cases hmio : CHECK_MIO
            (backendCall env (c.primitive c.alpha HostPtr.tempBeta ws) c.dst w2).1 with
        | some o =>
          have ho := CHECK_MIO_some _ _ hmio
          subst ho
          have hrun : c.run env w = (Outcome.exited,
              (backendCall env (c.primitive c.alpha HostPtr.tempBeta ws) c.dst w2).2) := by
            rw [BackwardCall.run_eq, hacq]
            simp only [hchk, if_neg hb1, hsv, hmio]
          rw [hrun]
          exact ⟨pre, ws, al.size, hipSuccess, hipSuccess, prior, 0, 0, hipSuccess,
            hipSuccess, _, hshape, htrb, ⟨[Event.miopenGetTensorDescriptor c.dstDesc,
              Event.hipLaunchKernelGGL_TensorAdd 512 256 c.dst prior 0,
              Event.hipDeviceSynchronize, Event.hipMemPtrGetInfo prior hipSuccess 0,
              Event.hipFree prior hipSuccess], rfl⟩, fun h => by cases h⟩
        | none =>
          cases hacc : accumulateGradients env c.dst prior c.dstDesc c.beta
              (backendCall env (c.primitive c.alpha HostPtr.tempBeta ws) c.dst w2).2 with
          | stop o w3 =>
            have hrun : c.run env w = (o, w3) := by
              rw [BackwardCall.run_eq, hacq]
              simp only [hchk, if_neg hb1, hsv, hmio, hacc]
            obtain ⟨l3, h3, ⟨t, ht⟩⟩ := accumulateGradients_trace env c.dst prior c.dstDesc
              c.beta (backendCall env (c.primitive c.alpha HostPtr.tempBeta ws) c.dst w2).2
            rw [hacc] at h3
            simp only [Step.world] at h3
            rw [hrun]
            refine ⟨pre, ws, al.size, hipSuccess, hipSuccess, prior, (totalElements env (env.tensorDims
                (backendCall env (c.primitive c.alpha HostPtr.tempBeta ws) c.dst w2).2
                c.dstDesc)), 0, hipSuccess,
              hipSuccess, [Event.hipMemPtrGetInfo c.dst hipSuccess al.size,
                Event.hipMalloc al.size hipSuccess prior, Event.hipMemcpy prior c.dst al.size,
                c.primitive c.alpha HostPtr.tempBeta ws] ++ l3, hshape,
              by rw [h3, htrb, List.append_assoc], ⟨t ++ [Event.hipMemPtrGetInfo prior
                hipSuccess 0, Event.hipFree prior hipSuccess], ?_⟩, ?_⟩
            · rw [List.append_assoc, ← List.append_assoc l3, ht]
              rfl
            · intro h
              rcases accumulateGradients_stop_outcome env _ _ _ _ _ _ _ hacc with ho | ho
              · subst ho
                cases h
              · subst ho
                cases h
          | next s3 w3 =>
            obtain ⟨-, -, htr3⟩ := accumulateGradients_next_trace env _ _ _ _ _ _ _ hacc
            obtain ⟨-, hlive3, -⟩ := accumulateGradients_next env _ _ _ _ _ _ _ hacc
            have htr3b : w3.trace = w.trace ++ pre ++
                [Event.hipMemPtrGetInfo c.dst hipSuccess al.size,
                  Event.hipMalloc al.size hipSuccess prior,
                  Event.hipMemcpy prior c.dst al.size,
                  c.primitive c.alpha HostPtr.tempBeta ws,
                  Event.miopenGetTensorDescriptor c.dstDesc,
                  Event.hipLaunchKernelGGL_TensorAdd 512 256 c.dst prior
                    (totalElements env (env.tensorDims
                      (backendCall env (c.primitive c.alpha HostPtr.tempBeta ws) c.dst w2).2
                      c.dstDesc)),
                  Event.hipDeviceSynchronize] := by
              rw [htr3, htrb]
              simp
            cases hde : deallocPrior prior w3 with
            | stop o w4 =>
              have ho := deallocPrior_stop _ _ _ _ hde
              subst ho
              have hrun : c.run env w = (Outcome.exited, w4) := by
                rw [BackwardCall.run_eq, hacq]
                simp only [hchk, if_neg hb1, hsv, hmio, hacc, hde]
              obtain ⟨e3, s1, e4, l4, h4, ⟨t, ht⟩⟩ := deallocPrior_trace prior w3
              rw [hde] at h4
              simp only [Step.world] at h4
              rw [hrun]
              refine ⟨pre, ws, al.size, hipSuccess, hipSuccess, prior, (totalElements env (env.tensorDims
                (backendCall env (c.primitive c.alpha HostPtr.tempBeta ws) c.dst w2).2
                c.dstDesc)), s1, e3, e4,
                [Event.hipMemPtrGetInfo c.dst hipSuccess al.size,
                  Event.hipMalloc al.size hipSuccess prior,
                  Event.hipMemcpy prior c.dst al.size,
                  c.primitive c.alpha HostPtr.tempBeta ws,
                  Event.miopenGetTensorDescriptor c.dstDesc,
                  Event.hipLaunchKernelGGL_TensorAdd 512 256 c.dst prior
                    (totalElements env (env.tensorDims
                      (backendCall env (c.primitive c.alpha HostPtr.tempBeta ws) c.dst w2).2
                      c.dstDesc)),
                  Event.hipDeviceSynchronize] ++ l4, hshape,
                by rw [h4, htr3b, List.append_assoc], ⟨t, ?_⟩, fun h => by cases h⟩
              rw [List.append_assoc, ht]
              rfl
            | next u w4 =>
              have hrun : c.run env w = (Outcome.returned HIPDNN_STATUS_SUCCESS, w4) := by
                rw [BackwardCall.run_eq, hacq]
                simp only [hchk, if_neg hb1, hsv, hmio, hacc, hde]
              obtain ⟨al1, hal1, hptr1, -, -, -, -, hd⟩ := deallocPrior_effect _ _ _ _ hde
              rw [hlive3, backendCall_live] at hal1
              -- the snapshot is a real allocation
              have hA : 0 < al.size ∧ prior ≠ 0 ∧ prior ∉ w1.live.map Alloc.ptr ∧
                  w2.live = ⟨prior, al.size, Owner.prior⟩ :: w1.live := by
                rcases hal2 with ⟨-, h0, hl⟩ | h
                · exfalso
                  rw [hl] at hal1
                  exact hnn al1 hal1 (hptr1.trans h0)
                · exact h
              have hal1eq : al1.size = al.size := by
                rw [hA.2.2.2] at hal1
                rcases List.mem_cons.1 hal1 with h | h
                · rw [h]
                · exact absurd (List.mem_map.2 ⟨al1, h, hptr1⟩) hA.2.2.1
              have htr4 : w4.trace = w3.trace ++ [Event.hipMemPtrGetInfo prior hipSuccess
                  al.size, Event.hipFree prior hipSuccess] := by
                rcases hd with ⟨-, h, -⟩ | ⟨h0, -, -⟩
                · rw [h, hal1eq]
                · omega
              rw [hrun]
              refine ⟨pre, ws, al.size, hipSuccess, hipSuccess, prior, (totalElements env (env.tensorDims
                (backendCall env (c.primitive c.alpha HostPtr.tempBeta ws) c.dst w2).2
                c.dstDesc)), al.size, hipSuccess,
                hipSuccess, _, hshape, ?_, List.prefix_refl _, fun _ => ⟨rfl, hA.2.1⟩⟩
              simp only []
              rw [htr4, htr3b, List.append_assoc]
              rfl

/-- Witness for C13: a backward-filter convolution with `beta = 3` from process start with
the three demo tensors outstanding. -/
theorem C13_emulated_call_order_witness :
    demoAccum.deref (BackwardCall.filter demoBwdFilterArgs).beta ≠ 0 ∧
    (∀ a ∈ demoAccum.live, a.ptr ≠ 0) ∧
    ∃ (pre : List Event) (ws : DevPtr × Nat) (size : Nat) (e1 e2 : hipError_t)
      (prior : DevPtr) (N : Int) (size1 : Nat) (e3 e4 : hipError_t) (l : List Event),
      (pre = [] ∨ pre = [(BackwardCall.filter demoBwdFilterArgs).sizeQuery] ∨
        ∃ s err p, pre = [(BackwardCall.filter demoBwdFilterArgs).sizeQuery,
          Event.hipMalloc s err p]) ∧
      ((BackwardCall.filter demoBwdFilterArgs).run demoBackendSeven demoAccum).2.trace
        = demoAccum.trace ++ pre ++ l ∧
      l <+: (BackwardCall.filter demoBwdFilterArgs).emulationCalls ws size e1 e2 prior N size1
        e3 e4 ∧
      (((BackwardCall.filter demoBwdFilterArgs).run demoBackendSeven demoAccum).1
          = Outcome.returned HIPDNN_STATUS_SUCCESS →
        l = (BackwardCall.filter demoBwdFilterArgs).emulationCalls ws size hipSuccess
          hipSuccess prior N size hipSuccess hipSuccess ∧
        prior ≠ 0) :=
  ⟨by decide, by decide, C13_emulated_call_order demoBackendSeven
    (BackwardCall.filter demoBwdFilterArgs) demoAccum (by decide) (by decide)⟩

/-- Counterexample to C13 as stated: a backward-filter convolution with `beta = 3` whose
backend primitive reports `miopenStatusBadParm`. `CHECK_MIO` ends the process right after the
primitive: there is no `TensorAdd` launch, no `hipDeviceSynchronize` and no release of the
snapshot, which is still allocated. -/
theorem C13_counterexample :
    demoAccum.deref demoBwdFilterArgs.beta = 3 ∧
    (hipdnnConvolutionBackwardFilter demoBackendNoWeights demoBwdFilterArgs demoAccum).1
      = Outcome.exited ∧
    (hipdnnConvolutionBackwardFilter demoBackendNoWeights demoBwdFilterArgs demoAccum).2.trace
      = [Event.miopenConvolutionBackwardWeightsGetWorkSpaceSize 1 4 2 7 3,
          Event.hipMalloc 64 hipSuccess 13,
          Event.hipMemPtrGetInfo 11 hipSuccess 8, Event.hipMalloc 8 hipSuccess 14,
          Event.hipMemcpy 14 11 8,
          Event.miopenConvolutionBackwardWeights 1 (HostPtr.user 100) 4 12 2 10 7
            (some miopenConvBwdWeightsAlgorithm_t.miopenConvolutionBwdWeightsAlgoGEMM)
            HostPtr.tempBeta 3 11 13 64] ∧
    (⟨14, 8, Owner.prior⟩ : Alloc) ∈
      (hipdnnConvolutionBackwardFilter demoBackendNoWeights demoBwdFilterArgs demoAccum).2.live
    := by
  decide

end EmulationOrder
/-! ## Snapshot buffers on the heap -/

section SnapshotHeap

variable {α : Type}

theorem Snapshots_refl (L0 : List Alloc) : Snapshots L0 L0 [] :=
  ⟨[], rfl, fun _ h => by cases h⟩

/-- With no snapshot address left, the heap is the one before. -/
theorem Snapshots_nil (L0 L : List Alloc) (ps : List DevPtr) (h : Snapshots L0 L ps)
    (hps : ∀ p, p ∉ ps) : L = L0 := by
  obtain ⟨S, hL, hS⟩ := h
  have : S = [] := List.eq_nil_iff_forall_not_mem.2 (fun a ha => hps _ (hS a ha).2.2)
  rw [hL, this]
  rfl

/-- A `SaveAsPriorBuffer` that goes on puts at most its snapshot on the heap, at an address
that is `NULL` or new. -/
theorem Snapshots_SaveAsPriorBuffer (env : Backend α) (d prior : DevPtr) (w w2 : World α)
    (L0 : List Alloc) (ps : List DevPtr) (hs : Snapshots L0 w.live ps)
    (h : SaveAsPriorBuffer env d w = Step.next prior w2) :
    Snapshots L0 w2.live (prior :: ps) ∧ (prior = 0 ∨ prior ∉ L0.map Alloc.ptr) := by
  obtain ⟨S, hL, hS⟩ := hs
  obtain ⟨al, -, -, -, -, -, -, -, hcase⟩ := SaveAsPriorBuffer_effect env _ _ _ _ h
  rcases hcase with ⟨-, h0, hl⟩ | ⟨hpos, hne, hfresh, hl⟩
  · refine ⟨⟨S, by rw [hl, hL], fun a ha => ?_⟩, Or.inl h0⟩
    exact ⟨(hS a ha).1, (hS a ha).2.1, List.mem_cons_of_mem _ (hS a ha).2.2⟩
  · refine ⟨⟨⟨prior, al.size, Owner.prior⟩ :: S, by rw [hl, hL]; rfl, fun a ha => ?_⟩,
      Or.inr ?_⟩
    · rcases List.mem_cons.1 ha with h1 | h1
      · subst h1
        exact ⟨hpos, hne, List.mem_cons_self _ _⟩
      · exact ⟨(hS a h1).1, (hS a h1).2.1, List.mem_cons_of_mem _ (hS a h1).2.2⟩
    · intro hmem
      apply hfresh
      rw [hL, List.map_append]
      exact List.mem_append_right _ hmem

theorem filter_ptr_ne_self (L : List Alloc) (p : DevPtr) (h : p ∉ L.map Alloc.ptr) :
    L.filter (fun a => decide (a.ptr ≠ p)) = L := by
  rw [List.filter_eq_self]
  intro a ha
  simp only [ne_eq, decide_eq_true_eq]
  intro hp
  exact h (List.mem_map.2 ⟨a, ha, hp⟩)

/-- A `deallocPrior` that goes on, at `NULL` or at an address that was not in use before the
snapshots were taken, takes the snapshots at that address off the heap and nothing else. -/
theorem Snapshots_deallocPrior (p : DevPtr) (w w4 : World α) (u : Unit) (L0 : List Alloc)
    (ps : List DevPtr) (hs : Snapshots L0 w.live ps)
    (hp : p = 0 ∨ p ∉ L0.map Alloc.ptr)
    (h : deallocPrior p w = Step.next u w4) :
    Snapshots L0 w4.live (ps.filter (fun q => decide (q ≠ p))) := by
  obtain ⟨S, hL, hS⟩ := hs
  obtain ⟨al, hal, hptr, -, -, -, -, hd⟩ := deallocPrior_effect _ _ _ _ h
  by_cases hp0 : p = 0
  · have hl : w4.live = w.live := by
      rcases hd with ⟨-, -, hl⟩ | ⟨-, -, hl⟩
      · rw [hl, if_pos hp0]
      · exact hl
    refine ⟨S, by rw [hl, hL], fun a ha => ⟨(hS a ha).1, (hS a ha).2.1, ?_⟩⟩
    rw [List.mem_filter]
    refine ⟨(hS a ha).2.2, ?_⟩
    simp only [ne_eq, decide_eq_true_eq]
    rw [hp0]
    exact (hS a ha).2.1
  · have hfresh : p ∉ L0.map Alloc.ptr := by
      rcases hp with h0 | h0
      · exact absurd h0 hp0
      · exact h0
    have halS : al ∈ S := by
      rw [hL] at hal
      rcases List.mem_append.1 hal with h1 | h1
      · exact h1
      · exact absurd (List.mem_map.2 ⟨al, h1, hptr⟩) hfresh
    have hl : w4.live = w.live.filter (fun a => decide (a.ptr ≠ p)) := by
      rcases hd with ⟨-, -, hl⟩ | ⟨h0, -, -⟩
      · rw [hl, if_neg hp0]
      · have := (hS al halS).1
        omega
    refine ⟨S.filter (fun a => decide (a.ptr ≠ p)), ?_, fun a ha => ?_⟩
    · rw [hl, hL, List.filter_append, filter_ptr_ne_self L0 p hfresh]
    · rw [List.mem_filter] at ha
      refine ⟨(hS a ha.1).1, (hS a ha.1).2.1, ?_⟩
      rw [List.mem_filter]
      exact ⟨(hS a ha.1).2.2, ha.2⟩

theorem Snapshots_congr (L0 L L1 : List Alloc) (ps : List DevPtr) (h : Snapshots L0 L ps)
    (e : L1 = L) : Snapshots L0 L1 ps := by
  rw [e]
  exact h

end SnapshotHeap

/-! ## Batch normalisation backward: the steps of a call -/

section BatchNormSteps

variable {α : Type}

theorem backendCallBN_frame (env : Backend α) (out : BatchNormOutput α) (e : Event)
    (a : BatchNormBwdArgs) (w : World α) :
    (backendCallBN env out e a w).1 = env.status w e ∧
    (backendCallBN env out e a w).2.live = w.live ∧
    (backendCallBN env out e a w).2.host = w.host ∧
    (backendCallBN env out e a w).2.ws = w.ws ∧
    (backendCallBN env out e a w).2.wsSize = w.wsSize ∧
    (backendCallBN env out e a w).2.trace = w.trace ++ [e] ∧
    (backendCallBN env out e a w).2.mem
      = Function.update (Function.update (Function.update w.mem a.dx (out.dx w e))
          a.resultBnScaleDiff (out.resultBnScaleDiff w e))
          a.resultBnBiasDiff (out.resultBnBiasDiff w e) :=
  ⟨rfl, rfl, rfl, rfl, rfl, rfl, rfl⟩

/-- The steps of an emulated batch-normalisation backward that returns success. -/
theorem hipdnnBatchNormalizationBackward_chain [Zero α] [Add α] [Mul α] [DecidableEq α]
    (env : Backend α) (out : BatchNormOutput α) (a : BatchNormBwdArgs) (w : World α)
    (hnz : ¬ (w.deref a.betaDataDiff = 0 ∧ w.deref a.betaParamDiff = 0))
    (hok : (hipdnnBatchNormalizationBackward env out a w).1
      = Outcome.returned HIPDNN_STATUS_SUCCESS) :
    ∃ (p1 : DevPtr) (w1 : World α) (p2 : DevPtr) (w2 : World α) (p3 : DevPtr) (w3 : World α)
      (s4 : hipdnnStatus_t) (w4 : World α) (s5 : hipdnnStatus_t) (w5 : World α)
      (s6 : hipdnnStatus_t) (w6 : World α) (u7 : Unit) (w7 : World α) (u8 : Unit)
      (w8 : World α) (u9 : Unit),
      SaveAsPriorBuffer env a.dx w = Step.next p1 w1 ∧
      SaveAsPriorBuffer env a.resultBnScaleDiff w1 = Step.next p2 w2 ∧
      SaveAsPriorBuffer env a.resultBnBiasDiff w2 = Step.next p3 w3 ∧
      accumulateGradients env a.dx p1 a.dxDesc a.betaDataDiff
        (backendCallBN env out
          (a.primitive HostPtr.tempBetaDataDiff HostPtr.tempBetaParamDiff) a w3).2
        = Step.next s4 w4 ∧
      accumulateGradients env a.resultBnScaleDiff p2 a.bnScaleBiasDiffDesc a.betaParamDiff w4
        = Step.next s5 w5 ∧
      accumulateGradients env a.resultBnBiasDiff p3 a.bnScaleBiasDiffDesc a.betaParamDiff w5
        = Step.next s6 w6 ∧
      deallocPrior p1 w6 = Step.next u7 w7 ∧
      deallocPrior p3 w7 = Step.next u8 w8 ∧
      deallocPrior p2 w8 = Step.next u9 (hipdnnBatchNormalizationBackward env out a w).2 := by
  have hacc : ∀ g gp desc beta (x y : World α) (o : Outcome),
      accumulateGradients env g gp desc beta x = Step.stop o y →
      o ≠ Outcome.returned HIPDNN_STATUS_SUCCESS := by
    intro g gp desc beta x y o h
    rcases accumulateGradients_stop_outcome env _ _ _ _ _ _ _ h with ho | ho <;>
      (subst ho; simp)
  unfold hipdnnBatchNormalizationBackward at hok
  cases hchk : CHECK_HIPDNN env (hipTomiopenBatchNormMode a.mode).1 with
  | some o =>
    rw [hchk] at hok
    exact absurd hok (CHECK_HIPDNN_some env _ _ hchk)
  | none =>
    rw [hchk] at hok
    simp only [if_neg hnz] at hok
    cases h1 : SaveAsPriorBuffer env a.dx w with
    | stop o x =>
      rw [h1] at hok
      rw [SaveAsPriorBuffer_stop env _ _ _ _ h1] at hok
      cases hok
    | next p1 w1 =>
      rw [h1] at hok
      simp only [] at hok
      cases h2 : SaveAsPriorBuffer env a.resultBnScaleDiff w1 with
      | stop o x =>
        rw [h2] at hok
        rw [SaveAsPriorBuffer_stop env _ _ _ _ h2] at hok
        cases hok
      | next p2 w2 =>
        rw [h2] at hok
        simp only [] at hok
        cases h3 : SaveAsPriorBuffer env a.resultBnBiasDiff w2 with
        | stop o x =>
          rw [h3] at hok
          rw [SaveAsPriorBuffer_stop env _ _ _ _ h3] at hok
          cases hok
        | next p3 w3 =>
          rw [h3] at hok
          simp only [] at hok
          cases hmio : CHECK_MIO (backendCallBN env out
              (a.primitive HostPtr.tempBetaDataDiff HostPtr.tempBetaParamDiff) a w3).1 with
          | some o =>
            rw [hmio] at hok
            rw [CHECK_MIO_some _ _ hmio] at hok
            cases hok
          | none =>
            rw [hmio] at hok
            simp only [] at hok
            cases h4 : accumulateGradients env a.dx p1 a.dxDesc a.betaDataDiff
                (backendCallBN env out
                  (a.primitive HostPtr.tempBetaDataDiff HostPtr.tempBetaParamDiff) a w3).2 with
            | stop o x =>
              rw [h4] at hok
              exact absurd hok (hacc _ _ _ _ _ _ _ h4)
            | next s4 w4 =>
              rw [h4] at hok
              simp only [] at hok
              cases h5 : accumulateGradients env a.resultBnScaleDiff p2
                  a.bnScaleBiasDiffDesc a.betaParamDiff w4 with
              | stop o x =>
                rw [h5] at hok
                exact absurd hok (hacc _ _ _ _ _ _ _ h5)
              | next s5 w5 =>
                rw [h5] at hok
                simp only [] at hok
                cases h6 : accumulateGradients env a.resultBnBiasDiff p3
                    a.bnScaleBiasDiffDesc a.betaParamDiff w5 with
                | stop o x =>
                  rw [h6] at hok
                  exact absurd hok (hacc _ _ _ _ _ _ _ h6)
                | next s6 w6 =>
                  rw [h6] at hok
                  simp only [] at hok
                  cases h7 : deallocPrior p1 w6 with
                  | stop o x =>
                    rw [h7] at hok
                    rw [deallocPrior_stop _ _ _ _ h7] at hok
                    cases hok
                  | next u7 w7 =>
                    rw [h7] at hok
                    simp only [] at hok
                    cases h8 : deallocPrior p3 w7 with
                    | stop o x =>
                      rw [h8] at hok
                      rw [deallocPrior_stop _ _ _ _ h8] at hok
                      cases hok
                    | next u8 w8 =>
                      rw [h8] at hok
                      simp only [] at hok
                      cases h9 : deallocPrior p2 w8 with
                      | stop o x =>
                        rw [h9] at hok
                        rw [deallocPrior_stop _ _ _ _ h9] at hok
                        cases hok
                      | next u9 w9 =>
                        have hrun : hipdnnBatchNormalizationBackward env out a w
                            = (Outcome.returned HIPDNN_STATUS_SUCCESS, w9) := by
                          unfold hipdnnBatchNormalizationBackward
                          simp only [hchk, if_neg hnz, h1, h2, h3, hmio, h4, h5, h6, h7, h8, h9]
                        rw [hrun]
                        exact ⟨p1, w1, p2, w2, p3, w3, s4, w4, s5, w5, s6, w6, u7, w7, u8, w8,
                          u9, rfl, h2, h3, h4, h5, h6, h7, h8, h9⟩

end BatchNormSteps
/-! ## Batch normalisation backward: what an emulated call leaves -/

section BatchNormBlend

variable {α : Type}

theorem Snapshots_nonnull (L0 L : List Alloc) (ps : List DevPtr) (h : Snapshots L0 L ps)
    (hheap : ∀ al ∈ L0, al.ptr ≠ 0) : ∀ al ∈ L, al.ptr ≠ 0 := by
  obtain ⟨S, hL, hS⟩ := h
  intro al hal
  rw [hL] at hal
  rcases List.mem_append.1 hal with h1 | h1
  · exact (hS al h1).2.1
  · exact hheap al h1

/-- The content of the three result arrays after an emulated batch-normalisation backward
that returned success, and the heap it leaves. -/
theorem hipdnnBatchNormalizationBackward_blend [Zero α] [Add α] [Mul α] [DecidableEq α]
    (env : Backend α) (out : BatchNormOutput α) (a : BatchNormBwdArgs) (w : World α)
    (c1 c2 : Nat) (N1 N2 N3 : Nat → α)
    (hcomm : ∀ x y : α, x + y = y + x)
    (hnz : ¬ (w.deref a.betaDataDiff = 0 ∧ w.deref a.betaParamDiff = 0))
    (hok : (hipdnnBatchNormalizationBackward env out a w).1
      = Outcome.returned HIPDNN_STATUS_SUCCESS)
    (hheap : ∀ al ∈ w.live, al.ptr ≠ 0)
    (hd12 : a.dx ≠ a.resultBnScaleDiff) (hd13 : a.dx ≠ a.resultBnBiasDiff)
    (hd23 : a.resultBnScaleDiff ≠ a.resultBnBiasDiff)
    (hl1 : a.dx ∈ w.live.map Alloc.ptr) (hl2 : a.resultBnScaleDiff ∈ w.live.map Alloc.ptr)
    (hl3 : a.resultBnBiasDiff ∈ w.live.map Alloc.ptr)
    (hs1 : ∀ al ∈ w.live, al.ptr = a.dx → sizeofFloat * c1 ≤ al.size)
    (hs2 : ∀ al ∈ w.live, al.ptr = a.resultBnScaleDiff → sizeofFloat * c2 ≤ al.size)
    (hs3 : ∀ al ∈ w.live, al.ptr = a.resultBnBiasDiff → sizeofFloat * c2 ≤ al.size)
    (hc1 : ∀ w1, totalElements env (env.tensorDims w1 a.dxDesc) = (c1 : Int))
    (hc2 : ∀ w1, totalElements env (env.tensorDims w1 a.bnScaleBiasDiffDesc) = (c2 : Int))
    (hN1 : ∀ w1, out.dx w1
      (a.primitive HostPtr.tempBetaDataDiff HostPtr.tempBetaParamDiff) = N1)
    (hN2 : ∀ w1, out.resultBnScaleDiff w1
      (a.primitive HostPtr.tempBetaDataDiff HostPtr.tempBetaParamDiff) = N2)
    (hN3 : ∀ w1, out.resultBnBiasDiff w1
      (a.primitive HostPtr.tempBetaDataDiff HostPtr.tempBetaParamDiff) = N3) :
    (∀ i, (hipdnnBatchNormalizationBackward env out a w).2.mem a.dx i
      = if i < c1 then N1 i + w.deref a.betaDataDiff * w.mem a.dx i else N1 i) ∧
    (∀ i, (hipdnnBatchNormalizationBackward env out a w).2.mem a.resultBnScaleDiff i
      = if i < c2 then N2 i + w.deref a.betaParamDiff * w.mem a.resultBnScaleDiff i
        else N2 i) ∧
    (∀ i, (hipdnnBatchNormalizationBackward env out a w).2.mem a.resultBnBiasDiff i
      = if i < c2 then N3 i + w.deref a.betaParamDiff * w.mem a.resultBnBiasDiff i
        else N3 i) := by
  obtain ⟨p1, w1, p2, w2, p3, w3, s4, w4, s5, w5, s6, w6, u7, w7, u8, w8, u9, h1, h2, h3, h4,
    h5, h6, h7, h8, h9⟩ := hipdnnBatchNormalizationBackward_chain env out a w hnz hok
  obtain ⟨al1, hal1, hptr1, hh1, -, -, -, hm1, hcase1⟩ := SaveAsPriorBuffer_effect env _ _ _ _ h1
  obtain ⟨al2, hal2, hptr2, hh2, -, -, -, hm2, hcase2⟩ := SaveAsPriorBuffer_effect env _ _ _ _ h2
  obtain ⟨al3, hal3, hptr3, hh3, -, -, -, hm3, hcase3⟩ := SaveAsPriorBuffer_effect env _ _ _ _ h3
  have S1 := Snapshots_SaveAsPriorBuffer env _ _ _ _ _ _ (Snapshots_refl w.live) h1
  have S2 := Snapshots_SaveAsPriorBuffer env _ _ _ _ _ _ S1.1 h2
  have S3 := Snapshots_SaveAsPriorBuffer env _ _ _ _ _ _ S2.1 h3
  have fb := backendCallBN_frame env out
    (a.primitive HostPtr.tempBetaDataDiff HostPtr.tempBetaParamDiff) a w3
  obtain ⟨hh4, hlv4, -⟩ := accumulateGradients_next env _ _ _ _ _ _ _ h4
  obtain ⟨hh5, hlv5, -⟩ := accumulateGradients_next env _ _ _ _ _ _ _ h5
  obtain ⟨hh6, hlv6, -⟩ := accumulateGradients_next env _ _ _ _ _ _ _ h6
  have hlive6 : w6.live = w3.live := by rw [hlv6, hlv5, hlv4, fb.2.1]
  have S6 := Snapshots_congr _ _ _ _ S3.1 hlive6
  obtain ⟨d7, hd7, hp7, hm7, -⟩ := deallocPrior_effect _ _ _ _ h7
  have S7 := Snapshots_deallocPrior _ _ _ _ _ _ S6 S1.2 h7
  obtain ⟨d8, hd8, hp8, hm8, -⟩ := deallocPrior_effect _ _ _ _ h8
  have S8 := Snapshots_deallocPrior _ _ _ _ _ _ S7 S3.2 h8
  obtain ⟨d9, hd9, hp9, hm9, -⟩ := deallocPrior_effect _ _ _ _ h9
  -- the three snapshots are real allocations
  have hp1 : p1 ≠ 0 := hp7 ▸ Snapshots_nonnull _ _ _ S6 hheap d7 hd7
  have hp3 : p3 ≠ 0 := hp8 ▸ Snapshots_nonnull _ _ _ S7 hheap d8 hd8
  have hp2 : p2 ≠ 0 := hp9 ▸ Snapshots_nonnull _ _ _ S8 hheap d9 hd9
  have A1 : p1 ∉ w.live.map Alloc.ptr ∧ w1.live = ⟨p1, al1.size, Owner.prior⟩ :: w.live := by
    rcases hcase1 with ⟨-, h0, -⟩ | ⟨-, -, hf, hl⟩
    · exact absurd h0 hp1
    · exact ⟨hf, hl⟩
  have A2 : p2 ∉ w1.live.map Alloc.ptr ∧ w2.live = ⟨p2, al2.size, Owner.prior⟩ :: w1.live := by
    rcases hcase2 with ⟨-, h0, -⟩ | ⟨-, -, hf, hl⟩
    · exact absurd h0 hp2
    · exact ⟨hf, hl⟩
  have A3 : p3 ∉ w2.live.map Alloc.ptr ∧ w3.live = ⟨p3, al3.size, Owner.prior⟩ :: w2.live := by
    rcases hcase3 with ⟨-, h0, -⟩ | ⟨-, -, hf, hl⟩
    · exact absurd h0 hp3
    · exact ⟨hf, hl⟩
  have F1 : p1 ∉ w.live.map Alloc.ptr := A1.1
  have F2 : p2 ≠ p1 ∧ p2 ∉ w.live.map Alloc.ptr := by
    have := A2.1
    rw [A1.2, List.map_cons, List.mem_cons, not_or] at this
    exact this
  have F3 : p3 ≠ p2 ∧ p3 ≠ p1 ∧ p3 ∉ w.live.map Alloc.ptr := by
    have := A3.1
    rw [A2.2, A1.2, List.map_cons, List.map_cons, List.mem_cons, List.mem_cons, not_or,
      not_or] at this
    exact this
  have ne_of : ∀ (p d : DevPtr), p ∉ w.live.map Alloc.ptr → d ∈ w.live.map Alloc.ptr → p ≠ d :=
    fun p d hp hd e => hp (e ▸ hd)
  have n11 := ne_of _ _ F1 hl1
  have n12 := ne_of _ _ F1 hl2
  have n13 := ne_of _ _ F1 hl3
  have n21 := ne_of _ _ F2.2 hl1
  have n22 := ne_of _ _ F2.2 hl2
  have n23 := ne_of _ _ F2.2 hl3
  have n31 := ne_of _ _ F3.2.2 hl1
  have n32 := ne_of _ _ F3.2.2 hl2
  have n33 := ne_of _ _ F3.2.2 hl3
  -- the allocations the snapshots were sized from are the caller's
  have hal2w : al2 ∈ w.live := by
    rw [A1.2] at hal2
    rcases List.mem_cons.1 hal2 with h | h
    · exact absurd (by rw [← hptr2, h]) n12.symm
    · exact h
  have hal3w : al3 ∈ w.live := by
    rw [A2.2, A1.2] at hal3
    rcases List.mem_cons.1 hal3 with h | h
    · exact absurd (by rw [← hptr3, h]) n23.symm
    · rcases List.mem_cons.1 h with h | h
      · exact absurd (by rw [← hptr3, h]) n13.symm
      · exact h
  have z1 := hs1 al1 hal1 hptr1
  have z2 := hs2 al2 hal2w hptr2
  have z3 := hs3 al3 hal3w hptr3
  unfold sizeofFloat at z1 z2 z3
  -- scaling factors
  have hhb : (backendCallBN env out
      (a.primitive HostPtr.tempBetaDataDiff HostPtr.tempBetaParamDiff) a w3).2.host = w.host := by
    rw [fb.2.2.1, hh3, hh2, hh1]
  have hb4 := World.deref_congr w _ hhb a.betaDataDiff
  have hb5 := World.deref_congr w w4 (hh4.trans hhb) a.betaParamDiff
  have hb6 := World.deref_congr w w5 (hh5.trans (hh4.trans hhb)) a.betaParamDiff
  -- device memory, step by step
  have M4 := accumulateGradients_spec env _ _ _ _ _ _ _ c1 h4 (hc1 _) (Or.inr n11)
  have M5 := accumulateGradients_spec env _ _ _ _ _ _ _ c2 h5 (hc2 _) (Or.inr n22)
  have M6 := accumulateGradients_spec env _ _ _ _ _ _ _ c2 h6 (hc2 _) (Or.inr n33)
  rw [hb4] at M4
  rw [hb5] at M5
  rw [hb6] at M6
  have Mb := fb.2.2.2.2.2.2
  rw [hN1, hN2, hN3] at Mb
  have hfin : ∀ q i, (hipdnnBatchNormalizationBackward env out a w).2.mem q i = w6.mem q i := by
    intro q i
    rw [hm9, hm8, hm7]
  have hsz : sizeofFloat = 4 := rfl
  refine ⟨fun i => ?_, fun i => ?_, fun i => ?_⟩
  · rw [hfin, M6, if_neg (fun h => hd13 h.1), M5, if_neg (fun h => hd12 h.1), M4]
    have e1 : (backendCallBN env out
        (a.primitive HostPtr.tempBetaDataDiff HostPtr.tempBetaParamDiff) a w3).2.mem a.dx i
        = N1 i := by
      rw [Mb, Function.update_noteq hd13, Function.update_noteq hd12, Function.update_same]
    by_cases hi : i < c1
    · have e2 : (backendCallBN env out
          (a.primitive HostPtr.tempBetaDataDiff HostPtr.tempBetaParamDiff) a w3).2.mem p1 i
          = w.mem a.dx i := by
        rw [Mb, Function.update_noteq n13, Function.update_noteq n12, Function.update_noteq n11,
          hm3, if_neg (fun h => F3.2.1 h.1.symm), hm2, if_neg (fun h => F2.1 h.1.symm), hm1,
          if_pos ⟨rfl, by rw [hsz]; omega⟩]
      rw [if_pos ⟨rfl, hi⟩, if_pos hi, e1, e2, hcomm]
    · rw [if_neg (fun h => hi h.2), if_neg hi, e1]
  · rw [hfin, M6, if_neg (fun h => hd23 h.1), M5]
    have e1 : w4.mem a.resultBnScaleDiff i = N2 i := by
      rw [M4, if_neg (fun h => hd12 h.1.symm), Mb, Function.update_noteq hd23,
        Function.update_same]
    by_cases hi : i < c2
    · have e2 : w4.mem p2 i = w.mem a.resultBnScaleDiff i := by
        rw [M4, if_neg (fun h => n21 h.1), Mb, Function.update_noteq n23,
          Function.update_noteq n22, Function.update_noteq n21, hm3,
          if_neg (fun h => F3.1 h.1.symm), hm2, if_pos ⟨rfl, by rw [hsz]; omega⟩, hm1,
          if_neg (fun h => n12 h.1.symm)]
      rw [if_pos ⟨rfl, hi⟩, if_pos hi, e1, e2, hcomm]
    · rw [if_neg (fun h => hi h.2), if_neg hi, e1]
  · rw [hfin, M6]
    have e1 : w5.mem a.resultBnBiasDiff i = N3 i := by
      rw [M5, if_neg (fun h => hd23 h.1.symm), M4, if_neg (fun h => hd13 h.1.symm), Mb,
        Function.update_same]
    by_cases hi : i < c2
    · have e2 : w5.mem p3 i = w.mem a.resultBnBiasDiff i := by
        rw [M5, if_neg (fun h => n32 h.1), M4, if_neg (fun h => n31 h.1), Mb,
          Function.update_noteq n33, Function.update_noteq n32, Function.update_noteq n31, hm3,
          if_pos ⟨rfl, by rw [hsz]; omega⟩, hm2, if_neg (fun h => n23 h.1.symm), hm1,
          if_neg (fun h => n13 h.1.symm)]
      rw [if_pos ⟨rfl, hi⟩, if_pos hi, e1, e2, hcomm]
    · rw [if_neg (fun h => hi h.2), if_neg hi, e1]

end BatchNormBlend
/-! ## The heap after an emulated call -/

section EmulatedHeap

variable {α : Type}

/-- An emulated accumulation that returns success leaves the heap as the get-or-allocate
block left it. -/
theorem BackwardCall.run_live [Zero α] [Add α] [Mul α] [DecidableEq α] (env : Backend α)
    (c : BackwardCall) (w : World α) (hb : w.deref c.beta ≠ 0)
    (hok : (c.run env w).1 = Outcome.returned HIPDNN_STATUS_SUCCESS) :
    (c.run env w).2.live
      = (acquireWorkSpace env c.family c.convDesc c.convDesc c.sizeQuery w).world.live := by
  obtain ⟨ws, w1, prior, w2, s3, w3, u, hacq, hsv, hacc, hde⟩ :=
    BackwardCall.run_chain env c w hb hok
  rw [hacq]
  simp only [Step.world]
  have S1 := Snapshots_SaveAsPriorBuffer env _ _ _ _ _ _ (Snapshots_refl w1.live) hsv
  obtain ⟨-, hlv3, -⟩ := accumulateGradients_next env _ _ _ _ _ _ _ hacc
  have S3 := Snapshots_congr _ _ _ _ S1.1 (hlv3.trans (backendCall_live _ _ _ _))
  have S4 := Snapshots_deallocPrior _ _ _ _ _ _ S3 S1.2 hde
  refine Snapshots_nil _ _ _ S4 (fun p hp => ?_)
  simp at hp

/-- An emulated batch-normalisation backward that returns success leaves the heap as it
found it. -/
theorem hipdnnBatchNormalizationBackward_live [Zero α] [Add α] [Mul α] [DecidableEq α]
    (env : Backend α) (out : BatchNormOutput α) (a : BatchNormBwdArgs) (w : World α)
    (hnz : ¬ (w.deref a.betaDataDiff = 0 ∧ w.deref a.betaParamDiff = 0))
    (hok : (hipdnnBatchNormalizationBackward env out a w).1
      = Outcome.returned HIPDNN_STATUS_SUCCESS) :
    (hipdnnBatchNormalizationBackward env out a w).2.live = w.live := by
  obtain ⟨p1, w1, p2, w2, p3, w3, s4, w4, s5, w5, s6, w6, u7, w7, u8, w8, u9, h1, h2, h3, h4,
    h5, h6, h7, h8, h9⟩ := hipdnnBatchNormalizationBackward_chain env out a w hnz hok
  have S1 := Snapshots_SaveAsPriorBuffer env _ _ _ _ _ _ (Snapshots_refl w.live) h1
  have S2 := Snapshots_SaveAsPriorBuffer env _ _ _ _ _ _ S1.1 h2
  have S3 := Snapshots_SaveAsPriorBuffer env _ _ _ _ _ _ S2.1 h3
  have fb := backendCallBN_frame env out
    (a.primitive HostPtr.tempBetaDataDiff HostPtr.tempBetaParamDiff) a w3
  obtain ⟨-, hlv4, -⟩ := accumulateGradients_next env _ _ _ _ _ _ _ h4
  obtain ⟨-, hlv5, -⟩ := accumulateGradients_next env _ _ _ _ _ _ _ h5
  obtain ⟨-, hlv6, -⟩ := accumulateGradients_next env _ _ _ _ _ _ _ h6
  have hlive6 : w6.live = w3.live := by rw [hlv6, hlv5, hlv4, fb.2.1]
  have S6 := Snapshots_congr _ _ _ _ S3.1 hlive6
  have S7 := Snapshots_deallocPrior _ _ _ _ _ _ S6 S1.2 h7
  have S8 := Snapshots_deallocPrior _ _ _ _ _ _ S7 S3.2 h8
  have S9 := Snapshots_deallocPrior _ _ _ _ _ _ S8 S2.2 h9
  refine Snapshots_nil _ _ _ S9 (fun p hp => ?_)
  simp only [List.mem_filter, List.mem_cons, List.mem_singleton, ne_eq, decide_eq_true_eq,
    List.not_mem_nil, or_false] at hp
  tauto

/-- **C12** Snapshot isolation, call by call: every emulated call that completes successfully
(first part: `hipdnnConvolutionBackwardFilter` or `hipdnnConvolutionBackwardData` with
`beta != 0`; second part: `hipdnnBatchNormalizationBackward` with a `beta` that is not zero)
leaves as outstanding device allocations those before the call, plus at most the one workspace
the call allocated for its convolution descriptor: every buffer `SaveAsPriorBuffer` allocated
was freed by `deallocPrior`, and no allocation tagged as a snapshot is left that was not
there before. Each part assumes the success of its own call only. -/
theorem C12_snapshot_isolation [Zero α] [Add α] [Mul α] [DecidableEq α] (env : Backend α)
    (out : BatchNormOutput α) (c : BackwardCall) (a : BatchNormBwdArgs) (wc wb : World α) :
    (wc.deref c.beta ≠ 0 →
      (c.run env wc).1 = Outcome.returned HIPDNN_STATUS_SUCCESS →
      ((c.run env wc).2.live = wc.live ∨
        ∃ p s, p ∉ wc.live.map Alloc.ptr ∧ 0 < s ∧
          (c.run env wc).2.live
            = ⟨p, s, Owner.workspace c.family c.convDesc c.convDesc⟩ :: wc.live)) ∧
    (¬ (wb.deref a.betaDataDiff = 0 ∧ wb.deref a.betaParamDiff = 0) →
      (hipdnnBatchNormalizationBackward env out a wb).1
        = Outcome.returned HIPDNN_STATUS_SUCCESS →
      (hipdnnBatchNormalizationBackward env out a wb).2.live = wb.live) := by
  refine ⟨fun hb hokc => ?_, hipdnnBatchNormalizationBackward_live env out a wb⟩
  rw [BackwardCall.run_live env c wc hb hokc]
  exact (acquireWorkSpace_effect env c.family c.convDesc c.convDesc c.sizeQuery wc).2.2.1

end EmulatedHeap
/-! ## Batch normalisation backward: when the emulated call returns -/

section BatchNormTotal

variable {α : Type}

theorem CHECK_HIPDNN_success (env : Backend α) :
    CHECK_HIPDNN env HIPDNN_STATUS_SUCCESS = none := by
  simp [CHECK_HIPDNN]

/-- With a backend and a runtime that accept, `accumulateGradients` goes on when the element
count is not negative and the snapshot is another array than the gradient. -/
theorem accumulateGradients_goes [Zero α] [Add α] [Mul α] (env : Backend α)
    (g gp : DevPtr) (desc : Handle) (beta : HostPtr) (w : World α) (count : Nat)
    (ha : env.Accepting)
    (hcount : totalElements env (env.tensorDims w desc) = (count : Int)) (hne : gp ≠ g) :
    ∃ s w3, accumulateGradients env g gp desc beta w = Step.next s w3 := by
  obtain ⟨mem3, h3, -, -⟩ := hipLaunchKernelGGL_TensorAdd_spec 512 256 g gp
    (w.deref beta) (count : Int) w.mem hne (Int.natCast_nonneg _)
    (lt_of_lt_of_le (by rw [← hcount]; exact wrapInt32_lt _) (by norm_num))
    (by norm_num) (by norm_num)
  rw [← hcount] at h3
  exact accumulateGradients_total env g gp desc beta w mem3 ha.1 ha.2.1 h3

/-- A `deallocPrior` that goes on keeps the allocations at other addresses. -/
theorem deallocPrior_keeps (p : DevPtr) (w w4 : World α) (u : Unit)
    (h : deallocPrior p w = Step.next u w4) (al : Alloc) (hal : al ∈ w.live)
    (hne : al.ptr ≠ p) : al ∈ w4.live := by
  obtain ⟨al1, -, -, -, -, -, -, hd⟩ := deallocPrior_effect _ _ _ _ h
  rcases hd with ⟨-, -, hl⟩ | ⟨-, -, hl⟩
  · rw [hl]
    split_ifs
    · exact hal
    · rw [List.mem_filter]
      exact ⟨hal, by simpa using hne⟩
  · rw [hl]
    exact hal

/-- With a backend and a runtime that accept, a supported mode, three result arrays that
are non-empty allocations of the caller and element counts that are not negative, the
emulated batch-normalisation backward returns success. -/
theorem hipdnnBatchNormalizationBackward_total [Zero α] [Add α] [Mul α] [DecidableEq α]
    (env : Backend α) (out : BatchNormOutput α) (a : BatchNormBwdArgs) (w : World α)
    (c1 c2 : Nat) (ha : env.Accepting)
    (hmode : (hipTomiopenBatchNormMode a.mode).1 = HIPDNN_STATUS_SUCCESS)
    (hnz : ¬ (w.deref a.betaDataDiff = 0 ∧ w.deref a.betaParamDiff = 0))
    (hl1 : a.dx ∈ w.live.map Alloc.ptr) (hl2 : a.resultBnScaleDiff ∈ w.live.map Alloc.ptr)
    (hl3 : a.resultBnBiasDiff ∈ w.live.map Alloc.ptr)
    (hs1 : ∀ al ∈ w.live, al.ptr = a.dx → 0 < al.size)
    (hs2 : ∀ al ∈ w.live, al.ptr = a.resultBnScaleDiff → 0 < al.size)
    (hs3 : ∀ al ∈ w.live, al.ptr = a.resultBnBiasDiff → 0 < al.size)
    (hc1 : ∀ w1, totalElements env (env.tensorDims w1 a.dxDesc) = (c1 : Int))
    (hc2 : ∀ w1, totalElements env (env.tensorDims w1 a.bnScaleBiasDiffDesc) = (c2 : Int)) :
    (hipdnnBatchNormalizationBackward env out a w).1
      = Outcome.returned HIPDNN_STATUS_SUCCESS := by
  have ne_of : ∀ (p d : DevPtr), p ∉ w.live.map Alloc.ptr → d ∈ w.live.map Alloc.ptr → p ≠ d :=
    fun p d hp hd e => hp (e ▸ hd)
  -- first snapshot
  obtain ⟨p1, w1, h1⟩ := SaveAsPriorBuffer_total env a.dx w ha.2.1 ha.2.2 hl1
  obtain ⟨al1, hal1, hptr1, -, -, -, -, -, hcase1⟩ := SaveAsPriorBuffer_effect env _ _ _ _ h1
  have A1 : p1 ∉ w.live.map Alloc.ptr ∧ w1.live = ⟨p1, al1.size, Owner.prior⟩ :: w.live := by
    rcases hcase1 with ⟨h0, -, -⟩ | ⟨-, -, hf, hl⟩
    · have := hs1 al1 hal1 hptr1
      omega
    · exact ⟨hf, hl⟩
  -- second snapshot
  have hl2a : a.resultBnScaleDiff ∈ w1.live.map Alloc.ptr := by
    rw [A1.2, List.map_cons]
    exact List.mem_cons_of_mem _ hl2
  obtain ⟨p2, w2, h2⟩ := SaveAsPriorBuffer_total env a.resultBnScaleDiff w1 ha.2.1 ha.2.2 hl2a
  obtain ⟨al2, hal2, hptr2, -, -, -, -, -, hcase2⟩ := SaveAsPriorBuffer_effect env _ _ _ _ h2
  have hal2w : al2 ∈ w.live := by
    rw [A1.2] at hal2
    rcases List.mem_cons.1 hal2 with h | h
    · exact absurd (by rw [← hptr2, h]) (ne_of _ _ A1.1 hl2).symm
    · exact h
  have A2 : p2 ∉ w1.live.map Alloc.ptr ∧ w2.live = ⟨p2, al2.size, Owner.prior⟩ :: w1.live := by
    rcases hcase2 with ⟨h0, -, -⟩ | ⟨-, -, hf, hl⟩
    · have := hs2 al2 hal2w hptr2
      omega
    · exact ⟨hf, hl⟩
  have F2 : p2 ≠ p1 ∧ p2 ∉ w.live.map Alloc.ptr := by
    have := A2.1
    rw [A1.2, List.map_cons, List.mem_cons, not_or] at this
    exact this
  -- third snapshot
  have hl3a : a.resultBnBiasDiff ∈ w2.live.map Alloc.ptr := by
    rw [A2.2, A1.2, List.map_cons, List.map_cons]
    exact List.mem_cons_of_mem _ (List.mem_cons_of_mem _ hl3)
  obtain ⟨p3, w3, h3⟩ := SaveAsPriorBuffer_total env a.resultBnBiasDiff w2 ha.2.1 ha.2.2 hl3a
  obtain ⟨al3, hal3, hptr3, -, -, -, -, -, hcase3⟩ := SaveAsPriorBuffer_effect env _ _ _ _ h3
  have hal3w : al3 ∈ w.live := by
    rw [A2.2, A1.2] at hal3
    rcases List.mem_cons.1 hal3 with h | h
    · exact absurd (by rw [← hptr3, h]) (ne_of _ _ F2.2 hl3).symm
    · rcases List.mem_cons.1 h with h | h
      · exact absurd (by rw [← hptr3, h]) (ne_of _ _ A1.1 hl3).symm
      · exact h
  have A3 : p3 ∉ w2.live.map Alloc.ptr ∧ w3.live = ⟨p3, al3.size, Owner.prior⟩ :: w2.live := by
    rcases hcase3 with ⟨h0, -, -⟩ | ⟨-, -, hf, hl⟩
    · have := hs3 al3 hal3w hptr3
      omega
    · exact ⟨hf, hl⟩
  have F3 : p3 ≠ p2 ∧ p3 ≠ p1 ∧ p3 ∉ w.live.map Alloc.ptr := by
    have := A3.1
    rw [A2.2, A1.2, List.map_cons, List.map_cons, List.mem_cons, List.mem_cons, not_or,
      not_or] at this
    exact this
  -- the backend call
  have fb := backendCallBN_frame env out
    (a.primitive HostPtr.tempBetaDataDiff HostPtr.tempBetaParamDiff) a w3
  have hmio : CHECK_MIO (backendCallBN env out
      (a.primitive HostPtr.tempBetaDataDiff HostPtr.tempBetaParamDiff) a w3).1 = none := by
    rw [fb.1, ha.1]
    exact CHECK_MIO_success
  -- the three recombinations
  obtain ⟨s4, w4, h4⟩ := accumulateGradients_goes env a.dx p1 a.dxDesc a.betaDataDiff
    (backendCallBN env out
      (a.primitive HostPtr.tempBetaDataDiff HostPtr.tempBetaParamDiff) a w3).2 c1 ha (hc1 _)
    (ne_of _ _ A1.1 hl1)
  obtain ⟨s5, w5, h5⟩ := accumulateGradients_goes env a.resultBnScaleDiff p2
    a.bnScaleBiasDiffDesc a.betaParamDiff w4 c2 ha (hc2 _) (ne_of _ _ F2.2 hl2)
  obtain ⟨s6, w6, h6⟩ := accumulateGradients_goes env a.resultBnBiasDiff p3
    a.bnScaleBiasDiffDesc a.betaParamDiff w5 c2 ha (hc2 _) (ne_of _ _ F3.2.2 hl3)
  obtain ⟨-, hlv4, -⟩ := accumulateGradients_next env _ _ _ _ _ _ _ h4
  obtain ⟨-, hlv5, -⟩ := accumulateGradients_next env _ _ _ _ _ _ _ h5
  obtain ⟨-, hlv6, -⟩ := accumulateGradients_next env _ _ _ _ _ _ _ h6
  have hlive6 : w6.live = ⟨p3, al3.size, Owner.prior⟩ :: ⟨p2, al2.size, Owner.prior⟩ ::
      ⟨p1, al1.size, Owner.prior⟩ :: w.live := by
    rw [hlv6, hlv5, hlv4, fb.2.1, A3.2, A2.2, A1.2]
  -- the three releases
  have m1 : (⟨p1, al1.size, Owner.prior⟩ : Alloc) ∈ w6.live := by
    rw [hlive6]
    simp
  have m2 : (⟨p2, al2.size, Owner.prior⟩ : Alloc) ∈ w6.live := by
    rw [hlive6]
    simp
  have m3 : (⟨p3, al3.size, Owner.prior⟩ : Alloc) ∈ w6.live := by
    rw [hlive6]
    simp
  obtain ⟨w7, h7⟩ := deallocPrior_total p1 w6 (List.mem_map.2 ⟨_, m1, rfl⟩)
  have m3a := deallocPrior_keeps _ _ _ _ h7 _ m3 F3.2.1
  have m2a := deallocPrior_keeps _ _ _ _ h7 _ m2 F2.1
  obtain ⟨w8, h8⟩ := deallocPrior_total p3 w7 (List.mem_map.2 ⟨_, m3a, rfl⟩)
  have m2b := deallocPrior_keeps _ _ _ _ h8 _ m2a F3.1.symm
  obtain ⟨w9, h9⟩ := deallocPrior_total p2 w8 (List.mem_map.2 ⟨_, m2b, rfl⟩)
  unfold hipdnnBatchNormalizationBackward
  simp only [hmode, CHECK_HIPDNN_success, if_neg hnz, h1, h2, h3, hmio, h4, h5, h6, h7, h8, h9]

end BatchNormTotal
/-! ## Batch normalisation backward: the backend calls of an emulated call -/

section BatchNormCalls

variable {α : Type}

theorem filter_nil_of_prefix {β : Type} (p : β → Bool) (l L : List β) (h : l <+: L)
    (hL : L.filter p = []) : l.filter p = [] := by
  have := h.filter p
  rw [hL] at this
  exact List.prefix_nil.1 this

/-- No call of `SaveAsPriorBuffer` is a backend batch-normalisation call. -/
theorem SaveAsPriorBuffer_quiet (env : Backend α) (d : DevPtr) (w : World α) :
    ∃ l : List Event, (SaveAsPriorBuffer env d w).world.trace = w.trace ++ l ∧
      l.filter Event.isBatchNormalizationBackward = [] := by
  obtain ⟨s, e1, e2, p, l, h, hp⟩ := SaveAsPriorBuffer_trace env d w
  exact ⟨l, h, filter_nil_of_prefix _ _ _ hp rfl⟩

/-- No call of `accumulateGradients` is a backend batch-normalisation call. -/
theorem accumulateGradients_quiet [Zero α] [Add α] [Mul α] (env : Backend α)
    (g gp : DevPtr) (desc : Handle) (beta : HostPtr) (w : World α) :
    ∃ l : List Event, (accumulateGradients env g gp desc beta w).world.trace = w.trace ++ l ∧
      l.filter Event.isBatchNormalizationBackward = [] := by
  obtain ⟨l, h, hp⟩ := accumulateGradients_trace env g gp desc beta w
  exact ⟨l, h, filter_nil_of_prefix _ _ _ hp rfl⟩

/-- No call of `deallocPrior` is a backend batch-normalisation call. -/
theorem deallocPrior_quiet (p : DevPtr) (w : World α) :
    ∃ l : List Event, (deallocPrior p w).world.trace = w.trace ++ l ∧
      l.filter Event.isBatchNormalizationBackward = [] := by
  obtain ⟨e1, s, e2, l, h, hp⟩ := deallocPrior_trace p w
  exact ⟨l, h, filter_nil_of_prefix _ _ _ hp rfl⟩

theorem BatchNormBwdArgs.primitive_isBN (a : BatchNormBwdArgs) (bd bp : HostPtr) :
    (a.primitive bd bp).isBatchNormalizationBackward = true := rfl

/-- One more step: the calls so far, with their backend batch-normalisation calls `X`,
followed by calls without any. -/
theorem calls_step (tr0 tr1 tr2 L l X : List Event) (h1 : tr1 = tr0 ++ L)
    (hq1 : L.filter Event.isBatchNormalizationBackward = X) (h2 : tr2 = tr1 ++ l)
    (hq2 : l.filter Event.isBatchNormalizationBackward = []) :
    tr2 = tr0 ++ (L ++ l) ∧ (L ++ l).filter Event.isBatchNormalizationBackward = X := by
  refine ⟨by rw [h2, h1, List.append_assoc], ?_⟩
  rw [List.filter_append, hq1, hq2, List.append_nil]

/-- The backend calls of `hipdnnBatchNormalizationBackward` when a `beta` is not zero: none,
or one with both `beta` pointers replaced by those of the two zero locals; exactly that one
when the call returns success. -/
theorem hipdnnBatchNormalizationBackward_calls [Zero α] [Add α] [Mul α] [DecidableEq α]
    (env : Backend α) (out : BatchNormOutput α) (a : BatchNormBwdArgs) (w : World α)
    (hnz : ¬ (w.deref a.betaDataDiff = 0 ∧ w.deref a.betaParamDiff = 0)) :
    ∃ l : List Event,
      (hipdnnBatchNormalizationBackward env out a w).2.trace = w.trace ++ l ∧
      (l.filter Event.isBatchNormalizationBackward = [] ∨
        l.filter Event.isBatchNormalizationBackward
          = [a.primitive HostPtr.tempBetaDataDiff HostPtr.tempBetaParamDiff]) ∧
      ((hipdnnBatchNormalizationBackward env out a w).1
          = Outcome.returned HIPDNN_STATUS_SUCCESS →
        l.filter Event.isBatchNormalizationBackward
          = [a.primitive HostPtr.tempBetaDataDiff HostPtr.tempBetaParamDiff]) := by
  have hacc : ∀ g gp desc beta (x y : World α) (o : Outcome),
      accumulateGradients env g gp desc beta x = Step.stop o y →
      o ≠ Outcome.returned HIPDNN_STATUS_SUCCESS := by
    intro g gp desc beta x y o h
    rcases accumulateGradients_stop_outcome env _ _ _ _ _ _ _ h with ho | ho <;>
      (subst ho; simp)
  have hex : Outcome.exited ≠ Outcome.returned HIPDNN_STATUS_SUCCESS := by simp
  cases hchk : CHECK_HIPDNN env (hipTomiopenBatchNormMode a.mode).1 with
  | some o =>
    have hrun : hipdnnBatchNormalizationBackward env out a w = (o, w) := by
      unfold hipdnnBatchNormalizationBackward
      simp only [hchk]
    rw [hrun]
    exact ⟨[], by simp, Or.inl rfl, fun h => absurd h (CHECK_HIPDNN_some env _ _ hchk)⟩
  | none =>
    obtain ⟨l1, t1, q1⟩ := SaveAsPriorBuffer_quiet env a.dx w
    cases h1 : SaveAsPriorBuffer env a.dx w with
    | stop o x =>
      rw [h1] at t1
      have hrun : hipdnnBatchNormalizationBackward env out a w = (o, x) := by
        unfold hipdnnBatchNormalizationBackward
        simp only [hchk, if_neg hnz, h1]
      rw [hrun]
      refine ⟨l1, t1, Or.inl q1, fun h => ?_⟩
      rw [SaveAsPriorBuffer_stop env _ _ _ _ h1] at h
      exact absurd h hex
    | next p1 w1 =>
      rw [h1] at t1
      simp only [Step.world] at t1
      obtain ⟨l2, t2, q2⟩ := SaveAsPriorBuffer_quiet env a.resultBnScaleDiff w1
      cases h2 : SaveAsPriorBuffer env a.resultBnScaleDiff w1 with
      | stop o x =>
        rw [h2] at t2
        have hrun : hipdnnBatchNormalizationBackward env out a w = (o, x) := by
          unfold hipdnnBatchNormalizationBackward
          simp only [hchk, if_neg hnz, h1, h2]
        rw [hrun]
        obtain ⟨T, Q⟩ := calls_step _ _ _ _ _ _ t1 q1 t2 q2
        refine ⟨_, T, Or.inl Q, fun h => ?_⟩
        rw [SaveAsPriorBuffer_stop env _ _ _ _ h2] at h
        exact absurd h hex
      | next p2 w2 =>
        rw [h2] at t2
        simp only [Step.world] at t2
        obtain ⟨T2, Q2⟩ := calls_step _ _ _ _ _ _ t1 q1 t2 q2
        obtain ⟨l3, t3, q3⟩ := SaveAsPriorBuffer_quiet env a.resultBnBiasDiff w2
        cases h3 : SaveAsPriorBuffer env a.resultBnBiasDiff w2 with
        | stop o x =>
          rw [h3] at t3
          have hrun : hipdnnBatchNormalizationBackward env out a w = (o, x) := by
            unfold hipdnnBatchNormalizationBackward
            simp only [hchk, if_neg hnz, h1, h2, h3]
          rw [hrun]
          obtain ⟨T, Q⟩ := calls_step _ _ _ _ _ _ T2 Q2 t3 q3
          refine ⟨_, T, Or.inl Q, fun h => ?_⟩
          rw [SaveAsPriorBuffer_stop env _ _ _ _ h3] at h
          exact absurd h hex
        | next p3 w3 =>
          rw [h3] at t3
          simp only [Step.world] at t3
          obtain ⟨T3, Q3⟩ := calls_step _ _ _ _ _ _ T2 Q2 t3 q3
          -- the backend call
          have fb := backendCallBN_frame env out
            (a.primitive HostPtr.tempBetaDataDiff HostPtr.tempBetaParamDiff) a w3
          have Tb : (backendCallBN env out
              (a.primitive HostPtr.tempBetaDataDiff HostPtr.tempBetaParamDiff) a w3).2.trace
              = w.trace ++ (l1 ++ l2 ++ l3 ++
                [a.primitive HostPtr.tempBetaDataDiff HostPtr.tempBetaParamDiff]) := by
            rw [fb.2.2.2.2.2.1, T3, List.append_assoc]
          have Qb : (l1 ++ l2 ++ l3 ++
              [a.primitive HostPtr.tempBetaDataDiff HostPtr.tempBetaParamDiff]).filter
                Event.isBatchNormalizationBackward
              = [a.primitive HostPtr.tempBetaDataDiff HostPtr.tempBetaParamDiff] := by
            rw [List.filter_append, Q3]
            rfl
          cases hmio : CHECK_MIO (backendCallBN env out
              (a.primitive HostPtr.tempBetaDataDiff HostPtr.tempBetaParamDiff) a w3).1 with
          | some o =>
            have hrun : hipdnnBatchNormalizationBackward env out a w = (o, (backendCallBN env
                out (a.primitive HostPtr.tempBetaDataDiff HostPtr.tempBetaParamDiff) a
                w3).2) := by
              unfold hipdnnBatchNormalizationBackward
              simp only [hchk, if_neg hnz, h1, h2, h3, hmio]
            rw [hrun]
            exact ⟨_, Tb, Or.inr Qb, fun _ => Qb⟩
          | none =>
            obtain ⟨l4, t4, q4⟩ := accumulateGradients_quiet env a.dx p1 a.dxDesc
              a.betaDataDiff (backendCallBN env out
                (a.primitive HostPtr.tempBetaDataDiff HostPtr.tempBetaParamDiff) a w3).2
            cases h4 : accumulateGradients env a.dx p1 a.dxDesc a.betaDataDiff
                (backendCallBN env out
                  (a.primitive HostPtr.tempBetaDataDiff HostPtr.tempBetaParamDiff) a w3).2 with
            | stop o x =>
              rw [h4] at t4
              have hrun : hipdnnBatchNormalizationBackward env out a w = (o, x) := by
                unfold hipdnnBatchNormalizationBackward
                simp only [hchk, if_neg hnz, h1, h2, h3, hmio, h4]
              rw [hrun]
              obtain ⟨T, Q⟩ := calls_step _ _ _ _ _ _ Tb Qb t4 q4
              exact ⟨_, T, Or.inr Q, fun _ => Q⟩
            | next s4 w4 =>
              rw [h4] at t4
              simp only [Step.world] at t4
              obtain ⟨T4, Q4⟩ := calls_step _ _ _ _ _ _ Tb Qb t4 q4
              obtain ⟨l5, t5, q5⟩ := accumulateGradients_quiet env a.resultBnScaleDiff p2
                a.bnScaleBiasDiffDesc a.betaParamDiff w4
              cases h5 : accumulateGradients env a.resultBnScaleDiff p2
                  a.bnScaleBiasDiffDesc a.betaParamDiff w4 with
              | stop o x =>
                rw [h5] at t5
                have hrun : hipdnnBatchNormalizationBackward env out a w = (o, x) := by
                  unfold hipdnnBatchNormalizationBackward
                  simp only [hchk, if_neg hnz, h1, h2, h3, hmio, h4, h5]
                rw [hrun]
                obtain ⟨T, Q⟩ := calls_step _ _ _ _ _ _ T4 Q4 t5 q5
                exact ⟨_, T, Or.inr Q, fun _ => Q⟩
              | next s5 w5 =>
                rw [h5] at t5
                simp only [Step.world] at t5
                obtain ⟨T5, Q5⟩ := calls_step _ _ _ _ _ _ T4 Q4 t5 q5
                obtain ⟨l6, t6, q6⟩ := accumulateGradients_quiet env a.resultBnBiasDiff p3
                  a.bnScaleBiasDiffDesc a.betaParamDiff w5
                cases h6 : accumulateGradients env a.resultBnBiasDiff p3
                    a.bnScaleBiasDiffDesc a.betaParamDiff w5 with
                | stop o x =>
                  rw [h6] at t6
                  have hrun : hipdnnBatchNormalizationBackward env out a w = (o, x) := by
                    unfold hipdnnBatchNormalizationBackward
                    simp only [hchk, if_neg hnz, h1, h2, h3, hmio, h4, h5, h6]
                  rw [hrun]
                  obtain ⟨T, Q⟩ := calls_step _ _ _ _ _ _ T5 Q5 t6 q6
                  exact ⟨_, T, Or.inr Q, fun _ => Q⟩
                | next s6 w6 =>
                  rw [h6] at t6
                  simp only [Step.world] at t6
                  obtain ⟨T6, Q6⟩ := calls_step _ _ _ _ _ _ T5 Q5 t6 q6
                  obtain ⟨l7, t7, q7⟩ := deallocPrior_quiet p1 w6
                  cases h7 : deallocPrior p1 w6 with
                  | stop o x =>
                    rw [h7] at t7
                    have hrun : hipdnnBatchNormalizationBackward env out a w = (o, x) := by
                      unfold hipdnnBatchNormalizationBackward
                      simp only [hchk, if_neg hnz, h1, h2, h3, hmio, h4, h5, h6, h7]
                    rw [hrun]
                    obtain ⟨T, Q⟩ := calls_step _ _ _ _ _ _ T6 Q6 t7 q7
                    exact ⟨_, T, Or.inr Q, fun _ => Q⟩
                  | next u7 w7 =>
                    rw [h7] at t7
                    simp only [Step.world] at t7
                    obtain ⟨T7, Q7⟩ := calls_step _ _ _ _ _ _ T6 Q6 t7 q7
                    obtain ⟨l8, t8, q8⟩ := deallocPrior_quiet p3 w7
                    cases h8 : deallocPrior p3 w7 with
                    | stop o x =>
                      rw [h8] at t8
                      have hrun : hipdnnBatchNormalizationBackward env out a w = (o, x) := by
                        unfold hipdnnBatchNormalizationBackward
                        simp only [hchk, if_neg hnz, h1, h2, h3, hmio, h4, h5, h6, h7, h8]
                      rw [hrun]
                      obtain ⟨T, Q⟩ := calls_step _ _ _ _ _ _ T7 Q7 t8 q8
                      exact ⟨_, T, Or.inr Q, fun _ => Q⟩
                    | next u8 w8 =>
                      rw [h8] at t8
                      simp only [Step.world] at t8
                      obtain ⟨T8, Q8⟩ := calls_step _ _ _ _ _ _ T7 Q7 t8 q8
                      obtain ⟨l9, t9, q9⟩ := deallocPrior_quiet p2 w8
                      cases h9 : deallocPrior p2 w8 with
                      | stop o x =>
                        rw [h9] at t9
                        have hrun : hipdnnBatchNormalizationBackward env out a w = (o, x) := by
                          unfold hipdnnBatchNormalizationBackward
                          simp only [hchk, if_neg hnz, h1, h2, h3, hmio, h4, h5, h6, h7, h8, h9]
                        rw [hrun]
                        obtain ⟨T, Q⟩ := calls_step _ _ _ _ _ _ T8 Q8 t9 q9
                        exact ⟨_, T, Or.inr Q, fun _ => Q⟩
                      | next u9 w9 =>
                        rw [h9] at t9
                        simp only [Step.world] at t9
                        have hrun : hipdnnBatchNormalizationBackward env out a w
                            = (Outcome.returned HIPDNN_STATUS_SUCCESS, w9) := by
                          unfold hipdnnBatchNormalizationBackward
                          simp only [hchk, if_neg hnz, h1, h2, h3, hmio, h4, h5, h6, h7, h8, h9]
                        rw [hrun]
                        obtain ⟨T, Q⟩ := calls_step _ _ _ _ _ _ T8 Q8 t9 q9
                        exact ⟨_, T, Or.inr Q, fun _ => Q⟩

end BatchNormCalls
/-! ## Snapshot isolation and batch-normalisation blending: the claims -/

section BatchNormClaims

variable {α : Type}

/-- Witness for C12: a backward-filter convolution and a batch-normalisation backward, each
with `beta = 3`, from process start with the three demo tensors outstanding; each returns
success, and each part of the theorem is applied to its own call. -/
theorem C12_snapshot_isolation_witness :
    (demoAccum.deref (BackwardCall.filter demoBwdFilterArgs).beta ≠ 0 ∧
      ((BackwardCall.filter demoBwdFilterArgs).run demoBackendSeven demoAccum).1
        = Outcome.returned HIPDNN_STATUS_SUCCESS ∧
      (((BackwardCall.filter demoBwdFilterArgs).run demoBackendSeven demoAccum).2.live
          = demoAccum.live ∨
        ∃ p s, p ∉ demoAccum.live.map Alloc.ptr ∧ 0 < s ∧
          ((BackwardCall.filter demoBwdFilterArgs).run demoBackendSeven demoAccum).2.live
            = ⟨p, s, Owner.workspace (BackwardCall.filter demoBwdFilterArgs).family
                (BackwardCall.filter demoBwdFilterArgs).convDesc
                (BackwardCall.filter demoBwdFilterArgs).convDesc⟩ :: demoAccum.live)) ∧
    (¬ (demoAccum.deref demoBNArgs.betaDataDiff = 0 ∧
        demoAccum.deref demoBNArgs.betaParamDiff = 0) ∧
      (hipdnnBatchNormalizationBackward demoBackendSeven demoBNOutput demoBNArgs demoAccum).1
        = Outcome.returned HIPDNN_STATUS_SUCCESS ∧
      (hipdnnBatchNormalizationBackward demoBackendSeven demoBNOutput demoBNArgs
        demoAccum).2.live = demoAccum.live) := by
  have hb : demoAccum.deref (BackwardCall.filter demoBwdFilterArgs).beta ≠ 0 := by decide
  have hokc : ((BackwardCall.filter demoBwdFilterArgs).run demoBackendSeven demoAccum).1
      = Outcome.returned HIPDNN_STATUS_SUCCESS :=
    (BackwardCall.run_accumulate demoBackendSeven (BackwardCall.filter demoBwdFilterArgs)
      demoAccum 2 (fun i => 7 + (i : Int)) Int.add_comm hb (by decide) (by decide)
      (fun _ => totalElements_demoSeven) (fun _ _ => rfl)).2.2 demoBackendSeven_accepting
      (by decide) (by decide)
  have hnz : ¬ (demoAccum.deref demoBNArgs.betaDataDiff = 0 ∧
      demoAccum.deref demoBNArgs.betaParamDiff = 0) := by decide
  have hokb : (hipdnnBatchNormalizationBackward demoBackendSeven demoBNOutput demoBNArgs
      demoAccum).1 = Outcome.returned HIPDNN_STATUS_SUCCESS :=
    hipdnnBatchNormalizationBackward_total demoBackendSeven demoBNOutput demoBNArgs demoAccum
      2 2 demoBackendSeven_accepting (by decide) hnz (by decide) (by decide) (by decide)
      (by decide) (by decide) (by decide) (fun _ => totalElements_demoSeven)
      (fun _ => totalElements_demoSeven)
  exact ⟨⟨hb, hokc, (C12_snapshot_isolation demoBackendSeven demoBNOutput
      (BackwardCall.filter demoBwdFilterArgs) demoBNArgs demoAccum demoAccum).1 hb hokc⟩,
    hnz, hokb, (C12_snapshot_isolation demoBackendSeven demoBNOutput
      (BackwardCall.filter demoBwdFilterArgs) demoBNArgs demoAccum demoAccum).2 hnz hokb⟩

/-- **C14** (amended) Batch-norm backward blending, for a supported mode:
`hipdnnBatchNormalizationBackward` calls the backend directly with the caller's betas when
`betaDataDiff == 0` and `betaParamDiff == 0`, and that is then its only external call;
otherwise it never hands the backend the caller's betas and calls it at most once, with both
betas forced to 0, and when the call returns `HIPDNN_STATUS_SUCCESS` it has called the backend
exactly once and, with 4-dimensional descriptors whose element counts are below `2^31` and
three distinct result arrays that are allocations of the caller with room for these counts,
`dx = N_dx + betaDataDiff * P_dx`, `resultBnScaleDiff = N_scale + betaParamDiff * P_scale`
and `resultBnBiasDiff = N_bias + betaParamDiff * P_bias` for every element below the element
count, the elements from the element count on being as the backend wrote them (`P` the content
before the call, `N` what the backend wrote; any element type with commutative addition). -/
theorem C14_batchnorm_backward_blending [Zero α] [Add α] [Mul α] [DecidableEq α]
    (env : Backend α) (out : BatchNormOutput α) (a : BatchNormBwdArgs) (w : World α)
    (n1 ch1 h1 wd1 n2 ch2 h2 wd2 : Nat) (N1 N2 N3 : Nat → α)
    (hcomm : ∀ x y : α, x + y = y + x)
    (hmode : (hipTomiopenBatchNormMode a.mode).1 = HIPDNN_STATUS_SUCCESS)
    (hheap : ∀ al ∈ w.live, al.ptr ≠ 0)
    (hd12 : a.dx ≠ a.resultBnScaleDiff) (hd13 : a.dx ≠ a.resultBnBiasDiff)
    (hd23 : a.resultBnScaleDiff ≠ a.resultBnBiasDiff)
    (hl1 : a.dx ∈ w.live.map Alloc.ptr) (hl2 : a.resultBnScaleDiff ∈ w.live.map Alloc.ptr)
    (hl3 : a.resultBnBiasDiff ∈ w.live.map Alloc.ptr)
    (hdims1 : ∀ w1, env.tensorDims w1 a.dxDesc
      = [(n1 : Int), (ch1 : Int), (h1 : Int), (wd1 : Int)])
    (hfit1 : n1 * ch1 * h1 * wd1 < 2 ^ 31)
    (hdims2 : ∀ w1, env.tensorDims w1 a.bnScaleBiasDiffDesc
      = [(n2 : Int), (ch2 : Int), (h2 : Int), (wd2 : Int)])
    (hfit2 : n2 * ch2 * h2 * wd2 < 2 ^ 31)
    (hs1 : ∀ al ∈ w.live, al.ptr = a.dx → sizeofFloat * (n1 * ch1 * h1 * wd1) ≤ al.size)
    (hs2 : ∀ al ∈ w.live, al.ptr = a.resultBnScaleDiff →
      sizeofFloat * (n2 * ch2 * h2 * wd2) ≤ al.size)
    (hs3 : ∀ al ∈ w.live, al.ptr = a.resultBnBiasDiff →
      sizeofFloat * (n2 * ch2 * h2 * wd2) ≤ al.size)
    (hN1 : ∀ w1, out.dx w1
      (a.primitive HostPtr.tempBetaDataDiff HostPtr.tempBetaParamDiff) = N1)
    (hN2 : ∀ w1, out.resultBnScaleDiff w1
      (a.primitive HostPtr.tempBetaDataDiff HostPtr.tempBetaParamDiff) = N2)
    (hN3 : ∀ w1, out.resultBnBiasDiff w1
      (a.primitive HostPtr.tempBetaDataDiff HostPtr.tempBetaParamDiff) = N3) :
    (w.deref a.betaDataDiff = 0 ∧ w.deref a.betaParamDiff = 0 →
      (hipdnnBatchNormalizationBackward env out a w).2.trace
        = w.trace ++ [a.primitive a.betaDataDiff a.betaParamDiff]) ∧
    (¬ (w.deref a.betaDataDiff = 0 ∧ w.deref a.betaParamDiff = 0) →
      (∃ l : List Event,
        (hipdnnBatchNormalizationBackward env out a w).2.trace = w.trace ++ l ∧
        a.primitive a.betaDataDiff a.betaParamDiff ∉ l ∧
        (l.filter Event.isBatchNormalizationBackward = [] ∨
          l.filter Event.isBatchNormalizationBackward
            = [a.primitive HostPtr.tempBetaDataDiff HostPtr.tempBetaParamDiff]) ∧
        ((hipdnnBatchNormalizationBackward env out a w).1
            = Outcome.returned HIPDNN_STATUS_SUCCESS →
          l.filter Event.isBatchNormalizationBackward
            = [a.primitive HostPtr.tempBetaDataDiff HostPtr.tempBetaParamDiff])) ∧
      ((hipdnnBatchNormalizationBackward env out a w).1
          = Outcome.returned HIPDNN_STATUS_SUCCESS →
        (∀ i, (hipdnnBatchNormalizationBackward env out a w).2.mem a.dx i
          = if i < n1 * ch1 * h1 * wd1 then N1 i + w.deref a.betaDataDiff * w.mem a.dx i
            else N1 i) ∧
        (∀ i, (hipdnnBatchNormalizationBackward env out a w).2.mem a.resultBnScaleDiff i
          = if i < n2 * ch2 * h2 * wd2
            then N2 i + w.deref a.betaParamDiff * w.mem a.resultBnScaleDiff i else N2 i) ∧
        (∀ i, (hipdnnBatchNormalizationBackward env out a w).2.mem a.resultBnBiasDiff i
          = if i < n2 * ch2 * h2 * wd2
            then N3 i + w.deref a.betaParamDiff * w.mem a.resultBnBiasDiff i else N3 i))) := by
  refine ⟨fun hz => ?_, fun hnz => ⟨?_, fun hok => ?_⟩⟩
  · unfold hipdnnBatchNormalizationBackward
    simp only [hmode, CHECK_HIPDNN_success, if_pos hz]
    split <;> rfl
  · obtain ⟨l, ht, hq, hs⟩ := hipdnnBatchNormalizationBackward_calls env out a w hnz
    refine ⟨l, ht, fun hmem => hnz ?_, hq, hs⟩
    have hf : a.primitive a.betaDataDiff a.betaParamDiff
        ∈ l.filter Event.isBatchNormalizationBackward :=
      List.mem_filter.2 ⟨hmem, rfl⟩
    have heq : a.primitive a.betaDataDiff a.betaParamDiff
        = a.primitive HostPtr.tempBetaDataDiff HostPtr.tempBetaParamDiff := by
      rcases hq with h | h
      · rw [h] at hf
        cases hf
      · rw [h] at hf
        exact List.mem_singleton.1 hf
    unfold BatchNormBwdArgs.primitive at heq
    injection heq with _ _ _ e1 _ e2
    rw [e1, e2]
    exact ⟨rfl, rfl⟩
  · exact hipdnnBatchNormalizationBackward_blend env out a w _ _ N1 N2 N3 hcomm hnz hok hheap
      hd12 hd13 hd23 hl1 hl2 hl3 hs1 hs2 hs3
      (fun w1 => by rw [hdims1 w1]; exact totalElements_rank4 env _ _ _ _ hfit1)
      (fun w1 => by rw [hdims2 w1]; exact totalElements_rank4 env _ _ _ _ hfit2) hN1 hN2 hN3

/-- Witness for C14: a batch-normalisation backward with both betas `3` on the two-element
arrays at `10`, `11`, `12`, which hold `5`, with a backend that writes `7 + i`, `8 + i` and
`9 + i`. The call returns success, so the blending is not vacuous there. -/
theorem C14_batchnorm_backward_blending_witness :
    (hipTomiopenBatchNormMode demoBNArgs.mode).1 = HIPDNN_STATUS_SUCCESS ∧
    (∀ al ∈ demoAccum.live, al.ptr ≠ 0) ∧
    (hipdnnBatchNormalizationBackward demoBackendSeven demoBNOutput demoBNArgs demoAccum).1
      = Outcome.returned HIPDNN_STATUS_SUCCESS ∧
    ((demoAccum.deref demoBNArgs.betaDataDiff = 0 ∧
        demoAccum.deref demoBNArgs.betaParamDiff = 0 →
      (hipdnnBatchNormalizationBackward demoBackendSeven demoBNOutput demoBNArgs
        demoAccum).2.trace = demoAccum.trace
          ++ [demoBNArgs.primitive demoBNArgs.betaDataDiff demoBNArgs.betaParamDiff]) ∧
    (¬ (demoAccum.deref demoBNArgs.betaDataDiff = 0 ∧
        demoAccum.deref demoBNArgs.betaParamDiff = 0) →
      (∃ l : List Event,
        (hipdnnBatchNormalizationBackward demoBackendSeven demoBNOutput demoBNArgs
          demoAccum).2.trace = demoAccum.trace ++ l ∧
        demoBNArgs.primitive demoBNArgs.betaDataDiff demoBNArgs.betaParamDiff ∉ l ∧
        (l.filter Event.isBatchNormalizationBackward = [] ∨
          l.filter Event.isBatchNormalizationBackward
            = [demoBNArgs.primitive HostPtr.tempBetaDataDiff HostPtr.tempBetaParamDiff]) ∧
        ((hipdnnBatchNormalizationBackward demoBackendSeven demoBNOutput demoBNArgs
            demoAccum).1 = Outcome.returned HIPDNN_STATUS_SUCCESS →
          l.filter Event.isBatchNormalizationBackward
            = [demoBNArgs.primitive HostPtr.tempBetaDataDiff HostPtr.tempBetaParamDiff])) ∧
      ((hipdnnBatchNormalizationBackward demoBackendSeven demoBNOutput demoBNArgs
          demoAccum).1 = Outcome.returned HIPDNN_STATUS_SUCCESS →
        (∀ i, (hipdnnBatchNormalizationBackward demoBackendSeven demoBNOutput demoBNArgs
            demoAccum).2.mem demoBNArgs.dx i
          = if i < 2 * 1 * 1 * 1
            then (fun i : Nat => 7 + (i : Int)) i
              + demoAccum.deref demoBNArgs.betaDataDiff * demoAccum.mem demoBNArgs.dx i
            else (fun i : Nat => 7 + (i : Int)) i) ∧
        (∀ i, (hipdnnBatchNormalizationBackward demoBackendSeven demoBNOutput demoBNArgs
            demoAccum).2.mem demoBNArgs.resultBnScaleDiff i
          = if i < 2 * 1 * 1 * 1
            then (fun i : Nat => 8 + (i : Int)) i
              + demoAccum.deref demoBNArgs.betaParamDiff
                * demoAccum.mem demoBNArgs.resultBnScaleDiff i
            else (fun i : Nat => 8 + (i : Int)) i) ∧
        (∀ i, (hipdnnBatchNormalizationBackward demoBackendSeven demoBNOutput demoBNArgs
            demoAccum).2.mem demoBNArgs.resultBnBiasDiff i
          = if i < 2 * 1 * 1 * 1
            then (fun i : Nat => 9 + (i : Int)) i
              + demoAccum.deref demoBNArgs.betaParamDiff
                * demoAccum.mem demoBNArgs.resultBnBiasDiff i
            else (fun i : Nat => 9 + (i : Int)) i)))) := by
  have hnz : ¬ (demoAccum.deref demoBNArgs.betaDataDiff = 0 ∧
      demoAccum.deref demoBNArgs.betaParamDiff = 0) := by decide
  have hok : (hipdnnBatchNormalizationBackward demoBackendSeven demoBNOutput demoBNArgs
      demoAccum).1 = Outcome.returned HIPDNN_STATUS_SUCCESS :=
    hipdnnBatchNormalizationBackward_total demoBackendSeven demoBNOutput demoBNArgs demoAccum
      2 2 demoBackendSeven_accepting (by decide) hnz (by decide) (by decide) (by decide)
      (by decide) (by decide) (by decide) (fun _ => totalElements_demoSeven)
      (fun _ => totalElements_demoSeven)
  exact ⟨by decide, by decide, hok,
    C14_batchnorm_backward_blending demoBackendSeven demoBNOutput demoBNArgs demoAccum
      2 1 1 1 2 1 1 1 (fun i => 7 + (i : Int)) (fun i => 8 + (i : Int))
      (fun i => 9 + (i : Int)) Int.add_comm (by decide) (by decide) (by decide) (by decide)
      (by decide) (by decide) (by decide) (by decide) (fun _ => rfl) (by decide)
      (fun _ => rfl) (by decide) (by decide) (by decide) (by decide) (fun _ => rfl)
      (fun _ => rfl) (fun _ => rfl)⟩

/-- Counterexample to C14 as stated, in two runs with both betas `3`. With a device that has
no memory left, the first `SaveAsPriorBuffer` ends the process: the backend is not called at
all. With descriptors of dimensions `65536 x 65536 x 1 x 1` and arrays that have room for
their `2^32` floats and hold `5`, the call returns success, but the `int` element count is
`0` and element `0` of `dx` is the `7` the backend wrote, not `7 + 3 * 5`. -/
theorem C14_counterexample :
    demoAccum.deref demoBNArgs.betaDataDiff = 3 ∧
    demoAccum.deref demoBNArgs.betaParamDiff = 3 ∧
    (hipdnnBatchNormalizationBackward demoBackendOOM demoBNOutput demoBNArgs demoAccum).1
      = Outcome.exited ∧
    (hipdnnBatchNormalizationBackward demoBackendOOM demoBNOutput demoBNArgs demoAccum).2.trace
      = [Event.hipMemPtrGetInfo 10 hipSuccess 8, Event.hipMalloc 8 hipErrorOutOfMemory 0] ∧
    demoHuge3.deref demoBNArgs.betaDataDiff = 3 ∧
    demoBackendHuge.tensorDims demoHuge3 demoBNArgs.dxDesc = [65536, 65536, 1, 1] ∧
    (⟨demoBNArgs.dx, 4 * (65536 * 65536 * 1 * 1), Owner.external⟩ : Alloc) ∈ demoHuge3.live ∧
    demoHuge3.mem demoBNArgs.dx 0 = 5 ∧
    (hipdnnBatchNormalizationBackward demoBackendHuge demoBNOutput demoBNArgs demoHuge3).1
      = Outcome.returned HIPDNN_STATUS_SUCCESS ∧
    (hipdnnBatchNormalizationBackward demoBackendHuge demoBNOutput demoBNArgs demoHuge3).2.mem
      demoBNArgs.dx 0 = 7 ∧
    (7 : Int) ≠ 7 + 3 * 5 := by
  have hnz : ¬ (demoHuge3.deref demoBNArgs.betaDataDiff = 0 ∧
      demoHuge3.deref demoBNArgs.betaParamDiff = 0) := by decide
  have hok : (hipdnnBatchNormalizationBackward demoBackendHuge demoBNOutput demoBNArgs
      demoHuge3).1 = Outcome.returned HIPDNN_STATUS_SUCCESS :=
    hipdnnBatchNormalizationBackward_total demoBackendHuge demoBNOutput demoBNArgs demoHuge3
      0 0 demoBackendHuge_accepting (by decide) hnz (by decide) (by decide) (by decide)
      (by decide) (by decide) (by decide) (fun _ => totalElements_demoHuge)
      (fun _ => totalElements_demoHuge)
  have hv := (hipdnnBatchNormalizationBackward_blend demoBackendHuge demoBNOutput demoBNArgs
    demoHuge3 0 0 (fun i => 7 + (i : Int)) (fun i => 8 + (i : Int)) (fun i => 9 + (i : Int))
    Int.add_comm hnz hok (by decide) (by decide) (by decide) (by decide) (by decide)
    (by decide) (by decide) (by decide) (by decide) (by decide)
    (fun _ => totalElements_demoHuge) (fun _ => totalElements_demoHuge) (fun _ => rfl)
    (fun _ => rfl) (fun _ => rfl)).1 0
  rw [if_neg (by decide)] at hv
  exact ⟨by decide, by decide, by decide, by decide, by decide, by decide, by decide,
    by decide, hok, hv, by decide⟩

end BatchNormClaims
/-! ## Descriptor setters and translators: the claims -/

section SetterClaims

variable {α : Type}

/-- The layout check accepts `HIPDNN_TENSOR_NCHW` only. -/
theorem hipTensorFormatSupported_iff (f : hipdnnTensorFormat_t) :
    hipTensorFormatSupported f = HIPDNN_STATUS_SUCCESS ↔ f = HIPDNN_TENSOR_NCHW := by
  unfold hipTensorFormatSupported
  by_cases h : f = HIPDNN_TENSOR_NCHW
  · simp [h]
  · simp [h]

/-- Every other layout is answered with `HIPDNN_STATUS_NOT_SUPPORTED`. -/
theorem hipTensorFormatSupported_other (f : hipdnnTensorFormat_t)
    (h : f ≠ HIPDNN_TENSOR_NCHW) :
    hipTensorFormatSupported f = HIPDNN_STATUS_NOT_SUPPORTED := by
  unfold hipTensorFormatSupported
  simp [h]

/-- With a layout other than NCHW, `hipdnnSetTensor4dDescriptor` stops at its first line. -/
theorem hipdnnSetTensor4dDescriptor_rejects (env : Backend α) (tensorDesc : Handle)
    (f : hipdnnTensorFormat_t) (dataType : hipdnnDataType_t) (n c h w : Int) (s : World α)
    (hf : f ≠ HIPDNN_TENSOR_NCHW) :
    hipdnnSetTensor4dDescriptor env tensorDesc f dataType n c h w s =
      (if env.CHECK_HIPDNN_exits then Outcome.exited
        else Outcome.returned HIPDNN_STATUS_NOT_SUPPORTED, s) := by
  unfold hipdnnSetTensor4dDescriptor
  rw [hipTensorFormatSupported_other f hf]
  simp [CHECK_HIPDNN]

/-- With a layout other than NCHW, `hipdnnSetFilter4dDescriptor` stops at its first line. -/
theorem hipdnnSetFilter4dDescriptor_rejects (env : Backend α) (filterDesc : Handle)
    (f : hipdnnTensorFormat_t) (dataType : hipdnnDataType_t) (k c h w : Int) (s : World α)
    (hf : f ≠ HIPDNN_TENSOR_NCHW) :
    hipdnnSetFilter4dDescriptor env filterDesc f dataType k c h w s =
      (if env.CHECK_HIPDNN_exits then Outcome.exited
        else Outcome.returned HIPDNN_STATUS_NOT_SUPPORTED, s) := by
  unfold hipdnnSetFilter4dDescriptor
  rw [hipTensorFormatSupported_other f hf]
  simp [CHECK_HIPDNN]

/-- With NCHW and a data type the backend has, `hipdnnSetTensor4dDescriptor` calls
`miopenSet4dTensorDescriptor`, and nothing else. -/
theorem hipdnnSetTensor4dDescriptor_reaches (env : Backend α) (tensorDesc : Handle)
    (dataType : hipdnnDataType_t) (n c h w : Int) (s : World α)
    (hd : (hipTomiopenDataType dataType).1 = HIPDNN_STATUS_SUCCESS) :
    (hipdnnSetTensor4dDescriptor env tensorDesc HIPDNN_TENSOR_NCHW dataType n c h w s).2.trace =
      s.trace ++ [Event.miopenSet4dTensorDescriptor tensorDesc (hipTomiopenDataType dataType).2
        n c h w] := by
  unfold hipdnnSetTensor4dDescriptor
  simp only [hipTensorFormatSupported, CHECK_HIPDNN, hd, if_true, ne_eq, not_true_eq_false,
    if_false]
  cases hc : CHECK_MIO (backendQuery env (Event.miopenSet4dTensorDescriptor tensorDesc
    (hipTomiopenDataType dataType).2 n c h w) s).1 <;> simp [backendQuery, World.emit]

/-- With NCHW and a data type the backend has, `hipdnnSetFilter4dDescriptor` calls
`miopenSet4dTensorDescriptor`, and nothing else. -/
theorem hipdnnSetFilter4dDescriptor_reaches (env : Backend α) (filterDesc : Handle)
    (dataType : hipdnnDataType_t) (k c h w : Int) (s : World α)
    (hd : (hipTomiopenDataType dataType).1 = HIPDNN_STATUS_SUCCESS) :
    (hipdnnSetFilter4dDescriptor env filterDesc HIPDNN_TENSOR_NCHW dataType k c h w s).2.trace =
      s.trace ++ [Event.miopenSet4dTensorDescriptor filterDesc (hipTomiopenDataType dataType).2
        k c h w] := by
  unfold hipdnnSetFilter4dDescriptor
  simp only [hipTensorFormatSupported, CHECK_HIPDNN, hd, if_true, ne_eq, not_true_eq_false,
    if_false]
  cases hc : CHECK_MIO (backendQuery env (Event.miopenSet4dTensorDescriptor filterDesc
    (hipTomiopenDataType dataType).2 k c h w) s).1 <;> simp [backendQuery, World.emit]

/-- **C15** (amended) An unsupported tensor layout stops the setters before the backend, and
the stop is the end of the process: `hipTensorFormatSupported f` is `HIPDNN_STATUS_SUCCESS` if
and only if `f` is `HIPDNN_TENSOR_NCHW`, and `HIPDNN_STATUS_NOT_SUPPORTED` otherwise; for every
format other than NCHW, `hipdnnSetTensor4dDescriptor` and `hipdnnSetFilter4dDescriptor` hand
that status to `CHECK_HIPDNN` at their first line, and with the macro that terminates the
process on a status other than success the call ends there by `std::exit`: no status is
returned to the caller, `miopenSet4dTensorDescriptor` is not called, and the whole state, the
workspace maps included, is as it was. With NCHW and a data type the backend has
(`HIPDNN_DATA_FLOAT` gives `miopenFloat`) the one external call they make is
`miopenSet4dTensorDescriptor`. -/
theorem C15_unsupported_layout_ends_process (env : Backend α) (desc : Handle)
    (f : hipdnnTensorFormat_t) (dataType : hipdnnDataType_t) (n c h w : Int) (s : World α)
    (hx : env.CHECK_HIPDNN_exits = true) :
    (hipTensorFormatSupported f = HIPDNN_STATUS_SUCCESS ↔ f = HIPDNN_TENSOR_NCHW) ∧
    (f ≠ HIPDNN_TENSOR_NCHW →
      hipTensorFormatSupported f = HIPDNN_STATUS_NOT_SUPPORTED ∧
      hipdnnSetTensor4dDescriptor env desc f dataType n c h w s = (Outcome.exited, s) ∧
      hipdnnSetFilter4dDescriptor env desc f dataType n c h w s = (Outcome.exited, s) ∧
      (∀ st, (hipdnnSetTensor4dDescriptor env desc f dataType n c h w s).1
        ≠ Outcome.returned st) ∧
      (∀ st, (hipdnnSetFilter4dDescriptor env desc f dataType n c h w s).1
        ≠ Outcome.returned st)) ∧
    hipTomiopenDataType HIPDNN_DATA_FLOAT = (HIPDNN_STATUS_SUCCESS, some miopenFloat) ∧
    ((hipTomiopenDataType dataType).1 = HIPDNN_STATUS_SUCCESS →
      (hipdnnSetTensor4dDescriptor env desc HIPDNN_TENSOR_NCHW dataType n c h w s).2.trace =
        s.trace ++ [Event.miopenSet4dTensorDescriptor desc (hipTomiopenDataType dataType).2
          n c h w] ∧
      (hipdnnSetFilter4dDescriptor env desc HIPDNN_TENSOR_NCHW dataType n c h w s).2.trace =
        s.trace ++ [Event.miopenSet4dTensorDescriptor desc (hipTomiopenDataType dataType).2
          n c h w]) := by
  refine ⟨hipTensorFormatSupported_iff f, fun hf => ?_, rfl, fun hd => ?_⟩
  · have h1 := hipdnnSetTensor4dDescriptor_rejects env desc f dataType n c h w s hf
    have h2 := hipdnnSetFilter4dDescriptor_rejects env desc f dataType n c h w s hf
    rw [hx, if_pos rfl] at h1 h2
    refine ⟨hipTensorFormatSupported_other f hf, h1, h2, fun st => ?_, fun st => ?_⟩
    · rw [h1]
      exact fun hc => Outcome.noConfusion hc
    · rw [h2]
      exact fun hc => Outcome.noConfusion hc
  · exact ⟨hipdnnSetTensor4dDescriptor_reaches env desc dataType n c h w s hd,
      hipdnnSetFilter4dDescriptor_reaches env desc dataType n c h w s hd⟩

/-- Witness for C15: for the demo build, whose `CHECK_HIPDNN` terminates the process, layout
NHWC ends both setters by `std::exit` with the state at process start untouched; NCHW with
`HIPDNN_DATA_FLOAT` reaches `miopenSet4dTensorDescriptor`. -/
theorem C15_unsupported_layout_ends_process_witness :
    demoBackend.CHECK_HIPDNN_exits = true ∧
    hipTensorFormatSupported HIPDNN_TENSOR_NHWC = HIPDNN_STATUS_NOT_SUPPORTED ∧
    hipdnnSetTensor4dDescriptor demoBackend 3 HIPDNN_TENSOR_NHWC HIPDNN_DATA_FLOAT
      1 2 3 4 demoStart = (Outcome.exited, demoStart) ∧
    hipdnnSetFilter4dDescriptor demoBackend 3 HIPDNN_TENSOR_NHWC HIPDNN_DATA_FLOAT
      1 2 3 4 demoStart = (Outcome.exited, demoStart) ∧
    (hipdnnSetTensor4dDescriptor demoBackend 3 HIPDNN_TENSOR_NCHW HIPDNN_DATA_FLOAT
      1 2 3 4 demoStart).2.trace =
      [Event.miopenSet4dTensorDescriptor 3 (some miopenFloat) 1 2 3 4] ∧
    (hipdnnSetFilter4dDescriptor demoBackend 3 HIPDNN_TENSOR_NCHW HIPDNN_DATA_FLOAT
      1 2 3 4 demoStart).2.trace =
      [Event.miopenSet4dTensorDescriptor 3 (some miopenFloat) 1 2 3 4] :=
  have hn := (C15_unsupported_layout_ends_process demoBackend 3 HIPDNN_TENSOR_NHWC
    HIPDNN_DATA_FLOAT 1 2 3 4 demoStart rfl).2.1 (by decide)
  have hy := (C15_unsupported_layout_ends_process demoBackend 3 HIPDNN_TENSOR_NHWC
    HIPDNN_DATA_FLOAT 1 2 3 4 demoStart rfl).2.2.2 rfl
  ⟨rfl, hn.1, hn.2.1, hn.2.2.1, hy.1, hy.2⟩

/-- Counterexample to C15 as stated: with layout `HIPDNN_TENSOR_NHWC`, the two setters of the
demo build do not yield `HIPDNN_STATUS_NOT_SUPPORTED` to their caller, nor any other status:
the status is handed to `CHECK_HIPDNN`, and the call ends the process. -/
theorem C15_counterexample :
    hipTensorFormatSupported HIPDNN_TENSOR_NHWC = HIPDNN_STATUS_NOT_SUPPORTED ∧
    CHECK_HIPDNN demoBackend HIPDNN_STATUS_NOT_SUPPORTED = some Outcome.exited ∧
    (hipdnnSetTensor4dDescriptor demoBackend 3 HIPDNN_TENSOR_NHWC HIPDNN_DATA_FLOAT
      1 2 3 4 demoStart).1 = Outcome.exited ∧
    (hipdnnSetTensor4dDescriptor demoBackend 3 HIPDNN_TENSOR_NHWC HIPDNN_DATA_FLOAT
      1 2 3 4 demoStart).1 ≠ Outcome.returned HIPDNN_STATUS_NOT_SUPPORTED ∧
    (hipdnnSetFilter4dDescriptor demoBackend 3 HIPDNN_TENSOR_NHWC HIPDNN_DATA_FLOAT
      1 2 3 4 demoStart).1 = Outcome.exited ∧
    (hipdnnSetFilter4dDescriptor demoBackend 3 HIPDNN_TENSOR_NHWC HIPDNN_DATA_FLOAT
      1 2 3 4 demoStart).1 ≠ Outcome.returned HIPDNN_STATUS_NOT_SUPPORTED := by
  refine ⟨by decide, by decide, by decide, by decide, by decide, by decide⟩

/-- Argument `format` of `hipdnnSetFilterNdDescriptor` has no influence on what the entry
point does. -/
theorem hipdnnSetFilterNdDescriptor_format (env : Backend α) (filterDesc : Handle)
    (dataType : hipdnnDataType_t) (f g : hipdnnTensorFormat_t) (dims : List Int)
    (s : World α) :
    hipdnnSetFilterNdDescriptor env filterDesc dataType f dims s =
      hipdnnSetFilterNdDescriptor env filterDesc dataType g dims s := rfl

/-- **C16** At the input `filterDesc = 3`, `HIPDNN_DATA_FLOAT`, layout `HIPDNN_TENSOR_NHWC`,
`nbDims = 4`, `filterDimA = {1, 1, 1, 1}`, from process start with a backend that accepts
every call: `hipdnnSetFilterNdDescriptor` calls `miopenSetTensorDescriptor` and returns
`HIPDNN_STATUS_SUCCESS`, although `hipTensorFormatSupported` answers
`HIPDNN_STATUS_NOT_SUPPORTED` for that layout and `hipdnnSetFilter4dDescriptor` stops on it
before any backend call. -/
theorem C16_filterNd_does_not_check_layout :
    hipdnnSetFilterNdDescriptor demoBackendReturns 3 HIPDNN_DATA_FLOAT HIPDNN_TENSOR_NHWC
      [1, 1, 1, 1] demoStart =
      (Outcome.returned HIPDNN_STATUS_SUCCESS,
        demoStart.emit (Event.miopenSetTensorDescriptor 3 (some miopenFloat) 4 [1, 1, 1, 1]
          [1, 1, 1, 1])) ∧
    (hipdnnSetFilterNdDescriptor demoBackendReturns 3 HIPDNN_DATA_FLOAT HIPDNN_TENSOR_NHWC
      [1, 1, 1, 1] demoStart).2.trace =
      [Event.miopenSetTensorDescriptor 3 (some miopenFloat) 4 [1, 1, 1, 1] [1, 1, 1, 1]] ∧
    hipTensorFormatSupported HIPDNN_TENSOR_NHWC = HIPDNN_STATUS_NOT_SUPPORTED ∧
    hipdnnSetFilter4dDescriptor demoBackendReturns 3 HIPDNN_TENSOR_NHWC HIPDNN_DATA_FLOAT
      1 1 1 1 demoStart = (Outcome.returned HIPDNN_STATUS_NOT_SUPPORTED, demoStart) := by
  refine ⟨rfl, by decide, by decide, ?_⟩
  rw [hipdnnSetFilter4dDescriptor_rejects _ _ _ _ _ _ _ _ _ (by decide)]
  rfl

/-- **C17** The convolution-mode translator has no status: `hipTomiopenConvolutionMode`
returns `miopenConvolution` for every `hipdnnConvolutionMode_t` value, and so
`hipdnnSetConvolution2dDescriptor` makes the same single call
`miopenInitConvolutionDescriptor(convDesc, miopenConvolution, ...)` whatever mode is
requested, and returns `HIPDNN_STATUS_SUCCESS` exactly when the backend accepts that call. -/
theorem C17_convolution_mode_always_convolution (env : Backend α) (convDesc : Handle)
    (pad_h pad_w u v upscalex upscaley : Int) (mode : hipdnnConvolutionMode_t)
    (computeType : hipdnnDataType_t) (s : World α) :
    hipTomiopenConvolutionMode mode = miopenConvolution ∧
    (hipdnnSetConvolution2dDescriptor env convDesc pad_h pad_w u v upscalex upscaley mode
      computeType s).2.trace =
      s.trace ++ [Event.miopenInitConvolutionDescriptor convDesc miopenConvolution pad_h pad_w
        u v upscalex upscaley] ∧
    hipdnnSetConvolution2dDescriptor env convDesc pad_h pad_w u v upscalex upscaley mode
      computeType s =
      hipdnnSetConvolution2dDescriptor env convDesc pad_h pad_w u v upscalex upscaley
        HIPDNN_CONVOLUTION computeType s ∧
    ((hipdnnSetConvolution2dDescriptor env convDesc pad_h pad_w u v upscalex upscaley mode
      computeType s).1 = Outcome.returned HIPDNN_STATUS_SUCCESS ↔
      miopenTohipdnnStatus (env.status s (Event.miopenInitConvolutionDescriptor convDesc
        miopenConvolution pad_h pad_w u v upscalex upscaley)) = HIPDNN_STATUS_SUCCESS) := by
  have hm : hipTomiopenConvolutionMode mode = miopenConvolution := by
    unfold hipTomiopenConvolutionMode
    split <;> rfl
  have hc : hipTomiopenConvolutionMode HIPDNN_CONVOLUTION = miopenConvolution := rfl
  refine ⟨hm, ?_, ?_, ?_⟩
  · simp only [hipdnnSetConvolution2dDescriptor, hm]
    split <;> simp [backendQuery, World.emit]
  · unfold hipdnnSetConvolution2dDescriptor
    rw [hm, hc]
  · unfold hipdnnSetConvolution2dDescriptor
    rw [hm]
    by_cases hx : miopenTohipdnnStatus (env.status s (Event.miopenInitConvolutionDescriptor
      convDesc miopenConvolution pad_h pad_w u v upscalex upscaley)) = HIPDNN_STATUS_SUCCESS
    · simp [backendQuery, CHECK_MIO, hx]
    · simp [backendQuery, CHECK_MIO, hx]

/-- Witness for C17: the mode value `5`, which the header does not name, is configured as
`miopenConvolution` too. -/
theorem C17_convolution_mode_always_convolution_witness :
    hipTomiopenConvolutionMode (hipdnnConvolutionMode_t.other 5) = miopenConvolution ∧
    (hipdnnSetConvolution2dDescriptor demoBackend 7 0 0 1 1 1 1 (hipdnnConvolutionMode_t.other 5)
      HIPDNN_DATA_FLOAT demoStart).2.trace =
      demoStart.trace ++ [Event.miopenInitConvolutionDescriptor 7 miopenConvolution 0 0 1 1
        1 1] :=
  ⟨(C17_convolution_mode_always_convolution demoBackend 7 0 0 1 1 1 1
      (hipdnnConvolutionMode_t.other 5) HIPDNN_DATA_FLOAT demoStart).1,
    (C17_convolution_mode_always_convolution demoBackend 7 0 0 1 1 1 1
      (hipdnnConvolutionMode_t.other 5) HIPDNN_DATA_FLOAT demoStart).2.1⟩

/-- Counterexample to C17 as worded: for `HIPDNN_CROSS_CORRELATION` the translator returns the
backend mode `miopenConvolution`, and `hipdnnSetConvolution2dDescriptor` (called as the
convolution test calls it) configures the backend with `miopenConvolution` and returns
`HIPDNN_STATUS_SUCCESS`. -/
theorem C17_counterexample :
    hipTomiopenConvolutionMode HIPDNN_CROSS_CORRELATION = miopenConvolution ∧
    HIPDNN_CROSS_CORRELATION ≠ HIPDNN_CONVOLUTION ∧
    hipdnnSetConvolution2dDescriptor demoBackend 7 0 0 1 1 1 1 HIPDNN_CROSS_CORRELATION
      HIPDNN_DATA_FLOAT demoStart =
      (Outcome.returned HIPDNN_STATUS_SUCCESS,
        demoStart.emit (Event.miopenInitConvolutionDescriptor 7 miopenConvolution 0 0 1 1
          1 1)) ∧
    (hipdnnSetConvolution2dDescriptor demoBackend 7 0 0 1 1 1 1 HIPDNN_CROSS_CORRELATION
      HIPDNN_DATA_FLOAT demoStart).2.trace =
      [Event.miopenInitConvolutionDescriptor 7 miopenConvolution 0 0 1 1 1 1] := by
  refine ⟨by decide, by decide, rfl, by decide⟩

end SetterClaims

/-! ## Enumeration translators: the claims -/

section TranslatorClaims

variable {α : Type}

/-- **C18** Pooling-mode translation collapses four modes onto two with one canonical
reverse: `hipTomiopenPoolingMode` returns `HIPDNN_STATUS_SUCCESS` for `MAX`,
`MAX_DETERMINISTIC`, `AVERAGE_COUNT_INCLUDE_PADDING` and `AVERAGE_COUNT_EXCLUDE_PADDING`,
with both max modes giving `miopenPoolingMax` and both average modes `miopenPoolingAverage`,
and `HIPDNN_STATUS_NOT_SUPPORTED` without a result for every other value;
`miopenTohipPoolingMode` maps `miopenPoolingMax` to `MAX` and `miopenPoolingAverage` to
`AVERAGE_COUNT_INCLUDE_PADDING`; a mode comes back from hip to backend to hip exactly when it
is `MAX` or `AVERAGE_COUNT_INCLUDE_PADDING`, and both backend modes come back from backend to
hip to backend. -/
theorem C18_pooling_mode_collapse :
    hipTomiopenPoolingMode HIPDNN_POOLING_MAX = (HIPDNN_STATUS_SUCCESS, some miopenPoolingMax) ∧
    hipTomiopenPoolingMode HIPDNN_POOLING_MAX_DETERMINISTIC =
      (HIPDNN_STATUS_SUCCESS, some miopenPoolingMax) ∧
    hipTomiopenPoolingMode HIPDNN_POOLING_AVERAGE_COUNT_INCLUDE_PADDING =
      (HIPDNN_STATUS_SUCCESS, some miopenPoolingAverage) ∧
    hipTomiopenPoolingMode HIPDNN_POOLING_AVERAGE_COUNT_EXCLUDE_PADDING =
      (HIPDNN_STATUS_SUCCESS, some miopenPoolingAverage) ∧
    (∀ code, hipTomiopenPoolingMode (hipdnnPoolingMode_t.other code) =
      (HIPDNN_STATUS_NOT_SUPPORTED, none)) ∧
    miopenTohipPoolingMode miopenPoolingMax = (HIPDNN_STATUS_SUCCESS, some HIPDNN_POOLING_MAX) ∧
    miopenTohipPoolingMode miopenPoolingAverage =
      (HIPDNN_STATUS_SUCCESS, some HIPDNN_POOLING_AVERAGE_COUNT_INCLUDE_PADDING) ∧
    (∀ m : hipdnnPoolingMode_t,
      (∃ b, hipTomiopenPoolingMode m = (HIPDNN_STATUS_SUCCESS, some b) ∧
        miopenTohipPoolingMode b = (HIPDNN_STATUS_SUCCESS, some m)) ↔
      (m = HIPDNN_POOLING_MAX ∨ m = HIPDNN_POOLING_AVERAGE_COUNT_INCLUDE_PADDING)) ∧
    (∀ b : miopenPoolingMode_t, b = miopenPoolingMax ∨ b = miopenPoolingAverage →
      ∃ m, miopenTohipPoolingMode b = (HIPDNN_STATUS_SUCCESS, some m) ∧
        hipTomiopenPoolingMode m = (HIPDNN_STATUS_SUCCESS, some b)) := by
  refine ⟨rfl, rfl, rfl, rfl, fun _ => rfl, rfl, rfl, fun m => ⟨?_, ?_⟩, ?_⟩
  · rintro ⟨b, h1, h2⟩
    cases m <;> simp [hipTomiopenPoolingMode] at h1 <;> subst h1 <;>
      simp [miopenTohipPoolingMode] at h2 ⊢
  · rintro (h | h)
    · exact ⟨miopenPoolingMax, by rw [h]; rfl, by rw [h]; rfl⟩
    · exact ⟨miopenPoolingAverage, by rw [h]; rfl, by rw [h]; rfl⟩
  · rintro b (h | h)
    · exact ⟨HIPDNN_POOLING_MAX, by rw [h]; rfl, by rw [h]; rfl⟩
    · exact ⟨HIPDNN_POOLING_AVERAGE_COUNT_INCLUDE_PADDING, by rw [h]; rfl, by rw [h]; rfl⟩

/-- Witness for C18: `AVERAGE_COUNT_EXCLUDE_PADDING` does not come back from the backend
mode it is translated to, and `miopenPoolingAverage` does. -/
theorem C18_pooling_mode_collapse_witness :
    (¬ ∃ b, hipTomiopenPoolingMode HIPDNN_POOLING_AVERAGE_COUNT_EXCLUDE_PADDING =
        (HIPDNN_STATUS_SUCCESS, some b) ∧
      miopenTohipPoolingMode b =
        (HIPDNN_STATUS_SUCCESS, some HIPDNN_POOLING_AVERAGE_COUNT_EXCLUDE_PADDING)) ∧
    (∃ m, miopenTohipPoolingMode miopenPoolingAverage = (HIPDNN_STATUS_SUCCESS, some m) ∧
      hipTomiopenPoolingMode m = (HIPDNN_STATUS_SUCCESS, some miopenPoolingAverage)) :=
  ⟨fun hx => by
      have h := (C18_pooling_mode_collapse.2.2.2.2.2.2.2.1
        HIPDNN_POOLING_AVERAGE_COUNT_EXCLUDE_PADDING).1 hx
      revert h
      decide,
    C18_pooling_mode_collapse.2.2.2.2.2.2.2.2 miopenPoolingAverage (Or.inr rfl)⟩

/-- When the loop that closes a `Find*AlgorithmEx` entry point runs to its end, every entry it
wrote holds an algorithm that `back` translates to the backend algorithm of the result at the
same position, provided `back` undoes `translate`. -/
theorem perfLoop_roundtrip {A B : Type} (env : Backend α)
    (translate : A → hipdnnStatus_t × Option B) (back : B → hipdnnStatus_t × Option A)
    (hrt : ∀ m, (translate m).1 = HIPDNN_STATUS_SUCCESS →
      ∃ v, (translate m).2 = some v ∧ back v = (HIPDNN_STATUS_SUCCESS, some m))
    (rs : List (miopenConvAlgoPerf_t A)) (l : List (hipdnnConvolutionAlgoPerf_t (Option B)))
    (h : perfLoop env translate rs = (none, l)) :
    List.Forall₂ (fun r e => ∃ v, hipdnnConvolutionAlgoPerf_t.algo e = some v ∧
      back v = (HIPDNN_STATUS_SUCCESS, some (miopenConvAlgoPerf_t.algo r))) rs l := by
  induction rs generalizing l with
  | nil =>
    simp only [perfLoop, Prod.mk.injEq, true_and] at h
    subst h
    exact List.Forall₂.nil
  | cons r rest ih =>
    unfold perfLoop at h
    by_cases hs : (translate r.algo).1 = HIPDNN_STATUS_SUCCESS
    · rw [hs, CHECK_HIPDNN_success] at h
      simp only [Prod.mk.injEq] at h
      obtain ⟨h1, h2⟩ := h
      subst h2
      obtain ⟨v, hv, hb⟩ := hrt r.algo hs
      exact List.Forall₂.cons ⟨v, hv, hb⟩ (ih _ (Prod.ext h1 rfl))
    · simp [CHECK_HIPDNN, hs] at h

/-- Whatever way the loop that closes a `Find*AlgorithmEx` entry point ends, every entry it
wrote holds an algorithm that `back` translates to the backend algorithm of one of the
results, provided `back` undoes `translate`. -/
theorem perfLoop_mem_roundtrip {A B : Type} (env : Backend α)
    (translate : A → hipdnnStatus_t × Option B) (back : B → hipdnnStatus_t × Option A)
    (hrt : ∀ m, (translate m).1 = HIPDNN_STATUS_SUCCESS →
      ∃ v, (translate m).2 = some v ∧ back v = (HIPDNN_STATUS_SUCCESS, some m))
    (rs : List (miopenConvAlgoPerf_t A)) (e : hipdnnConvolutionAlgoPerf_t (Option B))
    (he : e ∈ (perfLoop env translate rs).2) :
    ∃ r v, r ∈ rs ∧ hipdnnConvolutionAlgoPerf_t.algo e = some v ∧
      back v = (HIPDNN_STATUS_SUCCESS, some (miopenConvAlgoPerf_t.algo r)) := by
  induction rs with
  | nil => simp [perfLoop] at he
  | cons r rest ih =>
    unfold perfLoop at he
    by_cases hs : (translate r.algo).1 = HIPDNN_STATUS_SUCCESS
    · rw [hs, CHECK_HIPDNN_success] at he
      simp only [List.mem_cons] at he
      rcases he with he | he
      · obtain ⟨v, hv, hb⟩ := hrt r.algo hs
        exact ⟨r, v, List.mem_cons_self _ _, by rw [he]; exact hv, hb⟩
      · obtain ⟨r1, v, hr, hv, hb⟩ := ih he
        exact ⟨r1, v, List.mem_cons_of_mem _ hr, hv, hb⟩
    · simp [CHECK_HIPDNN, hs] at he

theorem miopenTohipDataType_roundtrip (m : miopenDataType_t) (v : hipdnnDataType_t)
    (h : miopenTohipDataType m = (HIPDNN_STATUS_SUCCESS, some v)) :
    hipTomiopenDataType v = (HIPDNN_STATUS_SUCCESS, some m) := by
  cases m <;> simp [miopenTohipDataType] at h <;> subst h <;> rfl

theorem miopenTohipOpTensorOp_roundtrip (m : miopenTensorOp_t) (v : hipdnnOpTensorOp_t)
    (h : miopenTohipOpTensorOp m = (HIPDNN_STATUS_SUCCESS, some v)) :
    hipTomiopenOpTensorOp v = (HIPDNN_STATUS_SUCCESS, some m) := by
  cases m <;> simp [miopenTohipOpTensorOp] at h <;> subst h <;> rfl

theorem miopenTohipLRNMode_roundtrip (m : miopenLRNMode_t) (v : hipdnnLRNMode_t)
    (h : miopenTohipLRNMode m = (HIPDNN_STATUS_SUCCESS, some v)) :
    hipTomiopenLRNMode v = (HIPDNN_STATUS_SUCCESS, some m) := by
  cases m <;> simp [miopenTohipLRNMode] at h <;> subst h <;> rfl

theorem miopenTohipActivationMode_roundtrip (m : miopenActivationMode_t)
    (v : hipdnnActivationMode_t)
    (h : miopenTohipActivationMode m = (HIPDNN_STATUS_SUCCESS, some v)) :
    hipTomiopenActivationMode v = (HIPDNN_STATUS_SUCCESS, some m) := by
  cases m <;> simp [miopenTohipActivationMode] at h <;> subst h <;> rfl

theorem miopenTohipConvolutionFwdAlgo_roundtrip (m : miopenConvFwdAlgorithm_t)
    (v : hipdnnConvolutionFwdAlgo_t)
    (h : miopenTohipConvolutionFwdAlgo m = (HIPDNN_STATUS_SUCCESS, some v)) :
    hipTomiopenConvolutionFwdAlgo v = (HIPDNN_STATUS_SUCCESS, some m) := by
  cases m <;> simp [miopenTohipConvolutionFwdAlgo] at h <;> subst h <;> rfl

theorem miopenTohipConvolutionBwdFilterAlgo_roundtrip (m : miopenConvBwdWeightsAlgorithm_t)
    (v : hipdnnConvolutionBwdFilterAlgo_t)
    (h : miopenTohipConvolutionBwdFilterAlgo m = (HIPDNN_STATUS_SUCCESS, some v)) :
    hipTomiopenConvolutionBwdFilterAlgo v = (HIPDNN_STATUS_SUCCESS, some m) := by
  cases m <;> simp [miopenTohipConvolutionBwdFilterAlgo] at h <;> subst h <;> rfl

theorem miopenTohipConvolutionBwdDataAlgo_roundtrip (m : miopenConvBwdDataAlgorithm_t)
    (v : hipdnnConvolutionBwdDataAlgo_t)
    (h : miopenTohipConvolutionBwdDataAlgo m = (HIPDNN_STATUS_SUCCESS, some v)) :
    hipTomiopenConvolutionBwdDataAlgo v = (HIPDNN_STATUS_SUCCESS, some m) := by
  cases m <;> simp [miopenTohipConvolutionBwdDataAlgo] at h <;> subst h <;> rfl

/-- A translator that reports success has written its result. -/
theorem roundtrip_of_pair {A B : Type} (translate : A → hipdnnStatus_t × Option B)
    (back : B → hipdnnStatus_t × Option A)
    (hw : ∀ m, (translate m).1 = HIPDNN_STATUS_SUCCESS → ∃ v, (translate m).2 = some v)
    (hrt : ∀ m v, translate m = (HIPDNN_STATUS_SUCCESS, some v) →
      back v = (HIPDNN_STATUS_SUCCESS, some m)) (m : A)
    (h : (translate m).1 = HIPDNN_STATUS_SUCCESS) :
    ∃ v, (translate m).2 = some v ∧ back v = (HIPDNN_STATUS_SUCCESS, some m) := by
  obtain ⟨v, hv⟩ := hw m h
  exact ⟨v, hv, hrt m v (Prod.ext h hv)⟩

theorem miopenTohipConvolutionFwdAlgo_writes (m : miopenConvFwdAlgorithm_t)
    (h : (miopenTohipConvolutionFwdAlgo m).1 = HIPDNN_STATUS_SUCCESS) :
    ∃ v, (miopenTohipConvolutionFwdAlgo m).2 = some v := by
  cases m <;> simp [miopenTohipConvolutionFwdAlgo] at h ⊢

theorem miopenTohipConvolutionBwdFilterAlgo_writes (m : miopenConvBwdWeightsAlgorithm_t)
    (h : (miopenTohipConvolutionBwdFilterAlgo m).1 = HIPDNN_STATUS_SUCCESS) :
    ∃ v, (miopenTohipConvolutionBwdFilterAlgo m).2 = some v := by
  cases m <;> simp [miopenTohipConvolutionBwdFilterAlgo] at h ⊢

theorem miopenTohipConvolutionBwdDataAlgo_writes (m : miopenConvBwdDataAlgorithm_t)
    (h : (miopenTohipConvolutionBwdDataAlgo m).1 = HIPDNN_STATUS_SUCCESS) :
    ∃ v, (miopenTohipConvolutionBwdDataAlgo m).2 = some v := by
  cases m <;> simp [miopenTohipConvolutionBwdDataAlgo] at h ⊢

/-- **C19** Backend-to-hip-to-backend round trip: for the translator pairs of data type,
op-tensor op, LRN mode, activation mode, convolution forward algorithm, backward-filter
algorithm and backward-data algorithm, whenever the `miopenTohip*` function returns
`HIPDNN_STATUS_SUCCESS` with result `v` on the backend value `m`, the matching `hipTomiopen*`
function on `v` returns `HIPDNN_STATUS_SUCCESS` with exactly `m`; so every entry that the
closing loop of a `Find*AlgorithmEx` entry point writes holds an algorithm that the
translator of the compute call takes back to the backend algorithm the backend reported. -/
theorem C19_backend_roundtrip (env : Backend α) :
    (∀ m v, miopenTohipDataType m = (HIPDNN_STATUS_SUCCESS, some v) →
      hipTomiopenDataType v = (HIPDNN_STATUS_SUCCESS, some m)) ∧
    (∀ m v, miopenTohipOpTensorOp m = (HIPDNN_STATUS_SUCCESS, some v) →
      hipTomiopenOpTensorOp v = (HIPDNN_STATUS_SUCCESS, some m)) ∧
    (∀ m v, miopenTohipLRNMode m = (HIPDNN_STATUS_SUCCESS, some v) →
      hipTomiopenLRNMode v = (HIPDNN_STATUS_SUCCESS, some m)) ∧
    (∀ m v, miopenTohipActivationMode m = (HIPDNN_STATUS_SUCCESS, some v) →
      hipTomiopenActivationMode v = (HIPDNN_STATUS_SUCCESS, some m)) ∧
    (∀ m v, miopenTohipConvolutionFwdAlgo m = (HIPDNN_STATUS_SUCCESS, some v) →
      hipTomiopenConvolutionFwdAlgo v = (HIPDNN_STATUS_SUCCESS, some m)) ∧
    (∀ m v, miopenTohipConvolutionBwdFilterAlgo m = (HIPDNN_STATUS_SUCCESS, some v) →
      hipTomiopenConvolutionBwdFilterAlgo v = (HIPDNN_STATUS_SUCCESS, some m)) ∧
    (∀ m v, miopenTohipConvolutionBwdDataAlgo m = (HIPDNN_STATUS_SUCCESS, some v) →
      hipTomiopenConvolutionBwdDataAlgo v = (HIPDNN_STATUS_SUCCESS, some m)) ∧
    (∀ rs e, e ∈ (perfLoop env miopenTohipConvolutionFwdAlgo rs).2 →
      ∃ r v, r ∈ rs ∧ hipdnnConvolutionAlgoPerf_t.algo e = some v ∧
        hipTomiopenConvolutionFwdAlgo v =
          (HIPDNN_STATUS_SUCCESS, some (miopenConvAlgoPerf_t.algo r))) ∧
    (∀ rs e, e ∈ (perfLoop env miopenTohipConvolutionBwdFilterAlgo rs).2 →
      ∃ r v, r ∈ rs ∧ hipdnnConvolutionAlgoPerf_t.algo e = some v ∧
        hipTomiopenConvolutionBwdFilterAlgo v =
          (HIPDNN_STATUS_SUCCESS, some (miopenConvAlgoPerf_t.algo r))) ∧
    (∀ rs e, e ∈ (perfLoop env miopenTohipConvolutionBwdDataAlgo rs).2 →
      ∃ r v, r ∈ rs ∧ hipdnnConvolutionAlgoPerf_t.algo e = some v ∧
        hipTomiopenConvolutionBwdDataAlgo v =
          (HIPDNN_STATUS_SUCCESS, some (miopenConvAlgoPerf_t.algo r))) ∧
    (∀ rs l, perfLoop env miopenTohipConvolutionFwdAlgo rs = (none, l) →
      List.Forall₂ (fun r e => ∃ v, hipdnnConvolutionAlgoPerf_t.algo e = some v ∧
        hipTomiopenConvolutionFwdAlgo v =
          (HIPDNN_STATUS_SUCCESS, some (miopenConvAlgoPerf_t.algo r))) rs l) ∧
    (∀ rs l, perfLoop env miopenTohipConvolutionBwdFilterAlgo rs = (none, l) →
      List.Forall₂ (fun r e => ∃ v, hipdnnConvolutionAlgoPerf_t.algo e = some v ∧
        hipTomiopenConvolutionBwdFilterAlgo v =
          (HIPDNN_STATUS_SUCCESS, some (miopenConvAlgoPerf_t.algo r))) rs l) ∧
    (∀ rs l, perfLoop env miopenTohipConvolutionBwdDataAlgo rs = (none, l) →
      List.Forall₂ (fun r e => ∃ v, hipdnnConvolutionAlgoPerf_t.algo e = some v ∧
        hipTomiopenConvolutionBwdDataAlgo v =
          (HIPDNN_STATUS_SUCCESS, some (miopenConvAlgoPerf_t.algo r))) rs l) := by
  have hf := roundtrip_of_pair miopenTohipConvolutionFwdAlgo hipTomiopenConvolutionFwdAlgo
    miopenTohipConvolutionFwdAlgo_writes miopenTohipConvolutionFwdAlgo_roundtrip
  have hw := roundtrip_of_pair miopenTohipConvolutionBwdFilterAlgo
    hipTomiopenConvolutionBwdFilterAlgo miopenTohipConvolutionBwdFilterAlgo_writes
    miopenTohipConvolutionBwdFilterAlgo_roundtrip
  have hd := roundtrip_of_pair miopenTohipConvolutionBwdDataAlgo
    hipTomiopenConvolutionBwdDataAlgo miopenTohipConvolutionBwdDataAlgo_writes
    miopenTohipConvolutionBwdDataAlgo_roundtrip
  exact ⟨miopenTohipDataType_roundtrip, miopenTohipOpTensorOp_roundtrip,
    miopenTohipLRNMode_roundtrip, miopenTohipActivationMode_roundtrip,
    miopenTohipConvolutionFwdAlgo_roundtrip, miopenTohipConvolutionBwdFilterAlgo_roundtrip,
    miopenTohipConvolutionBwdDataAlgo_roundtrip,
    fun rs e he => perfLoop_mem_roundtrip env _ _ hf rs e he,
    fun rs e he => perfLoop_mem_roundtrip env _ _ hw rs e he,
    fun rs e he => perfLoop_mem_roundtrip env _ _ hd rs e he,
    fun rs l h => perfLoop_roundtrip env _ _ hf rs l h,
    fun rs l h => perfLoop_roundtrip env _ _ hw rs l h,
    fun rs l h => perfLoop_roundtrip env _ _ hd rs l h⟩

/-- Witness for C19: the seven pairs at one backend value each, and the closing loop of the
forward `Find` on the results Winograd and GEMM. -/
theorem C19_backend_roundtrip_witness :
    hipTomiopenDataType HIPDNN_DATA_HALF = (HIPDNN_STATUS_SUCCESS, some miopenHalf) ∧
    hipTomiopenOpTensorOp HIPDNN_OP_TENSOR_MAX = (HIPDNN_STATUS_SUCCESS, some miopenTensorOpMax) ∧
    hipTomiopenLRNMode HIPDNN_LRN_CROSS_CHANNEL =
      (HIPDNN_STATUS_SUCCESS, some miopenLRNCrossChannel) ∧
    hipTomiopenActivationMode HIPDNN_ACTIVATION_SIGMOID =
      (HIPDNN_STATUS_SUCCESS, some miopenActivationLOGISTIC) ∧
    hipTomiopenConvolutionFwdAlgo HIPDNN_CONVOLUTION_FWD_ALGO_WINOGRAD =
      (HIPDNN_STATUS_SUCCESS, some miopenConvolutionFwdAlgoWinograd) ∧
    hipTomiopenConvolutionBwdFilterAlgo HIPDNN_CONVOLUTION_BWD_FILTER_ALGO_1 =
      (HIPDNN_STATUS_SUCCESS, some miopenConvolutionBwdWeightsAlgoDirect) ∧
    hipTomiopenConvolutionBwdDataAlgo HIPDNN_CONVOLUTION_BWD_DATA_ALGO_TRANSPOSE_GEMM =
      (HIPDNN_STATUS_SUCCESS, some miopenTransposeBwdDataAlgoGEMM) ∧
    List.Forall₂ (fun r e => ∃ v, hipdnnConvolutionAlgoPerf_t.algo e = some v ∧
      hipTomiopenConvolutionFwdAlgo v =
        (HIPDNN_STATUS_SUCCESS, some (miopenConvAlgoPerf_t.algo r)))
      [⟨miopenConvolutionFwdAlgoWinograd, 1, 0⟩, ⟨miopenConvolutionFwdAlgoGEMM, 2, 64⟩]
      [⟨some HIPDNN_CONVOLUTION_FWD_ALGO_WINOGRAD, HIPDNN_STATUS_SUCCESS, 1, 0⟩,
        ⟨some HIPDNN_CONVOLUTION_FWD_ALGO_GEMM, HIPDNN_STATUS_SUCCESS, 2, 64⟩] :=
  have h := C19_backend_roundtrip demoBackend
  ⟨h.1 miopenHalf HIPDNN_DATA_HALF rfl,
    h.2.1 miopenTensorOpMax HIPDNN_OP_TENSOR_MAX rfl,
    h.2.2.1 miopenLRNCrossChannel HIPDNN_LRN_CROSS_CHANNEL rfl,
    h.2.2.2.1 miopenActivationLOGISTIC HIPDNN_ACTIVATION_SIGMOID rfl,
    h.2.2.2.2.1 miopenConvolutionFwdAlgoWinograd HIPDNN_CONVOLUTION_FWD_ALGO_WINOGRAD rfl,
    h.2.2.2.2.2.1 miopenConvolutionBwdWeightsAlgoDirect HIPDNN_CONVOLUTION_BWD_FILTER_ALGO_1 rfl,
    h.2.2.2.2.2.2.1 miopenTransposeBwdDataAlgoGEMM
      HIPDNN_CONVOLUTION_BWD_DATA_ALGO_TRANSPOSE_GEMM rfl,
    h.2.2.2.2.2.2.2.2.2.2.1
      [⟨miopenConvolutionFwdAlgoWinograd, 1, 0⟩, ⟨miopenConvolutionFwdAlgoGEMM, 2, 64⟩]
      [⟨some HIPDNN_CONVOLUTION_FWD_ALGO_WINOGRAD, HIPDNN_STATUS_SUCCESS, 1, 0⟩,
        ⟨some HIPDNN_CONVOLUTION_FWD_ALGO_GEMM, HIPDNN_STATUS_SUCCESS, 2, 64⟩] rfl⟩

/-- **C20** Status translation never masks a failure: `miopenTohipdnnStatus s` is
`HIPDNN_STATUS_SUCCESS` if and only if `s` is `miopenStatusSuccess`; the backend codes
NotInitialized, AllocFailed, BadParm, InternalError, InvalidValue, UnknownError and
NotImplemented give NOT_INITIALIZED, ALLOC_FAILED, BAD_PARAM, INTERNAL_ERROR, INVALID_VALUE,
EXECUTION_FAILED and NOT_SUPPORTED, and every value the backend header does not name gives
NOT_SUPPORTED. -/
theorem C20_status_translation_never_masks (s : miopenStatus_t) :
    (miopenTohipdnnStatus s = HIPDNN_STATUS_SUCCESS ↔ s = miopenStatusSuccess) ∧
    miopenTohipdnnStatus miopenStatusSuccess = HIPDNN_STATUS_SUCCESS ∧
    miopenTohipdnnStatus miopenStatusNotInitialized = HIPDNN_STATUS_NOT_INITIALIZED ∧
    miopenTohipdnnStatus miopenStatusAllocFailed = HIPDNN_STATUS_ALLOC_FAILED ∧
    miopenTohipdnnStatus miopenStatusBadParm = HIPDNN_STATUS_BAD_PARAM ∧
    miopenTohipdnnStatus miopenStatusInternalError = HIPDNN_STATUS_INTERNAL_ERROR ∧
    miopenTohipdnnStatus miopenStatusInvalidValue = HIPDNN_STATUS_INVALID_VALUE ∧
    miopenTohipdnnStatus miopenStatusUnknownError = HIPDNN_STATUS_EXECUTION_FAILED ∧
    miopenTohipdnnStatus miopenStatusNotImplemented = HIPDNN_STATUS_NOT_SUPPORTED ∧
    (∀ code, miopenTohipdnnStatus (miopenStatus_t.other code) = HIPDNN_STATUS_NOT_SUPPORTED) ∧
    ((s ≠ miopenStatusSuccess ∧ s ≠ miopenStatusNotInitialized ∧ s ≠ miopenStatusAllocFailed ∧
      s ≠ miopenStatusBadParm ∧ s ≠ miopenStatusInternalError ∧ s ≠ miopenStatusInvalidValue ∧
      s ≠ miopenStatusUnknownError ∧ s ≠ miopenStatusNotImplemented) →
      miopenTohipdnnStatus s = HIPDNN_STATUS_NOT_SUPPORTED) := by
  refine ⟨?_, rfl, rfl, rfl, rfl, rfl, rfl, rfl, rfl, fun _ => rfl, ?_⟩
  · cases s <;> simp [miopenTohipdnnStatus]
  · cases s <;> simp [miopenTohipdnnStatus]

/-- Witness for C20: the backend code `42`, which the backend header does not name, is a
failure after translation. -/
theorem C20_status_translation_never_masks_witness :
    miopenTohipdnnStatus (miopenStatus_t.other 42) = HIPDNN_STATUS_NOT_SUPPORTED ∧
    miopenTohipdnnStatus (miopenStatus_t.other 42) ≠ HIPDNN_STATUS_SUCCESS :=
  have h := C20_status_translation_never_masks (miopenStatus_t.other 42)
  ⟨h.2.2.2.2.2.2.2.2.2.2 (by decide), fun hx => by
    have := h.1.1 hx
    exact absurd this (by decide)⟩

end TranslatorClaims
/-! ## Status strings and algorithm enumerators: the claims -/

section StringClaims

variable {α : Type}

/-- **C22** Human-readable status strings: for each of the twelve status codes
`hipdnnGetErrorString` returns `"HIPDNN_STATUS_"` followed by the name of the code, the twelve
strings are pairwise distinct, and every other status value gives
`"Unrecognized Status Code"`, which is none of the twelve. -/
theorem C22_status_strings :
    (∀ s : hipdnnStatus_t,
      hipdnnGetErrorString (.named s) = "HIPDNN_STATUS_" ++ s.enumeratorName) ∧
    hipdnnGetErrorString (.named HIPDNN_STATUS_SUCCESS) = "HIPDNN_STATUS_SUCCESS" ∧
    hipdnnGetErrorString (.named HIPDNN_STATUS_NOT_INITIALIZED) =
      "HIPDNN_STATUS_NOT_INITIALIZED" ∧
    hipdnnGetErrorString (.named HIPDNN_STATUS_ALLOC_FAILED) = "HIPDNN_STATUS_ALLOC_FAILED" ∧
    hipdnnGetErrorString (.named HIPDNN_STATUS_BAD_PARAM) = "HIPDNN_STATUS_BAD_PARAM" ∧
    hipdnnGetErrorString (.named HIPDNN_STATUS_INTERNAL_ERROR) =
      "HIPDNN_STATUS_INTERNAL_ERROR" ∧
    hipdnnGetErrorString (.named HIPDNN_STATUS_INVALID_VALUE) = "HIPDNN_STATUS_INVALID_VALUE" ∧
    hipdnnGetErrorString (.named HIPDNN_STATUS_ARCH_MISMATCH) = "HIPDNN_STATUS_ARCH_MISMATCH" ∧
    hipdnnGetErrorString (.named HIPDNN_STATUS_MAPPING_ERROR) = "HIPDNN_STATUS_MAPPING_ERROR" ∧
    hipdnnGetErrorString (.named HIPDNN_STATUS_EXECUTION_FAILED) =
      "HIPDNN_STATUS_EXECUTION_FAILED" ∧
    hipdnnGetErrorString (.named HIPDNN_STATUS_NOT_SUPPORTED) = "HIPDNN_STATUS_NOT_SUPPORTED" ∧
    hipdnnGetErrorString (.named HIPDNN_STATUS_LICENSE_ERROR) = "HIPDNN_STATUS_LICENSE_ERROR" ∧
    hipdnnGetErrorString (.named HIPDNN_STATUS_RUNTIME_PREREQUISITE_MISSING) =
      "HIPDNN_STATUS_RUNTIME_PREREQUISITE_MISSING" ∧
    (∀ s t : hipdnnStatus_t,
      hipdnnGetErrorString (.named s) = hipdnnGetErrorString (.named t) → s = t) ∧
    (∀ code : Int, hipdnnGetErrorString (.other code) = "Unrecognized Status Code") ∧
    (∀ (s : hipdnnStatus_t) (code : Int),
      hipdnnGetErrorString (.named s) ≠ hipdnnGetErrorString (.other code)) := by
  refine ⟨?_, rfl, rfl, rfl, rfl, rfl, rfl, rfl, rfl, rfl, rfl, rfl, rfl, ?_, fun _ => rfl, ?_⟩
  · intro s
    cases s <;> decide
  · intro s t
    cases s <;> cases t <;> decide
  · intro s code
    have h : ∀ t : hipdnnStatus_t,
        hipdnnGetErrorString (.named t) ≠ "Unrecognized Status Code" := by
      intro t
      cases t <;> decide
    exact h s

/-- Witness for C22: two different codes have different strings, and the value `99` has the
string of an unknown code. -/
theorem C22_status_strings_witness :
    HIPDNN_STATUS_BAD_PARAM = HIPDNN_STATUS_BAD_PARAM ∧
    hipdnnGetErrorString (.other 99) = "Unrecognized Status Code" ∧
    hipdnnGetErrorString (.named HIPDNN_STATUS_ALLOC_FAILED) ≠ hipdnnGetErrorString (.other 99) :=
  ⟨C22_status_strings.2.2.2.2.2.2.2.2.2.2.2.2.2.1 HIPDNN_STATUS_BAD_PARAM
      HIPDNN_STATUS_BAD_PARAM rfl,
    C22_status_strings.2.2.2.2.2.2.2.2.2.2.2.2.2.2.1 99,
    C22_status_strings.2.2.2.2.2.2.2.2.2.2.2.2.2.2.2 HIPDNN_STATUS_ALLOC_FAILED 99⟩

end StringClaims

section EnumeratorClaims

variable {α : Type}

/-- **C24** Algorithm enumerators are well defined on their advertised range: the counts are
`4`, `2` and `2`; for every index `0 <= i < count` the backend algorithm with ordinal `i` is
translated with success, so `CHECK_HIPDNN` lets the function return and `retVal` holds the
translation; distinct indices of the range give distinct hipdnn algorithms; and for every
`i >= count` the function returns the translation of the fixed fallback (Winograd, GEMM and
Winograd). -/
theorem C24_algorithm_enumerators (env : Backend α) (i j : Int) :
    ConvolutionFwdAlgoCount = 4 ∧ ConvolutionBwdFilterAlgoCount = 2 ∧
    ConvolutionBwdDataAlgoCount = 2 ∧
    (0 ≤ i → i < ConvolutionFwdAlgoCount →
      (miopenTohipConvolutionFwdAlgo (miopenConvFwdAlgorithm_t.ofInt i)).1 =
        HIPDNN_STATUS_SUCCESS ∧
      ∃ v, GetConvolutionFwdAlgo env i = (none, some v) ∧
        miopenTohipConvolutionFwdAlgo (miopenConvFwdAlgorithm_t.ofInt i) =
          (HIPDNN_STATUS_SUCCESS, some v)) ∧
    (0 ≤ i → i < ConvolutionBwdFilterAlgoCount →
      (miopenTohipConvolutionBwdFilterAlgo (miopenConvBwdWeightsAlgorithm_t.ofInt i)).1 =
        HIPDNN_STATUS_SUCCESS ∧
      ∃ v, GetConvolutionBwdFilterAlgo env i = (none, some v) ∧
        miopenTohipConvolutionBwdFilterAlgo (miopenConvBwdWeightsAlgorithm_t.ofInt i) =
          (HIPDNN_STATUS_SUCCESS, some v)) ∧
    (0 ≤ i → i < ConvolutionBwdDataAlgoCount →
      (miopenTohipConvolutionBwdDataAlgo (miopenConvBwdDataAlgorithm_t.ofInt i)).1 =
        HIPDNN_STATUS_SUCCESS ∧
      ∃ v, GetConvolutionBwdDataAlgo env i = (none, some v) ∧
        miopenTohipConvolutionBwdDataAlgo (miopenConvBwdDataAlgorithm_t.ofInt i) =
          (HIPDNN_STATUS_SUCCESS, some v)) ∧
    (0 ≤ i → i < ConvolutionFwdAlgoCount → 0 ≤ j → j < ConvolutionFwdAlgoCount → i ≠ j →
      GetConvolutionFwdAlgo env i ≠ GetConvolutionFwdAlgo env j) ∧
    (0 ≤ i → i < ConvolutionBwdFilterAlgoCount → 0 ≤ j → j < ConvolutionBwdFilterAlgoCount →
      i ≠ j → GetConvolutionBwdFilterAlgo env i ≠ GetConvolutionBwdFilterAlgo env j) ∧
    (0 ≤ i → i < ConvolutionBwdDataAlgoCount → 0 ≤ j → j < ConvolutionBwdDataAlgoCount →
      i ≠ j → GetConvolutionBwdDataAlgo env i ≠ GetConvolutionBwdDataAlgo env j) ∧
    (ConvolutionFwdAlgoCount ≤ i →
      GetConvolutionFwdAlgo env i = (none, some HIPDNN_CONVOLUTION_FWD_ALGO_WINOGRAD) ∧
      miopenTohipConvolutionFwdAlgo miopenConvolutionFwdAlgoWinograd =
        (HIPDNN_STATUS_SUCCESS, some HIPDNN_CONVOLUTION_FWD_ALGO_WINOGRAD)) ∧
    (ConvolutionBwdFilterAlgoCount ≤ i →
      GetConvolutionBwdFilterAlgo env i = (none, some HIPDNN_CONVOLUTION_BWD_FILTER_ALGO_0) ∧
      miopenTohipConvolutionBwdFilterAlgo miopenConvolutionBwdWeightsAlgoGEMM =
        (HIPDNN_STATUS_SUCCESS, some HIPDNN_CONVOLUTION_BWD_FILTER_ALGO_0)) ∧
    (ConvolutionBwdDataAlgoCount ≤ i →
      GetConvolutionBwdDataAlgo env i =
        (none, some HIPDNN_CONVOLUTION_BWD_DATA_ALGO_WINOGRAD) ∧
      miopenTohipConvolutionBwdDataAlgo miopenConvolutionBwdDataAlgoWinograd =
        (HIPDNN_STATUS_SUCCESS, some HIPDNN_CONVOLUTION_BWD_DATA_ALGO_WINOGRAD)) := by
  have c4 : ∀ k : Int, 0 ≤ k → k < 4 → k = 0 ∨ k = 1 ∨ k = 2 ∨ k = 3 := by
    intro k h0 h1
    omega
  have c2 : ∀ k : Int, 0 ≤ k → k < 2 → k = 0 ∨ k = 1 := by
    intro k h0 h1
    omega
  refine ⟨rfl, rfl, rfl, ?_, ?_, ?_, ?_, ?_, ?_, ?_, ?_, ?_⟩
  · intro h0 h1
    rcases c4 i h0 h1 with h | h | h | h <;> subst h <;>
      exact ⟨rfl, _, by simp [GetConvolutionFwdAlgo, ConvolutionFwdAlgoCount,
        miopenConvFwdAlgorithm_t.ofInt, miopenTohipConvolutionFwdAlgo, CHECK_HIPDNN], rfl⟩
  · intro h0 h1
    rcases c2 i h0 h1 with h | h <;> subst h <;>
      exact ⟨rfl, _, by simp [GetConvolutionBwdFilterAlgo, ConvolutionBwdFilterAlgoCount,
        miopenConvBwdWeightsAlgorithm_t.ofInt, miopenTohipConvolutionBwdFilterAlgo,
        CHECK_HIPDNN], rfl⟩
  · intro h0 h1
    rcases c2 i h0 h1 with h | h <;> subst h <;>
      exact ⟨rfl, _, by simp [GetConvolutionBwdDataAlgo, ConvolutionBwdDataAlgoCount,
        miopenConvBwdDataAlgorithm_t.ofInt, miopenTohipConvolutionBwdDataAlgo,
        CHECK_HIPDNN], rfl⟩
  · intro h0 h1 h2 h3 hne
    rcases c4 i h0 h1 with h | h | h | h <;> rcases c4 j h2 h3 with g | g | g | g <;>
      subst h <;> subst g <;>
      first
        | exact absurd rfl hne
        | simp [GetConvolutionFwdAlgo, ConvolutionFwdAlgoCount,
            miopenConvFwdAlgorithm_t.ofInt, miopenTohipConvolutionFwdAlgo]
  · intro h0 h1 h2 h3 hne
    rcases c2 i h0 h1 with h | h <;> rcases c2 j h2 h3 with g | g <;>
      subst h <;> subst g <;>
      first
        | exact absurd rfl hne
        | simp [GetConvolutionBwdFilterAlgo, ConvolutionBwdFilterAlgoCount,
            miopenConvBwdWeightsAlgorithm_t.ofInt, miopenTohipConvolutionBwdFilterAlgo]
  · intro h0 h1 h2 h3 hne
    rcases c2 i h0 h1 with h | h <;> rcases c2 j h2 h3 with g | g <;>
      subst h <;> subst g <;>
      first
        | exact absurd rfl hne
        | simp [GetConvolutionBwdDataAlgo, ConvolutionBwdDataAlgoCount,
            miopenConvBwdDataAlgorithm_t.ofInt, miopenTohipConvolutionBwdDataAlgo]
  · intro h
    refine ⟨?_, rfl⟩
    unfold GetConvolutionFwdAlgo
    rw [if_neg (not_lt.mpr h)]
    simp [miopenTohipConvolutionFwdAlgo, CHECK_HIPDNN]
  · intro h
    refine ⟨?_, rfl⟩
    unfold GetConvolutionBwdFilterAlgo
    rw [if_neg (not_lt.mpr h)]
    simp [miopenTohipConvolutionBwdFilterAlgo, CHECK_HIPDNN]
  · intro h
    refine ⟨?_, rfl⟩
    unfold GetConvolutionBwdDataAlgo
    rw [if_neg (not_lt.mpr h)]
    simp [miopenTohipConvolutionBwdDataAlgo, CHECK_HIPDNN]

/-- Witness for C24: index `2` of the forward enumerator is FFT, index `0` and index `1` of
the backward-filter enumerator differ, and index `7` of the backward-data enumerator falls
back to Winograd. -/
theorem C24_algorithm_enumerators_witness :
    GetConvolutionFwdAlgo demoBackend 2 = (none, some HIPDNN_CONVOLUTION_FWD_ALGO_FFT) ∧
    GetConvolutionBwdFilterAlgo demoBackend 0 ≠ GetConvolutionBwdFilterAlgo demoBackend 1 ∧
    GetConvolutionBwdDataAlgo demoBackend 7 =
      (none, some HIPDNN_CONVOLUTION_BWD_DATA_ALGO_WINOGRAD) := by
  have h := C24_algorithm_enumerators demoBackend
  obtain ⟨v, hv, ht⟩ := ((h 2 0).2.2.2.1 (by decide) (by decide)).2
  have hv2 : v = HIPDNN_CONVOLUTION_FWD_ALGO_FFT := by
    have : (HIPDNN_STATUS_SUCCESS, some HIPDNN_CONVOLUTION_FWD_ALGO_FFT) =
        (HIPDNN_STATUS_SUCCESS, some v) := ht
    simp at this
    exact this.symm
  subst hv2
  exact ⟨hv, (h 0 1).2.2.2.2.2.2.2.1 (by decide) (by decide) (by decide) (by decide)
    (by decide), ((h 7 0).2.2.2.2.2.2.2.2.2.2.2 (by decide)).1⟩

end EnumeratorClaims
/-! ## Backend failures, pooling reuse, caller workspace: the claims -/

section SurfaceClaims

variable {α : Type}

/-- A backend status other than success makes `CHECK_MIO` end the process. -/
theorem CHECK_MIO_refused (s : miopenStatus_t) (h : s ≠ miopenStatusSuccess) :
    CHECK_MIO s = some Outcome.exited := by
  cases s <;> simp [ CHECK_MIO, miopenTohipdnnStatus] at h ⊢

/-- `hipdnnConvolutionForward` with a refused primitive. -/
theorem hipdnnConvolutionForward_refused (env : Backend α) (a : ConvFwdArgs) (w w1 : World α)
    (ws : DevPtr × Nat)
    (hacq : acquireWorkSpace env Family.ForwardConvolution a.convDesc a.convDesc
      (forwardSizeQuery a.handle a.wDesc a.xDesc a.convDesc a.yDesc) w = Step.next ws w1)
    (halgo : (hipTomiopenConvolutionFwdAlgo a.algo).1 = HIPDNN_STATUS_SUCCESS)
    (hs : env.status w1 ((ForwardCall.compute a).primitive ws.1 ws.2) ≠ miopenStatusSuccess) :
    hipdnnConvolutionForward env a w =
      (Outcome.exited,
        (backendCall env ((ForwardCall.compute a).primitive ws.1 ws.2) a.y w1).2) := by
  unfold hipdnnConvolutionForward
  rw [hacq]
  simp only [hipdnnConvolutionForward.compute, halgo, CHECK_HIPDNN_success]
  have h := CHECK_MIO_refused _ hs
  simp only [ForwardCall.primitive] at h
  simp only [backendCall, h]
  rfl

/-- A pooling call with a refused primitive. -/
theorem PoolCall.run_primitive_refused (env : Backend α) (c : PoolCall) (w w1 : World α)
    (ws : DevPtr × Nat)
    (hacq : acquireWorkSpace env Family.Pooling c.yDesc c.poolingDesc
      (Event.miopenPoolingGetWorkSpaceSize c.yDesc) w = Step.next ws w1)
    (hs : env.status w1 (c.primitive ws.1 ws.2) ≠ miopenStatusSuccess) :
    (c.run env w).1 = Outcome.exited ∧
    (c.run env w).2.trace = w1.trace ++ [c.primitive ws.1 ws.2] := by
  have h := CHECK_MIO_refused _ hs
  cases c with
  | Forward a =>
    simp only [PoolCall.run, PoolCall.yDesc, PoolCall.poolingDesc, PoolCall.primitive]
      at hacq h ⊢
    unfold hipdnnPoolingForward
    rw [hacq]
    simp only [backendCall, h]
    exact ⟨trivial, rfl⟩
  | Backward a =>
    simp only [PoolCall.run, PoolCall.yDesc, PoolCall.poolingDesc, PoolCall.primitive]
      at hacq h ⊢
    unfold hipdnnPoolingBackward
    rw [hacq]
    simp only [backendCall, h]
    exact ⟨trivial, rfl⟩

/-- A backward convolution with a refused primitive, on the direct path (`beta = 0`) and on
the emulated path. -/
theorem BackwardCall.run_backend_refused [Zero α] [Add α] [Mul α] [DecidableEq α]
    (env : Backend α) (c : BackwardCall) (w w1 : World α) (ws : DevPtr × Nat)
    (hacq : acquireWorkSpace env c.family c.convDesc c.convDesc c.sizeQuery w = Step.next ws w1)
    (halgo : c.algoStatus = HIPDNN_STATUS_SUCCESS) :
    (w1.deref c.beta = 0 →
      env.status w1 (c.primitive c.alpha c.beta ws) ≠ miopenStatusSuccess →
      (c.run env w).1 = Outcome.exited ∧
      (c.run env w).2.trace = w1.trace ++ [c.primitive c.alpha c.beta ws]) ∧
    (w1.deref c.beta ≠ 0 → ∀ prior w2, SaveAsPriorBuffer env c.dst w1 = Step.next prior w2 →
      env.status w2 (c.primitive c.alpha HostPtr.tempBeta ws) ≠ miopenStatusSuccess →
      (c.run env w).1 = Outcome.exited ∧
      (c.run env w).2.trace = w2.trace ++ [c.primitive c.alpha HostPtr.tempBeta ws]) := by
  constructor
  · intro hb hs
    have h := CHECK_MIO_refused _ hs
    rw [BackwardCall.run_eq, hacq]
    simp only [halgo, CHECK_HIPDNN_success, if_pos hb, backendCall, h]
    exact ⟨trivial, rfl⟩
  · intro hb prior w2 hsave hs
    have h := CHECK_MIO_refused _ hs
    rw [BackwardCall.run_eq, hacq]
    simp only [halgo, CHECK_HIPDNN_success, if_neg hb, hsave, backendCall, h]
    exact ⟨trivial, rfl⟩

/-- **C21** What a backend failure does to a compute entry point: when the backend primitive
of `hipdnnConvolutionForward`, of `hipdnnPoolingForward` or `hipdnnPoolingBackward`, or of
`hipdnnConvolutionBackwardFilter` or `hipdnnConvolutionBackwardData` (called directly with
`beta = 0`, or with `beta` forced to `0` after the snapshot) returns a status other than
`miopenStatusSuccess`, the entry point does not return to its caller: `CHECK_MIO` ends the
process by `std::exit`, and the primitive is the last external call made. -/
theorem C21_backend_failure_ends_process [Zero α] [Add α] [Mul α] [DecidableEq α]
    (env : Backend α) (w w1 : World α) (ws : DevPtr × Nat) (a : ConvFwdArgs) (p : PoolCall)
    (c : BackwardCall) :
    (acquireWorkSpace env Family.ForwardConvolution a.convDesc a.convDesc
        (forwardSizeQuery a.handle a.wDesc a.xDesc a.convDesc a.yDesc) w = Step.next ws w1 →
      (hipTomiopenConvolutionFwdAlgo a.algo).1 = HIPDNN_STATUS_SUCCESS →
      env.status w1 ((ForwardCall.compute a).primitive ws.1 ws.2) ≠ miopenStatusSuccess →
      (hipdnnConvolutionForward env a w).1 = Outcome.exited ∧
      (hipdnnConvolutionForward env a w).2.trace =
        w1.trace ++ [(ForwardCall.compute a).primitive ws.1 ws.2]) ∧
    (acquireWorkSpace env Family.Pooling p.yDesc p.poolingDesc
        (Event.miopenPoolingGetWorkSpaceSize p.yDesc) w = Step.next ws w1 →
      env.status w1 (p.primitive ws.1 ws.2) ≠ miopenStatusSuccess →
      (p.run env w).1 = Outcome.exited ∧
      (p.run env w).2.trace = w1.trace ++ [p.primitive ws.1 ws.2]) ∧
    (acquireWorkSpace env c.family c.convDesc c.convDesc c.sizeQuery w = Step.next ws w1 →
      c.algoStatus = HIPDNN_STATUS_SUCCESS →
      (w1.deref c.beta = 0 →
        env.status w1 (c.primitive c.alpha c.beta ws) ≠ miopenStatusSuccess →
        (c.run env w).1 = Outcome.exited ∧
        (c.run env w).2.trace = w1.trace ++ [c.primitive c.alpha c.beta ws]) ∧
      (w1.deref c.beta ≠ 0 → ∀ prior w2,
        SaveAsPriorBuffer env c.dst w1 = Step.next prior w2 →
        env.status w2 (c.primitive c.alpha HostPtr.tempBeta ws) ≠ miopenStatusSuccess →
        (c.run env w).1 = Outcome.exited ∧
        (c.run env w).2.trace = w2.trace ++ [c.primitive c.alpha HostPtr.tempBeta ws])) := by
  refine ⟨fun hacq halgo hs => ?_,
    fun hacq hs => PoolCall.run_primitive_refused env p w w1 ws hacq hs,
    fun hacq halgo => BackwardCall.run_backend_refused env c w w1 ws hacq halgo⟩
  rw [hipdnnConvolutionForward_refused env a w w1 ws hacq halgo hs]
  exact ⟨rfl, rfl⟩

/-- Witness for C21: a forward convolution at process start, with a backend that refuses
`miopenConvolutionForward`. -/
theorem C21_backend_failure_ends_process_witness :
    (hipdnnConvolutionForward demoBackendNoForward demoFwdArgs demoStart).1 = Outcome.exited ∧
    (hipdnnConvolutionForward demoBackendNoForward demoFwdArgs demoStart).2.trace =
      (acquireWorkSpace demoBackendNoForward Family.ForwardConvolution 7 7
        (forwardSizeQuery 1 3 2 7 4) demoStart).world.trace ++
        [(ForwardCall.compute demoFwdArgs).primitive 1 64] :=
  (C21_backend_failure_ends_process demoBackendNoForward demoStart
    (acquireWorkSpace demoBackendNoForward Family.ForwardConvolution 7 7
      (forwardSizeQuery 1 3 2 7 4) demoStart).world (1, 64) demoFwdArgs
    (PoolCall.Forward demoPoolFwdArgs) (BackwardCall.filter demoBwdFilterArgs)).1
    rfl rfl (by decide)

/-- Counterexample to C21 as worded: the backend answers `miopenStatusBadParm` to
`miopenConvolutionForward`, whose translation is `HIPDNN_STATUS_BAD_PARAM`, and
`hipdnnConvolutionForward` does not return that status: the process is ended by `std::exit`
after the three external calls size query, `hipMalloc` and primitive. -/
theorem C21_counterexample :
    demoBackendNoForward.status
      (acquireWorkSpace demoBackendNoForward Family.ForwardConvolution 7 7
        (forwardSizeQuery 1 3 2 7 4) demoStart).world
      ((ForwardCall.compute demoFwdArgs).primitive 1 64) = miopenStatusBadParm ∧
    miopenTohipdnnStatus miopenStatusBadParm = HIPDNN_STATUS_BAD_PARAM ∧
    (hipdnnConvolutionForward demoBackendNoForward demoFwdArgs demoStart).1 = Outcome.exited ∧
    (hipdnnConvolutionForward demoBackendNoForward demoFwdArgs demoStart).1 ≠
      Outcome.returned (miopenTohipdnnStatus miopenStatusBadParm) ∧
    (hipdnnConvolutionForward demoBackendNoForward demoFwdArgs demoStart).2.trace =
      [forwardSizeQuery 1 3 2 7 4, Event.hipMalloc 64 hipSuccess 1,
        Event.miopenConvolutionForward 1 (HostPtr.user 100) 2 10 3 11 7
          (some miopenConvolutionFwdAlgoGEMM) (HostPtr.user 101) 4 12 1 64] := by
  refine ⟨rfl, rfl, by decide, by decide, by decide⟩

/-- **C28** Caller-supplied workspace is ignored: each of `hipdnnConvolutionForward`,
`hipdnnConvolutionBackwardData`, `hipdnnConvolutionBackwardFilter` and the three
`Find*AlgorithmEx` entry points gives the same result (how it ends, the state with the trace
of external calls and their arguments, the cache maps, the entries written) whatever
`workSpace` and `workSpaceSizeInBytes` the caller passes; on a cache hit with entry `(p, s)`
a forward convolution whose algorithm translates hands `(p, s)` to the backend. -/
theorem C28_caller_workspace_ignored [Zero α] [Add α] [Mul α] [DecidableEq α]
    (env : Backend α) (w : World α) (workSpace : DevPtr) (workSpaceSizeInBytes : Nat)
    (a1 : ConvFwdArgs) (a2 : ConvBwdDataArgs) (a3 : ConvBwdFilterArgs) (f1 : FindFwdArgs)
    (f2 : FindBwdDataArgs) (f3 : FindBwdFilterArgs) (p : DevPtr) (s : Nat) :
    hipdnnConvolutionForward env
      { a1 with workSpace := workSpace, workSpaceSizeInBytes := workSpaceSizeInBytes } w =
      hipdnnConvolutionForward env a1 w ∧
    hipdnnConvolutionBackwardData env
      { a2 with workSpace := workSpace, workSpaceSizeInBytes := workSpaceSizeInBytes } w =
      hipdnnConvolutionBackwardData env a2 w ∧
    hipdnnConvolutionBackwardFilter env
      { a3 with workSpace := workSpace, workSpaceSizeInBytes := workSpaceSizeInBytes } w =
      hipdnnConvolutionBackwardFilter env a3 w ∧
    hipdnnFindConvolutionForwardAlgorithmEx env
      { f1 with workSpace := workSpace, workSpaceSizeInBytes := workSpaceSizeInBytes } w =
      hipdnnFindConvolutionForwardAlgorithmEx env f1 w ∧
    hipdnnFindConvolutionBackwardDataAlgorithmEx env
      { f2 with workSpace := workSpace, workSpaceSizeInBytes := workSpaceSizeInBytes } w =
      hipdnnFindConvolutionBackwardDataAlgorithmEx env f2 w ∧
    hipdnnFindConvolutionBackwardFilterAlgorithmEx env
      { f3 with workSpace := workSpace, workSpaceSizeInBytes := workSpaceSizeInBytes } w =
      hipdnnFindConvolutionBackwardFilterAlgorithmEx env f3 w ∧
    (w.sDescToWorkSpaceForwardConvolution.find a1.convDesc = some p →
      w.sDescToWorkSpaceForwardConvolutionSize.find a1.convDesc = some s →
      (hipTomiopenConvolutionFwdAlgo a1.algo).1 = HIPDNN_STATUS_SUCCESS →
      (hipdnnConvolutionForward env
        { a1 with workSpace := workSpace, workSpaceSizeInBytes := workSpaceSizeInBytes }
        w).2.trace =
        w.trace ++ [Event.miopenConvolutionForward a1.handle a1.alpha a1.xDesc a1.x a1.wDesc
          a1.w a1.convDesc (hipTomiopenConvolutionFwdAlgo a1.algo).2 a1.beta a1.yDesc a1.y
          p s]) := by
  refine ⟨rfl, rfl, rfl, rfl, rfl, rfl, fun hp hs halgo => ?_⟩
  show (hipdnnConvolutionForward env a1 w).2.trace = _
  unfold hipdnnConvolutionForward
  rw [acquireWorkSpace_hit env Family.ForwardConvolution a1.convDesc a1.convDesc _ w p s hp hs]
  simp only [hipdnnConvolutionForward.compute, halgo, CHECK_HIPDNN_success]
  split <;> simp [backendCall, World.emit, World.writeMem]

/-- Witness for C28: with the entry `(4096, 64)` cached for descriptor `7`, a forward
convolution called with the workspace `(555, 8)` hands `(4096, 64)` to the backend. -/
theorem C28_caller_workspace_ignored_witness :
    (hipdnnConvolutionForward demoBackend
      { demoFwdArgs with workSpace := 555, workSpaceSizeInBytes := 8 } demoCached).2.trace =
      demoCached.trace ++ [Event.miopenConvolutionForward 1 (HostPtr.user 100) 2 10 3 11 7
        (some miopenConvolutionFwdAlgoGEMM) (HostPtr.user 101) 4 12 4096 64] :=
  (C28_caller_workspace_ignored demoBackend demoCached 555 8 demoFwdArgs demoBwdDataArgs
    demoBwdFilterArgs demoFindFwdArgs ⟨1, 3, 11, 4, 12, 7, 2, 10, 1, 0, 0⟩
    ⟨1, 4, 12, 2, 10, 7, 3, 11, 1, 0, 0⟩ 4096 64).2.2.2.2.2.2 rfl rfl rfl

end SurfaceClaims

section PoolingReuse

variable {α : Type}

/-- A forward pooling that returns success from a miss: its get-or-allocate block went on,
and its external calls are size query, `hipMalloc` and primitive. -/
theorem hipdnnPoolingForward_miss_ok (env : Backend α) (a : PoolFwdArgs) (w : World α)
    (hmiss : w.sDescToWorkspacePooling.find a.yDesc = none)
    (hok : (hipdnnPoolingForward env a w).1 = Outcome.returned HIPDNN_STATUS_SUCCESS) :
    ∃ v w1, acquireWorkSpace env Family.Pooling a.yDesc a.poolingDesc
        (Event.miopenPoolingGetWorkSpaceSize a.yDesc) w = Step.next v w1 ∧
      hipdnnPoolingForward env a w = (Outcome.returned HIPDNN_STATUS_SUCCESS,
        (backendCall env (Event.miopenPoolingForward a.handle a.poolingDesc a.alpha a.xDesc
          a.x a.beta a.yDesc a.y true v.1 v.2) a.y w1).2) ∧
      w1.trace = w.trace ++ [Event.miopenPoolingGetWorkSpaceSize a.yDesc,
        Event.hipMalloc v.2 hipSuccess v.1] ∧
      w1.mem = w.mem ∧
      (w1.ws Family.Pooling).find a.yDesc = some v.1 ∧
      (w1.wsSize Family.Pooling).find a.yDesc = some v.2 := by
  unfold hipdnnPoolingForward at hok ⊢
  cases hacq : acquireWorkSpace env Family.Pooling a.yDesc a.poolingDesc
      (Event.miopenPoolingGetWorkSpaceSize a.yDesc) w with
  | stop o w1 =>
    rw [hacq] at hok
    have := acquireWorkSpace_stop _ _ _ _ _ _ _ _ hacq
    subst this
    simp at hok
  | next v w1 =>
    rw [hacq] at hok
    simp only [] at hok ⊢
    obtain ⟨-, ht, hp, hs⟩ := acquireWorkSpace_miss env _ _ _ _ _ _ _ hmiss hacq
    have hm := (acquireWorkSpace_effect env Family.Pooling a.yDesc a.poolingDesc
      (Event.miopenPoolingGetWorkSpaceSize a.yDesc) w).1
    rw [hacq] at hm
    cases ho : CHECK_MIO (backendCall env (Event.miopenPoolingForward a.handle a.poolingDesc
        a.alpha a.xDesc a.x a.beta a.yDesc a.y true v.1 v.2) a.y w1).1 with
    | some o =>
      rw [ho] at hok
      have := CHECK_MIO_some _ _ ho
      subst this
      simp at hok
    | none => exact ⟨v, w1, rfl, rfl, ht, hm, hp, hs⟩

/-- A forward pooling on a hit leaves the state its backend call leaves. -/
theorem hipdnnPoolingForward_hit_world (env : Backend α) (a : PoolFwdArgs) (u : World α)
    (p : DevPtr) (s : Nat) (hp : u.sDescToWorkspacePooling.find a.yDesc = some p)
    (hs : u.sDescToWorkspacePoolingSize.find a.yDesc = some s) :
    (hipdnnPoolingForward env a u).2 =
      (backendCall env (Event.miopenPoolingForward a.handle a.poolingDesc a.alpha a.xDesc
        a.x a.beta a.yDesc a.y true p s) a.y u).2 := by
  unfold hipdnnPoolingForward
  rw [acquireWorkSpace_hit env Family.Pooling a.yDesc a.poolingDesc _ u p s hp hs]
  simp only []
  split <;> rfl

/-- **C23** Pooling workspace reuse: from a cache with no entry for `yDesc`, when
`hipdnnPoolingForward` is run twice with the same arguments (the first run returning
success), the first run makes the size query, the allocation and the backend call, and the
second makes no size query and no allocation: its one external call is the backend primitive
with the same workspace pointer and size, and the maps and the heap stay as they are; with a
backend whose output is a function of the call and of the input array, and an input array
that is not the output array, the second output is the first; a following
`hipdnnPoolingBackward` with the same `yDesc` makes one external call, its primitive with
that same pointer, and allocates nothing. -/
theorem C23_pooling_workspace_reuse (env : Backend α) (w : World α) (a : PoolFwdArgs)
    (b : PoolBwdArgs) (hy : b.yDesc = a.yDesc)
    (hmiss : w.sDescToWorkspacePooling.find a.yDesc = none)
    (hok : (hipdnnPoolingForward env a w).1 = Outcome.returned HIPDNN_STATUS_SUCCESS) :
    ∃ (p : DevPtr) (s : Nat),
      (hipdnnPoolingForward env a w).2.trace =
        w.trace ++ [Event.miopenPoolingGetWorkSpaceSize a.yDesc,
          Event.hipMalloc s hipSuccess p,
          Event.miopenPoolingForward a.handle a.poolingDesc a.alpha a.xDesc a.x a.beta
            a.yDesc a.y true p s] ∧
      (hipdnnPoolingForward env a (hipdnnPoolingForward env a w).2).2.trace =
        (hipdnnPoolingForward env a w).2.trace ++
          [Event.miopenPoolingForward a.handle a.poolingDesc a.alpha a.xDesc a.x a.beta
            a.yDesc a.y true p s] ∧
      (hipdnnPoolingForward env a (hipdnnPoolingForward env a w).2).2.ws =
        (hipdnnPoolingForward env a w).2.ws ∧
      (hipdnnPoolingForward env a (hipdnnPoolingForward env a w).2).2.wsSize =
        (hipdnnPoolingForward env a w).2.wsSize ∧
      (hipdnnPoolingForward env a (hipdnnPoolingForward env a w).2).2.live =
        (hipdnnPoolingForward env a w).2.live ∧
      (a.x ≠ a.y →
        (∀ (e : Event) (u v : World α), u.mem a.x = v.mem a.x → env.output u e = env.output v e) →
        (hipdnnPoolingForward env a (hipdnnPoolingForward env a w).2).2.mem a.y =
          (hipdnnPoolingForward env a w).2.mem a.y) ∧
      (hipdnnPoolingBackward env b
          (hipdnnPoolingForward env a (hipdnnPoolingForward env a w).2).2).2.trace =
        (hipdnnPoolingForward env a (hipdnnPoolingForward env a w).2).2.trace ++
          [Event.miopenPoolingBackward b.handle b.poolingDesc b.alpha b.yDesc b.y b.dyDesc
            b.dy b.xDesc b.x b.beta b.dxDesc b.dx p] ∧
      (hipdnnPoolingBackward env b
          (hipdnnPoolingForward env a (hipdnnPoolingForward env a w).2).2).2.live =
        (hipdnnPoolingForward env a (hipdnnPoolingForward env a w).2).2.live := by
  obtain ⟨v, w1, hacq, hrun, ht, hm, hp, hs⟩ := hipdnnPoolingForward_miss_ok env a w hmiss hok
  -- the state after the first run
  have hp1 : (hipdnnPoolingForward env a w).2.sDescToWorkspacePooling.find a.yDesc
      = some v.1 := by
    rw [hrun]
    exact hp
  have hs1 : (hipdnnPoolingForward env a w).2.sDescToWorkspacePoolingSize.find a.yDesc
      = some v.2 := by
    rw [hrun]
    exact hs
  have h2 := PoolCall.run_hit env (PoolCall.Forward a) _ v.1 v.2 hp1 hs1
  obtain ⟨hp2, hs2⟩ := PoolCall.run_keeps_entry env (PoolCall.Forward a) _ a.yDesc v.1 v.2
    hp1 hs1
  simp only [PoolCall.run, PoolCall.primitive] at h2 hp2 hs2
  have h3 := PoolCall.run_hit env (PoolCall.Backward b)
    (hipdnnPoolingForward env a (hipdnnPoolingForward env a w).2).2 v.1 v.2
    (by simp only [PoolCall.yDesc]; rw [hy]; exact hp2)
    (by simp only [PoolCall.yDesc]; rw [hy]; exact hs2)
  simp only [PoolCall.run, PoolCall.primitive] at h3
  refine ⟨v.1, v.2, ?_, h2.1, h2.2.1, h2.2.2.1, h2.2.2.2, ?_, h3.1, h3.2.2.2⟩
  · rw [hrun]
    simp [backendCall, World.emit, World.writeMem, ht]
  · intro hxy hdet
    have hmy : ∀ (u : World α) (e : Event),
        (hipdnnPoolingForward env a u).2 = (backendCall env e a.y u).2 →
        (hipdnnPoolingForward env a u).2.mem a.y = env.output u e := by
      intro u e h
      rw [h]
      simp [backendCall, World.emit, World.writeMem]
    have hsecond := hipdnnPoolingForward_hit_world env a (hipdnnPoolingForward env a w).2
      v.1 v.2 hp1 hs1
    rw [hmy _ _ hsecond]
    rw [hrun]
    simp only [backendCall, World.emit, World.writeMem, Function.update_same]
    apply hdet
    simp only [Function.update_noteq hxy, hm]

/-- Witness for C23: the demo pooling forward on output descriptor `4`, run twice from
process start, and a pooling backward on the same output descriptor. -/
theorem C23_pooling_workspace_reuse_witness :
    ∃ (p : DevPtr) (s : Nat),
      (hipdnnPoolingForward demoBackend demoPoolFwdArgs demoStart).2.trace =
        demoStart.trace ++ [Event.miopenPoolingGetWorkSpaceSize 4,
          Event.hipMalloc s hipSuccess p,
          Event.miopenPoolingForward 1 8 (HostPtr.user 100) 2 10 (HostPtr.user 101) 4 12
            true p s] ∧
      (hipdnnPoolingForward demoBackend demoPoolFwdArgs
          (hipdnnPoolingForward demoBackend demoPoolFwdArgs demoStart).2).2.trace =
        (hipdnnPoolingForward demoBackend demoPoolFwdArgs demoStart).2.trace ++
          [Event.miopenPoolingForward 1 8 (HostPtr.user 100) 2 10 (HostPtr.user 101) 4 12
            true p s] ∧
      (hipdnnPoolingBackward demoBackend demoPoolBwdArgs
          (hipdnnPoolingForward demoBackend demoPoolFwdArgs
            (hipdnnPoolingForward demoBackend demoPoolFwdArgs demoStart).2).2).2.trace =
        (hipdnnPoolingForward demoBackend demoPoolFwdArgs
          (hipdnnPoolingForward demoBackend demoPoolFwdArgs demoStart).2).2.trace ++
          [Event.miopenPoolingBackward 1 8 (HostPtr.user 100) 4 12 5 13 2 10
            (HostPtr.user 101) 3 11 p] := by
  obtain ⟨p, s, h1, h2, -, -, -, -, h3, -⟩ :=
    C23_pooling_workspace_reuse demoBackend demoStart demoPoolFwdArgs demoPoolBwdArgs rfl rfl
      (by decide)
  exact ⟨p, s, h1, h2, h3⟩

end PoolingReuse
/-! ## Pooling descriptor setters and getter: the claims -/

section PoolingSetterClaims

variable {α : Type}

open hipdnnNanPropagation_t

/-- What `hipdnnSetPooling2dDescriptor` passes to the backend when the mode translates. -/
theorem hipdnnSetPooling2dDescriptor_trace (env : Backend α) (poolingDesc : Handle)
    (mode : hipdnnPoolingMode_t) (nanOpt : hipdnnNanPropagation_t)
    (h w pv ph sv sh : Int) (s : World α)
    (hm : (hipTomiopenPoolingMode mode).1 = HIPDNN_STATUS_SUCCESS) :
    (hipdnnSetPooling2dDescriptor env poolingDesc mode nanOpt h w pv ph sv sh s).2.trace =
      s.trace ++ [Event.miopenSet2dPoolingDescriptor poolingDesc (hipTomiopenPoolingMode mode).2
        h w ph pv sh sv] := by
  simp only [hipdnnSetPooling2dDescriptor, hm, CHECK_HIPDNN_success]
  split <;> simp [backendQuery, World.emit]

/-- What `hipdnnSetPoolingNdDescriptor` passes to the backend for `nbDims = 2` when the mode
translates. -/
theorem hipdnnSetPoolingNdDescriptor_trace (env : Backend α) (poolingDesc : Handle)
    (mode : hipdnnPoolingMode_t) (nanOpt : hipdnnNanPropagation_t)
    (windowDimA paddingA strideA : Nat → Int) (s : World α)
    (hm : (hipTomiopenPoolingMode mode).1 = HIPDNN_STATUS_SUCCESS) :
    (hipdnnSetPoolingNdDescriptor env poolingDesc mode nanOpt 2 windowDimA paddingA strideA
      s).2.trace =
      s.trace ++ [Event.miopenSet2dPoolingDescriptor poolingDesc (hipTomiopenPoolingMode mode).2
        (windowDimA 0) (windowDimA 1) (paddingA 0) (paddingA 1) (strideA 0) (strideA 1)] := by
  simp only [hipdnnSetPoolingNdDescriptor, hm, CHECK_HIPDNN_success, if_true]
  split <;> simp [backendQuery, World.emit]

/-- The two setters pass the same arguments exactly when the paddings are equal and the
strides are equal. -/
theorem pooling_setters_agree_iff (env : Backend α) (poolingDesc : Handle)
    (mode : hipdnnPoolingMode_t) (nanOpt : hipdnnNanPropagation_t)
    (windowDimA paddingA strideA : Nat → Int) (s : World α)
    (hm : (hipTomiopenPoolingMode mode).1 = HIPDNN_STATUS_SUCCESS) :
    (hipdnnSetPoolingNdDescriptor env poolingDesc mode nanOpt 2 windowDimA paddingA strideA
      s).2.trace =
      (hipdnnSetPooling2dDescriptor env poolingDesc mode nanOpt (windowDimA 0) (windowDimA 1)
        (paddingA 0) (paddingA 1) (strideA 0) (strideA 1) s).2.trace ↔
    (paddingA 0 = paddingA 1 ∧ strideA 0 = strideA 1) := by
  rw [hipdnnSetPoolingNdDescriptor_trace env poolingDesc mode nanOpt _ _ _ s hm,
    hipdnnSetPooling2dDescriptor_trace env poolingDesc mode nanOpt _ _ _ _ _ _ s hm]
  simp only [List.append_cancel_left_eq, List.cons.injEq, Event.miopenSet2dPoolingDescriptor.injEq,
    true_and, and_true]
  constructor
  · rintro ⟨h1, -, h3, -⟩
    exact ⟨h1, h3⟩
  · rintro ⟨h1, h3⟩
    exact ⟨h1, h1.symm, h3, h3.symm⟩

/-- **C29** At the input mode `HIPDNN_POOLING_MAX`, window `2 x 2`, vertical padding `1`,
horizontal padding `0`, vertical stride `2`, horizontal stride `1` (descriptor `8`, process
start, a backend that accepts): `hipdnnSetPoolingNdDescriptor` with `nbDims = 2` calls
`miopenSet2dPoolingDescriptor(8, miopenPoolingMax, 2, 2, 1, 0, 2, 1)`, and
`hipdnnSetPooling2dDescriptor` calls `miopenSet2dPoolingDescriptor(8, miopenPoolingMax, 2, 2,
0, 1, 1, 2)`, with padding and stride each in the other order. -/
theorem C29_pooling_setters_pass_different_tuples :
    (hipdnnSetPoolingNdDescriptor demoBackend 8 HIPDNN_POOLING_MAX HIPDNN_NOT_PROPAGATE_NAN 2
      (fun i => if i = 0 then 2 else 2) (fun i => if i = 0 then 1 else 0)
      (fun i => if i = 0 then 2 else 1) demoStart).2.trace =
      [Event.miopenSet2dPoolingDescriptor 8 (some miopenPoolingMax) 2 2 1 0 2 1] ∧
    (hipdnnSetPooling2dDescriptor demoBackend 8 HIPDNN_POOLING_MAX HIPDNN_NOT_PROPAGATE_NAN
      2 2 1 0 2 1 demoStart).2.trace =
      [Event.miopenSet2dPoolingDescriptor 8 (some miopenPoolingMax) 2 2 0 1 1 2] ∧
    (hipdnnSetPoolingNdDescriptor demoBackend 8 HIPDNN_POOLING_MAX HIPDNN_NOT_PROPAGATE_NAN 2
      (fun i => if i = 0 then 2 else 2) (fun i => if i = 0 then 1 else 0)
      (fun i => if i = 0 then 2 else 1) demoStart).1 =
      Outcome.returned HIPDNN_STATUS_SUCCESS ∧
    (hipdnnSetPooling2dDescriptor demoBackend 8 HIPDNN_POOLING_MAX HIPDNN_NOT_PROPAGATE_NAN
      2 2 1 0 2 1 demoStart).1 = Outcome.returned HIPDNN_STATUS_SUCCESS ∧
    (hipdnnSetPoolingNdDescriptor demoBackend 8 HIPDNN_POOLING_MAX HIPDNN_NOT_PROPAGATE_NAN 2
      (fun i => if i = 0 then 2 else 2) (fun i => if i = 0 then 1 else 0)
      (fun i => if i = 0 then 2 else 1) demoStart).2.trace ≠
      (hipdnnSetPooling2dDescriptor demoBackend 8 HIPDNN_POOLING_MAX HIPDNN_NOT_PROPAGATE_NAN
        2 2 1 0 2 1 demoStart).2.trace := by
  refine ⟨by decide, by decide, by decide, by decide, by decide⟩

/-- `hipdnnGetPooling2dDescriptor` never stores through `verticalPadding`. -/
theorem hipdnnGetPooling2dDescriptor_verticalPadding (env : Backend α) (poolingDesc : Handle)
    (fresh : miopenPoolingDescriptor) (padWLast : Bool) (out : Pooling2dOut) (s : World α) :
    (hipdnnGetPooling2dDescriptor env poolingDesc fresh padWLast out s).2.2.verticalPadding =
      out.verticalPadding := by
  unfold hipdnnGetPooling2dDescriptor
  simp only []
  split
  · rfl
  · split <;> rfl

/-- **C30** At the input `hipdnnSetPooling2dDescriptor(8, HIPDNN_POOLING_MAX,
HIPDNN_NOT_PROPAGATE_NAN, windowHeight = 2, windowWidth = 3, verticalPadding = 1,
horizontalPadding = 0, verticalStride = 2, horizontalStride = 1)` followed by
`hipdnnGetPooling2dDescriptor(8, ...)` with every integer output variable holding `7` before
the call (process start, a backend that accepts): both calls return success; window, strides
and mode come back as set; `*verticalPadding` is still `7`, not the `1` that was set,
whichever order the backend stores in; and `*horizontalPadding` holds the vertical padding
`1` when the backend stores `pad_w` last and `0` when it stores `pad_h` last. -/
theorem C30_pooling_get_loses_vertical_padding :
    (hipdnnSetPooling2dDescriptor demoBackend 8 HIPDNN_POOLING_MAX HIPDNN_NOT_PROPAGATE_NAN
      2 3 1 0 2 1 demoStart).1 = Outcome.returned HIPDNN_STATUS_SUCCESS ∧
    (∀ padWLast : Bool,
      (hipdnnGetPooling2dDescriptor demoBackend 8 demoFreshPooling padWLast demoPoolingOut
        (hipdnnSetPooling2dDescriptor demoBackend 8 HIPDNN_POOLING_MAX
          HIPDNN_NOT_PROPAGATE_NAN 2 3 1 0 2 1 demoStart).2).1 =
        Outcome.returned HIPDNN_STATUS_SUCCESS ∧
      (hipdnnGetPooling2dDescriptor demoBackend 8 demoFreshPooling padWLast demoPoolingOut
        (hipdnnSetPooling2dDescriptor demoBackend 8 HIPDNN_POOLING_MAX
          HIPDNN_NOT_PROPAGATE_NAN 2 3 1 0 2 1 demoStart).2).2.2 =
        ⟨HIPDNN_POOLING_MAX, HIPDNN_PROPAGATE_NAN, 2, 3, 7, if padWLast then 1 else 0, 2, 1⟩ ∧
      (hipdnnGetPooling2dDescriptor demoBackend 8 demoFreshPooling padWLast demoPoolingOut
        (hipdnnSetPooling2dDescriptor demoBackend 8 HIPDNN_POOLING_MAX
          HIPDNN_NOT_PROPAGATE_NAN 2 3 1 0 2 1 demoStart).2).2.2.verticalPadding ≠ 1) := by
  refine ⟨by decide, fun b => ?_⟩
  cases b <;> refine ⟨by decide, by decide, by decide⟩

end PoolingSetterClaims
/-! ## Strides of a filter descriptor: the claims -/

section StrideClaims

variable {α : Type}

theorem filterStrides_length : ∀ dims : List Int, (filterStrides dims).length = dims.length
  | [] => rfl
  | [_] => rfl
  | a :: d :: rest => by
    have ih := filterStrides_length (d :: rest)
    unfold filterStrides
    cases h : filterStrides (d :: rest) with
    | nil => rw [h] at ih; simp at ih
    | cons s ss =>
      rw [h] at ih
      simp only [List.length_cons] at ih ⊢
      omega

/-- The recurrence of the strides handed to the backend. -/
theorem filterStrides_getD : ∀ (dims : List Int) (i : Nat),
    (i + 1 = dims.length → (filterStrides dims).getD i 0 = 1) ∧
    (i + 1 < dims.length → (filterStrides dims).getD i 0 =
      wrapInt32 ((filterStrides dims).getD (i + 1) 0 * dims.getD (i + 1) 0))
  | [], i => by simp
  | [_], i => by
    constructor
    · intro h
      simp only [List.length_singleton] at h
      have : i = 0 := by omega
      subst this
      rfl
    · intro h
      simp at h
  | a :: d :: rest, i => by
    have ih := filterStrides_getD (d :: rest)
    have hl := filterStrides_length (d :: rest)
    unfold filterStrides
    cases h : filterStrides (d :: rest) with
    | nil => rw [h] at hl; simp at hl
    | cons s ss =>
      rw [h] at ih
      simp only []
      cases i with
      | zero =>
        constructor
        · intro h0
          simp at h0
        · intro _
          simp
      | succ j =>
        constructor
        · intro h0
          simp only [List.getD_cons_succ]
          exact (ih j).1 (by simpa using h0)
        · intro h0
          simp only [List.getD_cons_succ]
          exact (ih j).2 (by simpa using h0)

/-- In a build in which the element past the end yields what was stored, a load yields the
cell. -/
theorem FilterNdArray.load_keeping (arr : FilterNdArray) (nbDims : Int) (cells : Int → Int)
    (i : Int) : arr.load (fun v => v) nbDims cells i = cells i := by
  unfold FilterNdArray.load
  split_ifs <;> rfl

/-- The stride loop from counter `m - 1` on, with enough fuel: it ends; cells outside
`0 .. m - 1` keep their content; every cell below `m` holds `1` (the last) or the `int` product
of what the load of the next cell yields and the next dimension; every access has an index in
`0 .. nbDims - 1`; the accesses of `filterDimA` are loads; and when the loop starts at
`nbDims - 1` its first access is the store to `arr[nbDims - 1]`. -/
theorem strideLoop_spec (pastEnd : Int → Int) (arr : FilterNdArray) (nbDims : Int)
    (f : Int → Int) :
    ∀ (m fuel : Nat) (st : (Int → Int) × List ArrayAccess), (m : Int) ≤ nbDims → m < fuel →
    ∃ cells log,
      strideLoop pastEnd arr nbDims f fuel ((m : Int) - 1) st = some (cells, st.2 ++ log) ∧
      (∀ i : Int, (i < 0 ∨ (m : Int) ≤ i) → cells i = st.1 i) ∧
      (∀ i : Int, 0 ≤ i → i < m →
        cells i = if i = nbDims - 1 then 1
          else wrapInt32 (arr.load pastEnd nbDims cells (i + 1) * f (i + 1))) ∧
      (∀ a ∈ log, 0 ≤ a.index ∧ a.index ≤ nbDims - 1 ∧
        (a.array = arr ∨ (a.array = FilterNdArray.filterDimA ∧ a.store = false))) ∧
      (0 < m → (m : Int) = nbDims → ∃ rest, log = ⟨arr, nbDims - 1, true⟩ :: rest) := by
  intro m
  induction m with
  | zero =>
    intro fuel st _ hf
    obtain ⟨fuel1, rfl⟩ : ∃ k, fuel = k + 1 := ⟨fuel - 1, by omega⟩
    refine ⟨st.1, [], ?_, fun _ _ => rfl, ?_, ?_, ?_⟩
    · unfold strideLoop
      simp
    · intro i h0 h1
      simp at h1
      omega
    · intro a ha
      simp at ha
    · intro h
      omega
  | succ m ih =>
    intro fuel st hm hf
    obtain ⟨fuel1, rfl⟩ : ∃ k, fuel = k + 1 := ⟨fuel - 1, by omega⟩
    have hk : ((m + 1 : Nat) : Int) - 1 = (m : Int) := by push_cast; ring
    have hm0 : (0 : Int) ≤ (m : Int) := Int.natCast_nonneg m
    unfold strideLoop
    rw [hk, if_pos (by omega)]
    by_cases hlast : (m : Int) = nbDims - 1
    · rw [if_neg (by simpa using hlast)]
      obtain ⟨cells, log, hrun, hout, hin, hacc, -⟩ := ih fuel1
        (Function.update st.1 (m : Int) 1, st.2 ++ [⟨arr, (m : Int), true⟩]) (by omega)
        (by omega)
      refine ⟨cells, ⟨arr, (m : Int), true⟩ :: log, ?_, ?_, ?_, ?_, ?_⟩
      · rw [hrun]
        simp
      · intro i hi
        rw [hout i (by omega)]
        simp only []
        rw [Function.update_noteq (by omega)]
      · intro i h0 h1
        by_cases him : i = (m : Int)
        · subst him
          rw [if_pos hlast, hout _ (Or.inr le_rfl)]
          simp
        · exact hin i h0 (by push_cast at h1; omega)
      · intro a ha
        rcases List.mem_cons.mp ha with h | h
        · subst h
          exact ⟨hm0, by simp only []; omega, Or.inl rfl⟩
        · exact hacc a h
      · intro _ _
        exact ⟨log, by rw [hlast]⟩
    · rw [if_pos hlast]
      obtain ⟨cells, log, hrun, hout, hin, hacc, -⟩ := ih fuel1
        (Function.update st.1 (m : Int)
          (wrapInt32 (arr.load pastEnd nbDims st.1 ((m : Int) + 1) * f ((m : Int) + 1))),
          st.2 ++ [⟨arr, (m : Int) + 1, false⟩, ⟨FilterNdArray.filterDimA, (m : Int) + 1, false⟩,
            ⟨arr, (m : Int), true⟩]) (by omega) (by omega)
      refine ⟨cells, ⟨arr, (m : Int) + 1, false⟩ ::
        ⟨FilterNdArray.filterDimA, (m : Int) + 1, false⟩ :: ⟨arr, (m : Int), true⟩ :: log,
        ?_, ?_, ?_, ?_, ?_⟩
      · rw [hrun]
        simp
      · intro i hi
        rw [hout i (by omega)]
        simp only []
        rw [Function.update_noteq (by omega)]
      · intro i h0 h1
        by_cases him : i = (m : Int)
        · subst him
          have hc1 : cells ((m : Int) + 1) = st.1 ((m : Int) + 1) := by
            rw [hout _ (Or.inr (by omega))]
            simp only []
            rw [Function.update_noteq (by omega)]
          rw [if_neg hlast, hout _ (Or.inr le_rfl)]
          simp only [FilterNdArray.load, hc1]
          rw [Function.update_same]
        · exact hin i h0 (by push_cast at h1; omega)
      · intro a ha
        simp only [List.mem_cons] at ha
        push_cast at hm
        rcases ha with h | h | h | h
        · subst h
          exact ⟨by simp only []; omega, by simp only []; omega, Or.inl rfl⟩
        · subst h
          exact ⟨by simp only []; omega, by simp only []; omega, Or.inr ⟨rfl, rfl⟩⟩
        · subst h
          exact ⟨hm0, by simp only []; omega, Or.inl rfl⟩
        · exact hacc a h
      · intro _ h
        push_cast at h
        omega

/-- The accesses a stride loop makes do not depend on what the load past the end of the array
yields, nor on what the storage holds. -/
theorem strideLoop_accesses_any (p q : Int → Int) (arr : FilterNdArray) (nbDims : Int)
    (f : Int → Int) :
    ∀ (fuel : Nat) (k : Int) (st st2 : (Int → Int) × List ArrayAccess), st.2 = st2.2 →
      (strideLoop p arr nbDims f fuel k st).map Prod.snd =
        (strideLoop q arr nbDims f fuel k st2).map Prod.snd := by
  intro fuel
  induction fuel with
  | zero =>
    intro k st st2 _
    unfold strideLoop
    rfl
  | succ fuel ih =>
    intro k st st2 h
    unfold strideLoop
    split_ifs
    · exact ih _ _ _ (by simp only [h])
    · exact ih _ _ _ (by simp only [h])
    · simp [h]

/-- In a build in which the element past the end of the array yields what was stored there,
each stride loop of a call ends and leaves in the cells `0 .. nbDims - 1` the packed strides
`filterStrides`. -/
theorem strideLoops_eq_filterStrides (dims : List Int) (init : Int → Int)
    (arr : FilterNdArray) :
    ∃ cells log, strideLoops dims init arr = some (cells, log) ∧
      ∀ i : Nat, i < dims.length → cells i = (filterStrides dims).getD i 0 := by
  obtain ⟨cells, log, hrun, -, hin, -, -⟩ := strideLoop_spec (fun v => v) arr dims.length
    (arrayOf dims) dims.length (dims.length + 1) (init, []) le_rfl (Nat.lt_succ_self _)
  simp only [FilterNdArray.load_keeping] at hin
  refine ⟨cells, log, by simpa [strideLoops] using hrun, ?_⟩
  have key : ∀ j i : Nat, i + j + 1 = dims.length → cells i = (filterStrides dims).getD i 0 := by
    intro j
    induction j with
    | zero =>
      intro i hi
      rw [hin i (Int.natCast_nonneg _) (by exact_mod_cast (by omega : i < dims.length)),
        if_pos (by omega), (filterStrides_getD dims i).1 (by omega)]
    | succ j ih =>
      intro i hi
      rw [hin i (Int.natCast_nonneg _) (by exact_mod_cast (by omega : i < dims.length)),
        if_neg (by omega), (filterStrides_getD dims i).2 (by omega)]
      have h1 := ih (i + 1) (by omega)
      push_cast at h1
      rw [h1]
      simp [arrayOf]
  intro i hi
  exact key (dims.length - 1 - i) i (by omega)

/-- An integer in the range of `int` is its own `int` value. -/
theorem wrapInt32_of_int_range (x : Int) (h0 : -2 ^ 31 ≤ x) (h1 : x < 2 ^ 31) :
    wrapInt32 x = x := by
  unfold wrapInt32
  norm_num at h0 h1 ⊢
  omega

/-- The product of the dimensions after `k` is the product of those after `k + 1` times
dimension `k + 1`. -/
theorem drop_prod_step (dims : List Int) (k : Nat) (hlt : k + 1 < dims.length) :
    (dims.drop (k + 1)).prod = (dims.drop (k + 1 + 1)).prod * dims.getD (k + 1) 0 := by
  have hd : dims.drop (k + 1) = dims.getD (k + 1) 0 :: dims.drop (k + 1 + 1) := by
    rw [List.getD_eq_getElem _ _ hlt]
    exact List.drop_eq_getElem_cons hlt
  rw [hd, List.prod_cons, mul_comm]

/-- When the products of the trailing dimensions fit in an `int`, stride `k` is the
product of the dimensions after `k`. -/
theorem filterStrides_prod (dims : List Int)
    (hfit : ∀ k, k < dims.length →
      -2 ^ 31 ≤ (dims.drop (k + 1)).prod ∧ (dims.drop (k + 1)).prod < 2 ^ 31) :
    ∀ k, k < dims.length → (filterStrides dims).getD k 0 = (dims.drop (k + 1)).prod := by
  have key : ∀ j k : Nat, k + j + 1 = dims.length →
      (filterStrides dims).getD k 0 = (dims.drop (k + 1)).prod := by
    intro j
    induction j with
    | zero =>
      intro k hk
      rw [(filterStrides_getD dims k).1 (by omega), List.drop_of_length_le (by omega)]
      rfl
    | succ j ih =>
      intro k hk
      have hlt : k + 1 < dims.length := by omega
      rw [(filterStrides_getD dims k).2 hlt, ih (k + 1) (by omega)]
      rw [← drop_prod_step dims k hlt]
      exact wrapInt32_of_int_range _ (hfit k (by omega)).1 (hfit k (by omega)).2
  intro k hk
  exact key (dims.length - 1 - k) k (by omega)

/-- Element `i` of a list built over `List.range`. -/
theorem getD_map_range (f : Nat → Int) (n i : Nat) (h : i < n) :
    ((List.range n).map f).getD i 0 = f i := by
  rw [List.getD_eq_getElem _ _ (by simpa using h)]
  simp

/-- What `hipdnnSetFilterNdDescriptor` hands to the backend, in every build and for every
dimension array, when the data type is one the backend has: its one external call is
`miopenSetTensorDescriptor` with `nbDims` strides, of which the last is what the load past the
end of `strideDimA` yields then, the one before is the `int` product of what that load yielded
inside the loop and the last dimension, and every earlier one is the `int` product of the next
stride and the next dimension. -/
theorem hipdnnSetFilterNdDescriptor_hands (env : Backend α) (filterDesc : Handle)
    (dataType : hipdnnDataType_t) (format : hipdnnTensorFormat_t) (dims : List Int)
    (s : World α) (hd : (hipTomiopenDataType dataType).1 = HIPDNN_STATUS_SUCCESS) :
    ∃ strides : List Int,
      (hipdnnSetFilterNdDescriptor env filterDesc dataType format dims s).2.trace =
        s.trace ++ [Event.miopenSetTensorDescriptor filterDesc (hipTomiopenDataType dataType).2
          (dims.length : Int) dims strides] ∧
      strides.length = dims.length ∧
      (1 ≤ dims.length → strides.getD (dims.length - 1) 0 = env.pastTheEnd 2 1) ∧
      (2 ≤ dims.length → strides.getD (dims.length - 2) 0 =
        wrapInt32 (env.pastTheEnd 1 1 * dims.getD (dims.length - 1) 0)) ∧
      (∀ k, k + 2 < dims.length →
        strides.getD k 0 = wrapInt32 (strides.getD (k + 1) 0 * dims.getD (k + 1) 0)) := by
  obtain ⟨c1, l1, h1, -, -, -, -⟩ := strideLoop_spec (env.pastTheEnd 0) FilterNdArray.strideA
    dims.length (arrayOf dims) dims.length (dims.length + 1) (fun _ => 0, []) le_rfl
    (Nat.lt_succ_self _)
  obtain ⟨c2, l2, h2, -, hin, -, -⟩ := strideLoop_spec (env.pastTheEnd 1)
    FilterNdArray.strideDimA dims.length (arrayOf dims) dims.length (dims.length + 1)
    (fun _ => 0, []) le_rfl (Nat.lt_succ_self _)
  have hlast : 1 ≤ dims.length → c2 ((dims.length : Int) - 1) = 1 := by
    intro hn
    rw [hin _ (by omega) (by omega), if_pos rfl]
  refine ⟨(List.range dims.length).map fun (i : Nat) =>
    FilterNdArray.strideDimA.load (env.pastTheEnd 2) dims.length c2 (i : Int), ?_, by simp,
    ?_, ?_, ?_⟩
  · unfold hipdnnSetFilterNdDescriptor
    rw [h1]
    simp only [hd, CHECK_HIPDNN_success]
    rw [h2]
    simp only []
    split <;> simp [backendQuery, World.emit]
  · intro hn
    rw [getD_map_range _ _ _ (by omega)]
    have hc : ((dims.length - 1 : Nat) : Int) = (dims.length : Int) - 1 := by omega
    rw [hc]
    unfold FilterNdArray.load
    rw [if_neg (by simp [FilterNdArray.declaredLength]), hlast hn]
  · intro hn
    rw [getD_map_range _ _ _ (by omega)]
    have hc : ((dims.length - 2 : Nat) : Int) = (dims.length : Int) - 2 := by omega
    have he : (dims.length : Int) - 2 + 1 = (dims.length : Int) - 1 := by ring
    have ha : arrayOf dims ((dims.length : Int) - 1) = dims.getD (dims.length - 1) 0 := by
      unfold arrayOf
      congr 1
      omega
    rw [hc]
    unfold FilterNdArray.load
    rw [if_pos (by simp [FilterNdArray.declaredLength]), hin _ (by omega) (by omega),
      if_neg (by omega), he]
    unfold FilterNdArray.load
    rw [if_neg (by simp [FilterNdArray.declaredLength]), hlast (by omega), ha]
  · intro k hk
    rw [getD_map_range _ _ _ (by omega), getD_map_range _ _ _ (by omega)]
    have ha : arrayOf dims ((k : Int) + 1) = dims.getD (k + 1) 0 := by
      unfold arrayOf
      congr 1
    unfold FilterNdArray.load
    rw [if_pos (by simp only [FilterNdArray.declaredLength]; omega),
      if_pos (by simp only [FilterNdArray.declaredLength]; push_cast; omega),
      hin _ (by omega) (by omega), if_neg (by omega)]
    unfold FilterNdArray.load
    rw [if_pos (by simp only [FilterNdArray.declaredLength]; omega), ha]
    push_cast
    rfl

/-- Entry point `hipdnnSetFilterNdDescriptor` ends for every input: the stride loops never run
out of fuel. -/
theorem hipdnnSetFilterNdDescriptor_ends (env : Backend α) (filterDesc : Handle)
    (dataType : hipdnnDataType_t) (format : hipdnnTensorFormat_t) (dims : List Int)
    (s : World α) :
    (hipdnnSetFilterNdDescriptor env filterDesc dataType format dims s).1 ≠ Outcome.hang := by
  obtain ⟨c1, l1, h1, -, -, -, -⟩ := strideLoop_spec (env.pastTheEnd 0) FilterNdArray.strideA
    dims.length (arrayOf dims) dims.length (dims.length + 1) (fun _ => 0, []) le_rfl
    (Nat.lt_succ_self _)
  obtain ⟨c2, l2, h2, -, -, -, -⟩ := strideLoop_spec (env.pastTheEnd 1)
    FilterNdArray.strideDimA dims.length (arrayOf dims) dims.length (dims.length + 1)
    (fun _ => 0, []) le_rfl (Nat.lt_succ_self _)
  unfold hipdnnSetFilterNdDescriptor
  rw [h1]
  simp only []
  cases hc : CHECK_HIPDNN env (hipTomiopenDataType dataType).1 with
  | some o =>
    exact CHECK_HIPDNN_ne_hang env _ o hc
  | none =>
    simp only []
    rw [h2]
    simp only []
    split
    · rename_i o ho
      rw [CHECK_MIO_some _ o ho]
      simp
    · simp

/-- In a build in which the element past the end of a stride array yields what was stored
there, the strides `hipdnnSetFilterNdDescriptor` hands to the backend are the packed strides
`filterStrides`. -/
theorem hipdnnSetFilterNdDescriptor_keeping (env : Backend α) (filterDesc : Handle)
    (dataType : hipdnnDataType_t) (format : hipdnnTensorFormat_t) (dims : List Int)
    (s : World α) (hd : (hipTomiopenDataType dataType).1 = HIPDNN_STATUS_SUCCESS)
    (hkeep : ∀ j v, env.pastTheEnd j v = v) :
    (hipdnnSetFilterNdDescriptor env filterDesc dataType format dims s).2.trace =
      s.trace ++ [Event.miopenSetTensorDescriptor filterDesc (hipTomiopenDataType dataType).2
        (dims.length : Int) dims (filterStrides dims)] := by
  obtain ⟨strides, htr, hlen, hl1, hl2, hrec⟩ :=
    hipdnnSetFilterNdDescriptor_hands env filterDesc dataType format dims s hd
  rw [hkeep] at hl1 hl2
  have hstep : ∀ k, k + 1 < dims.length →
      strides.getD k 0 = wrapInt32 (strides.getD (k + 1) 0 * dims.getD (k + 1) 0) := by
    intro k hk
    by_cases h2 : k + 2 < dims.length
    · exact hrec k h2
    · have hk2 : k = dims.length - 2 := by omega
      have hk1 : k + 1 = dims.length - 1 := by omega
      rw [hk1, hl1 (by omega), hk2]
      exact hl2 (by omega)
  have key : ∀ j i : Nat, i + j + 1 = dims.length →
      strides.getD i 0 = (filterStrides dims).getD i 0 := by
    intro j
    induction j with
    | zero =>
      intro i hi
      have hi1 : i = dims.length - 1 := by omega
      rw [(filterStrides_getD dims i).1 (by omega), hi1]
      exact hl1 (by omega)
    | succ j ih =>
      intro i hi
      rw [hstep i (by omega), (filterStrides_getD dims i).2 (by omega), ih (i + 1) (by omega)]
  have heq : strides = filterStrides dims := by
    refine List.ext_getElem (by rw [hlen, filterStrides_length]) (fun i h1 h2 => ?_)
    rw [← List.getD_eq_getElem _ 0 h1, ← List.getD_eq_getElem _ 0 h2]
    exact key (dims.length - 1 - i) i (by rw [hlen] at h1; omega)
  rw [htr, heq]

/-- The intended result, in a build in which the element past the end of a stride array
yields what was stored there: for `nbDims >= 1` and a dimension array whose products of
trailing dimensions fit in an `int`, the strides handed to the backend have `nbDims` entries,
the last is `1`, and every other is the next stride times the next dimension, that is, the
product of the dimensions after it. -/
theorem hipdnnSetFilterNdDescriptor_packed (env : Backend α) (filterDesc : Handle)
    (dataType : hipdnnDataType_t) (format : hipdnnTensorFormat_t) (dims : List Int)
    (s : World α) (hd : (hipTomiopenDataType dataType).1 = HIPDNN_STATUS_SUCCESS)
    (hkeep : ∀ j v, env.pastTheEnd j v = v) (hn : 1 ≤ dims.length)
    (hfit : ∀ k, k < dims.length →
      -2 ^ 31 ≤ (dims.drop (k + 1)).prod ∧ (dims.drop (k + 1)).prod < 2 ^ 31) :
    ∃ strides : List Int,
      (hipdnnSetFilterNdDescriptor env filterDesc dataType format dims s).2.trace =
        s.trace ++ [Event.miopenSetTensorDescriptor filterDesc (hipTomiopenDataType dataType).2
          (dims.length : Int) dims strides] ∧
      strides.length = dims.length ∧
      strides.getD (dims.length - 1) 0 = 1 ∧
      (∀ k, k + 1 < dims.length →
        strides.getD k 0 = strides.getD (k + 1) 0 * dims.getD (k + 1) 0) ∧
      (∀ k, k < dims.length → strides.getD k 0 = (dims.drop (k + 1)).prod) := by
  have hp := filterStrides_prod dims hfit
  refine ⟨filterStrides dims,
    hipdnnSetFilterNdDescriptor_keeping env filterDesc dataType format dims s hd hkeep,
    filterStrides_length dims, (filterStrides_getD dims (dims.length - 1)).1 (by omega),
    ?_, hp⟩
  intro k hk
  rw [hp k (by omega), hp (k + 1) hk]
  exact drop_prod_step dims k hk

/-- Even in a build in which the element past the end yields what was stored there, the
products are `int` products: for the dimensions `{1, 65536, 65536}` the product
`65536 * 65536` does not fit, and the strides handed to the backend are `{0, 65536, 1}`. -/
theorem hipdnnSetFilterNdDescriptor_wraps :
    (hipdnnSetFilterNdDescriptor demoBackend 3 HIPDNN_DATA_FLOAT HIPDNN_TENSOR_NCHW
      [1, 65536, 65536] demoStart).2.trace =
      [Event.miopenSetTensorDescriptor 3 (some miopenFloat) 3 [1, 65536, 65536]
        [0, 65536, 1]] ∧
    (filterStrides [1, 65536, 65536]).getD 0 0 ≠
      (([1, 65536, 65536] : List Int).drop 1).prod := by
  refine ⟨by decide, by decide⟩

/-- **C25** At the input `filterDesc = 3`, `HIPDNN_DATA_FLOAT`, `nbDims = 4`,
`filterDimA = {2, 3, 4, 5}`, from process start: the packed strides are `{60, 20, 5, 1}`, and
they are what `miopenSetTensorDescriptor` is handed in a build in which the element past the
end of `int strideDimA[3]` yields what was stored there. But `strideDimA[3]` is outside the
array, the loop loads it back to compute `strideDimA[2]`, and the backend reads it as the
fourth stride: in a build in which these loads yield `2` and `3` instead of the `1` that was
stored, the strides handed over are `{120, 40, 10, 3}`, where the last stride is not `1` and
stride `2` is not stride `3` times dimension `3`; and there the array `strideA`, whose load
yielded `1`, holds `{60, 20, 5}` while `strideDimA` holds `{120, 40, 10}`: the two
alternatives left at the call site do not hold the same values. -/
theorem C25_strides_read_past_the_arrays :
    filterStrides [2, 3, 4, 5] = [60, 20, 5, 1] ∧
    FilterNdArray.declaredLength 4 FilterNdArray.strideDimA = 3 ∧
    (hipdnnSetFilterNdDescriptor demoBackend 3 HIPDNN_DATA_FLOAT HIPDNN_TENSOR_NCHW
      [2, 3, 4, 5] demoStart).2.trace =
      [Event.miopenSetTensorDescriptor 3 (some miopenFloat) 4 [2, 3, 4, 5] [60, 20, 5, 1]] ∧
    (hipdnnSetFilterNdDescriptor demoBackendPastEnd 3 HIPDNN_DATA_FLOAT HIPDNN_TENSOR_NCHW
      [2, 3, 4, 5] demoStart).1 = Outcome.returned HIPDNN_STATUS_SUCCESS ∧
    (hipdnnSetFilterNdDescriptor demoBackendPastEnd 3 HIPDNN_DATA_FLOAT HIPDNN_TENSOR_NCHW
      [2, 3, 4, 5] demoStart).2.trace =
      [Event.miopenSetTensorDescriptor 3 (some miopenFloat) 4 [2, 3, 4, 5]
        [120, 40, 10, 3]] ∧
    ([120, 40, 10, 3] : List Int).getD 3 0 ≠ 1 ∧
    ([120, 40, 10, 3] : List Int).getD 2 0 ≠
      ([120, 40, 10, 3] : List Int).getD 3 0 * ([2, 3, 4, 5] : List Int).getD 3 0 ∧
    (strideLoop (demoBackendPastEnd.pastTheEnd 0) FilterNdArray.strideA 4
      (arrayOf [2, 3, 4, 5]) 5 3 (fun _ => 0, [])).map (fun r => [r.1 0, r.1 1, r.1 2]) =
      some [60, 20, 5] ∧
    (strideLoop (demoBackendPastEnd.pastTheEnd 1) FilterNdArray.strideDimA 4
      (arrayOf [2, 3, 4, 5]) 5 3 (fun _ => 0, [])).map (fun r => [r.1 0, r.1 1, r.1 2]) =
      some [120, 40, 10] := by
  refine ⟨by decide, by decide, by decide, by decide, by decide, by decide, by decide,
    by decide, by decide⟩

/-- What the stride loops access, for every `nbDims >= 1`: the loop ends; its first access
is the store to element `nbDims - 1` of the local array, which is declared with `nbDims - 1`
elements; every index used is in `0 .. nbDims - 1`; and `filterDimA` is only read, at indices
below `nbDims`. -/
theorem strideLoops_accesses (dims : List Int) (init : Int → Int) (arr : FilterNdArray)
    (harr : arr ≠ FilterNdArray.filterDimA) (hn : 1 ≤ dims.length) :
    ∃ cells rest, strideLoops dims init arr =
        some (cells, ⟨arr, (dims.length : Int) - 1, true⟩ :: rest) ∧
      ¬ (⟨arr, (dims.length : Int) - 1, true⟩ : ArrayAccess).inBounds dims.length ∧
      (∀ a ∈ rest, 0 ≤ a.index ∧ a.index ≤ (dims.length : Int) - 1) ∧
      (∀ a ∈ rest, a.array = FilterNdArray.filterDimA →
        a.store = false ∧ a.inBounds dims.length) := by
  obtain ⟨cells, log, hrun, -, -, hacc, hhead⟩ := strideLoop_spec (fun v => v) arr dims.length
    (arrayOf dims) dims.length (dims.length + 1) (init, []) le_rfl (Nat.lt_succ_self _)
  obtain ⟨rest, hrest⟩ := hhead (by omega) rfl
  subst hrest
  refine ⟨cells, rest, by simpa [strideLoops] using hrun, ?_, ?_, ?_⟩
  · unfold ArrayAccess.inBounds
    cases arr <;> simp [FilterNdArray.declaredLength] at harr ⊢
  · intro a ha
    have h := hacc a (List.mem_cons_of_mem _ ha)
    exact ⟨h.1, h.2.1⟩
  · intro a ha hf
    have h := hacc a (List.mem_cons_of_mem _ ha)
    rcases h.2.2 with h1 | h1
    · exact absurd (h1.symm.trans hf) harr
    · refine ⟨h1.2, h.1, ?_⟩
      rw [hf]
      simp only [FilterNdArray.declaredLength]
      omega

/-- **C26** At the input `nbDims = 4`, `filterDimA = {1, 1, 1, 1}`: the loop over `strideA`
(declared `int strideA[3]`) makes the accesses store `strideA[3]`, load `strideA[3]`, load
`filterDimA[3]`, store `strideA[2]`, load `strideA[2]`, load `filterDimA[2]`, store
`strideA[1]`, load `strideA[1]`, load `filterDimA[1]`, store `strideA[0]`, and the loop over
`strideDimA` (declared `int strideDimA[3]`) the same on its array; the store and the load at
index `3` are outside the three declared elements, and every access of `filterDimA` is inside
its four elements. -/
theorem C26_stride_arrays_one_element_short :
    (strideLoops [1, 1, 1, 1] (fun _ => 0) FilterNdArray.strideA).map Prod.snd =
      some [⟨FilterNdArray.strideA, 3, true⟩, ⟨FilterNdArray.strideA, 3, false⟩,
        ⟨FilterNdArray.filterDimA, 3, false⟩, ⟨FilterNdArray.strideA, 2, true⟩,
        ⟨FilterNdArray.strideA, 2, false⟩, ⟨FilterNdArray.filterDimA, 2, false⟩,
        ⟨FilterNdArray.strideA, 1, true⟩, ⟨FilterNdArray.strideA, 1, false⟩,
        ⟨FilterNdArray.filterDimA, 1, false⟩, ⟨FilterNdArray.strideA, 0, true⟩] ∧
    (strideLoops [1, 1, 1, 1] (fun _ => 0) FilterNdArray.strideDimA).map Prod.snd =
      some [⟨FilterNdArray.strideDimA, 3, true⟩, ⟨FilterNdArray.strideDimA, 3, false⟩,
        ⟨FilterNdArray.filterDimA, 3, false⟩, ⟨FilterNdArray.strideDimA, 2, true⟩,
        ⟨FilterNdArray.strideDimA, 2, false⟩, ⟨FilterNdArray.filterDimA, 2, false⟩,
        ⟨FilterNdArray.strideDimA, 1, true⟩, ⟨FilterNdArray.strideDimA, 1, false⟩,
        ⟨FilterNdArray.filterDimA, 1, false⟩, ⟨FilterNdArray.strideDimA, 0, true⟩] ∧
    FilterNdArray.declaredLength 4 FilterNdArray.strideA = 3 ∧
    FilterNdArray.declaredLength 4 FilterNdArray.strideDimA = 3 ∧
    ¬ (⟨FilterNdArray.strideA, 3, true⟩ : ArrayAccess).inBounds 4 ∧
    ¬ (⟨FilterNdArray.strideA, 3, false⟩ : ArrayAccess).inBounds 4 ∧
    ¬ (⟨FilterNdArray.strideDimA, 3, true⟩ : ArrayAccess).inBounds 4 ∧
    (⟨FilterNdArray.filterDimA, 3, false⟩ : ArrayAccess).inBounds 4 := by
  refine ⟨by decide, by decide, by decide, by decide, by decide, by decide, by decide,
    by decide⟩

end StrideClaims
/-! ## CPU reference max pooling: the claim -/

section MaxpoolClaims

variable {α : Type} [LinearOrder α]

theorem foldl_flatMap_eq {σ β γ : Type} (f : σ → γ → σ) (g : β → List γ) (l : List β)
    (s : σ) : (l.flatMap g).foldl f s = l.foldl (fun st a => (g a).foldl f st) s := by
  induction l generalizing s with
  | nil => rfl
  | cons a l ih => simp only [List.flatMap_cons, List.foldl_append, List.foldl_cons, ih]

theorem foldl_ext_mem {σ β : Type} (f g : σ → β → σ) (l : List β) (s : σ)
    (h : ∀ st, ∀ x ∈ l, f st x = g st x) : l.foldl f s = l.foldl g s := by
  induction l generalizing s with
  | nil => rfl
  | cons a l ih =>
    simp only [List.foldl_cons]
    rw [h s a (List.mem_cons_self _ _)]
    exact ih _ (fun st x hx => h st x (List.mem_cons_of_mem _ hx))

/-- The two window loops run over the pairs `windowPairs`. -/
theorem maxpoolWindow_eq (lowest : α) (pd : test_2dpool_desc_t) (src : Nat → α)
    (n c oh ow : Int) :
    maxpoolWindow lowest pd src n c oh ow =
      (windowPairs pd).foldl
        (fun st k => maxpoolWindowStep pd src n c oh ow st (k.1 : Int) (k.2 : Int))
        (⟨lowest, 0, false⟩, []) := by
  unfold maxpoolWindow windowPairs
  rw [foldl_flatMap_eq]
  simp only [List.foldl_map]

/-- The four outer loops run over the positions `outputPositions`. -/
theorem compute_cpuref_maxpool_fwd_eq (lowest : α) (pd : test_2dpool_desc_t)
    (src dst : Nat → α) :
    compute_cpuref_maxpool_fwd lowest pd src dst =
      (outputPositions pd).foldl
        (fun st p => maxpoolOutputStep lowest pd src st (p.1 : Int) (p.2.1 : Int)
          (p.2.2.1 : Int) (p.2.2.2 : Int))
        (dst, [], []) := by
  unfold compute_cpuref_maxpool_fwd outputPositions
  rw [foldl_flatMap_eq]
  simp only [foldl_flatMap_eq, List.foldl_map]

theorem mem_windowPairs (pd : test_2dpool_desc_t) (k : Nat × Nat) :
    k ∈ windowPairs pd ↔ k.1 < pd.kh.toNat ∧ k.2 < pd.kw.toNat := by
  unfold windowPairs
  simp only [List.mem_flatMap, List.mem_map, List.mem_range]
  constructor
  · rintro ⟨a, ha, b, hb, rfl⟩
    exact ⟨ha, hb⟩
  · rintro ⟨h1, h2⟩
    exact ⟨k.1, h1, k.2, h2, rfl⟩

theorem mem_outputPositions (pd : test_2dpool_desc_t) (p : Nat × Nat × Nat × Nat) :
    p ∈ outputPositions pd ↔
      p.1 < pd.mb.toNat ∧ p.2.1 < pd.c.toNat ∧ p.2.2.1 < pd.oh.toNat ∧
        p.2.2.2 < pd.ow.toNat := by
  unfold outputPositions
  simp only [List.mem_flatMap, List.mem_map, List.mem_range]
  constructor
  · rintro ⟨a, ha, b, hb, c, hc, d, hd, rfl⟩
    exact ⟨ha, hb, hc, hd⟩
  · rintro ⟨h1, h2, h3, h4⟩
    exact ⟨p.1, h1, p.2.1, h2, p.2.2.1, h3, p.2.2.2, h4, rfl⟩

/-- Mixed radix: a digit pair is below the product of the radices. -/
theorem radix_lt (a A b B : Nat) (ha : a < A) (hb : b < B) : a * B + b < A * B := by
  have h : (a + 1) * B ≤ A * B := Nat.mul_le_mul_right B ha
  rw [Nat.add_mul, Nat.one_mul] at h
  omega

/-- Mixed radix: the digits are determined by the number. -/
theorem radix_inj (a a1 b b1 B : Nat) (hb : b < B) (hb1 : b1 < B)
    (h : a * B + b = a1 * B + b1) : a = a1 ∧ b = b1 := by
  have hB : 0 < B := by omega
  have h1 : (a * B + b) / B = a := by
    rw [Nat.mul_comm, Nat.mul_add_div hB, Nat.div_eq_of_lt hb, Nat.add_zero]
  have h2 : (a1 * B + b1) / B = a1 := by
    rw [Nat.mul_comm, Nat.mul_add_div hB, Nat.div_eq_of_lt hb1, Nat.add_zero]
  have ha : a = a1 := by rw [← h1, ← h2, h]
  subst ha
  exact ⟨rfl, by omega⟩

/-- The index of a four-dimensional position is below the number of elements. -/
theorem index4_lt (n N c C h H w W : Nat) (hn : n < N) (hc : c < C) (hh : h < H)
    (hw : w < W) : ((n * C + c) * H + h) * W + w < N * C * H * W :=
  radix_lt _ _ _ _ (radix_lt _ _ _ _ (radix_lt _ _ _ _ hn hc) hh) hw

/-- Two four-dimensional positions with the same index are the same. -/
theorem index4_inj (n n1 c c1 C h h1 H w w1 W : Nat) (hc : c < C) (hc1 : c1 < C)
    (hh : h < H) (hh1 : h1 < H) (hw : w < W) (hw1 : w1 < W)
    (he : ((n * C + c) * H + h) * W + w = ((n1 * C + c1) * H + h1) * W + w1) :
    n = n1 ∧ c = c1 ∧ h = h1 ∧ w = w1 := by
  obtain ⟨e1, e2⟩ := radix_inj _ _ _ _ _ hw hw1 he
  obtain ⟨e3, e4⟩ := radix_inj _ _ _ _ _ hh hh1 e1
  obtain ⟨e5, e6⟩ := radix_inj _ _ _ _ _ hc hc1 e3
  exact ⟨e5, e6, e4, e2⟩

/-- The `size_t` value of a natural number below `2 ^ 64`. -/
theorem toSizeT_natCast (a : Nat) (h : a < 2 ^ 64) : toSizeT (a : Int) = a := by
  unfold toSizeT
  rw [Int.emod_eq_of_lt (Int.natCast_nonneg a) (by exact_mod_cast h)]
  exact Int.toNat_natCast a

/-- The `size_t` index expression of the source is the index of the position when the array
has fewer than `2 ^ 64` elements. -/
theorem sizeT_index (n N c C h H w W : Nat) (hn : n < N) (hc : c < C) (hh : h < H)
    (hw : w < W) (hN : N < 2 ^ 31) (hC : C < 2 ^ 31) (hH : H < 2 ^ 31) (hW : W < 2 ^ 31)
    (hfit : N * C * H * W < 2 ^ 64) :
    (toSizeT (n : Int) * toSizeT (C : Int) * toSizeT (H : Int) * toSizeT (W : Int)
      + toSizeT (c : Int) * toSizeT (H : Int) * toSizeT (W : Int)
      + toSizeT (h : Int) * toSizeT (W : Int) + toSizeT (w : Int)) % 2 ^ 64
      = ((n * C + c) * H + h) * W + w := by
  rw [toSizeT_natCast n (by omega), toSizeT_natCast C (by omega), toSizeT_natCast H (by omega),
    toSizeT_natCast W (by omega), toSizeT_natCast c (by omega), toSizeT_natCast h (by omega),
    toSizeT_natCast w (by omega)]
  have hlt := index4_lt n N c C h H w W hn hc hh hw
  have he : n * C * H * W + c * H * W + h * W + w = ((n * C + c) * H + h) * W + w := by ring
  rw [he]
  exact Nat.mod_eq_of_lt (by omega)

/-- The index of a four-dimensional position given by integers that are not negative. -/
theorem index4_toNat (n C c H h W w : Nat) :
    ((((n : Int) * (C : Int) + (c : Int)) * (H : Int) + (h : Int)) * (W : Int)
      + (w : Int)).toNat = ((n * C + c) * H + h) * W + w := by
  have e : (((n : Int) * (C : Int) + (c : Int)) * (H : Int) + (h : Int)) * (W : Int) + (w : Int)
      = ((((n * C + c) * H + h) * W + w : Nat) : Int) := by push_cast; ring
  rw [e]
  exact Int.toNat_natCast _

/-- Without `int` overflow the row of a window element is computed exactly. -/
theorem window_coordinate (o O str pad k K : Int) (ho : 0 ≤ o) (hoO : o < O)
    (hstr : 0 ≤ str) (hpad : 0 ≤ pad) (hpad1 : pad < 2 ^ 31) (hk : 0 ≤ k) (hkK : k < K)
    (hfit : O * str + K ≤ 2 ^ 31) :
    wrapInt32 (wrapInt32 (wrapInt32 (o * str) - pad) + k) = o * str - pad + k := by
  have h0 : 0 ≤ o * str := mul_nonneg ho hstr
  have h1 : o * str ≤ O * str := mul_le_mul_of_nonneg_right (le_of_lt hoO) hstr
  rw [wrapInt32_of_int_range (o * str) (by omega) (by omega),
    wrapInt32_of_int_range (o * str - pad) (by omega) (by omega),
    wrapInt32_of_int_range (o * str - pad + k) (by omega) (by omega)]

/-- The body of the window loops for a descriptor in range, at a position inside the
output: a window element outside the input is skipped; one inside is read at its index and
compared. -/
theorem maxpoolWindowStep_inRange (pd : test_2dpool_desc_t) (hr : pd.InRange) (src : Nat → α)
    (n c oh ow kh kw : Nat) (hn : (n : Int) < pd.mb) (hc : (c : Int) < pd.c)
    (hoh : (oh : Int) < pd.oh) (how : (ow : Int) < pd.ow) (hkh : (kh : Int) < pd.kh)
    (hkw : (kw : Int) < pd.kw) (st : MaxpoolAcc α × List Nat) :
    maxpoolWindowStep pd src n c oh ow st kh kw =
      if 0 ≤ (oh : Int) * pd.strh - pd.padt + kh ∧ (oh : Int) * pd.strh - pd.padt + kh < pd.ih ∧
          0 ≤ (ow : Int) * pd.strw - pd.padl + kw ∧ (ow : Int) * pd.strw - pd.padl + kw < pd.iw
      then
        (if st.1.is_initialized = false ∨ st.1.acc_ref <
              src ((((n : Int) * pd.c + c) * pd.ih + ((oh : Int) * pd.strh - pd.padt + kh))
                * pd.iw + ((ow : Int) * pd.strw - pd.padl + kw)).toNat then
            ⟨src ((((n : Int) * pd.c + c) * pd.ih + ((oh : Int) * pd.strh - pd.padt + kh))
                * pd.iw + ((ow : Int) * pd.strw - pd.padl + kw)).toNat,
              wrapInt32 (wrapInt32 ((kh : Int) * pd.kw) + kw), true⟩
          else st.1,
          st.2 ++ [((((n : Int) * pd.c + c) * pd.ih + ((oh : Int) * pd.strh - pd.padt + kh))
                * pd.iw + ((ow : Int) * pd.strw - pd.padl + kw)).toNat])
      else st := by
  obtain ⟨⟨h1, h2, h3, h4, h5, h6⟩, ⟨h7, h8, h9, h10, h11, h12⟩, ⟨b1, b2, b3, b4, b5, b6⟩,
    ⟨b7, b8⟩, ⟨f1, f2⟩, ⟨g1, g2⟩⟩ := hr
  have eh := window_coordinate (oh : Int) pd.oh pd.strh pd.padt kh pd.kh
    (Int.natCast_nonneg _) hoh h11 h9 b7 (Int.natCast_nonneg _) hkh f1
  have ew := window_coordinate (ow : Int) pd.ow pd.strw pd.padl kw pd.kw
    (Int.natCast_nonneg _) how h12 h10 b8 (Int.natCast_nonneg _) hkw f2
  unfold maxpoolWindowStep
  simp only [eh, ew]
  by_cases hin : 0 ≤ (oh : Int) * pd.strh - pd.padt + kh ∧
      (oh : Int) * pd.strh - pd.padt + kh < pd.ih ∧
      0 ≤ (ow : Int) * pd.strw - pd.padl + kw ∧ (ow : Int) * pd.strw - pd.padl + kw < pd.iw
  · rw [if_pos hin, if_neg (by omega), if_neg (by omega)]
    obtain ⟨i0, i1, j0, j1⟩ := hin
    obtain ⟨MB, hMB⟩ := Int.eq_ofNat_of_zero_le h1
    obtain ⟨C, hC⟩ := Int.eq_ofNat_of_zero_le h2
    obtain ⟨IH, hIH⟩ := Int.eq_ofNat_of_zero_le h3
    obtain ⟨IW, hIW⟩ := Int.eq_ofNat_of_zero_le h4
    obtain ⟨h, hh⟩ := Int.eq_ofNat_of_zero_le i0
    obtain ⟨w, hw⟩ := Int.eq_ofNat_of_zero_le j0
    rw [hh] at i1
    rw [hw] at j1
    rw [hMB] at hn b1 g1
    rw [hC] at hc b2 g1
    rw [hIH] at i1 b3 g1
    rw [hIW] at j1 b4 g1
    have hidx := sizeT_index n MB c C h IH w IW (by exact_mod_cast hn) (by exact_mod_cast hc)
      (by exact_mod_cast i1) (by exact_mod_cast j1) (by exact_mod_cast b1)
      (by exact_mod_cast b2) (by exact_mod_cast b3) (by exact_mod_cast b4)
      (by exact_mod_cast g1)
    rw [hh, hw, hC, hIH, hIW, hidx, index4_toNat]
    by_cases hi : st.1.is_initialized = true
    · simp only [hi, not_true_eq_false, if_false, Bool.true_eq_false, false_or]
      split <;> rfl
    · have hi2 : st.1.is_initialized = false := by simpa using hi
      simp [hi2]
  · rw [if_neg hin]
    by_cases hih : (oh : Int) * pd.strh - pd.padt + kh < 0 ∨
        (oh : Int) * pd.strh - pd.padt + kh ≥ pd.ih
    · rw [if_pos hih]
    · rw [if_neg hih, if_pos (by omega)]

/-- The window loops over a list of window elements: the locals hold the maximum of the
values read, and the indices read are those of the positions inside the input. -/
theorem maxpoolWindow_fold (lowest : α) (pd : test_2dpool_desc_t) (hr : pd.InRange)
    (src : Nat → α) (n c oh ow : Nat) (hn : (n : Int) < pd.mb) (hc : (c : Int) < pd.c)
    (hoh : (oh : Int) < pd.oh) (how : (ow : Int) < pd.ow) :
    ∀ (L : List (Nat × Nat)), (∀ k ∈ L, (k.1 : Int) < pd.kh ∧ (k.2 : Int) < pd.kw) →
    ∀ (st : MaxpoolAcc α × List Nat) (vals0 : List α), st.1.Holds lowest vals0 →
      (L.foldl (fun st k => maxpoolWindowStep pd src n c oh ow st (k.1 : Int) (k.2 : Int))
        st).1.Holds lowest
        (vals0 ++ ((L.map (windowPositionOf pd oh ow)).filter fun p => pd.inside p).map
          fun p => src (srcIndex pd n c p)) ∧
      (L.foldl (fun st k => maxpoolWindowStep pd src n c oh ow st (k.1 : Int) (k.2 : Int))
        st).2 = st.2 ++ ((L.map (windowPositionOf pd oh ow)).filter fun p => pd.inside p).map
          (srcIndex pd n c) := by
  intro L
  induction L with
  | nil =>
    intro _ st vals0 h
    simpa using h
  | cons k L ih =>
    intro hL st vals0 h
    have hk := hL k (List.mem_cons_self _ _)
    have hL1 : ∀ k1 ∈ L, (k1.1 : Int) < pd.kh ∧ (k1.2 : Int) < pd.kw :=
      fun k1 h1 => hL k1 (List.mem_cons_of_mem _ h1)
    have hstep := maxpoolWindowStep_inRange pd hr src n c oh ow k.1 k.2 hn hc hoh how hk.1 hk.2
      st
    simp only [List.foldl_cons, List.map_cons]
    rw [hstep]
    by_cases hin : pd.inside (windowPositionOf pd oh ow k)
    · have hin1 := hin
      unfold test_2dpool_desc_t.inside windowPositionOf at hin1
      simp only [] at hin1
      rw [if_pos hin1, List.filter_cons_of_pos (by simpa using hin)]
      simp only [List.map_cons]
      have hd : src ((((n : Int) * pd.c + c) * pd.ih + ((oh : Int) * pd.strh - pd.padt + k.1))
          * pd.iw + ((ow : Int) * pd.strw - pd.padl + k.2)).toNat
          = src (srcIndex pd n c (windowPositionOf pd oh ow k)) := rfl
      have hi : ((((n : Int) * pd.c + c) * pd.ih + ((oh : Int) * pd.strh - pd.padt + k.1))
          * pd.iw + ((ow : Int) * pd.strw - pd.padl + k.2)).toNat
          = srcIndex pd n c (windowPositionOf pd oh ow k) := rfl
      rw [hd, hi]
      have hQ : (if st.1.is_initialized = false ∨
            st.1.acc_ref < src (srcIndex pd n c (windowPositionOf pd oh ow k)) then
            (⟨src (srcIndex pd n c (windowPositionOf pd oh ow k)),
              wrapInt32 (wrapInt32 ((k.1 : Int) * pd.kw) + k.2), true⟩ : MaxpoolAcc α)
          else st.1).Holds lowest
          (vals0 ++ [src (srcIndex pd n c (windowPositionOf pd oh ow k))]) := by
        obtain ⟨q1, q2⟩ := h
        by_cases hinit : st.1.is_initialized = false
        · rw [if_pos (Or.inl hinit)]
          obtain ⟨e1, -⟩ := q1 hinit
          subst e1
          exact ⟨fun hx => by simp at hx, fun _ => ⟨by simp, fun x hx => by
            simp at hx
            exact le_of_eq hx⟩⟩
        · have hinit1 : st.1.is_initialized = true := by simpa using hinit
          obtain ⟨m1, m2⟩ := q2 hinit1
          by_cases hlt : st.1.acc_ref < src (srcIndex pd n c (windowPositionOf pd oh ow k))
          · rw [if_pos (Or.inr hlt)]
            refine ⟨fun hx => by simp at hx, fun _ => ⟨by simp, fun x hx => ?_⟩⟩
            rcases List.mem_append.mp hx with hx | hx
            · exact le_trans (m2 x hx) (le_of_lt hlt)
            · simp at hx
              exact le_of_eq hx
          · rw [if_neg (by simp [hinit1, hlt])]
            refine ⟨fun hx => absurd hx (by simp [hinit1]), fun _ =>
              ⟨List.mem_append_left _ m1, fun x hx => ?_⟩⟩
            rcases List.mem_append.mp hx with hx | hx
            · exact m2 x hx
            · simp at hx
              rw [hx]
              exact not_lt.mp hlt
      obtain ⟨r1, r2⟩ := ih hL1
        (if st.1.is_initialized = false ∨
            st.1.acc_ref < src (srcIndex pd n c (windowPositionOf pd oh ow k)) then
            (⟨src (srcIndex pd n c (windowPositionOf pd oh ow k)),
              wrapInt32 (wrapInt32 ((k.1 : Int) * pd.kw) + k.2), true⟩ : MaxpoolAcc α)
          else st.1, st.2 ++ [srcIndex pd n c (windowPositionOf pd oh ow k)])
        (vals0 ++ [src (srcIndex pd n c (windowPositionOf pd oh ow k))]) hQ
      refine ⟨?_, ?_⟩
      · simpa [List.append_assoc] using r1
      · rw [r2]
        simp [List.append_assoc]
    · have hin1 := hin
      unfold test_2dpool_desc_t.inside windowPositionOf at hin1
      simp only [] at hin1
      rw [if_neg hin1, List.filter_cons_of_neg (by simpa using hin)]
      exact ih hL1 st vals0 h

/-- The window loops of an output position of a descriptor in range leave in `acc_ref` the
maximum of the window values, or `lowest` when there is none, and read exactly the indices of
the window positions inside the input. -/
theorem maxpoolWindow_spec (lowest : α) (pd : test_2dpool_desc_t) (hr : pd.InRange)
    (src : Nat → α) (n c oh ow : Nat) (hn : (n : Int) < pd.mb) (hc : (c : Int) < pd.c)
    (hoh : (oh : Int) < pd.oh) (how : (ow : Int) < pd.ow) :
    IsWindowMax lowest (windowValues pd src n c oh ow)
      (maxpoolWindow lowest pd src n c oh ow).1.acc_ref ∧
    (maxpoolWindow lowest pd src n c oh ow).2 =
      (windowPositions pd oh ow).map (srcIndex pd n c) := by
  have hL : ∀ k ∈ windowPairs pd, (k.1 : Int) < pd.kh ∧ (k.2 : Int) < pd.kw := by
    intro k hk
    obtain ⟨h1, h2⟩ := (mem_windowPairs pd k).mp hk
    constructor <;> omega
  obtain ⟨r1, r2⟩ := maxpoolWindow_fold lowest pd hr src n c oh ow hn hc hoh how
    (windowPairs pd) hL (⟨lowest, 0, false⟩, []) []
    ⟨fun _ => ⟨rfl, rfl⟩, fun h => by simp at h⟩
  rw [← maxpoolWindow_eq] at r1 r2
  simp only [List.nil_append] at r1 r2
  refine ⟨?_, r2⟩
  obtain ⟨q1, q2⟩ := r1
  unfold windowValues windowPositions
  cases hinit : (maxpoolWindow lowest pd src n c oh ow).1.is_initialized with
  | false =>
    obtain ⟨e1, e2⟩ := q1 hinit
    refine ⟨fun _ => e2, fun hne => absurd e1 hne, fun x hx => ?_⟩
    rw [e1] at hx
    simp at hx
  | true =>
    obtain ⟨m1, m2⟩ := q2 hinit
    exact ⟨fun he => by rw [he] at m1; simp at m1, fun _ => m1, m2⟩

/-- The body of the outer loops for a descriptor in range, at a position inside the output:
the element written is the one of the position. -/
theorem maxpoolOutputStep_inRange (lowest : α) (pd : test_2dpool_desc_t) (hr : pd.InRange)
    (src : Nat → α) (st : (Nat → α) × List Nat × List Nat) (n c oh ow : Nat)
    (hn : (n : Int) < pd.mb) (hc : (c : Int) < pd.c) (hoh : (oh : Int) < pd.oh)
    (how : (ow : Int) < pd.ow) :
    maxpoolOutputStep lowest pd src st n c oh ow =
      (Function.update st.1 (dstIndex pd n c oh ow)
          (maxpoolWindow lowest pd src n c oh ow).1.acc_ref,
        st.2.1 ++ (maxpoolWindow lowest pd src n c oh ow).2,
        st.2.2 ++ [dstIndex pd n c oh ow]) := by
  obtain ⟨⟨h1, h2, h3, h4, h5, h6⟩, -, ⟨b1, b2, b3, b4, b5, b6⟩, -, -, ⟨g1, g2⟩⟩ := hr
  obtain ⟨MB, hMB⟩ := Int.eq_ofNat_of_zero_le h1
  obtain ⟨C, hC⟩ := Int.eq_ofNat_of_zero_le h2
  obtain ⟨OH, hOH⟩ := Int.eq_ofNat_of_zero_le h5
  obtain ⟨OW, hOW⟩ := Int.eq_ofNat_of_zero_le h6
  have hidx : (toSizeT (n : Int) * toSizeT pd.c * toSizeT pd.oh * toSizeT pd.ow
      + toSizeT (c : Int) * toSizeT pd.oh * toSizeT pd.ow + toSizeT (oh : Int) * toSizeT pd.ow
      + toSizeT (ow : Int)) % 2 ^ 64 = dstIndex pd n c oh ow := by
    unfold dstIndex
    rw [hMB] at hn b1 g2
    rw [hC] at hc b2 g2
    rw [hOH] at hoh b5 g2
    rw [hOW] at how b6 g2
    rw [hC, hOH, hOW, index4_toNat]
    exact sizeT_index n MB c C oh OH ow OW (by exact_mod_cast hn) (by exact_mod_cast hc)
      (by exact_mod_cast hoh) (by exact_mod_cast how) (by exact_mod_cast b1)
      (by exact_mod_cast b2) (by exact_mod_cast b5) (by exact_mod_cast b6)
      (by exact_mod_cast g2)
  unfold maxpoolOutputStep
  simp only [hidx]

/-- A loop that stores `V p` at index `T p` for every `p` of a list: the indices read and
written, and the final content of an index whose writers all store the same value. -/
theorem updates_foldl {β γ : Type} (T : β → Nat) (V : β → γ) (R : β → List Nat) :
    ∀ (L : List β) (st : (Nat → γ) × List Nat × List Nat),
      (L.foldl (fun st p => (Function.update st.1 (T p) (V p), st.2.1 ++ R p,
        st.2.2 ++ [T p])) st).2.1 = st.2.1 ++ L.flatMap R ∧
      (L.foldl (fun st p => (Function.update st.1 (T p) (V p), st.2.1 ++ R p,
        st.2.2 ++ [T p])) st).2.2 = st.2.2 ++ L.map T ∧
      ∀ (i : Nat) (v : γ), (∀ p ∈ L, T p = i → V p = v) →
        (L.foldl (fun st p => (Function.update st.1 (T p) (V p), st.2.1 ++ R p,
          st.2.2 ++ [T p])) st).1 i = if ∃ p ∈ L, T p = i then v else st.1 i := by
  intro L
  induction L with
  | nil =>
    intro st
    simp
  | cons p L ih =>
    intro st
    simp only [List.foldl_cons]
    obtain ⟨r1, r2, r3⟩ := ih (Function.update st.1 (T p) (V p), st.2.1 ++ R p, st.2.2 ++ [T p])
    refine ⟨?_, ?_, ?_⟩
    · rw [r1]
      simp [List.append_assoc]
    · rw [r2]
      simp [List.append_assoc]
    · intro i v hv
      rw [r3 i v (fun q hq => hv q (List.mem_cons_of_mem _ hq))]
      by_cases hL : ∃ q ∈ L, T q = i
      · rw [if_pos hL, if_pos]
        obtain ⟨q, hq, hqi⟩ := hL
        exact ⟨q, List.mem_cons_of_mem _ hq, hqi⟩
      · rw [if_neg hL]
        simp only []
        by_cases hp : T p = i
        · rw [if_pos ⟨p, List.mem_cons_self _ _, hp⟩, ← hp, Function.update_same]
          exact hv p (List.mem_cons_self _ _) hp
        · rw [Function.update_noteq (fun h => hp h.symm), if_neg]
          rintro ⟨q, hq, hqi⟩
          rcases List.mem_cons.mp hq with h | h
          · exact hp (h ▸ hqi)
          · exact hL ⟨q, h, hqi⟩

/-- The index of an input element inside the input is below the number of input elements. -/
theorem srcIndex_lt (pd : test_2dpool_desc_t) (hr : pd.InRange) (n c : Nat)
    (hn : (n : Int) < pd.mb) (hc : (c : Int) < pd.c) (p : Int × Int) (hp : pd.inside p) :
    srcIndex pd n c p < (pd.mb * pd.c * pd.ih * pd.iw).toNat := by
  obtain ⟨⟨h1, h2, h3, h4, -, -⟩, -, -, -, -, -⟩ := hr
  obtain ⟨i0, i1, j0, j1⟩ := hp
  obtain ⟨MB, hMB⟩ := Int.eq_ofNat_of_zero_le h1
  obtain ⟨C, hC⟩ := Int.eq_ofNat_of_zero_le h2
  obtain ⟨IH, hIH⟩ := Int.eq_ofNat_of_zero_le h3
  obtain ⟨IW, hIW⟩ := Int.eq_ofNat_of_zero_le h4
  obtain ⟨h, hh⟩ := Int.eq_ofNat_of_zero_le i0
  obtain ⟨w, hw⟩ := Int.eq_ofNat_of_zero_le j0
  unfold srcIndex
  rw [hh] at i1
  rw [hw] at j1
  rw [hMB] at hn
  rw [hC] at hc
  rw [hIH] at i1
  rw [hIW] at j1
  rw [hh, hw, hMB, hC, hIH, hIW, index4_toNat]
  have e : ((MB : Int) * (C : Int) * (IH : Int) * (IW : Int))
      = ((MB * C * IH * IW : Nat) : Int) := by
    push_cast
    ring
  rw [e, Int.toNat_natCast]
  exact index4_lt n MB c C h IH w IW (by exact_mod_cast hn) (by exact_mod_cast hc)
    (by exact_mod_cast i1) (by exact_mod_cast j1)

/-- The index of an output element is below the number of output elements. -/
theorem dstIndex_lt (pd : test_2dpool_desc_t) (hr : pd.InRange) (n c oh ow : Nat)
    (hn : (n : Int) < pd.mb) (hc : (c : Int) < pd.c) (hoh : (oh : Int) < pd.oh)
    (how : (ow : Int) < pd.ow) :
    dstIndex pd n c oh ow < (pd.mb * pd.c * pd.oh * pd.ow).toNat := by
  obtain ⟨⟨h1, h2, -, -, h5, h6⟩, -, -, -, -, -⟩ := hr
  obtain ⟨MB, hMB⟩ := Int.eq_ofNat_of_zero_le h1
  obtain ⟨C, hC⟩ := Int.eq_ofNat_of_zero_le h2
  obtain ⟨OH, hOH⟩ := Int.eq_ofNat_of_zero_le h5
  obtain ⟨OW, hOW⟩ := Int.eq_ofNat_of_zero_le h6
  unfold dstIndex
  rw [hMB] at hn
  rw [hC] at hc
  rw [hOH] at hoh
  rw [hOW] at how
  rw [hMB, hC, hOH, hOW, index4_toNat]
  have e : ((MB : Int) * (C : Int) * (OH : Int) * (OW : Int))
      = ((MB * C * OH * OW : Nat) : Int) := by
    push_cast
    ring
  rw [e, Int.toNat_natCast]
  exact index4_lt n MB c C oh OH ow OW (by exact_mod_cast hn) (by exact_mod_cast hc)
    (by exact_mod_cast hoh) (by exact_mod_cast how)

/-- Two output positions with the same index are the same. -/
theorem dstIndex_inj (pd : test_2dpool_desc_t) (hr : pd.InRange) (n c oh ow n1 c1 oh1 ow1 : Nat)
    (hc : (c : Int) < pd.c) (hoh : (oh : Int) < pd.oh) (how : (ow : Int) < pd.ow)
    (hc1 : (c1 : Int) < pd.c) (hoh1 : (oh1 : Int) < pd.oh) (how1 : (ow1 : Int) < pd.ow)
    (he : dstIndex pd n c oh ow = dstIndex pd n1 c1 oh1 ow1) :
    n = n1 ∧ c = c1 ∧ oh = oh1 ∧ ow = ow1 := by
  obtain ⟨⟨h1, h2, -, -, h5, h6⟩, -, -, -, -, -⟩ := hr
  obtain ⟨C, hC⟩ := Int.eq_ofNat_of_zero_le h2
  obtain ⟨OH, hOH⟩ := Int.eq_ofNat_of_zero_le h5
  obtain ⟨OW, hOW⟩ := Int.eq_ofNat_of_zero_le h6
  unfold dstIndex at he
  rw [hC] at hc hc1
  rw [hOH] at hoh hoh1
  rw [hOW] at how how1
  rw [hC, hOH, hOW, index4_toNat, index4_toNat] at he
  exact index4_inj n n1 c c1 C oh oh1 OH ow ow1 OW (by exact_mod_cast hc)
    (by exact_mod_cast hc1) (by exact_mod_cast hoh) (by exact_mod_cast hoh1)
    (by exact_mod_cast how) (by exact_mod_cast how1) he

/-- The outer loops of a descriptor in range store, for every output position, the value of
its window loops at its index. -/
theorem compute_cpuref_maxpool_fwd_inRange (lowest : α) (pd : test_2dpool_desc_t)
    (hr : pd.InRange) (src dst : Nat → α) :
    compute_cpuref_maxpool_fwd lowest pd src dst =
      (outputPositions pd).foldl
        (fun st p =>
          (Function.update st.1 (dstIndex pd p.1 p.2.1 p.2.2.1 p.2.2.2)
              (maxpoolWindow lowest pd src p.1 p.2.1 p.2.2.1 p.2.2.2).1.acc_ref,
            st.2.1 ++ (maxpoolWindow lowest pd src p.1 p.2.1 p.2.2.1 p.2.2.2).2,
            st.2.2 ++ [dstIndex pd p.1 p.2.1 p.2.2.1 p.2.2.2]))
        (dst, [], []) := by
  rw [compute_cpuref_maxpool_fwd_eq]
  apply foldl_ext_mem
  intro st p hp
  obtain ⟨h1, h2, h3, h4⟩ := (mem_outputPositions pd p).mp hp
  exact maxpoolOutputStep_inRange lowest pd hr src st p.1 p.2.1 p.2.2.1 p.2.2.2 (by omega)
    (by omega) (by omega) (by omega)

/-- **C27** CPU reference max pooling is the windowed maximum: for a pooling descriptor with
non-negative sizes in the range of `int`, whose window rows and columns are computed without
`int` overflow (`OH * strh + KH <= 2^31`, `OW * strw + KW <= 2^31`) and whose arrays have
fewer than `2^64` elements, and for every output position `(n, c, oh, ow)` inside the output,
`compute_cpuref_maxpool_fwd` leaves in `dst[((n * C + c) * OH + oh) * OW + ow]` the maximum of
`src` over the window positions `(oh * strh - padt + kh, ow * strw - padl + kw)` that lie
inside the input, or the lowest value of the type when none does; every index of `src` it
reads is below `MB * C * IH * IW` and every index of `dst` it writes is below
`MB * C * OH * OW`. -/
theorem C27_cpuref_maxpool_windowed_maximum (lowest : α) (pd : test_2dpool_desc_t)
    (src dst : Nat → α) (n c oh ow : Int) (hr : pd.InRange) (hn0 : 0 ≤ n) (hn : n < pd.mb)
    (hc0 : 0 ≤ c) (hc : c < pd.c) (hoh0 : 0 ≤ oh) (hoh : oh < pd.oh) (how0 : 0 ≤ ow)
    (how : ow < pd.ow) :
    IsWindowMax lowest (windowValues pd src n c oh ow)
      ((compute_cpuref_maxpool_fwd lowest pd src dst).1 (dstIndex pd n c oh ow)) ∧
    (∀ i ∈ (compute_cpuref_maxpool_fwd lowest pd src dst).2.1,
      i < (pd.mb * pd.c * pd.ih * pd.iw).toNat) ∧
    (∀ i ∈ (compute_cpuref_maxpool_fwd lowest pd src dst).2.2,
      i < (pd.mb * pd.c * pd.oh * pd.ow).toNat) := by
  obtain ⟨n, rfl⟩ := Int.eq_ofNat_of_zero_le hn0
  obtain ⟨c, rfl⟩ := Int.eq_ofNat_of_zero_le hc0
  obtain ⟨oh, rfl⟩ := Int.eq_ofNat_of_zero_le hoh0
  obtain ⟨ow, rfl⟩ := Int.eq_ofNat_of_zero_le how0
  rw [compute_cpuref_maxpool_fwd_inRange lowest pd hr src dst]
  obtain ⟨r1, r2, r3⟩ := updates_foldl
    (fun p : Nat × Nat × Nat × Nat => dstIndex pd p.1 p.2.1 p.2.2.1 p.2.2.2)
    (fun p : Nat × Nat × Nat × Nat =>
      (maxpoolWindow lowest pd src p.1 p.2.1 p.2.2.1 p.2.2.2).1.acc_ref)
    (fun p : Nat × Nat × Nat × Nat => (maxpoolWindow lowest pd src p.1 p.2.1 p.2.2.1 p.2.2.2).2)
    (outputPositions pd) (dst, [], [])
  have hmem : (n, c, oh, ow) ∈ outputPositions pd := by
    rw [mem_outputPositions]
    simp only []
    omega
  refine ⟨?_, ?_, ?_⟩
  · have h3 := r3 (dstIndex pd n c oh ow)
      (maxpoolWindow lowest pd src n c oh ow).1.acc_ref (by
        intro p hp he
        obtain ⟨h1, h2, h3, h4⟩ := (mem_outputPositions pd p).mp hp
        obtain ⟨e1, e2, e3, e4⟩ := dstIndex_inj pd hr p.1 p.2.1 p.2.2.1 p.2.2.2 n c oh ow
          (by omega) (by omega) (by omega) hc hoh how he
        simp only [e1, e2, e3, e4])
    rw [if_pos ⟨(n, c, oh, ow), hmem, rfl⟩] at h3
    rw [h3]
    exact (maxpoolWindow_spec lowest pd hr src n c oh ow hn hc hoh how).1
  · rw [r1]
    intro i hi
    simp only [List.nil_append, List.mem_flatMap] at hi
    obtain ⟨p, hp, hip⟩ := hi
    obtain ⟨h1, h2, h3, h4⟩ := (mem_outputPositions pd p).mp hp
    rw [(maxpoolWindow_spec lowest pd hr src p.1 p.2.1 p.2.2.1 p.2.2.2 (by omega) (by omega)
      (by omega) (by omega)).2] at hip
    obtain ⟨q, hq, rfl⟩ := List.mem_map.mp hip
    unfold windowPositions at hq
    have hq2 := (List.mem_filter.mp hq).2
    exact srcIndex_lt pd hr p.1 p.2.1 (by omega) (by omega) q (by simpa using hq2)
  · rw [r2]
    intro i hi
    simp only [List.nil_append, List.mem_map] at hi
    obtain ⟨p, hp, rfl⟩ := hi
    obtain ⟨h1, h2, h3, h4⟩ := (mem_outputPositions pd p).mp hp
    exact dstIndex_lt pd hr p.1 p.2.1 p.2.2.1 p.2.2.2 (by omega) (by omega) (by omega)
      (by omega)

/-- Witness for C27: the descriptor of the test `func_check_zero_padding` on the input
`src[i] = i`; the output position `(0, 0, 1, 1)` has the window values `10, 11, 14, 15` and
receives `15` at index `3`. -/
theorem C27_cpuref_maxpool_windowed_maximum_witness :
    demoPool.InRange ∧
    windowValues demoPool (fun i => (i : Int)) 0 0 1 1 = [10, 11, 14, 15] ∧
    dstIndex demoPool 0 0 1 1 = 3 ∧
    (compute_cpuref_maxpool_fwd (-100 : Int) demoPool (fun i => (i : Int)) (fun _ => 0)).1 3
      = 15 ∧
    IsWindowMax (-100 : Int) (windowValues demoPool (fun i => (i : Int)) 0 0 1 1)
      ((compute_cpuref_maxpool_fwd (-100 : Int) demoPool (fun i => (i : Int))
        (fun _ => 0)).1 (dstIndex demoPool 0 0 1 1)) ∧
    (∀ i ∈ (compute_cpuref_maxpool_fwd (-100 : Int) demoPool (fun i => (i : Int))
      (fun _ => 0)).2.1, i < (demoPool.mb * demoPool.c * demoPool.ih * demoPool.iw).toNat) ∧
    (∀ i ∈ (compute_cpuref_maxpool_fwd (-100 : Int) demoPool (fun i => (i : Int))
      (fun _ => 0)).2.2, i < (demoPool.mb * demoPool.c * demoPool.oh * demoPool.ow).toNat) :=
  ⟨by decide, by decide, by decide, by decide,
    C27_cpuref_maxpool_windowed_maximum (-100 : Int) demoPool (fun i => (i : Int))
      (fun _ => 0) 0 0 1 1 (by decide) (by decide) (by decide) (by decide) (by decide)
      (by decide) (by decide) (by decide) (by decide)⟩

/-- Counterexample to C27 as worded: the descriptor `mb = c = ih = iw = 1`, `oh = 3`,
`ow = 1`, `kh = 3`, `kw = 1`, no padding, `strh = 2147483647`, `strw = 1` has non-negative
sizes; at the output position `(0, 0, 2, 0)` every window row `2 * 2147483647 + kh` lies
outside the one-row input, so the windowed maximum is the lowest value `-100`; the `int`
computation of the row wraps to `-2 + kh`, the row for `kh = 2` is `0`, and `dst[2]` receives
`src[0] = 5`. -/
theorem C27_counterexample :
    (0 ≤ demoPoolHugeStride.mb ∧ 0 ≤ demoPoolHugeStride.c ∧ 0 ≤ demoPoolHugeStride.ih ∧
      0 ≤ demoPoolHugeStride.iw ∧ 0 ≤ demoPoolHugeStride.oh ∧ 0 ≤ demoPoolHugeStride.ow ∧
      0 ≤ demoPoolHugeStride.kh ∧ 0 ≤ demoPoolHugeStride.kw ∧ 0 ≤ demoPoolHugeStride.padt ∧
      0 ≤ demoPoolHugeStride.padl ∧ 0 ≤ demoPoolHugeStride.strh ∧
      0 ≤ demoPoolHugeStride.strw) ∧
    ((0 : Int) ≤ 2 ∧ (2 : Int) < demoPoolHugeStride.oh) ∧
    windowPositions demoPoolHugeStride 2 0 = [] ∧
    windowValues demoPoolHugeStride (fun _ => (5 : Int)) 0 0 2 0 = [] ∧
    dstIndex demoPoolHugeStride 0 0 2 0 = 2 ∧
    (compute_cpuref_maxpool_fwd (-100 : Int) demoPoolHugeStride (fun _ => 5)
      (fun _ => 0)).1 2 = 5 ∧
    (compute_cpuref_maxpool_fwd (-100 : Int) demoPoolHugeStride (fun _ => 5)
      (fun _ => 0)).1 (dstIndex demoPoolHugeStride 0 0 2 0) ≠ -100 ∧
    ¬ IsWindowMax (-100 : Int) (windowValues demoPoolHugeStride (fun _ => (5 : Int)) 0 0 2 0)
      ((compute_cpuref_maxpool_fwd (-100 : Int) demoPoolHugeStride (fun _ => 5)
        (fun _ => 0)).1 (dstIndex demoPoolHugeStride 0 0 2 0)) ∧
    wrapInt32 (wrapInt32 (wrapInt32 (2 * demoPoolHugeStride.strh) - demoPoolHugeStride.padt)
      + 2) = 0 ∧
    ¬ demoPoolHugeStride.InRange := by
  have h1 : windowValues demoPoolHugeStride (fun _ => (5 : Int)) 0 0 2 0 = [] := by decide
  have h2 : (compute_cpuref_maxpool_fwd (-100 : Int) demoPoolHugeStride (fun _ => 5)
      (fun _ => 0)).1 (dstIndex demoPoolHugeStride 0 0 2 0) ≠ -100 := by decide
  refine ⟨by decide, by decide, by decide, h1, by decide, by decide, h2, ?_, by decide,
    by decide⟩
  intro h
  exact h2 (h.1 h1)

end MaxpoolClaims
end HipDNN
